import Mathlib

/-!
# samurai: multiresolution prediction and the D2Q9 overleaves scheme

Shallow embedding of
* `demos/FiniteVolume-MR/finest_reconstruction_2D.cpp` (`prediction_all`, the
  adaptation loops of `main`),
* `demos/FiniteVolume-MR/D2Q9_lid_driven_cavity.cpp`
  (`init_f`, `compute_prediction`, `get_adjacent_boundary_*`,
  `one_time_step_overleaves_corrected`, the adaptation loops of `main`),
* `demos/FiniteVolume/nagumo.cpp` (the right-hand side of the linear solve),
* `include/samurai/samurai_config.hpp` (`default_config`).

Floating point values are embedded as rationals (exact arithmetic); `int` and
`std::size_t` are embedded as `Int` / `Nat` with explicit wrap-around where
the source can overflow. In `compute_prediction` the `int` coordinates are read
as integers and `1 << k` as `2^k` (the level gaps `k` are at most `max_level`,
20 in `default_config`, far below the width of `int`).
-/

namespace Samurai

/-! ## Data model -/

/-- One row of the `xt::xtensor<double, 2>` of shape `{k.size(), 2}` that
`prediction_all` works on: the two components of the field at one cell. -/
abbrev Val := ℚ × ℚ

/-- The interval `[start, end)` of `interval_t` with step 1 (`end` is a keyword,
the field is called `stop`). -/
structure Interval where
  start : Int
  stop : Int
deriving DecidableEq, Repr

/-- `k.size()`. -/
def Interval.size (k : Interval) : Nat := (k.stop - k.start).toNat

/-- `k + d` and `k - d`: both bounds are moved. -/
def Interval.shift (k : Interval) (d : Int) : Interval := ⟨k.start + d, k.stop + d⟩

/-- Modelled from the spec: `k >> 1` of the interval type (its header is not part
of the sources): "remap to a common level by bit-shifting interval bounds"; the
start is shifted, and the open end is shifted so that the last cell `end - 1` is
still covered: `[start >> 1, ((end - 1) >> 1) + 1)`. -/
def Interval.shr1 (k : Interval) : Interval := ⟨k.start / 2, (k.stop - 1) / 2 + 1⟩

/-- The cells `start, start + 1, ..., end - 1` of an interval, in order. -/
def Interval.cells (k : Interval) : List Int :=
  (List.range k.size).map fun (i : Nat) => k.start + (i : Int)

/-- The tags of `mure::MeshType` used by the two demos. -/
inductive MeshType where
  | cells
  | cells_and_ghosts
  | overleaves
deriving DecidableEq, Repr

/-- The part of `mure::Mesh` the demos use: `max_level()`, `initial_mesh()` (a
set of cells of level `max_level`) and `mesh[type][level]` (a set of cells of
level `level`). Sets of cells are membership tests on `(x, y)`. -/
structure Mesh where
  max_level : Nat
  initial_mesh : Int → Int → Bool
  set : MeshType → Nat → Int → Int → Bool

/-- Modelled from the spec: `mesh.exists(type, level, k, h)` ("exists(type, level,
position) -> bool"), here on an interval: one boolean per cell of the interval. -/
def Mesh.exists_ (m : Mesh) (t : MeshType) (level : Nat) (k : Interval) (h : Int) :
    List Bool :=
  k.cells.map fun i => m.set t level i h

/-- A two-component `mure::Field`: its mesh and the stored value at
`(level, i, h)`. -/
structure Field where
  mesh : Mesh
  value : Nat → Int → Int → Val

/-- Modelled from the spec: the field access `f(level, k, h)` ("mapping from (level,
logical position) to a fixed-size vector of scalar components"), here on an
interval: the stored rows of the cells of the interval. -/
def Field.at (f : Field) (level : Nat) (k : Interval) (h : Int) : List Val :=
  k.cells.map fun i => f.value level i h

/-! ## `prediction_all` (finest_reconstruction_2D.cpp, lines 77-207) -/

/-- Lines 184-187: the expression assigned to the even fine cells. -/
def val_even (m1_delta_y : ℚ) (earth W E S N NE NW SE SW : Val) : Val :=
  earth + (1 / 8 : ℚ) • (W - E) + ((1 / 8 : ℚ) * m1_delta_y) • (S - N)
    - ((1 / 64 : ℚ) * m1_delta_y) • (NE - NW - SE + SW)

/-- Lines 191-194: the expression assigned to the odd fine cells. -/
def val_odd (m1_delta_y : ℚ) (earth W E S N NE NW SE SW : Val) : Val :=
  earth - (1 / 8 : ℚ) • (W - E) + ((1 / 8 : ℚ) * m1_delta_y) • (S - N)
    + ((1 / 64 : ℚ) * m1_delta_y) • (NE - NW - SE + SW)

/-- Line 151: `m1_delta_y = (delta_y == 0) ? 1 : -1` with
`delta_y = (h & 1) ? 1 : 0`. -/
def m1_delta_y (h : Int) : ℚ := if h % 2 ≠ 0 then -1 else 1

/-- `std::size_t` addition (64-bit wrap-around), used for `level_g + level`. -/
def size_t_add (a b : Nat) : Nat := (a + b) % 2 ^ 64

/-- `std::size_t` decrement (64-bit wrap-around), used for `level - 1`:
`0 - 1` is `2^64 - 1`. -/
def size_t_pred (a : Nat) : Nat := (a + (2 ^ 64 - 1)) % 2 ^ 64

/-- Line 145: `start_even = (k.start & 1) ? 1 : 0`. -/
def start_even (k : Interval) : Nat := if k.start % 2 ≠ 0 then 1 else 0

/-- Line 146: `start_odd = (k.start & 1) ? 0 : 1`. -/
def start_odd (k : Interval) : Nat := if k.start % 2 ≠ 0 then 0 else 1

/-- Line 147: `end_even = (k.end & 1) ? kg.size() : kg.size() - 1` (computed by
the source, used by no live line). -/
def end_even (k kg : Interval) : Nat := if k.stop % 2 ≠ 0 then kg.size else kg.size - 1

/-- Line 148: `end_odd = (k.end & 1) ? kg.size() - 1 : kg.size()`. On this path
`k` is not empty, so `kg.size() >= 1` and the unsigned subtraction does not wrap. -/
def end_odd (k kg : Interval) : Nat := if k.stop % 2 ≠ 0 then kg.size - 1 else kg.size

/-- An elementwise expression over nine tensors of the shape of `earth`. -/
def map9 (g : Val → Val → Val → Val → Val → Val → Val → Val → Val → Val)
    (earth W E S N NE NW SE SW : List Val) : List Val :=
  (List.range earth.length).map fun (j : Nat) =>
    g (earth.getD j 0) (W.getD j 0) (E.getD j 0) (S.getD j 0) (N.getD j 0)
      (NE.getD j 0) (NW.getD j 0) (SE.getD j 0) (SW.getD j 0)

/-- The assignment `xt::view(dst, xt::range(s, _, 2)) = rhs`: the rows
`s, s + 2, ...` of `dst` receive the rows of `rhs` in order; the two sides must
have the same number of rows. Rows of a tensor made by `xt::empty` are `none`
until they are written. -/
def assign_step2 (dst : List (Option Val)) (s : Nat) (rhs : List Val) :
    Option (List (Option Val)) :=
  if (dst.length + 1 - s) / 2 = rhs.length then
    some ((List.range dst.length).map fun (i : Nat) =>
      if s ≤ i ∧ (i - s) % 2 = 0 then rhs[(i - s) / 2]? else dst.getD i none)
  else none

/-- A returned tensor is meaningful when every row has been written. -/
def all_initialised : List (Option Val) → Option (List Val)
  | [] => some []
  | none :: _ => none
  | some v :: rest => (all_initialised rest).map fun vs => v :: vs

/-- Lines 196-204, after `val` has been computed: `out` takes `val` where the
mask is false (masked views) and the stored row where the mask is true (loop
over `k_mask`, `k_int = k.start + k_mask`). -/
def fill_out (f : Field) (lvl : Nat) (k : Interval) (h : Int) (mask : List Bool)
    (val : List (Option Val)) : List (Option Val) :=
  let out0 : List (Option Val) := List.replicate k.size none
  let out1 : List (Option Val) := (List.range k.size).map fun (i : Nat) =>
    if mask.getD i false then out0.getD i none else val.getD i none
  (List.range k.size).map fun (k_mask : Nat) =>
    if mask.getD k_mask false then some (f.value lvl (k.start + (k_mask : Int)) h)
    else out1.getD k_mask none

/-- Lines 145-206, after the nine recursive calls have returned: the two strided
assignments to `val` (even cells from line 184, odd cells from line 191) and
the filling of `out`. `none` when a view assignment has sides of different
shapes or when a row that was never written would be returned. -/
def assemble (f : Field) (lvl : Nat) (k : Interval) (h : Int)
    (earth W E S N NE NW SE SW : List Val) : Option (List Val) := do
  let kg := k.shr1
  let mask := f.mesh.exists_ MeshType.cells_and_ghosts lvl k h
  let val0 : List (Option Val) := List.replicate k.size none
  let val1 ← assign_step2 val0 (start_even k)
    ((map9 (val_even (m1_delta_y h)) earth W E S N NE NW SE SW).drop (start_even k))
  let val2 ← assign_step2 val1 (start_odd k)
    ((map9 (val_odd (m1_delta_y h)) earth W E S N NE NW SE SW).take (end_odd k kg))
  all_initialised (fill_out f lvl k h mask val2)

/-- The function `prediction_all(f, level_g, level, k, h)` (lines 77-207). The
argument after `level_g` bounds the depth of nested calls: the result is `none`
when it is exhausted (and when `assemble` fails). `h >> 1` is the floor
division by 2; `level_g + level` and `level - 1` are `std::size_t` operations. -/
def prediction_all (f : Field) (level_g : Nat) :
    Nat → Nat → Interval → Int → Option (List Val)
  | 0, _, _, _ => none
  | fuel + 1, level, k, h =>
    let lvl := size_t_add level_g level
    let mask := f.mesh.exists_ MeshType.cells_and_ghosts lvl k h
    if mask.all id then
      some (f.at lvl k h)
    else
      let kg := k.shr1
      let hg := h / 2
      let lm1 := size_t_pred level
      do
        let earth ← prediction_all f level_g fuel lm1 kg hg
        let W ← prediction_all f level_g fuel lm1 (kg.shift (-1)) hg
        let E ← prediction_all f level_g fuel lm1 (kg.shift 1) hg
        let S ← prediction_all f level_g fuel lm1 kg (hg - 1)
        let N ← prediction_all f level_g fuel lm1 kg (hg + 1)
        let SW ← prediction_all f level_g fuel lm1 (kg.shift (-1)) (hg - 1)
        let SE ← prediction_all f level_g fuel lm1 (kg.shift 1) (hg - 1)
        let NW ← prediction_all f level_g fuel lm1 (kg.shift (-1)) (hg + 1)
        let NE ← prediction_all f level_g fuel lm1 (kg.shift 1) (hg + 1)
        assemble f lvl k h earth W E S N NE NW SE SW

/-- The calls made by `prediction_all(f, level_g, level, k, h)` as
`(level, k, h)` triples: none when the early return of line 108 is taken,
otherwise the nine calls of lines 132-140. -/
def subcalls (f : Field) (level_g : Nat) (c : Nat × Interval × Int) :
    List (Nat × Interval × Int) :=
  let level := c.1
  let k := c.2.1
  let h := c.2.2
  if (f.mesh.exists_ MeshType.cells_and_ghosts (size_t_add level_g level) k h).all id then []
  else
    let kg := k.shr1
    let hg := h / 2
    let lm1 := size_t_pred level
    [(lm1, kg, hg), (lm1, kg.shift (-1), hg), (lm1, kg.shift 1, hg),
     (lm1, kg, hg - 1), (lm1, kg, hg + 1),
     (lm1, kg.shift (-1), hg - 1), (lm1, kg.shift 1, hg - 1),
     (lm1, kg.shift (-1), hg + 1), (lm1, kg.shift 1, hg + 1)]

/-- The call `c2` is made at nesting depth `n` below the call `c1` of
`prediction_all` (depth 0 is `c1` itself). -/
def ReachedIn (f : Field) (level_g : Nat) :
    Nat → Nat × Interval × Int → Nat × Interval × Int → Prop
  | 0, c1, c2 => c1 = c2
  | n + 1, c1, c2 => ∃ c, c ∈ subcalls f level_g c1 ∧ ReachedIn f level_g n c c2

/-- Every call with level gap 0 reached from `prediction_all(f, level_g, level, k, h)`
finds all the cells of its interval as leaves or ghosts (of level `level_g`). -/
def gap0_exists (f : Field) (level_g level : Nat) (k : Interval) (h : Int) : Prop :=
  ∀ (n : Nat) (k0 : Interval) (h0 : Int), ReachedIn f level_g n (level, k, h) (0, k0, h0) →
    (f.mesh.exists_ MeshType.cells_and_ghosts (size_t_add level_g 0) k0 h0).all id = true

/-- The row of the cell `x` in a tensor returned for the interval `k`. -/
def value_at (k : Interval) (out : List Val) (x : Int) : Option Val :=
  if k.start ≤ x then out[(x - k.start).toNat]? else none

/-- Every stored leaf or ghost value read by a call reached from
`prediction_all(f, level_g, level, k, h)` equals `c`. -/
def stored_reached_eq (f : Field) (level_g level : Nat) (k : Interval) (h : Int) (c : Val) :
    Prop :=
  ∀ (n lvl : Nat) (k0 : Interval) (h0 : Int),
    ReachedIn f level_g n (level, k, h) (lvl, k0, h0) →
    ∀ x : Int, k0.start ≤ x → x < k0.stop →
      f.mesh.set MeshType.cells_and_ghosts (size_t_add level_g lvl) x h0 = true →
      f.value (size_t_add level_g lvl) x h0 = c

/-- The value predicted for the cell `(x, y)` by the call
`prediction_all(f, level_g, level, kg, y)` on an interval `kg`. -/
def coarse_value (f : Field) (level_g fuel level : Nat) (kg : Interval) (x y : Int) :
    Option Val :=
  (prediction_all f level_g fuel level kg y).bind fun r => value_at kg r x

/-- The index, inside the parent interval `k >> 1`, of the parent `(k.start + i) >> 1`
of the `i`-th cell of `k`. -/
def parent_index (k : Interval) (i : Nat) : Nat :=
  ((k.start + (i : Int)) / 2 - k.start / 2).toNat

/-- A mesh for concrete checks: every cell of level 0 is stored, and at level 1
only the cells of column 0 are. -/
def sample_mesh : Mesh :=
  ⟨1, fun _ _ => true, fun _ l x _ => l == 0 || (l == 1 && x == 0)⟩

/-- A field on `sample_mesh` storing `(x, y)` at the cell `(x, y)` of level 0 and
`(7, 9)` at the cells of other levels. -/
def sample_field : Field :=
  ⟨sample_mesh, fun l x y => if l = 0 then ((x : ℚ), (y : ℚ)) else (7, 9)⟩

/-- The uniform field of value `1.0` on `sample_mesh`. -/
def uniform_field : Field := ⟨sample_mesh, fun _ _ _ => (1, 1)⟩

/-! ## D2Q9_lid_driven_cavity.cpp: constants and helpers -/

/-- Line 18: `const double lambda = 1.` (lattice velocity). -/
def lambda : ℚ := 1

/-- Line 19: `const double rho0 = 1.` (reference density). -/
def rho0 : ℚ := 1

/-- Line 20: `const double u0 = 0.05` (reference x-velocity). -/
def u0 : ℚ := 5 / 100

/-- Line 21: `const double mu = 5.e-6` (bulk viscosity). -/
def mu : ℚ := 5 / 1000000

/-- Line 22: `const double zeta = 100. * mu` (shear viscosity). -/
def zeta : ℚ := 100 * mu

/-- A field with `nvel = 9` components: `f(v, level, k, h)`. -/
abbrev DistField := Nat → Nat → Int → Int → ℚ

/-- `1 << n` on the 32-bit `int` literal `1`: `2^n` for `n < 31`, the sign bit for
`n = 31`, and undefined (`none`) when the shift count reaches the width 32. -/
def int_shl1 (n : Nat) : Option Int :=
  if n < 31 then some (2 ^ n) else if n = 31 then some (-(2 ^ 31)) else none

/-- `std::size_t` subtraction (64-bit wrap-around) of two values below `2^64`. -/
def size_t_sub (a b : Nat) : Nat := (a + 2 ^ 64 - b) % 2 ^ 64

/-- `std::size_t` multiplication (64-bit wrap-around). -/
def size_t_mul (a b : Nat) : Nat := (a * b) % 2 ^ 64

/-- Unary minus on a `std::size_t`. -/
def size_t_neg (a : Nat) : Nat := (2 ^ 64 - a % 2 ^ 64) % 2 ^ 64

/-- Conversion of an `int` to `std::size_t`. -/
def size_t_of_int (z : Int) : Nat := (z % 2 ^ 64).toNat

/-- Conversion of a `std::size_t` to the 32-bit coordinate type `int`
(two's complement truncation). -/
def int_of_size_t (n : Nat) : Int :=
  if n % 2 ^ 32 < 2 ^ 31 then ((n % 2 ^ 32 : Nat) : Int) else ((n % 2 ^ 32 : Nat) : Int) - 2 ^ 32

/-- `coeff * v` for a `std::size_t` `coeff` and a fixed tensor `v` of two `int`:
the product is taken in `std::size_t`, the result is read as a translation
vector of `int` coordinates. -/
def size_t_scale (coeff : Nat) (v : Int × Int) : Int × Int :=
  (int_of_size_t (size_t_mul coeff (size_t_of_int v.1)),
   int_of_size_t (size_t_mul coeff (size_t_of_int v.2)))

/-! ## Sets of cells -/

/-- A set of cells, as a membership test on the coordinates of the finest level
(the level of `initial_mesh()`). -/
abbrev CellSet := Int → Int → Bool

/-- Modelled from the spec: `translate(A, t)` of the set algebra (not part of the
sources), read as the plain set operation: the cells of `A` moved by `t`. -/
def translate (A : CellSet) (t : Int × Int) : CellSet := fun x y => A (x - t.1) (y - t.2)

/-- Modelled from the spec: `difference(A, B)` of the set algebra, read as the
plain set operation. -/
def difference (A B : CellSet) : CellSet := fun x y => A x y && !B x y

/-- Modelled from the spec: `intersection(A, B)` of the set algebra, read as the
plain set operation. -/
def intersection (A B : CellSet) : CellSet := fun x y => A x y && B x y

/-- Modelled from the spec: `union_(A, B)` of the set algebra, read as the plain
set operation. -/
def union_ (A B : CellSet) : CellSet := fun x y => A x y || B x y

/-- Modelled from the spec: `mesh[type][level]` inside an expression of the
finest level, remapped "by bit-shifting": the finest cell `(x, y)` belongs to it
when its ancestor of level `level` does. -/
def Mesh.at_finest (m : Mesh) (t : MeshType) (level : Nat) : CellSet := fun x y =>
  m.set t level (x / 2 ^ (m.max_level - level)) (y / 2 ^ (m.max_level - level))

/-- The square `[0, N) x [0, N)` of finest cells. -/
def square (N : Int) : CellSet := fun x y => decide (0 ≤ x ∧ x < N ∧ 0 ≤ y ∧ y < N)

/-- The tensor `xp{1, 0}`. -/
def xp : Int × Int := (1, 0)

/-- The tensor `yp{0, 1}`. -/
def yp : Int × Int := (0, 1)

/-- The tensor `d11{1, 1}`. -/
def d11 : Int × Int := (1, 1)

/-- The tensor `d1m1{1, -1}`. -/
def d1m1 : Int × Int := (1, -1)

/-! ## `get_adjacent_boundary_*` (lines 249-356) -/

/-- `std::size_t coeff = 1 << (mesh.max_level() - level)`. -/
def boundary_coeff (m : Mesh) (level : Nat) : Option Nat :=
  (int_shl1 (size_t_sub m.max_level level)).map size_t_of_int

/-- The set expression of `get_adjacent_boundary_east` (lines 257-260) for a given
`coeff`, initial mesh `D` and `M = mesh[type][level]`. -/
def east_expr (coeff : Nat) (D M : CellSet) : CellSet :=
  intersection
    (difference
      (difference
        (difference D (translate D (size_t_scale (size_t_neg coeff) xp)))
        (difference D (translate D (size_t_scale (size_t_neg coeff) yp))))
      (difference D (translate D (size_t_scale coeff yp))))
    M

/-- The set expression of `get_adjacent_boundary_north` (lines 270-273). -/
def north_expr (coeff : Nat) (D M : CellSet) : CellSet :=
  intersection
    (difference
      (difference
        (difference D (translate D (size_t_scale (size_t_neg coeff) yp)))
        (difference D (translate D (size_t_scale (size_t_neg coeff) xp))))
      (difference D (translate D (size_t_scale coeff xp))))
    M

/-- The set expression of `get_adjacent_boundary_west` (lines 283-286). -/
def west_expr (coeff : Nat) (D M : CellSet) : CellSet :=
  intersection
    (difference
      (difference
        (difference D (translate D (size_t_scale coeff xp)))
        (difference D (translate D (size_t_scale (size_t_neg coeff) yp))))
      (difference D (translate D (size_t_scale coeff yp))))
    M

/-- The set expression of `get_adjacent_boundary_south` (lines 296-299). -/
def south_expr (coeff : Nat) (D M : CellSet) : CellSet :=
  intersection
    (difference
      (difference
        (difference D (translate D (size_t_scale coeff yp)))
        (difference D (translate D (size_t_scale (size_t_neg coeff) xp))))
      (difference D (translate D (size_t_scale coeff xp))))
    M

/-- The set expression of `get_adjacent_boundary_northeast` (lines 310-313). -/
def northeast_expr (coeff : Nat) (D M : CellSet) : CellSet :=
  intersection
    (difference
      (difference
        (difference D (translate D (size_t_scale (size_t_neg coeff) d11)))
        (translate D (size_t_scale (size_t_neg coeff) yp)))
      (translate D (size_t_scale (size_t_neg coeff) xp)))
    M

/-- The set expression of `get_adjacent_boundary_northwest` (lines 324-327). -/
def northwest_expr (coeff : Nat) (D M : CellSet) : CellSet :=
  intersection
    (difference
      (difference
        (difference D (translate D (size_t_scale coeff d1m1)))
        (translate D (size_t_scale (size_t_neg coeff) yp)))
      (translate D (size_t_scale coeff xp)))
    M

/-- The set expression of `get_adjacent_boundary_southwest` (lines 338-341). -/
def southwest_expr (coeff : Nat) (D M : CellSet) : CellSet :=
  intersection
    (difference
      (difference
        (difference D (translate D (size_t_scale coeff d11)))
        (translate D (size_t_scale coeff yp)))
      (translate D (size_t_scale coeff xp)))
    M

/-- The set expression of `get_adjacent_boundary_southeast` (lines 352-355). -/
def southeast_expr (coeff : Nat) (D M : CellSet) : CellSet :=
  intersection
    (difference
      (difference
        (difference D (translate D (size_t_scale (size_t_neg coeff) d1m1)))
        (translate D (size_t_scale coeff yp)))
      (translate D (size_t_scale (size_t_neg coeff) xp)))
    M

/-- The function `get_adjacent_boundary_east(mesh, level, type)`. -/
def get_adjacent_boundary_east (m : Mesh) (level : Nat) (t : MeshType) : Option CellSet :=
  (boundary_coeff m level).map fun coeff => east_expr coeff m.initial_mesh (m.at_finest t level)

/-- The function `get_adjacent_boundary_north(mesh, level, type)`. -/
def get_adjacent_boundary_north (m : Mesh) (level : Nat) (t : MeshType) : Option CellSet :=
  (boundary_coeff m level).map fun coeff => north_expr coeff m.initial_mesh (m.at_finest t level)

/-- The function `get_adjacent_boundary_west(mesh, level, type)`. -/
def get_adjacent_boundary_west (m : Mesh) (level : Nat) (t : MeshType) : Option CellSet :=
  (boundary_coeff m level).map fun coeff => west_expr coeff m.initial_mesh (m.at_finest t level)

/-- The function `get_adjacent_boundary_south(mesh, level, type)`. -/
def get_adjacent_boundary_south (m : Mesh) (level : Nat) (t : MeshType) : Option CellSet :=
  (boundary_coeff m level).map fun coeff => south_expr coeff m.initial_mesh (m.at_finest t level)

/-- The function `get_adjacent_boundary_northeast(mesh, level, type)`. -/
def get_adjacent_boundary_northeast (m : Mesh) (level : Nat) (t : MeshType) :
    Option CellSet :=
  (boundary_coeff m level).map fun coeff =>
    northeast_expr coeff m.initial_mesh (m.at_finest t level)

/-- The function `get_adjacent_boundary_northwest(mesh, level, type)`. -/
def get_adjacent_boundary_northwest (m : Mesh) (level : Nat) (t : MeshType) :
    Option CellSet :=
  (boundary_coeff m level).map fun coeff =>
    northwest_expr coeff m.initial_mesh (m.at_finest t level)

/-- The function `get_adjacent_boundary_southwest(mesh, level, type)`. -/
def get_adjacent_boundary_southwest (m : Mesh) (level : Nat) (t : MeshType) :
    Option CellSet :=
  (boundary_coeff m level).map fun coeff =>
    southwest_expr coeff m.initial_mesh (m.at_finest t level)

/-- The function `get_adjacent_boundary_southeast(mesh, level, type)`. -/
def get_adjacent_boundary_southeast (m : Mesh) (level : Nat) (t : MeshType) :
    Option CellSet :=
  (boundary_coeff m level).map fun coeff =>
    southeast_expr coeff m.initial_mesh (m.at_finest t level)

/-! ## `one_time_step_overleaves_corrected`: transport at `max_level` (lines 397-627) -/

/-- Lines 76-84, 459-467, 699-707 and 1290-1298 (four identical copies): the
distributions `0..8` from the moments `m0..m8`. -/
def distributions (r1 r2 r3 r4 m0 m1 m2 m3 m4 m5 m6 m7 m8 : ℚ) : Nat → ℚ
  | 0 => m0 - r2 * m3 + r4 * m6
  | 1 => 0.5 * r1 * m1 + 0.25 * r2 * m3 - 0.5 * r3 * m4 - 0.5 * r4 * m6 + 0.25 * r2 * m7
  | 2 => 0.5 * r1 * m2 + 0.25 * r2 * m3 - 0.5 * r3 * m5 - 0.5 * r4 * m6 - 0.25 * r2 * m7
  | 3 => -0.5 * r1 * m1 + 0.25 * r2 * m3 + 0.5 * r3 * m4 - 0.5 * r4 * m6 + 0.25 * r2 * m7
  | 4 => -0.5 * r1 * m2 + 0.25 * r2 * m3 + 0.5 * r3 * m5 - 0.5 * r4 * m6 - 0.25 * r2 * m7
  | 5 => 0.25 * r3 * m4 + 0.25 * r3 * m5 + 0.25 * r4 * m6 + 0.25 * r2 * m8
  | 6 => -0.25 * r3 * m4 + 0.25 * r3 * m5 + 0.25 * r4 * m6 - 0.25 * r2 * m8
  | 7 => -0.25 * r3 * m4 - 0.25 * r3 * m5 + 0.25 * r4 * m6 + 0.25 * r2 * m8
  | 8 => 0.25 * r3 * m4 - 0.25 * r3 * m5 + 0.25 * r4 * m6 - 0.25 * r2 * m8
  | _ => 0

/-- Lines 46-84 (`init_f`) and 432-467 (North): the distributions of the
equilibrium of density `rho` and momentum `(qx, qy)` (Geier moments). -/
def equilibrium (rho qx qy : ℚ) : Nat → ℚ :=
  let r1 := 1 / lambda
  let r2 := 1 / (lambda * lambda)
  let r3 := 1 / (lambda * lambda * lambda)
  let r4 := 1 / (lambda * lambda * lambda * lambda)
  let cs2 := (lambda * lambda) / 3
  let m0 := rho
  let m1 := qx
  let m2 := qy
  let m3 := (qx * qx + qy * qy) / rho + 2 * rho * cs2
  let m4 := qx * (cs2 + (qy / rho) * (qy / rho))
  let m5 := qy * (cs2 + (qx / rho) * (qx / rho))
  let m6 := rho * (cs2 + (qx / rho) * (qx / rho)) * (cs2 + (qy / rho) * (qy / rho))
  let m7 := (qx * qx - qy * qy) / rho
  let m8 := qx * qy / rho
  distributions r1 r2 r3 r4 m0 m1 m2 m3 m4 m5 m6 m7 m8

/-- The right-hand side of one assignment to `advected`: a component of `f` at
the cell moved by `(dk, dh)`, or a value that does not depend on `f`. -/
inductive Rhs where
  | copy (src : Nat) (dk dh : Int)
  | const (q : ℚ)

/-- One assignment `advected(dst, level, k, h) = rhs`. -/
structure Assign where
  dst : Nat
  rhs : Rhs

/-- The value of a right-hand side at the cell `(k, h)` of level `level`. -/
def Rhs.eval (f : DistField) (level : Nat) (k h : Int) : Rhs → ℚ
  | Rhs.copy src dk dh => f src level (k + dk) (h + dh)
  | Rhs.const q => q

/-- The assignments of a lambda body, run in order on the nine components of
`advected` at one cell. -/
def run_assigns (f : DistField) (level : Nat) (k h : Int) (body : List Assign)
    (adv : Nat → ℚ) : Nat → ℚ :=
  body.foldl (fun a s => Function.update a s.dst (s.rhs.eval f level k h)) adv

/-- Lines 410-419: the body of the East lambda. -/
def east_body : List Assign :=
  [⟨3, Rhs.copy 1 0 0⟩, ⟨6, Rhs.copy 8 0 0⟩, ⟨7, Rhs.copy 5 0 0⟩,
   ⟨0, Rhs.copy 0 0 0⟩, ⟨1, Rhs.copy 1 (-1) 0⟩, ⟨2, Rhs.copy 2 0 (-1)⟩,
   ⟨4, Rhs.copy 4 0 1⟩, ⟨5, Rhs.copy 5 (-1) (-1)⟩, ⟨8, Rhs.copy 8 (-1) 1⟩]

/-- Lines 432-467: the body of the North lambda (equilibrium of the lid,
`rho = rho0`, `qx = rho0 * u0`, `qy = 0`). -/
def north_body : List Assign :=
  [⟨0, Rhs.const (equilibrium rho0 (rho0 * u0) 0 0)⟩,
   ⟨1, Rhs.const (equilibrium rho0 (rho0 * u0) 0 1)⟩,
   ⟨2, Rhs.const (equilibrium rho0 (rho0 * u0) 0 2)⟩,
   ⟨3, Rhs.const (equilibrium rho0 (rho0 * u0) 0 3)⟩,
   ⟨4, Rhs.const (equilibrium rho0 (rho0 * u0) 0 4)⟩,
   ⟨5, Rhs.const (equilibrium rho0 (rho0 * u0) 0 5)⟩,
   ⟨6, Rhs.const (equilibrium rho0 (rho0 * u0) 0 6)⟩,
   ⟨7, Rhs.const (equilibrium rho0 (rho0 * u0) 0 7)⟩,
   ⟨8, Rhs.const (equilibrium rho0 (rho0 * u0) 0 8)⟩]

/-- Lines 483-494: the body of the NorthEast lambda (the `rho` of lines 480-481
is not used). -/
def northeast_body : List Assign :=
  [⟨4, Rhs.copy 2 0 0⟩, ⟨7, Rhs.copy 5 0 0⟩, ⟨8, Rhs.copy 6 0 0⟩,
   ⟨3, Rhs.copy 3 0 0⟩, ⟨6, Rhs.copy 6 0 0⟩,
   ⟨0, Rhs.copy 0 0 0⟩, ⟨1, Rhs.copy 1 (-1) 0⟩, ⟨2, Rhs.copy 2 0 (-1)⟩,
   ⟨5, Rhs.copy 5 (-1) (-1)⟩]

/-- Lines 505-515: the body of the West lambda. -/
def west_body : List Assign :=
  [⟨1, Rhs.copy 3 0 0⟩, ⟨5, Rhs.copy 7 0 0⟩, ⟨8, Rhs.copy 6 0 0⟩,
   ⟨0, Rhs.copy 0 0 0⟩, ⟨2, Rhs.copy 2 0 (-1)⟩, ⟨3, Rhs.copy 3 1 0⟩,
   ⟨4, Rhs.copy 4 0 1⟩, ⟨6, Rhs.copy 6 1 (-1)⟩, ⟨7, Rhs.copy 7 1 1⟩]

/-- Lines 530-540: the body of the NorthWest lambda (the `rho` of lines 527-528
is not used). -/
def northwest_body : List Assign :=
  [⟨1, Rhs.copy 3 0 0⟩, ⟨4, Rhs.copy 2 0 0⟩, ⟨5, Rhs.copy 7 0 0⟩,
   ⟨7, Rhs.copy 5 0 0⟩, ⟨8, Rhs.copy 6 0 0⟩,
   ⟨0, Rhs.copy 0 0 0⟩, ⟨2, Rhs.copy 2 0 (-1)⟩, ⟨3, Rhs.copy 3 1 0⟩,
   ⟨6, Rhs.copy 6 1 (-1)⟩]

/-- Lines 550-560: the body of the South lambda. -/
def south_body : List Assign :=
  [⟨2, Rhs.copy 4 0 0⟩, ⟨5, Rhs.copy 7 0 0⟩, ⟨6, Rhs.copy 8 0 0⟩,
   ⟨0, Rhs.copy 0 0 0⟩, ⟨1, Rhs.copy 1 (-1) 0⟩, ⟨3, Rhs.copy 3 1 0⟩,
   ⟨4, Rhs.copy 4 0 1⟩, ⟨7, Rhs.copy 7 1 1⟩, ⟨8, Rhs.copy 8 (-1) 1⟩]

/-- Lines 572-582: the body of the SouthWest lambda. -/
def southwest_body : List Assign :=
  [⟨2, Rhs.copy 4 0 0⟩, ⟨5, Rhs.copy 7 0 0⟩, ⟨6, Rhs.copy 8 0 0⟩,
   ⟨1, Rhs.copy 3 0 0⟩, ⟨8, Rhs.copy 6 0 0⟩,
   ⟨0, Rhs.copy 0 0 0⟩, ⟨3, Rhs.copy 3 1 0⟩, ⟨4, Rhs.copy 4 0 1⟩,
   ⟨7, Rhs.copy 7 1 1⟩]

/-- Lines 592-602: the body of the SouthEast lambda. -/
def southeast_body : List Assign :=
  [⟨2, Rhs.copy 4 0 0⟩, ⟨5, Rhs.copy 7 0 0⟩, ⟨6, Rhs.copy 8 0 0⟩,
   ⟨3, Rhs.copy 1 0 0⟩, ⟨7, Rhs.copy 5 0 0⟩,
   ⟨0, Rhs.copy 0 0 0⟩, ⟨1, Rhs.copy 1 (-1) 0⟩, ⟨4, Rhs.copy 4 0 1⟩,
   ⟨8, Rhs.copy 8 (-1) 1⟩]

/-- Lines 618-626: the body of the lambda run far from the boundary. -/
def internal_body : List Assign :=
  [⟨0, Rhs.copy 0 0 0⟩, ⟨1, Rhs.copy 1 (-1) 0⟩, ⟨2, Rhs.copy 2 0 (-1)⟩,
   ⟨3, Rhs.copy 3 1 0⟩, ⟨4, Rhs.copy 4 0 1⟩, ⟨5, Rhs.copy 5 (-1) (-1)⟩,
   ⟨6, Rhs.copy 6 1 (-1)⟩, ⟨7, Rhs.copy 7 1 1⟩, ⟨8, Rhs.copy 8 (-1) 1⟩]

/-- The regions of the transport at `max_level`, in the order of the source:
`leaves_east`, `leaves_north`, `leaves_northeast`, `leaves_west`,
`leaves_northwest`, `leaves_south`, `leaves_southwest`, `leaves_southeast`
(lines 404-587) and `internal_leaves` (lines 607-611). -/
structure FinestRegions where
  east : CellSet
  north : CellSet
  northeast : CellSet
  west : CellSet
  northwest : CellSet
  south : CellSet
  southwest : CellSet
  southeast : CellSet
  internal : CellSet

/-- Lines 404-611: the nine regions of the leaves of `max_level`. -/
def finest_regions (m : Mesh) : Option FinestRegions := do
  let max_level := m.max_level
  let leaves_east ← get_adjacent_boundary_east m max_level MeshType.cells
  let leaves_north ← get_adjacent_boundary_north m max_level MeshType.cells
  let leaves_northeast ← get_adjacent_boundary_northeast m max_level MeshType.cells
  let leaves_west ← get_adjacent_boundary_west m max_level MeshType.cells
  let leaves_northwest ← get_adjacent_boundary_northwest m max_level MeshType.cells
  let leaves_south ← get_adjacent_boundary_south m max_level MeshType.cells
  let leaves_southwest ← get_adjacent_boundary_southwest m max_level MeshType.cells
  let leaves_southeast ← get_adjacent_boundary_southeast m max_level MeshType.cells
  let tmp1 := union_ (union_ (union_ leaves_east leaves_north) leaves_west) leaves_south
  let tmp2 := union_ (union_ (union_ leaves_northeast leaves_northwest) leaves_southwest)
    leaves_southeast
  let all_leaves_boundary := union_ tmp1 tmp2
  let internal_leaves := difference (m.at_finest MeshType.cells max_level) all_leaves_boundary
  some ⟨leaves_east, leaves_north, leaves_northeast, leaves_west, leaves_northwest,
    leaves_south, leaves_southwest, leaves_southeast, internal_leaves⟩

/-- The nine regions as a list, in the order of the source. -/
def FinestRegions.toList (r : FinestRegions) : List CellSet :=
  [r.east, r.north, r.northeast, r.west, r.northwest, r.south, r.southwest, r.southeast,
   r.internal]

/-- The eight boundary regions as a list, in the order of the source. -/
def FinestRegions.boundary (r : FinestRegions) : List CellSet :=
  [r.east, r.north, r.northeast, r.west, r.northwest, r.south, r.southwest, r.southeast]

/-- A lambda run on the cells of a region: at the cell `(k, h)` the body is run
when the cell belongs to the region. -/
def on_region (f : DistField) (level : Nat) (k h : Int) (region : CellSet)
    (body : List Assign) (adv : Nat → ℚ) : Nat → ℚ :=
  if region k h then run_assigns f level k h body adv else adv

/-- Lines 391-627 at `level == max_level`: the nine components of `advected` at
the cell `(k, h)` after the transport, from the zero-filled buffer. -/
def advect_finest (m : Mesh) (f : DistField) (k h : Int) : Option (Nat → ℚ) := do
  let r ← finest_regions m
  let level := m.max_level
  let adv : Nat → ℚ := fun _ => 0
  let adv := on_region f level k h r.east east_body adv
  let adv := on_region f level k h r.north north_body adv
  let adv := on_region f level k h r.northeast northeast_body adv
  let adv := on_region f level k h r.west west_body adv
  let adv := on_region f level k h r.northwest northwest_body adv
  let adv := on_region f level k h r.south south_body adv
  let adv := on_region f level k h r.southwest southwest_body adv
  let adv := on_region f level k h r.southeast southeast_body adv
  let adv := on_region f level k h r.internal internal_body adv
  some adv

/-- The transport at one cell of `max_level` from the membership of the cell in
the nine regions (the chain of `on_region` steps of `advect_finest`). -/
def advect_cell (f : DistField) (level : Nat) (k h : Int)
    (e n ne w nw s sw se i : Bool) : Nat → ℚ :=
  let adv : Nat → ℚ := fun _ => 0
  let adv := if e then run_assigns f level k h east_body adv else adv
  let adv := if n then run_assigns f level k h north_body adv else adv
  let adv := if ne then run_assigns f level k h northeast_body adv else adv
  let adv := if w then run_assigns f level k h west_body adv else adv
  let adv := if nw then run_assigns f level k h northwest_body adv else adv
  let adv := if s then run_assigns f level k h south_body adv else adv
  let adv := if sw then run_assigns f level k h southwest_body adv else adv
  let adv := if se then run_assigns f level k h southeast_body adv else adv
  let adv := if i then run_assigns f level k h internal_body adv else adv
  adv

/-- A mesh of `8 x 8` finest cells (`max_level = 3`) whose sets of level 2 are the
full `4 x 4` grid. -/
def cavity8 : Mesh := ⟨3, square 8, fun _ l x y => l == 2 && square 4 x y⟩

/-- Two sets of cells have no cell in common. -/
def CellSet.disjoint (A B : CellSet) : Prop := ∀ x y : Int, ¬ (A x y = true ∧ B x y = true)

/-- The lattice velocity `c_v` of the direction `v` (`v = 1..8`, and `(0, 0)` for
the rest component). -/
def lattice_velocity : Nat → Int × Int
  | 1 => (1, 0)
  | 2 => (0, 1)
  | 3 => (-1, 0)
  | 4 => (0, -1)
  | 5 => (1, 1)
  | 6 => (-1, 1)
  | 7 => (-1, -1)
  | 8 => (1, -1)
  | _ => (0, 0)

/-- The opposite direction: `1 <-> 3`, `2 <-> 4`, `5 <-> 7`, `6 <-> 8`. -/
def opp : Nat → Nat
  | 1 => 3
  | 2 => 4
  | 3 => 1
  | 4 => 2
  | 5 => 7
  | 6 => 8
  | 7 => 5
  | 8 => 6
  | v => v

/-- The transported value the bounce-back rule prescribes for direction `v` at
the cell `(k, h)` of a domain `[0, N) x [0, N)`: the upstream value
`f(v, x - c_v)` when the upstream cell is inside the domain, `f(opp v, x)`
otherwise. -/
def bounce_back (f : DistField) (level : Nat) (N : Int) (v : Nat) (k h : Int) : ℚ :=
  if square N (k - (lattice_velocity v).1) (h - (lattice_velocity v).2) then
    f v level (k - (lattice_velocity v).1) (h - (lattice_velocity v).2)
  else f (opp v) level k h

/-! ## `one_time_step_overleaves_corrected`: below `max_level` -/

/-- Lines 756-757: `j = max_level - (level + 1)`,
`coeff = 1. / (1 << (2 * j))`; the shift is done on the `int` literal `1`. -/
def flux_coeff (max_level level : Nat) : Option ℚ :=
  let j := size_t_sub max_level (size_t_add level 1)
  (int_shl1 (size_t_mul 2 j)).map fun (s : Int) => 1 / (s : ℚ)

/-- Line 1200: `f0`. -/
def coarse_f0 (f : DistField) (level : Nat) (k h : Int) : ℚ := f 0 level k h

/-- Lines 1202-1205: `f1`. -/
def coarse_f1 (f fluxes : DistField) (level : Nat) (k h : Int) : ℚ :=
  f 1 level k h + 0.25 * (fluxes 1 (level + 1) (2 * k) (2 * h)
    + fluxes 1 (level + 1) (2 * k + 1) (2 * h)
    + fluxes 1 (level + 1) (2 * k) (2 * h + 1)
    + fluxes 1 (level + 1) (2 * k + 1) (2 * h + 1))

/-- Lines 1207-1210: `f2`. -/
def coarse_f2 (f fluxes : DistField) (level : Nat) (k h : Int) : ℚ :=
  f 2 level k h + 0.25 * (fluxes 2 (level + 1) (2 * k) (2 * h)
    + fluxes 2 (level + 1) (2 * k + 1) (2 * h)
    + fluxes 2 (level + 1) (2 * k) (2 * h + 1)
    + fluxes 2 (level + 1) (2 * k + 1) (2 * h + 1))

/-- Lines 1212-1215: `f3`. -/
def coarse_f3 (f fluxes : DistField) (level : Nat) (k h : Int) : ℚ :=
  f 3 level k h + 0.25 * (fluxes 3 (level + 1) (2 * k) (2 * h)
    + fluxes 3 (level + 1) (2 * k + 1) (2 * h)
    + fluxes 3 (level + 1) (2 * k) (2 * h + 1)
    + fluxes 3 (level + 1) (2 * k + 1) (2 * h + 1))

/-- Lines 1217-1220: `f4`. -/
def coarse_f4 (f fluxes : DistField) (level : Nat) (k h : Int) : ℚ :=
  f 4 level k h + 0.25 * (fluxes 4 (level + 1) (2 * k) (2 * h)
    + fluxes 4 (level + 1) (2 * k + 1) (2 * h)
    + fluxes 4 (level + 1) (2 * k) (2 * h + 1)
    + fluxes 4 (level + 1) (2 * k + 1) (2 * h + 1))

/-- Lines 1222-1225: `f5`. -/
def coarse_f5 (f fluxes : DistField) (level : Nat) (k h : Int) : ℚ :=
  f 5 level k h + 0.25 * (fluxes 5 (level + 1) (2 * k) (2 * h)
    + fluxes 5 (level + 1) (2 * k + 1) (2 * h)
    + fluxes 5 (level + 1) (2 * k) (2 * h + 1)
    + fluxes 5 (level + 1) (2 * k + 1) (2 * h + 1))

/-- Lines 1227-1230: `f6`. -/
def coarse_f6 (f fluxes : DistField) (level : Nat) (k h : Int) : ℚ :=
  f 6 level k h + 0.25 * (fluxes 6 (level + 1) (2 * k) (2 * h)
    + fluxes 6 (level + 1) (2 * k + 1) (2 * h)
    + fluxes 6 (level + 1) (2 * k) (2 * h + 1)
    + fluxes 6 (level + 1) (2 * k + 1) (2 * h + 1))

/-- Lines 1232-1235: `f7`. -/
def coarse_f7 (f fluxes : DistField) (level : Nat) (k h : Int) : ℚ :=
  f 7 level k h + 0.25 * (fluxes 7 (level + 1) (2 * k) (2 * h)
    + fluxes 7 (level + 1) (2 * k + 1) (2 * h)
    + fluxes 7 (level + 1) (2 * k) (2 * h + 1)
    + fluxes 7 (level + 1) (2 * k + 1) (2 * h + 1))

/-- Lines 1237-1240: `f8`. -/
def coarse_f8 (f fluxes : DistField) (level : Nat) (k h : Int) : ℚ :=
  f 8 level k h + 0.25 * (fluxes 8 (level + 1) (2 * k) (2 * h)
    + fluxes 8 (level + 1) (2 * k + 1) (2 * h)
    + fluxes 8 (level + 1) (2 * k) (2 * h + 1)
    + fluxes 8 (level + 1) (2 * k + 1) (2 * h + 1))

/-- Lines 1242-1245: `f9`, read from the component 9 of `f` and `fluxes`; no
later line uses it. -/
def coarse_f9 (f fluxes : DistField) (level : Nat) (k h : Int) : ℚ :=
  f 9 level k h + 0.25 * (fluxes 9 (level + 1) (2 * k) (2 * h)
    + fluxes 9 (level + 1) (2 * k + 1) (2 * h)
    + fluxes 9 (level + 1) (2 * k) (2 * h + 1)
    + fluxes 9 (level + 1) (2 * k + 1) (2 * h + 1))

/-- Lines 652-707 and 1250-1298 (two identical copies): the relaxation of the
transported values `f0..f8` with the rates `s_1`, `s_2`, back to distributions. -/
def relaxation (s_1 s_2 f0 f1 f2 f3 f4 f5 f6 f7 f8 : ℚ) : Nat → ℚ :=
  let l1 := lambda
  let l2 := l1 * lambda
  let l3 := l2 * lambda
  let l4 := l3 * lambda
  let m0 := f0 + f1 + f2 + f3 + f4 + f5 + f6 + f7 + f8
  let m1 := l1 * (f1 - f3 + f5 - f6 - f7 + f8)
  let m2 := l1 * (f2 - f4 + f5 + f6 - f7 - f8)
  let m3 := l2 * (f1 + f2 + f3 + f4 + 2 * f5 + 2 * f6 + 2 * f7 + 2 * f8)
  let m4 := l3 * (f5 - f6 - f7 + f8)
  let m5 := l3 * (f5 + f6 - f7 - f8)
  let m6 := l4 * (f5 + f6 + f7 + f8)
  let m7 := l2 * (f1 - f2 + f3 - f4)
  let m8 := l2 * (f5 - f6 + f7 - f8)
  let cs2 := (lambda * lambda) / 3
  let m3 := (1 - s_1) * m3 + s_1 * ((m1 * m1 + m2 * m2) / m0 + 2 * m0 * cs2)
  let m4 := (1 - s_1) * m4 + s_1 * (m1 * (cs2 + (m2 / m0) * (m2 / m0)))
  let m5 := (1 - s_1) * m5 + s_1 * (m2 * (cs2 + (m1 / m0) * (m1 / m0)))
  let m6 := (1 - s_1) * m6
    + s_1 * (m0 * (cs2 + (m1 / m0) * (m1 / m0)) * (cs2 + (m2 / m0) * (m2 / m0)))
  let m7 := (1 - s_2) * m7 + s_2 * ((m1 * m1 - m2 * m2) / m0)
  let m8 := (1 - s_2) * m8 + s_2 * (m1 * m2 / m0)
  let r1 := 1 / lambda
  let r2 := 1 / (lambda * lambda)
  let r3 := 1 / (lambda * lambda * lambda)
  let r4 := 1 / (lambda * lambda * lambda * lambda)
  distributions r1 r2 r3 r4 m0 m1 m2 m3 m4 m5 m6 m7 m8

/-- Lines 678-683 and 1266-1271: the relaxation rates `(s_1, s_2)`;
`1 << max_level` is a shift of the `int` literal `1`. -/
def relaxation_rates (max_level : Nat) : Option (ℚ × ℚ) :=
  (int_shl1 max_level).map fun (p : Int) =>
    let space_step := 1 / (p : ℚ)
    let dummy := 3 / (lambda * rho0 * space_step)
    let sigma_1 := dummy * (zeta - 2 * mu / 3)
    let sigma_2 := dummy * mu
    (1 / (0.5 + sigma_1), 1 / (0.5 + sigma_2))

/-- Lines 1196-1298: `new_f` at the leaf `(k, h)` of a level below `max_level`,
from `f` and the `fluxes` of the overleaves. -/
def new_f_coarse (max_level : Nat) (f fluxes : DistField) (level : Nat) (k h : Int) :
    Option (Nat → ℚ) :=
  (relaxation_rates max_level).map fun s =>
    relaxation s.1 s.2 (coarse_f0 f level k h) (coarse_f1 f fluxes level k h)
      (coarse_f2 f fluxes level k h) (coarse_f3 f fluxes level k h)
      (coarse_f4 f fluxes level k h) (coarse_f5 f fluxes level k h)
      (coarse_f6 f fluxes level k h) (coarse_f7 f fluxes level k h)
      (coarse_f8 f fluxes level k h)

/-- The values `f0..f8` of lines 1200-1240 by component: what enters the
relaxation at a leaf below `max_level`. -/
def coarse_input (f fluxes : DistField) (level : Nat) (k h : Int) : Nat → ℚ
  | 0 => coarse_f0 f level k h
  | 1 => coarse_f1 f fluxes level k h
  | 2 => coarse_f2 f fluxes level k h
  | 3 => coarse_f3 f fluxes level k h
  | 4 => coarse_f4 f fluxes level k h
  | 5 => coarse_f5 f fluxes level k h
  | 6 => coarse_f6 f fluxes level k h
  | 7 => coarse_f7 f fluxes level k h
  | 8 => coarse_f8 f fluxes level k h
  | _ => 0

/-- A lid-driven cavity of `2 x 2` leaves: `max_level = 1`, all four cells of
level 1 are leaves. -/
def cavity2 : Mesh :=
  ⟨1, square 2, fun t l x y => t == MeshType.cells && l == 1 && square 2 x y⟩

/-- A field whose component `v` holds the value `v` at every cell. -/
def ramp : DistField := fun v _ _ _ => (v : ℚ)

/-! ## `compute_prediction` (lines 121-244) -/

/-- Line 133: `cosinus`, the double `cos(alpha * M_PI / 2.)` rounded to the nearest
`int`. The cosine of a multiple of `pi / 2` is `1`, `0`, `-1` or `0`; the double
result is within `1e-15` of it, so `std::round` returns these values. -/
def cosinus (alpha : Int) : Int :=
  if alpha % 4 = 0 then 1 else if alpha % 4 = 2 then -1 else 0

/-- Line 134: `sinus`, the double `sin(alpha * M_PI / 2.)` rounded to the nearest
`int`. -/
def sinus (alpha : Int) : Int :=
  if alpha % 4 = 1 then 1 else if alpha % 4 = 3 then -1 else 0

/-- Lines 128-138: `rotation_of_pi_over_two`. -/
def rotation_of_pi_over_two (alpha k h : Int) : Int × Int :=
  (cosinus alpha * k - sinus alpha * h, sinus alpha * k + cosinus alpha * h)

/-- Lines 141-151: `tau`; `1 << (delta - 1)` is the power of two
`2^(delta - 1)` (the `int` values are read as integers). -/
def tau (delta : Nat) (k : Int) : Int :=
  if delta = 0 then k
  else
    let tmp : Int := 2 ^ (delta - 1)
    if k < tmp then k - tmp else k - tmp + 1

/-- Lines 153-163: `tau_inverse`. -/
def tau_inverse (delta : Nat) (k : Int) : Int :=
  if delta = 0 then k
  else
    let tmp : Int := 2 ^ (delta - 1)
    if k < 0 then k + tmp else k + tmp - 1

/-- One statement `data[k][slot] += prediction(k, x, y)` of `compute_prediction`:
the slot, whether the cell comes from `rotated_out` (an exiting flux) or from
`rotated_in`, and the cell `(x, y)` whose prediction stencil is added. -/
structure Accumulation where
  slot : Nat
  exiting : Bool
  cell : Int × Int

/-- The statement `data[k][slot] += prediction(k, tau_inverse(k, rotated.first),
tau_inverse(k, rotated.second))`. -/
def accumulate (k slot : Nat) (exiting : Bool) (rotated : Int × Int) : Accumulation :=
  ⟨slot, exiting, (tau_inverse k rotated.1, tau_inverse k rotated.2)⟩

/-- Lines 180-200: the loop of the velocities parallel to the axes at the level
gap `k`, with `i = j = 0` (line 124) and `size = 1 << k`. -/
def parallel_velocities (k : Nat) : List Accumulation :=
  let size : Int := 2 ^ k
  let i : Int := 0
  let j : Int := 0
  (List.range 4).flatMap fun (alpha : Nat) =>
    (List.range (2 ^ k)).flatMap fun (l : Nat) =>
      let rotated_in :=
        rotation_of_pi_over_two alpha (tau k (i * size - 1)) (tau k (j * size + l))
      let rotated_out :=
        rotation_of_pi_over_two alpha (tau k ((i + 1) * size - 1)) (tau k (j * size + l))
      [accumulate k (0 + 2 * alpha) false rotated_in,
       accumulate k (1 + 2 * alpha) true rotated_out]

/-- Lines 206-241: the loop of the diagonal velocities at the level gap `k`
(first side, cell on the diagonal, second side), `offset = 4 * 2`. -/
def diagonal_velocities (k : Nat) : List Accumulation :=
  let size : Int := 2 ^ k
  let i : Int := 0
  let j : Int := 0
  let offset : Nat := 4 * 2
  (List.range 4).flatMap fun (alpha : Nat) =>
    ((List.range (2 ^ k - 1)).flatMap fun (l : Nat) =>
      let rotated_in :=
        rotation_of_pi_over_two alpha (tau k (i * size - 1)) (tau k (j * size + l))
      let rotated_out :=
        rotation_of_pi_over_two alpha (tau k ((i + 1) * size - 1)) (tau k (j * size + l))
      [accumulate k (offset + 6 * alpha + 0) false rotated_in,
       accumulate k (offset + 6 * alpha + 3) true rotated_out])
    ++ (
      let rotated_in :=
        rotation_of_pi_over_two alpha (tau k (i * size - 1)) (tau k (j * size - 1))
      let rotated_out :=
        rotation_of_pi_over_two alpha (tau k ((i + 1) * size - 1))
          (tau k ((j + 1) * size - 1))
      [accumulate k (offset + 6 * alpha + 1) false rotated_in,
       accumulate k (offset + 6 * alpha + 4) true rotated_out])
    ++ ((List.range (2 ^ k - 1)).flatMap fun (l : Nat) =>
      let rotated_in :=
        rotation_of_pi_over_two alpha (tau k (i * size + l)) (tau k (j * size - 1))
      let rotated_out :=
        rotation_of_pi_over_two alpha (tau k (i * size + l)) (tau k ((j + 1) * size - 1))
      [accumulate k (offset + 6 * alpha + 2) false rotated_in,
       accumulate k (offset + 6 * alpha + 5) true rotated_out])

/-- Lines 165-242, one pass of the loop on `k`: the accumulations into `data[k]`
in the order of the source. -/
def compute_prediction_level (k : Nat) : List Accumulation :=
  parallel_velocities k ++ diagonal_velocities k

/-- Lines 121-244: `compute_prediction`, the accumulations of every level gap
`k < max_level - min_level + 1` (a `std::size_t` bound). -/
def compute_prediction (min_level max_level : Nat) : List (List Accumulation) :=
  (List.range (size_t_add (size_t_sub max_level min_level) 1)).map compute_prediction_level

/-- The cells whose predictions are summed in `data[k][s]`, in the order of the
source. -/
def slot_cells (k s : Nat) : List (Int × Int) :=
  ((compute_prediction_level k).filter fun a => a.slot == s).map Accumulation.cell

/-- The quarter turn of angle `alpha * pi / 2` of the cell `p` about the centre of
the block `[0, size) x [0, size)`. -/
def quarter_turn (size : Int) (alpha : Nat) (p : Int × Int) : Int × Int :=
  match alpha with
  | 0 => p
  | 1 => (size - 1 - p.2, p.1)
  | 2 => (size - 1 - p.1, size - 1 - p.2)
  | _ => (p.2, size - 1 - p.1)


/-! ## `one_time_step_overleaves_corrected`: the flux tables (lines 762-1190) -/

/-- The two vectors `flx_num` (slots of `pred_coeff[j]`) and `flx_vel`
(components of `fluxes` and `f`) of one lambda. -/
structure FluxTable where
  flx_num : List Nat
  flx_vel : List Nat

/-- The pairs `(flx_num[idx], flx_vel[idx])` visited by the loop
`for (idx = 0; idx < flx_num.size(); ++idx)`; reading `flx_vel` past its end is
undefined. -/
def FluxTable.entries (t : FluxTable) : Option (List (Nat × Nat)) :=
  if t.flx_num.length ≤ t.flx_vel.length then some (t.flx_num.zip t.flx_vel) else none

/-- Lines 782-783 (West/NorthWest/SouthWest). -/
def touching_west_table : FluxTable := ⟨[4, 16, 20], [3, 6, 7]⟩

/-- Lines 802-803 (West). -/
def west_table : FluxTable := ⟨[2, 6, 10, 14, 15, 21, 22, 26], [2, 4, 5, 6, 6, 7, 7, 8]⟩

/-- Lines 832-833 (NorthWest). -/
def northwest_table : FluxTable := ⟨[2, 10, 14, 15], [2, 5, 6, 6]⟩

/-- Lines 868-869 (SouthWest). -/
def southwest_table : FluxTable := ⟨[6, 21, 22, 26], [4, 7, 7, 8]⟩

/-- Lines 934-935 (East/NorthEast/SouthEast). -/
def touching_east_table : FluxTable := ⟨[0, 8, 28], [1, 5, 8]⟩

/-- Lines 954-955 (East). -/
def east_table : FluxTable := ⟨[2, 6, 9, 10, 14, 22, 26, 27], [2, 4, 5, 5, 6, 7, 8, 8]⟩

/-- Lines 984-985 (NorthEast). -/
def northeast_table : FluxTable := ⟨[2, 9, 10, 14], [2, 5, 5, 6]⟩

/-- Lines 1027-1028 (SouthEast). -/
def southeast_table : FluxTable := ⟨[6, 22, 26, 27], [4, 7, 8, 8]⟩

/-- Lines 1075-1076 (North). -/
def north_table : FluxTable :=
  ⟨[0, 2, 4, 8, 9, 10, 14, 15, 16, 20, 28], [1, 2, 3, 5, 5, 5, 6, 6, 6, 7, 8]⟩

/-- Lines 1110-1111 (South). -/
def south_table : FluxTable :=
  ⟨[0, 4, 6, 8, 16, 20, 21, 22, 26, 27, 28], [1, 3, 4, 5, 6, 7, 7, 7, 8, 8, 8]⟩

/-- Lines 1150-1151 (all the exiting fluxes, subtracted on every overleaf). -/
def exiting_table : FluxTable :=
  ⟨[1, 3, 5, 7, 11, 12, 13, 17, 18, 19, 23, 24, 25, 29, 30, 31],
   [1, 2, 3, 4, 5, 5, 5, 6, 6, 6, 7, 7, 7, 8, 8, 8]⟩

/-- Lines 1177-1178 (incoming fluxes far from the boundary). -/
def far_boundary_table : FluxTable :=
  ⟨[0, 2, 4, 6, 8, 9, 10, 14, 15, 16, 20, 21, 22, 26, 27, 28],
   [1, 2, 3, 4, 5, 5, 5, 6, 6, 6, 7, 7, 7, 8, 8, 8]⟩

/-- The twelve tables of lines 782-1178, in the order of the source. -/
def flux_tables : List FluxTable :=
  [touching_west_table, west_table, northwest_table, southwest_table, touching_east_table,
   east_table, northeast_table, southeast_table, north_table, south_table, exiting_table,
   far_boundary_table]

/-- The integer factor of a closure term: `(1 << j)`, `(2 * (1 << j) - 1)` or
`((1 << j) - 1)`. -/
inductive ClosureWeight where
  | side
  | corner
  | rest
  deriving DecidableEq

/-- One closure statement
`fluxes(dst) += weight * coeff * (f(src) + lid * 0.5 * u0 * rho)` at an overleaf
(`lid = 0` when the statement has no lid term). -/
structure Closure where
  dst : Nat
  src : Nat
  weight : ClosureWeight
  lid : Int

/-- Lines 819-823 (West). -/
def west_closures : List Closure :=
  [⟨1, 3, ClosureWeight.side, 0⟩, ⟨5, 7, ClosureWeight.side, 0⟩, ⟨8, 6, ClosureWeight.side, 0⟩]

/-- Lines 849-857 (NorthWest). -/
def northwest_closures : List Closure :=
  [⟨1, 3, ClosureWeight.side, 0⟩, ⟨4, 2, ClosureWeight.side, 0⟩, ⟨5, 7, ClosureWeight.side, 0⟩,
   ⟨7, 5, ClosureWeight.side, 0⟩, ⟨8, 6, ClosureWeight.corner, 0⟩]

/-- Lines 885-893 (SouthWest). -/
def southwest_closures : List Closure :=
  [⟨1, 3, ClosureWeight.side, 0⟩, ⟨2, 4, ClosureWeight.side, 0⟩,
   ⟨5, 7, ClosureWeight.corner, 0⟩, ⟨6, 8, ClosureWeight.side, 0⟩,
   ⟨8, 6, ClosureWeight.side, 0⟩]

/-- Lines 971-975 (East). -/
def east_closures : List Closure :=
  [⟨3, 1, ClosureWeight.side, 0⟩, ⟨6, 8, ClosureWeight.side, 0⟩, ⟨7, 5, ClosureWeight.side, 0⟩]

/-- Lines 1006-1015 (NorthEast). -/
def northeast_closures : List Closure :=
  [⟨3, 1, ClosureWeight.side, 0⟩, ⟨4, 2, ClosureWeight.side, 0⟩, ⟨6, 8, ClosureWeight.side, 0⟩,
   ⟨7, 5, ClosureWeight.side, -1⟩, ⟨7, 5, ClosureWeight.rest, 0⟩,
   ⟨8, 6, ClosureWeight.side, 1⟩]

/-- Lines 1044-1052 (SouthEast). -/
def southeast_closures : List Closure :=
  [⟨2, 4, ClosureWeight.side, 0⟩, ⟨3, 1, ClosureWeight.side, 0⟩, ⟨5, 7, ClosureWeight.side, 0⟩,
   ⟨6, 8, ClosureWeight.corner, 0⟩, ⟨7, 5, ClosureWeight.side, 0⟩]

/-- Lines 1095-1099 (North). -/
def north_closures : List Closure :=
  [⟨4, 2, ClosureWeight.side, 0⟩, ⟨7, 5, ClosureWeight.side, -1⟩,
   ⟨8, 6, ClosureWeight.side, 1⟩]

/-- Lines 1128-1132 (South). -/
def south_closures : List Closure :=
  [⟨2, 4, ClosureWeight.side, 0⟩, ⟨5, 7, ClosureWeight.side, 0⟩, ⟨6, 8, ClosureWeight.side, 0⟩]

/-- The sets of overleaves of lines 764-774, 915-925, 1060-1066, 1141-1142 and
1168-1170, in the order of the source. -/
structure OverleafRegions where
  west : CellSet
  northwest : CellSet
  southwest : CellSet
  touching_west : CellSet
  east : CellSet
  northeast : CellSet
  southeast : CellSet
  touching_east : CellSet
  south : CellSet
  north : CellSet
  north_and_south : CellSet
  all_overleaves : CellSet
  far_boundary : CellSet

/-- Lines 764-774, 915-925, 1060-1066, 1141-1142 and 1168-1170: the sets of
overleaves of `level + 1` used below `max_level`. -/
def overleaf_regions (m : Mesh) (level : Nat) : Option OverleafRegions := do
  let cells := m.at_finest MeshType.cells level
  let w ← get_adjacent_boundary_west m (level + 1) MeshType.overleaves
  let overleaves_west := intersection w cells
  let nw ← get_adjacent_boundary_northwest m (level + 1) MeshType.overleaves
  let overleaves_northwest := intersection nw cells
  let sw ← get_adjacent_boundary_southwest m (level + 1) MeshType.overleaves
  let overleaves_southwest := intersection sw cells
  let touching_west := union_ (union_ overleaves_west overleaves_northwest) overleaves_southwest
  let e ← get_adjacent_boundary_east m (level + 1) MeshType.overleaves
  let overleaves_east := intersection e cells
  let ne ← get_adjacent_boundary_northeast m (level + 1) MeshType.overleaves
  let overleaves_northeast := intersection ne cells
  let se ← get_adjacent_boundary_southeast m (level + 1) MeshType.overleaves
  let overleaves_southeast := intersection se cells
  let touching_east := union_ (union_ overleaves_east overleaves_northeast) overleaves_southeast
  let s ← get_adjacent_boundary_south m (level + 1) MeshType.overleaves
  let overleaves_south := intersection s cells
  let n ← get_adjacent_boundary_north m (level + 1) MeshType.overleaves
  let overleaves_north := intersection n cells
  let north_and_south := union_ overleaves_south overleaves_north
  let all_overleaves := intersection cells cells
  let overleaves_far_boundary :=
    difference cells (union_ (union_ touching_east touching_west) north_and_south)
  some ⟨overleaves_west, overleaves_northwest, overleaves_southwest, touching_west,
    overleaves_east, overleaves_northeast, overleaves_southeast, touching_east,
    overleaves_south, overleaves_north, north_and_south, all_overleaves,
    overleaves_far_boundary⟩

/-- The eight boundary sets of overleaves. -/
def OverleafRegions.boundary (r : OverleafRegions) : List CellSet :=
  [r.west, r.northwest, r.southwest, r.east, r.northeast, r.southeast, r.north, r.south]

/-- Lines 778-1134 and 1173-1190: the tables whose slots are added to `fluxes` at
an overleaf, in the order of the source, from the membership of the overleaf in
the sets `touching_west`, West, NorthWest, SouthWest, `touching_east`, East,
NorthEast, SouthEast, North, South and `overleaves_far_boundary`. -/
def incoming_tables_of (tw w nw sw te e ne se n s far : Bool) : List FluxTable :=
  (if tw then [touching_west_table] else [])
  ++ (if w then [west_table] else [])
  ++ (if nw then [northwest_table] else [])
  ++ (if sw then [southwest_table] else [])
  ++ (if te then [touching_east_table] else [])
  ++ (if e then [east_table] else [])
  ++ (if ne then [northeast_table] else [])
  ++ (if se then [southeast_table] else [])
  ++ (if n then [north_table] else [])
  ++ (if s then [south_table] else [])
  ++ (if far then [far_boundary_table] else [])

/-- The tables added at the overleaf that holds the finest cell `(x, y)`. -/
def incoming_tables (r : OverleafRegions) (x y : Int) : List FluxTable :=
  incoming_tables_of (r.touching_west x y) (r.west x y) (r.northwest x y) (r.southwest x y)
    (r.touching_east x y) (r.east x y) (r.northeast x y) (r.southeast x y) (r.north x y)
    (r.south x y) (r.far_boundary x y)

/-- The regular incoming slots applied at the overleaf that holds the finest cell
`(x, y)`: the `flx_num` of the tables added there. -/
def incoming_slots (r : OverleafRegions) (x y : Int) : List Nat :=
  (incoming_tables r x y).flatMap FluxTable.flx_num

/-- Lines 815-1132: the closure statements run at an overleaf, in the order of the
source, from the membership of the overleaf in the eight boundary sets. -/
def closures_of (w nw sw e ne se n s : Bool) : List Closure :=
  (if w then west_closures else [])
  ++ (if nw then northwest_closures else [])
  ++ (if sw then southwest_closures else [])
  ++ (if e then east_closures else [])
  ++ (if ne then northeast_closures else [])
  ++ (if se then southeast_closures else [])
  ++ (if n then north_closures else [])
  ++ (if s then south_closures else [])

/-- The closure statements run at the overleaf that holds the finest cell
`(x, y)`. -/
def closures_at (r : OverleafRegions) (x y : Int) : List Closure :=
  closures_of (r.west x y) (r.northwest x y) (r.southwest x y) (r.east x y)
    (r.northeast x y) (r.southeast x y) (r.north x y) (r.south x y)

/-- The direction `dir(s)` that the specification gives to the flux slot `s`:
`s / 2 + 1` for `s < 8` and `(s - 8) / 6 + 5` for `s >= 8`. -/
def slot_direction (s : Nat) : Nat := if s < 8 then s / 2 + 1 else (s - 8) / 6 + 5

/-- A cavity of `8 x 8` finest cells (`max_level = 3`) whose leaves are the four
cells of level 1, with the sixteen cells of level 2 as overleaves. -/
def cavity8_coarse : Mesh :=
  ⟨3, square 8, fun t l x y =>
    (t == MeshType.cells && l == 1 && square 2 x y)
    || (t == MeshType.overleaves && l == 2 && square 4 x y)⟩

/-- A cavity of `8 x 8` leaves: `max_level = 3`, every cell of level 3 is a leaf. -/
def cavity8_fine : Mesh :=
  ⟨3, square 8, fun t l x y => t == MeshType.cells && l == 3 && square 8 x y⟩

/-! ## Moments and distributions (lines 652-707) -/

/-- Lines 652-655 and 666-674 (and 1250-1262): the moments `m0..m8` of the nine
values `F 0, ..., F 8` (Geier's choice), for a lattice velocity `lam`. -/
def moments (lam : ℚ) (F : Nat → ℚ) : Nat → ℚ :=
  let f0 := F 0
  let f1 := F 1
  let f2 := F 2
  let f3 := F 3
  let f4 := F 4
  let f5 := F 5
  let f6 := F 6
  let f7 := F 7
  let f8 := F 8
  let l1 := lam
  let l2 := l1 * lam
  let l3 := l2 * lam
  let l4 := l3 * lam
  fun
  | 0 => f0 + f1 + f2 + f3 + f4 + f5 + f6 + f7 + f8
  | 1 => l1 * (f1 - f3 + f5 - f6 - f7 + f8)
  | 2 => l1 * (f2 - f4 + f5 + f6 - f7 - f8)
  | 3 => l2 * (f1 + f2 + f3 + f4 + 2 * f5 + 2 * f6 + 2 * f7 + 2 * f8)
  | 4 => l3 * (f5 - f6 - f7 + f8)
  | 5 => l3 * (f5 + f6 - f7 - f8)
  | 6 => l4 * (f5 + f6 + f7 + f8)
  | 7 => l2 * (f1 - f2 + f3 - f4)
  | 8 => l2 * (f5 - f6 + f7 - f8)
  | _ => 0

/-- Lines 685-692: the relaxation of the moments `m3..m8` with the rates `s_1`,
`s_2` (`m0`, `m1`, `m2` are kept). -/
def collision (lam s_1 s_2 : ℚ) (M : Nat → ℚ) : Nat → ℚ :=
  let m0 := M 0
  let m1 := M 1
  let m2 := M 2
  let cs2 := (lam * lam) / 3
  fun
  | 0 => m0
  | 1 => m1
  | 2 => m2
  | 3 => (1 - s_1) * M 3 + s_1 * ((m1 * m1 + m2 * m2) / m0 + 2 * m0 * cs2)
  | 4 => (1 - s_1) * M 4 + s_1 * (m1 * (cs2 + (m2 / m0) * (m2 / m0)))
  | 5 => (1 - s_1) * M 5 + s_1 * (m2 * (cs2 + (m1 / m0) * (m1 / m0)))
  | 6 => (1 - s_1) * M 6
      + s_1 * (m0 * (cs2 + (m1 / m0) * (m1 / m0)) * (cs2 + (m2 / m0) * (m2 / m0)))
  | 7 => (1 - s_2) * M 7 + s_2 * ((m1 * m1 - m2 * m2) / m0)
  | 8 => (1 - s_2) * M 8 + s_2 * (m1 * m2 / m0)
  | _ => 0

/-- Lines 657-660 and 699-707: the distributions written to `new_f` from the
moments `M 0, ..., M 8`, for a lattice velocity `lam`. -/
def distributions_of (lam : ℚ) (M : Nat → ℚ) : Nat → ℚ :=
  let r1 := 1 / lam
  let r2 := 1 / (lam * lam)
  let r3 := 1 / (lam * lam * lam)
  let r4 := 1 / (lam * lam * lam * lam)
  distributions r1 r2 r3 r4 (M 0) (M 1) (M 2) (M 3) (M 4) (M 5) (M 6) (M 7) (M 8)

/-- Lines 640-707: moments, relaxation and distributions of the nine transported
values, for a lattice velocity `lam`. -/
def relaxation_of (lam s_1 s_2 : ℚ) (F : Nat → ℚ) : Nat → ℚ :=
  distributions_of lam (collision lam s_1 s_2 (moments lam F))

/-- The nine values `f0..f8` as a vector. -/
def vec9 (f0 f1 f2 f3 f4 f5 f6 f7 f8 : ℚ) : Nat → ℚ
  | 0 => f0
  | 1 => f1
  | 2 => f2
  | 3 => f3
  | 4 => f4
  | 5 => f5
  | 6 => f6
  | 7 => f7
  | 8 => f8
  | _ => 0

/-! ## The assignments of the transport at `max_level` -/

/-- The components of `advected` assigned by a lambda body, in order. -/
def assigned (body : List Assign) : List Nat := body.map Assign.dst

/-- The nine lambda bodies of the transport at `max_level`, in the order of the
source. -/
def finest_bodies : List (List Assign) :=
  [east_body, north_body, northeast_body, west_body, northwest_body, south_body,
   southwest_body, southeast_body, internal_body]

/-- The components of `advected` assigned at a cell from its membership in the nine
regions, in the order of the source. -/
def assigned_cell (e n ne w nw s sw se i : Bool) : List Nat :=
  (if e then assigned east_body else [])
  ++ (if n then assigned north_body else [])
  ++ (if ne then assigned northeast_body else [])
  ++ (if w then assigned west_body else [])
  ++ (if nw then assigned northwest_body else [])
  ++ (if s then assigned south_body else [])
  ++ (if sw then assigned southwest_body else [])
  ++ (if se then assigned southeast_body else [])
  ++ (if i then assigned internal_body else [])

/-- Lines 404-627: the components of `advected` assigned at the cell `(k, h)` of
`max_level` by the nine lambdas, in order. -/
def advect_finest_assigned (m : Mesh) (k h : Int) : Option (List Nat) := do
  let r ← finest_regions m
  some (assigned_cell (r.east k h) (r.north k h) (r.northeast k h) (r.west k h)
    (r.northwest k h) (r.south k h) (r.southwest k h) (r.southeast k h) (r.internal k h))

/-! ## The adaptation loops of the drivers
(D2Q9_lid_driven_cavity.cpp lines 1427-1441, finest_reconstruction_2D.cpp lines 323-333) -/

/-- One loop `for (std::size_t i = 0; i < bound; ++i) { if (pass(f, eps, i)) break; }`
entered with the counter `i` and the state `st` of the field and its mesh. `pass i st`
is the call `coarsening(f, eps, i)` or `refinement(f, eps, 0.0, i)`: the returned
flag and the state it leaves. The result is the list of the passes run, each with
its index and its flag, and the final state; `none` when the number of loop tests
allowed by the argument after `bound` is exhausted. `++i` is a `std::size_t`
increment. -/
def level_loop {σ : Type} (pass : Nat → σ → Bool × σ) (bound : Nat) :
    Nat → Nat → σ → Option (List (Nat × Bool) × σ)
  | 0, _, _ => none
  | fuel + 1, i, st =>
    if i < bound then
      let r := pass i st
      if r.1 then some ([(i, true)], r.2)
      else
        (level_loop pass bound fuel (size_t_add i 1) r.2).map fun t => ((i, false) :: t.1, t.2)
    else some ([], st)

/-- The two loops of one time step, the coarsening loop and then the refinement
loop, both with the `std::size_t` bound `max_level - min_level`: the passes run by
each loop and the final state. -/
def adaptation_loops {σ : Type} (coarsening refinement : Nat → σ → Bool × σ)
    (min_level max_level fuel : Nat) (st : σ) :
    Option (List (Nat × Bool) × List (Nat × Bool) × σ) := do
  let c ← level_loop coarsening (size_t_sub max_level min_level) fuel 0 st
  let r ← level_loop refinement (size_t_sub max_level min_level) fuel 0 c.2
  some (c.1, r.1, r.2)

/-- The state in which the pass of index `n` of a loop is called when no earlier
pass has left the loop: the passes `0, ..., n - 1` applied in order. -/
def state_before {σ : Type} (pass : Nat → σ → Bool × σ) : Nat → σ → σ
  | 0, st => st
  | n + 1, st => (pass n (state_before pass n st)).2

/-! ## The relaxation rates (D2Q9_lid_driven_cavity.cpp lines 679-683) -/

/-- Lines 679-683: the relaxation rates `(s_1, s_2)` as a function of
`space_step`. -/
def rates_of_step (space_step : ℚ) : ℚ × ℚ :=
  let dummy := 3 / (lambda * rho0 * space_step)
  let sigma_1 := dummy * (zeta - 2 * mu / 3)
  let sigma_2 := dummy * mu
  (1 / (0.5 + sigma_1), 1 / (0.5 + sigma_2))

/-! ## The values of the closures (lines 815-1132) -/

/-- The integer factor of a closure statement at the level gap `j`: `(1 << j)`,
`(2 * (1 << j) - 1)` or `((1 << j) - 1)`, with `1 << j` read as `2^j`. -/
def ClosureWeight.eval (j : Nat) : ClosureWeight → Int
  | ClosureWeight.side => 2 ^ j
  | ClosureWeight.corner => 2 * 2 ^ j - 1
  | ClosureWeight.rest => 2 ^ j - 1

/-- The sum `rho` of the nine components at an overleaf (lines 1001-1002 and
1091-1092). -/
def overleaf_rho (F : Nat → ℚ) : ℚ :=
  F 0 + F 1 + F 2 + F 3 + F 4 + F 5 + F 6 + F 7 + F 8

/-- The value added to `fluxes(dst)` by one closure statement
`fluxes(dst) += weight * coeff * (f(src) + lid * 0.5 * u0 * rho)` at an overleaf
whose components are `F`. -/
def Closure.value (j : Nat) (coeff : ℚ) (F : Nat → ℚ) (c : Closure) : ℚ :=
  (c.weight.eval j : ℚ) * coeff * (F c.src + (c.lid : ℚ) * (0.5 * u0 * overleaf_rho F))

/-- The total added to `fluxes(v)` by the closure statements `cls`. -/
def closure_flux (j : Nat) (coeff : ℚ) (F : Nat → ℚ) (cls : List Closure) (v : Nat) : ℚ :=
  ((cls.filter fun c => c.dst == v).map (Closure.value j coeff F)).sum

/-- The sum of the integer factors of the closure statements of `cls` that add to
`fluxes(v)`. -/
def closure_multiplicity (j : Nat) (cls : List Closure) (v : Nat) : Int :=
  ((cls.filter fun c => c.dst == v).map fun c => c.weight.eval j).sum

/-- The number of predictions summed into `fluxes(v)` by the loop
`for idx` / `for c : pred_coeff[j][flx_num[idx]]` on one table: for every pair
`(flx_num[idx], flx_vel[idx])` with `flx_vel[idx] = v`, the cells whose predictions
`compute_prediction` has summed in the slot. -/
def table_terms (j : Nat) (t : FluxTable) (v : Nat) : Nat :=
  (((t.flx_num.zip t.flx_vel).filter fun e => e.2 == v).map
    fun e => (slot_cells j e.1).length).sum

/-- The number of predictions summed into `fluxes(v)` by the tables `ts`. -/
def tables_terms (j : Nat) (ts : List FluxTable) (v : Nat) : Nat :=
  (ts.map fun t => table_terms j t v).sum

/-! ## nagumo.cpp: the right-hand side of the linear solve (lines 145-189) -/

/-- Lines 149-153: the `scheme_function` of the reaction operator at a cell whose
value is `v`: `k * v * v * (1 - v)`. -/
def react_function (k v : ℚ) : ℚ := k * v * v * (1 - v)

/-- Line 187: `react(u)`, the cell-based scheme applied to the field `u`: the
operator built by `make_cell_based_scheme` (its header is not part of the sources)
evaluates the scheme function at every cell, the stencil of the scheme being the
cell itself (`LocalCellSchemeConfig`, line 146, and `stencil_cells[0]`, line 151). -/
def react {Cell : Type} (k : ℚ) (u : Cell → ℚ) : Cell → ℚ := fun c => react_function k (u c)

/-- Line 188: `rhs = u + react_u`, the right-hand side passed to
`samurai::petsc::solve(back_euler, unp1, rhs)`. -/
def nagumo_rhs {Cell : Type} (k : ℚ) (u : Cell → ℚ) : Cell → ℚ := fun c => u c + react k u c

/-- Stated from the comment of line 185, not from the statements of the source: the
right-hand side `u + dt*react(u)` of the backward Euler equation
`u_np1 + dt*diff(u_np1) = u + dt*react(u)`. -/
def nagumo_rhs_documented {Cell : Type} (k dt : ℚ) (u : Cell → ℚ) : Cell → ℚ :=
  fun c => u c + dt * react k u c

/-- Lines 67-68 of nagumo.cpp: `Tf = 1.` and `dt = Tf / 100`. -/
def nagumo_dt : ℚ := 1 / 100

/-! ## samurai_config.hpp (lines 13-23) -/

/-- Line 15: `default_config::max_level = 20`. -/
def default_config.max_level : Nat := 20

/-- Line 16: `default_config::ghost_width = 1`. -/
def default_config.ghost_width : Nat := 1

/-- Line 17: `default_config::graduation_width = 1`. -/
def default_config.graduation_width : Nat := 1

/-- Line 18: `default_config::prediction_order = 1`. -/
def default_config.prediction_order : Nat := 1

/-- The largest distance, in cells, at which an assignment of the transport at
`max_level` reads `f`. -/
def Rhs.reach : Rhs → Nat
  | Rhs.copy _ dk dh => max dk.natAbs dh.natAbs
  | Rhs.const _ => 0

/-! ## Fields for the prediction formula -/

/-- A mesh whose cells of level 0 are all stored and whose cells of the other
levels are not. -/
def coarse_mesh : Mesh := ⟨1, fun _ _ => true, fun _ l _ _ => l == 0⟩

/-- The field on `coarse_mesh` whose cell `(i, j)` of level 0 holds, in both
components, the average `(i + 1/2) * (j + 1/2)` of `x * y` over
`[i, i + 1] x [j, j + 1]`. -/
def bilinear_field : Field :=
  ⟨coarse_mesh, fun _ i j =>
    (((i : ℚ) + 1 / 2) * ((j : ℚ) + 1 / 2), ((i : ℚ) + 1 / 2) * ((j : ℚ) + 1 / 2))⟩

/-- The field on `coarse_mesh` whose cell `(i, j)` of level 0 holds, in both
components, `a + b * (i + 1/2) + c * (j + 1/2)`. -/
def affine_field (a b c : ℚ) : Field :=
  ⟨coarse_mesh, fun _ i j =>
    (a + b * ((i : ℚ) + 1 / 2) + c * ((j : ℚ) + 1 / 2),
     a + b * ((i : ℚ) + 1 / 2) + c * ((j : ℚ) + 1 / 2))⟩

/-- Stated from the specification, not from the source: the 1D prediction
`P + s * (1/8) * (W - E)` with the sign `s` (`1` for the even child, `-1` for the odd
child). -/
def prediction_1d (s : ℚ) (P W E : Val) : Val := P + (s / 8) • (W - E)

/-- Stated from the specification, not from the source: the 1D prediction applied
along `x` (sign `sx`) on the three rows and then along `y` (sign `sy`), the row
below in the place of `W` and the row above in the place of `E`. -/
def prediction_x_then_y (sx sy : ℚ) (P W E S N NE NW SE SW : Val) : Val :=
  prediction_1d sy (prediction_1d sx P W E) (prediction_1d sx S SW SE)
    (prediction_1d sx N NW NE)

/-! ## The relaxation at `max_level` and `init_f` -/

/-- Lines 640-707: `new_f` at the leaf `(k, h)` of `max_level`, from `advected`. -/
def new_f_finest (max_level : Nat) (advected : DistField) (level : Nat) (k h : Int) :
    Option (Nat → ℚ) :=
  (relaxation_rates max_level).map fun s =>
    relaxation s.1 s.2 (advected 0 level k h) (advected 1 level k h) (advected 2 level k h)
      (advected 3 level k h) (advected 4 level k h) (advected 5 level k h)
      (advected 6 level k h) (advected 7 level k h) (advected 8 level k h)

/-- Lines 40-84: the value `f[cell][v]` written by `init_f` at every cell:
`rho = rho0`, `qx = 0`, `qy = 0`. -/
def init_f (v : Nat) : ℚ := equilibrium rho0 0 0 v

/-- The relaxation applied to a vector of nine values. -/
def relaxation_vec (s_1 s_2 : ℚ) (F : Nat → ℚ) : Nat → ℚ :=
  relaxation s_1 s_2 (F 0) (F 1) (F 2) (F 3) (F 4) (F 5) (F 6) (F 7) (F 8)

/-! ## The component indices of `one_time_step_overleaves_corrected` (lines 361-1304) -/

/-- Line 31 (`init_f`) and line 365 (`nvel = Field::size`): the number of components
of the fields `f`, `advected`, `fluxes` and `new_f`. -/
def nvel : Nat := 9

/-- The four fields read or written by `one_time_step_overleaves_corrected`. -/
inductive FieldName where
  | f
  | advected
  | fluxes
  | new_f
  deriving DecidableEq

/-- One access `field(component, level, k, h)`, read or write. -/
structure Access where
  field : FieldName
  component : Nat
  deriving DecidableEq

/-- The access made by the right-hand side of an assignment to `advected`. -/
def Rhs.accesses : Rhs → List Access
  | Rhs.copy src _ _ => [⟨FieldName.f, src⟩]
  | Rhs.const _ => []

/-- The accesses of one assignment `advected(dst, level, k, h) = rhs`. -/
def Assign.accesses (a : Assign) : List Access :=
  ⟨FieldName.advected, a.dst⟩ :: a.rhs.accesses

/-- The accesses of a sum `rho = f(0, ...) + ... + f(8, ...)` (lines 480-481,
527-528, 1001-1002 and 1091-1092). -/
def rho_accesses : List Access :=
  [⟨FieldName.f, 0⟩, ⟨FieldName.f, 1⟩, ⟨FieldName.f, 2⟩, ⟨FieldName.f, 3⟩, ⟨FieldName.f, 4⟩,
   ⟨FieldName.f, 5⟩, ⟨FieldName.f, 6⟩, ⟨FieldName.f, 7⟩, ⟨FieldName.f, 8⟩]

/-- The accesses of the loop on `idx` of one table: the statement
`fluxes(flx_vel[idx], ...) += coeff * c.second * f(flx_vel[idx], ...)` (with `-=` for
the exiting fluxes). -/
def FluxTable.accesses (t : FluxTable) : List Access :=
  (t.flx_num.zip t.flx_vel).flatMap fun e => [⟨FieldName.fluxes, e.2⟩, ⟨FieldName.f, e.2⟩]

/-- The accesses of one closure statement `fluxes(dst, ...) += ... f(src, ...)`. -/
def Closure.accesses (c : Closure) : List Access :=
  [⟨FieldName.fluxes, c.dst⟩, ⟨FieldName.f, c.src⟩]

/-- Lines 640-648 and 699-707: the relaxation at `max_level` reads the nine
components of `advected` and writes the nine components of `new_f`. -/
def collision_accesses : List Access :=
  [⟨FieldName.advected, 0⟩, ⟨FieldName.advected, 1⟩, ⟨FieldName.advected, 2⟩,
   ⟨FieldName.advected, 3⟩, ⟨FieldName.advected, 4⟩, ⟨FieldName.advected, 5⟩,
   ⟨FieldName.advected, 6⟩, ⟨FieldName.advected, 7⟩, ⟨FieldName.advected, 8⟩,
   ⟨FieldName.new_f, 0⟩, ⟨FieldName.new_f, 1⟩, ⟨FieldName.new_f, 2⟩, ⟨FieldName.new_f, 3⟩,
   ⟨FieldName.new_f, 4⟩, ⟨FieldName.new_f, 5⟩, ⟨FieldName.new_f, 6⟩, ⟨FieldName.new_f, 7⟩,
   ⟨FieldName.new_f, 8⟩]

/-- Lines 1200-1245: the accesses of the projection of the overleaves, `f0` (line
1200) and `f1`, ..., `f9` (lines 1202-1245), each of the latter reading `f` and
`fluxes` at its component. -/
def projection_accesses : List Access :=
  [⟨FieldName.f, 0⟩,
   ⟨FieldName.f, 1⟩, ⟨FieldName.fluxes, 1⟩, ⟨FieldName.f, 2⟩, ⟨FieldName.fluxes, 2⟩,
   ⟨FieldName.f, 3⟩, ⟨FieldName.fluxes, 3⟩, ⟨FieldName.f, 4⟩, ⟨FieldName.fluxes, 4⟩,
   ⟨FieldName.f, 5⟩, ⟨FieldName.fluxes, 5⟩, ⟨FieldName.f, 6⟩, ⟨FieldName.fluxes, 6⟩,
   ⟨FieldName.f, 7⟩, ⟨FieldName.fluxes, 7⟩, ⟨FieldName.f, 8⟩, ⟨FieldName.fluxes, 8⟩,
   ⟨FieldName.f, 9⟩, ⟨FieldName.fluxes, 9⟩]

/-- Lines 1290-1298: the nine components of `new_f` written below `max_level`. -/
def new_f_accesses : List Access :=
  [⟨FieldName.new_f, 0⟩, ⟨FieldName.new_f, 1⟩, ⟨FieldName.new_f, 2⟩, ⟨FieldName.new_f, 3⟩,
   ⟨FieldName.new_f, 4⟩, ⟨FieldName.new_f, 5⟩, ⟨FieldName.new_f, 6⟩, ⟨FieldName.new_f, 7⟩,
   ⟨FieldName.new_f, 8⟩]

/-- Lines 397-707: the accesses of the branch `level == max_level`: the nine lambda
bodies of the transport, the sums `rho` of the NorthEast and NorthWest lambdas, and
the relaxation. -/
def finest_accesses : List Access :=
  (finest_bodies.flatMap fun body => body.flatMap Assign.accesses)
    ++ rho_accesses ++ rho_accesses ++ collision_accesses

/-- The eight lists of closure statements, in the order of the source. -/
def closure_lists : List (List Closure) :=
  [west_closures, northwest_closures, southwest_closures, east_closures, northeast_closures,
   southeast_closures, north_closures, south_closures]

/-- Lines 752-1298: the accesses of the branch below `max_level`: the twelve tables,
the closures, the sums `rho` of the NorthEast and North lambdas, the projection of
the overleaves and the writes of `new_f`. -/
def coarse_accesses : List Access :=
  (flux_tables.flatMap FluxTable.accesses)
    ++ (closure_lists.flatMap fun cls => cls.flatMap Closure.accesses)
    ++ rho_accesses ++ rho_accesses ++ projection_accesses ++ new_f_accesses

/-- The accesses to the components of `f`, `advected`, `fluxes` and `new_f` made by
the statements of `one_time_step_overleaves_corrected`. -/
def all_accesses : List Access := finest_accesses ++ coarse_accesses

/-- A field that holds `1` in the component 9 and agrees with `ramp` elsewhere. -/
def ramp9 : DistField := fun v l x y => if v = 9 then 1 else ramp v l x y

/-! # Theorems

## Lemmas on `prediction_all` -/

theorem Interval.length_cells (k : Interval) : k.cells.length = k.size := by
  simp only [Interval.cells, List.length_map, List.length_range]

theorem Interval.getElem?_cells (k : Interval) (i : Nat) (hi : i < k.size) :
    k.cells[i]? = some (k.start + (i : Int)) := by
  simp only [Interval.cells, List.getElem?_map, List.getElem?_range hi, Option.map_some']

theorem Interval.size_shift (k : Interval) (d : Int) : (k.shift d).size = k.size := by
  simp only [Interval.size, Interval.shift]
  congr 1
  omega

theorem Mesh.length_exists (m : Mesh) (t : MeshType) (level : Nat) (k : Interval) (h : Int) :
    (m.exists_ t level k h).length = k.size := by
  simp only [Mesh.exists_, List.length_map, Interval.length_cells]

theorem Mesh.getD_exists (m : Mesh) (t : MeshType) (level : Nat) (k : Interval) (h : Int)
    (i : Nat) (hi : i < k.size) :
    (m.exists_ t level k h).getD i false = m.set t level (k.start + (i : Int)) h := by
  simp only [Mesh.exists_, List.getD_eq_getElem?_getD, List.getElem?_map,
    Interval.getElem?_cells k i hi, Option.map_some', Option.getD_some]

theorem Mesh.all_exists (m : Mesh) (t : MeshType) (level : Nat) (k : Interval) (h : Int) :
    (m.exists_ t level k h).all id = true ↔
      ∀ i : Nat, i < k.size → m.set t level (k.start + (i : Int)) h = true := by
  simp only [Mesh.exists_, Interval.cells, List.all_eq_true, List.mem_map, List.mem_range,
    id_eq]
  constructor
  · intro hall i hi
    exact hall _ ⟨_, ⟨i, hi, rfl⟩, rfl⟩
  · rintro hall x ⟨_, ⟨i, hi, rfl⟩, rfl⟩
    exact hall i hi

theorem all_initialised_eq_some (l : List (Option Val)) (out : List Val) :
    all_initialised l = some out ↔ l = out.map some := by
  induction l generalizing out with
  | nil => cases out <;> simp [all_initialised]
  | cons a rest ih =>
    cases a with
    | none => cases out <;> simp [all_initialised]
    | some v =>
      cases out with
      | nil => simp [all_initialised]
      | cons w ws =>
        simp only [all_initialised, Option.map_eq_some', List.map_cons, List.cons.injEq,
          Option.some.injEq]
        constructor
        · rintro ⟨a, ha, rfl, rfl⟩
          exact ⟨rfl, (ih a).1 ha⟩
        · rintro ⟨rfl, hr⟩
          exact ⟨ws, (ih ws).2 hr, rfl, rfl⟩

theorem getD_map_range (g : Nat → Option Val) (n i : Nat) (hi : i < n) :
    ((List.range n).map g).getD i none = g i := by
  simp only [List.getD_eq_getElem?_getD, List.getElem?_map, List.getElem?_range hi,
    Option.map_some', Option.getD_some]

theorem getElem?_map9 (g : Val → Val → Val → Val → Val → Val → Val → Val → Val → Val)
    (earth W E S N NE NW SE SW : List Val) (j : Nat) (hj : j < earth.length) :
    (map9 g earth W E S N NE NW SE SW)[j]? =
      some (g (earth.getD j 0) (W.getD j 0) (E.getD j 0) (S.getD j 0) (N.getD j 0)
        (NE.getD j 0) (NW.getD j 0) (SE.getD j 0) (SW.getD j 0)) := by
  simp only [map9, List.getElem?_map, List.getElem?_range hj, Option.map_some']

theorem length_map9 (g : Val → Val → Val → Val → Val → Val → Val → Val → Val → Val)
    (earth W E S N NE NW SE SW : List Val) :
    (map9 g earth W E S N NE NW SE SW).length = earth.length := by
  simp only [map9, List.length_map, List.length_range]

/-- Closed form of `assemble`: stored rows where the cell exists, the even or the
odd expression at the parent index elsewhere. -/
theorem assemble_eq (f : Field) (lvl : Nat) (k : Interval) (h : Int)
    (earth W E S N NE NW SE SW : List Val) (hk : k.start < k.stop)
    (hlen : earth.length = k.shr1.size) :
    assemble f lvl k h earth W E S N NE NW SE SW =
      some ((List.range k.size).map fun (i : Nat) =>
        if f.mesh.set MeshType.cells_and_ghosts lvl (k.start + (i : Int)) h = true then
          f.value lvl (k.start + (i : Int)) h
        else if (k.start + (i : Int)) % 2 = 0 then
          val_even (m1_delta_y h) (earth.getD (parent_index k i) 0)
            (W.getD (parent_index k i) 0) (E.getD (parent_index k i) 0)
            (S.getD (parent_index k i) 0) (N.getD (parent_index k i) 0)
            (NE.getD (parent_index k i) 0) (NW.getD (parent_index k i) 0)
            (SE.getD (parent_index k i) 0) (SW.getD (parent_index k i) 0)
        else
          val_odd (m1_delta_y h) (earth.getD (parent_index k i) 0)
            (W.getD (parent_index k i) 0) (E.getD (parent_index k i) 0)
            (S.getD (parent_index k i) 0) (N.getD (parent_index k i) 0)
            (NE.getD (parent_index k i) 0) (NW.getD (parent_index k i) 0)
            (SE.getD (parent_index k i) 0) (SW.getD (parent_index k i) 0)) := by
  have hsz : k.size = (k.stop - k.start).toNat := rfl
  have hgsz : k.shr1.size = ((k.stop - 1) / 2 + 1 - k.start / 2).toNat := rfl
  have hc1 : (k.size + 1 - start_even k) / 2 = k.shr1.size - start_even k := by
    unfold start_even
    split_ifs <;> omega
  have hc2 : (k.size + 1 - start_odd k) / 2 = min (end_odd k k.shr1) k.shr1.size := by
    unfold start_odd end_odd
    split_ifs <;> omega
  unfold assemble
  simp only [assign_step2, List.length_replicate, List.length_drop, List.length_take,
    length_map9, hlen, hc1, hc2, if_true, Option.bind_eq_bind, Option.some_bind,
    List.length_map, List.length_range]
  rw [all_initialised_eq_some, List.map_map]
  unfold fill_out
  apply List.map_congr_left
  intro i hi
  rw [List.mem_range] at hi
  simp only [Function.comp_apply]
  rw [Mesh.getD_exists _ _ _ _ _ _ hi]
  by_cases hm : f.mesh.set MeshType.cells_and_ghosts lvl (k.start + (i : Int)) h = true
  · simp only [hm, if_true]
  · simp only [hm, if_false, Bool.false_eq_true]
    rw [getD_map_range _ _ _ hi]
    simp only [Mesh.getD_exists _ _ _ _ _ _ hi, hm, if_false, Bool.false_eq_true]
    rw [getD_map_range _ _ _ hi]
    by_cases hpar : (k.start + (i : Int)) % 2 = 0
    · have hodd : ¬ (start_odd k ≤ i ∧ (i - start_odd k) % 2 = 0) := by
        unfold start_odd
        split_ifs <;> omega
      have heven : start_even k ≤ i ∧ (i - start_even k) % 2 = 0 := by
        unfold start_even
        split_ifs <;> omega
      have hj : start_even k + (i - start_even k) / 2 = parent_index k i := by
        unfold start_even parent_index
        split_ifs <;> omega
      have hjlt : parent_index k i < earth.length := by
        rw [hlen, hgsz]
        unfold parent_index
        omega
      simp only [hodd, if_false, hpar, if_true]
      rw [getD_map_range _ _ _ hi]
      simp only [heven, and_self, if_true, List.getElem?_drop, hj]
      rw [getElem?_map9 _ _ _ _ _ _ _ _ _ _ _ hjlt]
    · have hodd : start_odd k ≤ i ∧ (i - start_odd k) % 2 = 0 := by
        unfold start_odd
        split_ifs <;> omega
      have hj : (i - start_odd k) / 2 = parent_index k i := by
        unfold start_odd parent_index
        split_ifs <;> omega
      have hjlt : parent_index k i < earth.length := by
        rw [hlen, hgsz]
        unfold parent_index
        omega
      have hjend : parent_index k i < end_odd k k.shr1 := by
        unfold end_odd parent_index
        rw [hgsz]
        split_ifs <;> omega
      simp only [hodd, and_self, if_true, hpar, if_false, hj]
      rw [List.getElem?_take_of_lt hjend, getElem?_map9 _ _ _ _ _ _ _ _ _ _ _ hjlt]

theorem prediction_all_succ (f : Field) (level_g fuel level : Nat) (k : Interval) (h : Int) :
    prediction_all f level_g (fuel + 1) level k h =
      if (f.mesh.exists_ MeshType.cells_and_ghosts (size_t_add level_g level) k h).all id
          = true then
        some (f.at (size_t_add level_g level) k h)
      else
        (prediction_all f level_g fuel (size_t_pred level) k.shr1 (h / 2)).bind fun earth =>
        (prediction_all f level_g fuel (size_t_pred level) (k.shr1.shift (-1)) (h / 2)).bind
          fun W =>
        (prediction_all f level_g fuel (size_t_pred level) (k.shr1.shift 1) (h / 2)).bind
          fun E =>
        (prediction_all f level_g fuel (size_t_pred level) k.shr1 (h / 2 - 1)).bind fun S =>
        (prediction_all f level_g fuel (size_t_pred level) k.shr1 (h / 2 + 1)).bind fun N =>
        (prediction_all f level_g fuel (size_t_pred level) (k.shr1.shift (-1)) (h / 2 - 1)).bind
          fun SW =>
        (prediction_all f level_g fuel (size_t_pred level) (k.shr1.shift 1) (h / 2 - 1)).bind
          fun SE =>
        (prediction_all f level_g fuel (size_t_pred level) (k.shr1.shift (-1)) (h / 2 + 1)).bind
          fun NW =>
        (prediction_all f level_g fuel (size_t_pred level) (k.shr1.shift 1) (h / 2 + 1)).bind
          fun NE =>
        assemble f (size_t_add level_g level) k h earth W E S N NE NW SE SW := by
  rfl

theorem prediction_all_stored (f : Field) (level_g fuel level : Nat) (k : Interval) (h : Int)
    (hall : (f.mesh.exists_ MeshType.cells_and_ghosts (size_t_add level_g level) k h).all id
      = true) :
    prediction_all f level_g (fuel + 1) level k h =
      some (f.at (size_t_add level_g level) k h) := by
  rw [prediction_all_succ, if_pos hall]

theorem prediction_all_rec (f : Field) (level_g fuel level : Nat) (k : Interval) (h : Int)
    (hall : ¬ (f.mesh.exists_ MeshType.cells_and_ghosts (size_t_add level_g level) k h).all id
      = true)
    (earth W E S N SW SE NW NE : List Val)
    (h1 : prediction_all f level_g fuel (size_t_pred level) k.shr1 (h / 2) = some earth)
    (h2 : prediction_all f level_g fuel (size_t_pred level) (k.shr1.shift (-1)) (h / 2) = some W)
    (h3 : prediction_all f level_g fuel (size_t_pred level) (k.shr1.shift 1) (h / 2) = some E)
    (h4 : prediction_all f level_g fuel (size_t_pred level) k.shr1 (h / 2 - 1) = some S)
    (h5 : prediction_all f level_g fuel (size_t_pred level) k.shr1 (h / 2 + 1) = some N)
    (h6 : prediction_all f level_g fuel (size_t_pred level) (k.shr1.shift (-1)) (h / 2 - 1)
      = some SW)
    (h7 : prediction_all f level_g fuel (size_t_pred level) (k.shr1.shift 1) (h / 2 - 1)
      = some SE)
    (h8 : prediction_all f level_g fuel (size_t_pred level) (k.shr1.shift (-1)) (h / 2 + 1)
      = some NW)
    (h9 : prediction_all f level_g fuel (size_t_pred level) (k.shr1.shift 1) (h / 2 + 1)
      = some NE) :
    prediction_all f level_g (fuel + 1) level k h =
      assemble f (size_t_add level_g level) k h earth W E S N NE NW SE SW := by
  rw [prediction_all_succ, if_neg hall, h1, h2, h3, h4, h5, h6, h7, h8, h9]
  rfl

theorem prediction_all_rec_inv (f : Field) (level_g fuel level : Nat) (k : Interval) (h : Int)
    (out : List Val)
    (hall : ¬ (f.mesh.exists_ MeshType.cells_and_ghosts (size_t_add level_g level) k h).all id
      = true)
    (hret : prediction_all f level_g (fuel + 1) level k h = some out) :
    ∃ earth W E S N SW SE NW NE : List Val,
      prediction_all f level_g fuel (size_t_pred level) k.shr1 (h / 2) = some earth ∧
      prediction_all f level_g fuel (size_t_pred level) (k.shr1.shift (-1)) (h / 2) = some W ∧
      prediction_all f level_g fuel (size_t_pred level) (k.shr1.shift 1) (h / 2) = some E ∧
      prediction_all f level_g fuel (size_t_pred level) k.shr1 (h / 2 - 1) = some S ∧
      prediction_all f level_g fuel (size_t_pred level) k.shr1 (h / 2 + 1) = some N ∧
      prediction_all f level_g fuel (size_t_pred level) (k.shr1.shift (-1)) (h / 2 - 1)
        = some SW ∧
      prediction_all f level_g fuel (size_t_pred level) (k.shr1.shift 1) (h / 2 - 1)
        = some SE ∧
      prediction_all f level_g fuel (size_t_pred level) (k.shr1.shift (-1)) (h / 2 + 1)
        = some NW ∧
      prediction_all f level_g fuel (size_t_pred level) (k.shr1.shift 1) (h / 2 + 1)
        = some NE ∧
      assemble f (size_t_add level_g level) k h earth W E S N NE NW SE SW = some out := by
  rw [prediction_all_succ, if_neg hall] at hret
  simp only [Option.bind_eq_some] at hret
  obtain ⟨earth, h1, W, h2, E, h3, S, h4, N, h5, SW, h6, SE, h7, NW, h8, NE, h9, ha⟩ := hret
  exact ⟨earth, W, E, S, N, SW, SE, NW, NE, h1, h2, h3, h4, h5, h6, h7, h8, h9, ha⟩

theorem Interval.nonempty_of_not_all (m : Mesh) (t : MeshType) (level : Nat) (k : Interval)
    (h : Int) (hall : ¬ (m.exists_ t level k h).all id = true) : k.start < k.stop := by
  by_contra hk
  apply hall
  rw [Mesh.all_exists]
  intro i hi
  have : k.size = (k.stop - k.start).toNat := rfl
  omega

theorem prediction_all_length (f : Field) (level_g : Nat) :
    ∀ (fuel level : Nat) (k : Interval) (h : Int) (out : List Val),
      prediction_all f level_g fuel level k h = some out → out.length = k.size := by
  intro fuel
  induction fuel with
  | zero =>
    intro level k h out hret
    simp [prediction_all] at hret
  | succ n ih =>
    intro level k h out hret
    by_cases hall : (f.mesh.exists_ MeshType.cells_and_ghosts (size_t_add level_g level) k h).all
        id = true
    · rw [prediction_all_stored f level_g n level k h hall] at hret
      cases hret
      simp only [Field.at, List.length_map, Interval.length_cells]
    · obtain ⟨earth, W, E, S, N, SW, SE, NW, NE, h1, -, -, -, -, -, -, -, -, ha⟩ :=
        prediction_all_rec_inv f level_g n level k h out hall hret
      have hk := Interval.nonempty_of_not_all _ _ _ _ _ hall
      rw [assemble_eq f _ k h earth W E S N NE NW SE SW hk (ih _ _ _ _ h1)] at ha
      cases ha
      simp only [List.length_map, List.length_range]

theorem parent_index_lt (k : Interval) (i : Nat) (hi : i < k.size) :
    parent_index k i < k.shr1.size := by
  have hsz : k.size = (k.stop - k.start).toNat := rfl
  have hgsz : k.shr1.size = ((k.stop - 1) / 2 + 1 - k.start / 2).toNat := rfl
  rw [hgsz]
  unfold parent_index
  omega

theorem getElem?_eq_some_getD (l : List Val) (j : Nat) (hj : j < l.length) :
    l[j]? = some (l.getD j 0) := by
  simp only [List.getD_eq_getElem?_getD, List.getElem?_eq_getElem hj, Option.getD_some]

theorem value_at_index (k : Interval) (out : List Val) (i : Nat) :
    value_at k out (k.start + (i : Int)) = out[i]? := by
  have h1 : k.start ≤ k.start + (i : Int) := by omega
  have h2 : (k.start + (i : Int) - k.start).toNat = i := by omega
  simp only [value_at, h1, if_true, h2]

theorem m1_delta_y_even (h : Int) : m1_delta_y (2 * h) = 1 := by
  have : (2 * h) % 2 = 0 := by omega
  simp [m1_delta_y, this]

theorem m1_delta_y_odd (h : Int) : m1_delta_y (2 * h + 1) = -1 := by
  have : (2 * h + 1) % 2 = 1 := by omega
  simp [m1_delta_y, this]

theorem val_even_const (m : ℚ) (c : Val) : val_even m c c c c c c c c c = c := by
  simp [val_even]

theorem val_odd_const (m : ℚ) (c : Val) : val_odd m c c c c c c c c c = c := by
  simp [val_odd]

/-- C1: for any nine coarse values, the four values the prediction formula
(lines 184-194) gives to the children `(dx, dy)` of a parent (`dx = 0` is the even
expression, `dx = 1` the odd one, `dy` is the parity of the fine row) have
arithmetic mean exactly the parent value `P`; with a parent of volume `v` and
children of volume `v / 4` the volume-weighted sum is unchanged. -/
theorem prediction_children_mean (h : Int) (v : ℚ) (P W E S N NE NW SE SW : Val) :
    (1 / 4 : ℚ) •
        (val_even (m1_delta_y (2 * h)) P W E S N NE NW SE SW
          + val_odd (m1_delta_y (2 * h)) P W E S N NE NW SE SW
          + val_even (m1_delta_y (2 * h + 1)) P W E S N NE NW SE SW
          + val_odd (m1_delta_y (2 * h + 1)) P W E S N NE NW SE SW) = P
      ∧ (v / 4) • val_even (m1_delta_y (2 * h)) P W E S N NE NW SE SW
          + (v / 4) • val_odd (m1_delta_y (2 * h)) P W E S N NE NW SE SW
          + (v / 4) • val_even (m1_delta_y (2 * h + 1)) P W E S N NE NW SE SW
          + (v / 4) • val_odd (m1_delta_y (2 * h + 1)) P W E S N NE NW SE SW = v • P := by
  rw [m1_delta_y_even, m1_delta_y_odd]
  constructor
  · ext <;> simp [val_even, val_odd] <;> ring
  · ext <;> simp [val_even, val_odd] <;> ring

theorem prediction_all_getElem_stored (f : Field) (level_g fuel level : Nat) (k : Interval)
    (h : Int) (out : List Val) (hret : prediction_all f level_g fuel level k h = some out)
    (i : Nat) (hi : i < k.size)
    (hex : f.mesh.set MeshType.cells_and_ghosts (size_t_add level_g level) (k.start + (i : Int)) h
      = true) :
    out[i]? = some (f.value (size_t_add level_g level) (k.start + (i : Int)) h) := by
  cases fuel with
  | zero => simp [prediction_all] at hret
  | succ n =>
    by_cases hall : (f.mesh.exists_ MeshType.cells_and_ghosts (size_t_add level_g level) k h).all
        id = true
    · rw [prediction_all_stored f level_g n level k h hall] at hret
      cases hret
      simp only [Field.at, List.getElem?_map, Interval.getElem?_cells k i hi, Option.map_some']
    · obtain ⟨earth, W, E, S, N, SW, SE, NW, NE, h1, -, -, -, -, -, -, -, -, ha⟩ :=
        prediction_all_rec_inv f level_g n level k h out hall hret
      have hk := Interval.nonempty_of_not_all _ _ _ _ _ hall
      rw [assemble_eq f _ k h earth W E S N NE NW SE SW hk
        (prediction_all_length f level_g _ _ _ _ _ h1)] at ha
      cases ha
      simp only [List.getElem?_map, List.getElem?_range hi, Option.map_some', hex, if_true]

theorem prediction_all_getElem_predicted (f : Field) (level_g fuel level : Nat) (k : Interval)
    (h : Int) (out : List Val)
    (hret : prediction_all f level_g (fuel + 1) level k h = some out)
    (i : Nat) (hi : i < k.size)
    (hex : f.mesh.set MeshType.cells_and_ghosts (size_t_add level_g level) (k.start + (i : Int)) h
      = false) :
    ∃ earth W E S N SW SE NW NE : List Val,
      prediction_all f level_g fuel (size_t_pred level) k.shr1 (h / 2) = some earth ∧
      prediction_all f level_g fuel (size_t_pred level) (k.shr1.shift (-1)) (h / 2) = some W ∧
      prediction_all f level_g fuel (size_t_pred level) (k.shr1.shift 1) (h / 2) = some E ∧
      prediction_all f level_g fuel (size_t_pred level) k.shr1 (h / 2 - 1) = some S ∧
      prediction_all f level_g fuel (size_t_pred level) k.shr1 (h / 2 + 1) = some N ∧
      prediction_all f level_g fuel (size_t_pred level) (k.shr1.shift (-1)) (h / 2 - 1)
        = some SW ∧
      prediction_all f level_g fuel (size_t_pred level) (k.shr1.shift 1) (h / 2 - 1)
        = some SE ∧
      prediction_all f level_g fuel (size_t_pred level) (k.shr1.shift (-1)) (h / 2 + 1)
        = some NW ∧
      prediction_all f level_g fuel (size_t_pred level) (k.shr1.shift 1) (h / 2 + 1)
        = some NE ∧
      out[i]? = some (
        if (k.start + (i : Int)) % 2 = 0 then
          val_even (m1_delta_y h) (earth.getD (parent_index k i) 0)
            (W.getD (parent_index k i) 0) (E.getD (parent_index k i) 0)
            (S.getD (parent_index k i) 0) (N.getD (parent_index k i) 0)
            (NE.getD (parent_index k i) 0) (NW.getD (parent_index k i) 0)
            (SE.getD (parent_index k i) 0) (SW.getD (parent_index k i) 0)
        else
          val_odd (m1_delta_y h) (earth.getD (parent_index k i) 0)
            (W.getD (parent_index k i) 0) (E.getD (parent_index k i) 0)
            (S.getD (parent_index k i) 0) (N.getD (parent_index k i) 0)
            (NE.getD (parent_index k i) 0) (NW.getD (parent_index k i) 0)
            (SE.getD (parent_index k i) 0) (SW.getD (parent_index k i) 0)) := by
  have hall : ¬ (f.mesh.exists_ MeshType.cells_and_ghosts (size_t_add level_g level) k h).all
      id = true := by
    rw [Mesh.all_exists]
    intro hcon
    rw [hcon i hi] at hex
    exact Bool.noConfusion hex
  obtain ⟨earth, W, E, S, N, SW, SE, NW, NE, h1, h2, h3, h4, h5, h6, h7, h8, h9, ha⟩ :=
    prediction_all_rec_inv f level_g fuel level k h out hall hret
  refine ⟨earth, W, E, S, N, SW, SE, NW, NE, h1, h2, h3, h4, h5, h6, h7, h8, h9, ?_⟩
  have hk := Interval.nonempty_of_not_all _ _ _ _ _ hall
  rw [assemble_eq f _ k h earth W E S N NE NW SE SW hk
    (prediction_all_length f level_g _ _ _ _ _ h1)] at ha
  cases ha
  simp only [List.getElem?_map, List.getElem?_range hi, Option.map_some', hex,
    Bool.false_eq_true, if_false]

theorem mem_subcalls (f : Field) (level_g level : Nat) (k : Interval) (h : Int)
    (hall : ¬ (f.mesh.exists_ MeshType.cells_and_ghosts (size_t_add level_g level) k h).all id
      = true) (dk dh : Int) (hdk : dk = -1 ∨ dk = 0 ∨ dk = 1) (hdh : dh = -1 ∨ dh = 0 ∨ dh = 1) :
    (size_t_pred level, k.shr1.shift dk, h / 2 + dh) ∈ subcalls f level_g (level, k, h) := by
  have h0 : k.shr1.shift 0 = k.shr1 := by simp [Interval.shift]
  have h1 : h / 2 + -1 = h / 2 - 1 := by ring
  simp only [subcalls, hall, if_false]
  rcases hdk with rfl | rfl | rfl <;> rcases hdh with rfl | rfl | rfl <;>
    simp [h0, h1]

theorem size_t_pred_succ (n : Nat) (hn : n + 1 < 2 ^ 64) : size_t_pred (n + 1) = n := by
  unfold size_t_pred
  omega

theorem subcalls_level (f : Field) (level_g : Nat) (c c' : Nat × Interval × Int)
    (hc : c' ∈ subcalls f level_g c) : c'.1 = size_t_pred c.1 := by
  simp only [subcalls] at hc
  split_ifs at hc with hall
  · simp at hc
  · simp only [List.mem_cons, List.mem_singleton, List.not_mem_nil, or_false] at hc
    rcases hc with rfl | rfl | rfl | rfl | rfl | rfl | rfl | rfl | rfl <;> rfl

theorem gap0_exists_subcall (f : Field) (level_g level : Nat) (k : Interval) (h : Int)
    (hpre : gap0_exists f level_g level k h) (c : Nat × Interval × Int)
    (hc : c ∈ subcalls f level_g (level, k, h)) :
    gap0_exists f level_g c.1 c.2.1 c.2.2 := by
  intro n k0 h0 hr
  exact hpre (n + 1) k0 h0 ⟨c, hc, hr⟩

theorem gap0_exists_level_pos (f : Field) (level_g level : Nat) (k : Interval) (h : Int)
    (hpre : gap0_exists f level_g level k h)
    (hall : ¬ (f.mesh.exists_ MeshType.cells_and_ghosts (size_t_add level_g level) k h).all id
      = true) : level ≠ 0 := by
  rintro rfl
  exact hall (hpre 0 k h rfl)

theorem Interval.shift_zero (k : Interval) : k.shift 0 = k := by
  simp [Interval.shift]

/-- Termination of `prediction_all`: when the calls reached with level gap 0 find
their cells, nesting depth `level` (fuel `level + 1`) is enough. -/
theorem prediction_all_total (f : Field) (level_g : Nat) :
    ∀ (level : Nat), level < 2 ^ 64 → ∀ (k : Interval) (h : Int),
      gap0_exists f level_g level k h →
      ∃ out, prediction_all f level_g (level + 1) level k h = some out := by
  intro level
  induction level with
  | zero =>
    intro _ k h hpre
    exact ⟨_, prediction_all_stored f level_g 0 0 k h (hpre 0 k h rfl)⟩
  | succ n ih =>
    intro hlevel k h hpre
    by_cases hall : (f.mesh.exists_ MeshType.cells_and_ghosts (size_t_add level_g (n + 1)) k
        h).all id = true
    · exact ⟨_, prediction_all_stored f level_g (n + 1) (n + 1) k h hall⟩
    · have hn : n < 2 ^ 64 := by omega
      have key : ∀ dk dh : Int, (dk = -1 ∨ dk = 0 ∨ dk = 1) → (dh = -1 ∨ dh = 0 ∨ dh = 1) →
          ∃ out, prediction_all f level_g (n + 1) (size_t_pred (n + 1)) (k.shr1.shift dk)
            (h / 2 + dh) = some out := by
        intro dk dh hdk hdh
        have hmem := mem_subcalls f level_g (n + 1) k h hall dk dh hdk hdh
        have hsub := gap0_exists_subcall f level_g (n + 1) k h hpre _ hmem
        simp only [size_t_pred_succ n hlevel] at hsub ⊢
        exact ih hn _ _ hsub
      obtain ⟨earth, h1⟩ := key 0 0 (by simp) (by simp)
      obtain ⟨W, h2⟩ := key (-1) 0 (by simp) (by simp)
      obtain ⟨E, h3⟩ := key 1 0 (by simp) (by simp)
      obtain ⟨S, h4⟩ := key 0 (-1) (by simp) (by simp)
      obtain ⟨N, h5⟩ := key 0 1 (by simp) (by simp)
      obtain ⟨SW, h6⟩ := key (-1) (-1) (by simp) (by simp)
      obtain ⟨SE, h7⟩ := key 1 (-1) (by simp) (by simp)
      obtain ⟨NW, h8⟩ := key (-1) 1 (by simp) (by simp)
      obtain ⟨NE, h9⟩ := key 1 1 (by simp) (by simp)
      simp only [Interval.shift_zero, add_zero, ← sub_eq_add_neg] at h1 h2 h3 h4 h5 h6 h7 h8 h9
      rw [prediction_all_rec f level_g (n + 1) (n + 1) k h hall earth W E S N SW SE NW NE
        h1 h2 h3 h4 h5 h6 h7 h8 h9]
      have hk := Interval.nonempty_of_not_all _ _ _ _ _ hall
      rw [assemble_eq f _ k h earth W E S N NE NW SE SW hk
        (prediction_all_length f level_g _ _ _ _ _ h1)]
      exact ⟨_, rfl⟩

/-- Values do not depend on the fuel: more fuel gives the same result. -/
theorem prediction_all_mono (f : Field) (level_g : Nat) :
    ∀ (fuel level : Nat) (k : Interval) (h : Int) (out : List Val),
      prediction_all f level_g fuel level k h = some out →
      prediction_all f level_g (fuel + 1) level k h = some out := by
  intro fuel
  induction fuel with
  | zero =>
    intro level k h out hret
    simp [prediction_all] at hret
  | succ n ih =>
    intro level k h out hret
    by_cases hall : (f.mesh.exists_ MeshType.cells_and_ghosts (size_t_add level_g level) k
        h).all id = true
    · rw [prediction_all_stored f level_g n level k h hall] at hret
      rw [prediction_all_stored f level_g (n + 1) level k h hall, hret]
    · obtain ⟨earth, W, E, S, N, SW, SE, NW, NE, h1, h2, h3, h4, h5, h6, h7, h8, h9, ha⟩ :=
        prediction_all_rec_inv f level_g n level k h out hall hret
      rw [prediction_all_rec f level_g (n + 1) level k h hall earth W E S N SW SE NW NE
        (ih _ _ _ _ h1) (ih _ _ _ _ h2) (ih _ _ _ _ h3) (ih _ _ _ _ h4) (ih _ _ _ _ h5)
        (ih _ _ _ _ h6) (ih _ _ _ _ h7) (ih _ _ _ _ h8) (ih _ _ _ _ h9), ha]

theorem stored_reached_eq_subcall (f : Field) (level_g level : Nat) (k : Interval) (h : Int)
    (c : Val) (hc : stored_reached_eq f level_g level k h c) (c1 : Nat × Interval × Int)
    (hmem : c1 ∈ subcalls f level_g (level, k, h)) :
    stored_reached_eq f level_g c1.1 c1.2.1 c1.2.2 c := by
  intro n lvl k0 h0 hr
  exact hc (n + 1) lvl k0 h0 ⟨c1, hmem, hr⟩

theorem getD_replicate_lt (n j : Nat) (c : Val) (hj : j < n) :
    (List.replicate n c).getD j 0 = c := by
  simp [List.getD_eq_getElem?_getD, List.getElem?_replicate, hj]

theorem map_range_const (n : Nat) (c : Val) (g : Nat → Val) (hg : ∀ i, i < n → g i = c) :
    (List.range n).map g = List.replicate n c := by
  rw [List.eq_replicate_iff]
  refine ⟨by simp, ?_⟩
  intro b hb
  rw [List.mem_map] at hb
  obtain ⟨i, hi, rfl⟩ := hb
  exact hg i (List.mem_range.1 hi)

theorem prediction_all_const_core (f : Field) (level_g : Nat) (c : Val) :
    ∀ (fuel level : Nat) (k : Interval) (h : Int) (out : List Val),
      stored_reached_eq f level_g level k h c →
      prediction_all f level_g fuel level k h = some out → out = List.replicate k.size c := by
  intro fuel
  induction fuel with
  | zero =>
    intro level k h out _ hret
    simp [prediction_all] at hret
  | succ n ih =>
    intro level k h out hc hret
    have hsz : k.size = (k.stop - k.start).toNat := rfl
    have hstored : ∀ i : Nat, i < k.size →
        f.mesh.set MeshType.cells_and_ghosts (size_t_add level_g level) (k.start + (i : Int)) h
          = true →
        f.value (size_t_add level_g level) (k.start + (i : Int)) h = c := by
      intro i hi hex
      exact hc 0 level k h rfl _ (by omega) (by omega) hex
    by_cases hall : (f.mesh.exists_ MeshType.cells_and_ghosts (size_t_add level_g level) k
        h).all id = true
    · rw [prediction_all_stored f level_g n level k h hall] at hret
      cases hret
      rw [Mesh.all_exists] at hall
      simp only [Field.at, Interval.cells, List.map_map]
      exact map_range_const _ _ _ fun i hi => hstored i hi (hall i hi)
    · obtain ⟨earth, W, E, S, N, SW, SE, NW, NE, h1, h2, h3, h4, h5, h6, h7, h8, h9, ha⟩ :=
        prediction_all_rec_inv f level_g n level k h out hall hret
      have hk := Interval.nonempty_of_not_all _ _ _ _ _ hall
      rw [assemble_eq f _ k h earth W E S N NE NW SE SW hk
        (prediction_all_length f level_g _ _ _ _ _ h1)] at ha
      cases ha
      have key : ∀ (dk dh : Int) (r : List Val), (dk = -1 ∨ dk = 0 ∨ dk = 1) →
          (dh = -1 ∨ dh = 0 ∨ dh = 1) →
          prediction_all f level_g n (size_t_pred level) (k.shr1.shift dk) (h / 2 + dh) = some r →
          r = List.replicate k.shr1.size c := by
        intro dk dh r hdk hdh hr
        have hmem := mem_subcalls f level_g level k h hall dk dh hdk hdh
        have := ih _ _ _ r (stored_reached_eq_subcall f level_g level k h c hc _ hmem) hr
        rw [this, Interval.size_shift]
      have e1 := key 0 0 earth (by simp) (by simp) (by simpa [Interval.shift_zero] using h1)
      have e2 := key (-1) 0 W (by simp) (by simp) (by simpa using h2)
      have e3 := key 1 0 E (by simp) (by simp) (by simpa using h3)
      have e4 := key 0 (-1) S (by simp) (by simp)
        (by simpa [Interval.shift_zero, ← sub_eq_add_neg] using h4)
      have e5 := key 0 1 N (by simp) (by simp) (by simpa [Interval.shift_zero] using h5)
      have e6 := key (-1) (-1) SW (by simp) (by simp) (by simpa [← sub_eq_add_neg] using h6)
      have e7 := key 1 (-1) SE (by simp) (by simp) (by simpa [← sub_eq_add_neg] using h7)
      have e8 := key (-1) 1 NW (by simp) (by simp) (by simpa using h8)
      have e9 := key 1 1 NE (by simp) (by simp) (by simpa using h9)
      subst e1 e2 e3 e4 e5 e6 e7 e8 e9
      apply map_range_const
      intro i hi
      have hj := parent_index_lt k i hi
      simp only [getD_replicate_lt _ _ c hj, val_even_const, val_odd_const, ite_self]
      split_ifs with hex
      · exact hstored i hi hex
      · rfl

theorem value_at_shift (kg : Interval) (r : List Val) (d kc : Int) (hkc : kg.start ≤ kc)
    (hlen : r.length = kg.size) (hlt : (kc - kg.start).toNat < kg.size) :
    value_at (kg.shift d) r (kc + d) = some (r.getD (kc - kg.start).toNat 0) := by
  have h1 : (kg.shift d).start ≤ kc + d := by
    simp only [Interval.shift]
    omega
  have h2 : (kc + d - (kg.shift d).start).toNat = (kc - kg.start).toNat := by
    simp only [Interval.shift]
    congr 1
    omega
  simp only [value_at, h1, if_true, h2]
  exact getElem?_eq_some_getD r _ (by omega)

theorem formula_cases (dx dy : Nat) (hdx : dx < 2) (hdy : dy < 2) (kc hc : Int)
    (P W E S N NE NW SE SW : Val) :
    (if (2 * kc + (dx : Int)) % 2 = 0 then
        val_even (m1_delta_y (2 * hc + (dy : Int))) P W E S N NE NW SE SW
      else val_odd (m1_delta_y (2 * hc + (dy : Int))) P W E S N NE NW SE SW) =
      P + ((-1 : ℚ) ^ dx / 8) • (W - E) + ((-1 : ℚ) ^ dy / 8) • (S - N)
        - ((-1 : ℚ) ^ (dx + dy) / 64) • (NE - NW - SE + SW) := by
  have hdx' : dx = 0 ∨ dx = 1 := by omega
  have hdy' : dy = 0 ∨ dy = 1 := by omega
  have e0 : (2 * kc + ((0 : Nat) : Int)) % 2 = 0 := by omega
  have e1 : ¬ (2 * kc + ((1 : Nat) : Int)) % 2 = 0 := by omega
  have m0 : m1_delta_y (2 * hc + ((0 : Nat) : Int)) = 1 := by
    simpa using m1_delta_y_even hc
  have m1 : m1_delta_y (2 * hc + ((1 : Nat) : Int)) = -1 := by
    simpa using m1_delta_y_odd hc
  rcases hdx' with rfl | rfl <;> rcases hdy' with rfl | rfl
  · rw [if_pos e0, m0]
    ext <;> simp [val_even]
  · rw [if_pos e0, m1]
    ext <;> simp [val_even] <;> ring
  · rw [if_neg e1, m0]
    ext <;> simp [val_odd] <;> ring
  · rw [if_neg e1, m1]
    ext <;> simp [val_odd] <;> ring

/-- C3: for a fine cell `(2 kc + dx, 2 hc + dy)`, `dx, dy` in `{0, 1}`, of the
requested interval that is not stored at the target level, every returning call
of `prediction_all` gives it
`P + (-1)^dx / 8 (W - E) + (-1)^dy / 8 (S - N) - (-1)^(dx+dy) / 64 (NE - NW - SE + SW)`
where `P, W, E, S, N, NE, NW, SE, SW` are the values returned by the nine recursive
calls (one level coarser) at `(kc, hc)`, `(kc-1, hc)`, `(kc+1, hc)`, `(kc, hc-1)`,
`(kc, hc+1)`, `(kc+1, hc+1)`, `(kc-1, hc+1)`, `(kc+1, hc-1)`, `(kc-1, hc-1)`; and the
call does return when the calls reached at level gap 0 find their cells. -/
theorem prediction_all_formula (f : Field) (level_g level : Nat) (k : Interval)
    (kc hc : Int) (dx dy : Nat) (hdx : dx < 2) (hdy : dy < 2)
    (hin : k.start ≤ 2 * kc + (dx : Int) ∧ 2 * kc + (dx : Int) < k.stop)
    (hnot : f.mesh.set MeshType.cells_and_ghosts (size_t_add level_g level)
      (2 * kc + (dx : Int)) (2 * hc + (dy : Int)) = false) :
    (∀ (fuel : Nat) (out : List Val),
      prediction_all f level_g (fuel + 1) level k (2 * hc + (dy : Int)) = some out →
      ∃ P W E S N NE NW SE SW : Val,
        coarse_value f level_g fuel (size_t_pred level) k.shr1 kc hc = some P ∧
        coarse_value f level_g fuel (size_t_pred level) (k.shr1.shift (-1)) (kc - 1) hc
          = some W ∧
        coarse_value f level_g fuel (size_t_pred level) (k.shr1.shift 1) (kc + 1) hc
          = some E ∧
        coarse_value f level_g fuel (size_t_pred level) k.shr1 kc (hc - 1) = some S ∧
        coarse_value f level_g fuel (size_t_pred level) k.shr1 kc (hc + 1) = some N ∧
        coarse_value f level_g fuel (size_t_pred level) (k.shr1.shift 1) (kc + 1) (hc + 1)
          = some NE ∧
        coarse_value f level_g fuel (size_t_pred level) (k.shr1.shift (-1)) (kc - 1) (hc + 1)
          = some NW ∧
        coarse_value f level_g fuel (size_t_pred level) (k.shr1.shift 1) (kc + 1) (hc - 1)
          = some SE ∧
        coarse_value f level_g fuel (size_t_pred level) (k.shr1.shift (-1)) (kc - 1) (hc - 1)
          = some SW ∧
        value_at k out (2 * kc + (dx : Int)) =
          some (P + ((-1 : ℚ) ^ dx / 8) • (W - E) + ((-1 : ℚ) ^ dy / 8) • (S - N)
            - ((-1 : ℚ) ^ (dx + dy) / 64) • (NE - NW - SE + SW)))
    ∧ (level < 2 ^ 64 → gap0_exists f level_g level k (2 * hc + (dy : Int)) →
        ∃ out, prediction_all f level_g (level + 1) level k (2 * hc + (dy : Int)) = some out) := by
  refine ⟨?_, fun hl hpre => prediction_all_total f level_g level hl k _ hpre⟩
  intro fuel out hret
  obtain ⟨hin1, hin2⟩ := hin
  have hsz : k.size = (k.stop - k.start).toNat := rfl
  have hgsz : k.shr1.size = ((k.stop - 1) / 2 + 1 - k.start / 2).toNat := rfl
  have hgst : k.shr1.start = k.start / 2 := rfl
  obtain ⟨i, hi⟩ : ∃ i : Nat, (i : Int) = 2 * kc + (dx : Int) - k.start :=
    ⟨(2 * kc + (dx : Int) - k.start).toNat, by omega⟩
  have hx : k.start + (i : Int) = 2 * kc + (dx : Int) := by omega
  have hik : i < k.size := by omega
  have hh : (2 * hc + (dy : Int)) / 2 = hc := by omega
  rw [← hx] at hnot
  obtain ⟨earth, W, E, S, N, SW, SE, NW, NE, h1, h2, h3, h4, h5, h6, h7, h8, h9, hv⟩ :=
    prediction_all_getElem_predicted f level_g fuel level k _ out hret i hik hnot
  rw [hh] at h1 h2 h3 h4 h5 h6 h7 h8 h9
  have hj : parent_index k i = (kc - k.shr1.start).toNat := by
    unfold parent_index
    rw [hgst]
    congr 1
    omega
  have hjlt : (kc - k.shr1.start).toNat < k.shr1.size := by
    rw [← hj]
    exact parent_index_lt k i hik
  have hkc : k.shr1.start ≤ kc := by
    rw [hgst]
    omega
  have l1 := prediction_all_length f level_g _ _ _ _ _ h1
  have l2 := prediction_all_length f level_g _ _ _ _ _ h2
  have l3 := prediction_all_length f level_g _ _ _ _ _ h3
  have l4 := prediction_all_length f level_g _ _ _ _ _ h4
  have l5 := prediction_all_length f level_g _ _ _ _ _ h5
  have l6 := prediction_all_length f level_g _ _ _ _ _ h6
  have l7 := prediction_all_length f level_g _ _ _ _ _ h7
  have l8 := prediction_all_length f level_g _ _ _ _ _ h8
  have l9 := prediction_all_length f level_g _ _ _ _ _ h9
  rw [Interval.size_shift] at l2 l3 l6 l7 l8 l9
  have v0 : ∀ r : List Val, r.length = k.shr1.size →
      value_at k.shr1 r kc = some (r.getD (kc - k.shr1.start).toNat 0) := by
    intro r hr
    have := value_at_shift k.shr1 r 0 kc hkc hr hjlt
    simpa [Interval.shift_zero] using this
  have vm : ∀ r : List Val, r.length = k.shr1.size →
      value_at (k.shr1.shift (-1)) r (kc - 1) = some (r.getD (kc - k.shr1.start).toNat 0) := by
    intro r hr
    have := value_at_shift k.shr1 r (-1) kc hkc hr hjlt
    simpa [← sub_eq_add_neg] using this
  have vp : ∀ r : List Val, r.length = k.shr1.size →
      value_at (k.shr1.shift 1) r (kc + 1) = some (r.getD (kc - k.shr1.start).toNat 0) :=
    fun r hr => value_at_shift k.shr1 r 1 kc hkc hr hjlt
  refine ⟨earth.getD (kc - k.shr1.start).toNat 0, W.getD (kc - k.shr1.start).toNat 0,
    E.getD (kc - k.shr1.start).toNat 0, S.getD (kc - k.shr1.start).toNat 0,
    N.getD (kc - k.shr1.start).toNat 0, NE.getD (kc - k.shr1.start).toNat 0,
    NW.getD (kc - k.shr1.start).toNat 0, SE.getD (kc - k.shr1.start).toNat 0,
    SW.getD (kc - k.shr1.start).toNat 0, ?_, ?_, ?_, ?_, ?_, ?_, ?_, ?_, ?_, ?_⟩
  · simp only [coarse_value, h1, Option.some_bind, v0 earth l1]
  · simp only [coarse_value, h2, Option.some_bind, vm W l2]
  · simp only [coarse_value, h3, Option.some_bind, vp E l3]
  · simp only [coarse_value, h4, Option.some_bind, v0 S l4]
  · simp only [coarse_value, h5, Option.some_bind, v0 N l5]
  · simp only [coarse_value, h9, Option.some_bind, vp NE l9]
  · simp only [coarse_value, h8, Option.some_bind, vm NW l8]
  · simp only [coarse_value, h7, Option.some_bind, vp SE l7]
  · simp only [coarse_value, h6, Option.some_bind, vm SW l6]
  · rw [← hx, value_at_index, hv, hj, hx, formula_cases dx dy hdx hdy]

theorem sample_gap0 (value : Nat → Int → Int → Val) (level : Nat) (k : Interval) (h : Int) :
    gap0_exists ⟨sample_mesh, value⟩ 0 level k h := by
  intro n k0 h0 _
  rw [Mesh.all_exists]
  intro i _
  rfl

/-- Witness of `prediction_all_formula`: on `sample_field` the cell `(1, 0)` of level 1
is not stored, the call on `[0, 2)` returns, and the value is given by the formula. -/
theorem prediction_all_formula_witness :
    ((1 : Nat) < 2 ∧ (0 : Nat) < 2)
    ∧ ((⟨0, 2⟩ : Interval).start ≤ 2 * 0 + ((1 : Nat) : Int)
        ∧ 2 * 0 + ((1 : Nat) : Int) < (⟨0, 2⟩ : Interval).stop)
    ∧ sample_field.mesh.set MeshType.cells_and_ghosts (size_t_add 0 1)
        (2 * 0 + ((1 : Nat) : Int)) (2 * 0 + ((0 : Nat) : Int)) = false
    ∧ ∃ out, prediction_all sample_field 0 (1 + 1) 1 ⟨0, 2⟩ (2 * 0 + ((0 : Nat) : Int)) = some out
      ∧ ∃ P W E S N NE NW SE SW : Val,
        coarse_value sample_field 0 1 (size_t_pred 1) (⟨0, 2⟩ : Interval).shr1 0 0 = some P ∧
        coarse_value sample_field 0 1 (size_t_pred 1) ((⟨0, 2⟩ : Interval).shr1.shift (-1))
          (0 - 1) 0 = some W ∧
        coarse_value sample_field 0 1 (size_t_pred 1) ((⟨0, 2⟩ : Interval).shr1.shift 1)
          (0 + 1) 0 = some E ∧
        coarse_value sample_field 0 1 (size_t_pred 1) (⟨0, 2⟩ : Interval).shr1 0 (0 - 1)
          = some S ∧
        coarse_value sample_field 0 1 (size_t_pred 1) (⟨0, 2⟩ : Interval).shr1 0 (0 + 1)
          = some N ∧
        coarse_value sample_field 0 1 (size_t_pred 1) ((⟨0, 2⟩ : Interval).shr1.shift 1)
          (0 + 1) (0 + 1) = some NE ∧
        coarse_value sample_field 0 1 (size_t_pred 1) ((⟨0, 2⟩ : Interval).shr1.shift (-1))
          (0 - 1) (0 + 1) = some NW ∧
        coarse_value sample_field 0 1 (size_t_pred 1) ((⟨0, 2⟩ : Interval).shr1.shift 1)
          (0 + 1) (0 - 1) = some SE ∧
        coarse_value sample_field 0 1 (size_t_pred 1) ((⟨0, 2⟩ : Interval).shr1.shift (-1))
          (0 - 1) (0 - 1) = some SW ∧
        value_at ⟨0, 2⟩ out (2 * 0 + ((1 : Nat) : Int)) =
          some (P + ((-1 : ℚ) ^ 1 / 8) • (W - E) + ((-1 : ℚ) ^ 0 / 8) • (S - N)
            - ((-1 : ℚ) ^ (1 + 0) / 64) • (NE - NW - SE + SW)) := by
  have hT := prediction_all_formula sample_field 0 1 ⟨0, 2⟩ 0 0 1 0 (by decide) (by decide)
    (by decide) rfl
  obtain ⟨out, hout⟩ := hT.2 (by norm_num) (sample_gap0 _ 1 ⟨0, 2⟩ _)
  exact ⟨by decide, by decide, rfl, out, hout, hT.1 1 out hout⟩

/-- C4: every cell of the requested interval that exists as a leaf or ghost at the
target level `level_g + level` gets its stored value in the result of
`prediction_all`, on the early return (the whole interval exists, the result is
the stored rows) and on the mixed path alike; and the call does return when the
calls reached at level gap 0 find their cells. -/
theorem prediction_all_keeps_stored (f : Field) (level_g level : Nat) (k : Interval)
    (h x : Int) (hin : k.start ≤ x ∧ x < k.stop)
    (hex : f.mesh.set MeshType.cells_and_ghosts (size_t_add level_g level) x h = true) :
    (∀ (fuel : Nat) (out : List Val), prediction_all f level_g fuel level k h = some out →
      value_at k out x = some (f.value (size_t_add level_g level) x h))
    ∧ ((f.mesh.exists_ MeshType.cells_and_ghosts (size_t_add level_g level) k h).all id = true →
        ∀ fuel : Nat, prediction_all f level_g (fuel + 1) level k h =
          some (f.at (size_t_add level_g level) k h))
    ∧ (level < 2 ^ 64 → gap0_exists f level_g level k h →
        ∃ out, prediction_all f level_g (level + 1) level k h = some out) := by
  refine ⟨?_, fun hall fuel => prediction_all_stored f level_g fuel level k h hall,
    fun hl hpre => prediction_all_total f level_g level hl k _ hpre⟩
  intro fuel out hret
  have hsz : k.size = (k.stop - k.start).toNat := rfl
  obtain ⟨i, hi⟩ : ∃ i : Nat, (i : Int) = x - k.start := ⟨(x - k.start).toNat, by omega⟩
  have hx : k.start + (i : Int) = x := by omega
  subst hx
  rw [value_at_index]
  exact prediction_all_getElem_stored f level_g fuel level k h out hret i (by omega) hex

/-- Witness of `prediction_all_keeps_stored`: on `sample_field` the interval `[0, 2)`
of level 1 is mixed (cell 0 is stored, cell 1 is not); the call returns and the
row of cell 0 is the stored `(7, 9)`. -/
theorem prediction_all_keeps_stored_witness :
    ((⟨0, 2⟩ : Interval).start ≤ 0 ∧ (0 : Int) < (⟨0, 2⟩ : Interval).stop)
    ∧ sample_field.mesh.set MeshType.cells_and_ghosts (size_t_add 0 1) 0 0 = true
    ∧ sample_field.mesh.set MeshType.cells_and_ghosts (size_t_add 0 1) 1 0 = false
    ∧ ∃ out, prediction_all sample_field 0 (1 + 1) 1 ⟨0, 2⟩ 0 = some out
      ∧ value_at ⟨0, 2⟩ out 0 = some (7, 9) := by
  have hT := prediction_all_keeps_stored sample_field 0 1 ⟨0, 2⟩ 0 0 (by decide) rfl
  obtain ⟨out, hout⟩ := hT.2.2 (by norm_num) (sample_gap0 _ 1 ⟨0, 2⟩ 0)
  exact ⟨by decide, rfl, rfl, out, hout, hT.1 _ out hout⟩

/-- C2: if every stored leaf or ghost value read by the calls reached from
`prediction_all(f, level_g, level, k, h)` equals `c`, then every returning call
returns `c` at every requested position, for every level gap `level` (so the
detail `c - prediction` is exactly 0); and the call does return when the calls
reached at level gap 0 find their cells. -/
theorem prediction_all_constant (f : Field) (level_g level : Nat) (k : Interval) (h : Int)
    (c : Val) (hc : stored_reached_eq f level_g level k h c) :
    (∀ (fuel : Nat) (out : List Val), prediction_all f level_g fuel level k h = some out →
      out = List.replicate k.size c ∧
      ∀ x : Int, k.start ≤ x → x < k.stop →
        value_at k out x = some c ∧ value_at k (out.map fun v => c - v) x = some 0)
    ∧ (level < 2 ^ 64 → gap0_exists f level_g level k h →
        prediction_all f level_g (level + 1) level k h = some (List.replicate k.size c)) := by
  have hsz : k.size = (k.stop - k.start).toNat := rfl
  constructor
  · intro fuel out hret
    have hout := prediction_all_const_core f level_g c fuel level k h out hc hret
    refine ⟨hout, ?_⟩
    intro x hx1 hx2
    subst hout
    have hlt : (x - k.start).toNat < k.size := by omega
    simp [value_at, hx1, List.getElem?_replicate, hlt]
  · intro hl hpre
    obtain ⟨out, hout⟩ := prediction_all_total f level_g level hl k h hpre
    rw [hout, prediction_all_const_core f level_g c _ level k h out hc hout]

/-- Witness of `prediction_all_constant`: the uniform field `1.0`, level gap 1. -/
theorem prediction_all_constant_witness :
    stored_reached_eq uniform_field 0 1 ⟨0, 2⟩ 0 (1, 1)
    ∧ uniform_field.mesh.set MeshType.cells_and_ghosts (size_t_add 0 1) 1 0 = false
    ∧ prediction_all uniform_field 0 (1 + 1) 1 ⟨0, 2⟩ 0
        = some (List.replicate (⟨0, 2⟩ : Interval).size (1, 1)) := by
  have hc : stored_reached_eq uniform_field 0 1 ⟨0, 2⟩ 0 (1, 1) := by
    intro n lvl k0 h0 _ x _ _ _
    rfl
  exact ⟨hc, rfl, (prediction_all_constant uniform_field 0 1 ⟨0, 2⟩ 0 (1, 1) hc).2
    (by norm_num) (sample_gap0 _ 1 ⟨0, 2⟩ 0)⟩

theorem reachedIn_depth (f : Field) (level_g : Nat) :
    ∀ (n level : Nat) (k : Interval) (h : Int), level < 2 ^ 64 →
      gap0_exists f level_g level k h →
      ∀ c : Nat × Interval × Int, ReachedIn f level_g n (level, k, h) c →
        c.1 + n = level ∧ gap0_exists f level_g c.1 c.2.1 c.2.2 := by
  intro n
  induction n with
  | zero =>
    intro level k h _ hpre c hr
    cases hr
    exact ⟨rfl, hpre⟩
  | succ m ih =>
    intro level k h hl hpre c hr
    obtain ⟨c1, hmem, hr1⟩ := hr
    have hall : ¬ (f.mesh.exists_ MeshType.cells_and_ghosts (size_t_add level_g level) k h).all
        id = true := by
      intro hall
      simp [subcalls, hall] at hmem
    have hpos := gap0_exists_level_pos f level_g level k h hpre hall
    obtain ⟨l, rfl⟩ : ∃ l, level = l + 1 := ⟨level - 1, by omega⟩
    have hlev : c1.1 = l := by
      rw [subcalls_level f level_g _ c1 hmem]
      exact size_t_pred_succ l hl
    have hpre1 := gap0_exists_subcall f level_g (l + 1) k h hpre c1 hmem
    have := ih c1.1 c1.2.1 c1.2.2 (by omega) hpre1 c hr1
    exact ⟨by omega, this.2⟩

/-- C5: when every call reached at level gap 0 finds all its cells as leaves or
ghosts, `prediction_all(f, level_g, level, k, h)` returns with nesting depth at
most `level` (fuel `level + 1`), every call reached at depth `n` has
`n <= level` and level argument `level - n`, and no reached call that recurses
(so evaluates the unsigned `level - 1`) has level argument 0. -/
theorem prediction_all_terminates (f : Field) (level_g level : Nat) (k : Interval) (h : Int)
    (hlevel : level < 2 ^ 64) (hpre : gap0_exists f level_g level k h) :
    (∃ out, prediction_all f level_g (level + 1) level k h = some out)
    ∧ ∀ (n : Nat) (c : Nat × Interval × Int), ReachedIn f level_g n (level, k, h) c →
        n ≤ level ∧ c.1 = level - n ∧ (subcalls f level_g c ≠ [] → c.1 ≠ 0) := by
  refine ⟨prediction_all_total f level_g level hlevel k h hpre, ?_⟩
  intro n c hr
  obtain ⟨h1, h2⟩ := reachedIn_depth f level_g n level k h hlevel hpre c hr
  refine ⟨by omega, by omega, ?_⟩
  intro hsub h0
  apply hsub
  obtain ⟨l, k0, h0'⟩ := c
  simp only at h0
  subst h0
  have hall := h2 0 k0 h0' rfl
  simp only [subcalls]
  rw [if_pos hall]

/-- Witness of `prediction_all_terminates`: level gap 1 on `sample_field`, where the
requested interval is not entirely stored, so the call does recurse. -/
theorem prediction_all_terminates_witness :
    (1 : Nat) < 2 ^ 64 ∧ gap0_exists sample_field 0 1 ⟨0, 2⟩ 0
    ∧ subcalls sample_field 0 (1, ⟨0, 2⟩, 0) ≠ []
    ∧ (∃ out, prediction_all sample_field 0 (1 + 1) 1 ⟨0, 2⟩ 0 = some out)
    ∧ ∀ (n : Nat) (c : Nat × Interval × Int), ReachedIn sample_field 0 n (1, ⟨0, 2⟩, 0) c →
        n ≤ 1 ∧ c.1 = 1 - n ∧ (subcalls sample_field 0 c ≠ [] → c.1 ≠ 0) :=
  ⟨by norm_num, sample_gap0 _ 1 ⟨0, 2⟩ 0, by decide,
    prediction_all_terminates sample_field 0 1 ⟨0, 2⟩ 0 (by norm_num) (sample_gap0 _ 1 ⟨0, 2⟩ 0)⟩

/-! ## Lemmas on the boundary regions -/

theorem size_t_of_int_neg_one : size_t_of_int (-1) = 18446744073709551615 := by
  simp [size_t_of_int]

theorem size_t_of_int_zero : size_t_of_int 0 = 0 := by
  simp [size_t_of_int]

theorem size_t_of_int_one : size_t_of_int 1 = 1 := by
  simp [size_t_of_int]

theorem size_t_scale_pos (c : Nat) (hc : c < 2 ^ 31) (a b : Int)
    (ha : a = -1 ∨ a = 0 ∨ a = 1) (hb : b = -1 ∨ b = 0 ∨ b = 1) :
    size_t_scale c (a, b) = ((c : Int) * a, (c : Int) * b) := by
  have key : ∀ z : Int, (z = -1 ∨ z = 0 ∨ z = 1) →
      int_of_size_t (size_t_mul c (size_t_of_int z)) = (c : Int) * z := by
    intro z hz
    rcases hz with rfl | rfl | rfl
    · simp only [size_t_of_int_neg_one, int_of_size_t, size_t_mul]
      split_ifs <;> omega
    · simp only [size_t_of_int_zero, int_of_size_t, size_t_mul]
      split_ifs <;> omega
    · simp only [size_t_of_int_one, int_of_size_t, size_t_mul]
      split_ifs <;> omega
  simp only [size_t_scale, key a ha, key b hb]

theorem size_t_scale_neg (c : Nat) (hc0 : 0 < c) (hc : c < 2 ^ 31) (a b : Int)
    (ha : a = -1 ∨ a = 0 ∨ a = 1) (hb : b = -1 ∨ b = 0 ∨ b = 1) :
    size_t_scale (size_t_neg c) (a, b) = (-(c : Int) * a, -(c : Int) * b) := by
  have key : ∀ z : Int, (z = -1 ∨ z = 0 ∨ z = 1) →
      int_of_size_t (size_t_mul (size_t_neg c) (size_t_of_int z)) = -(c : Int) * z := by
    intro z hz
    rcases hz with rfl | rfl | rfl
    · simp only [size_t_of_int_neg_one, int_of_size_t, size_t_mul, size_t_neg]
      split_ifs <;> omega
    · simp only [size_t_of_int_zero, int_of_size_t, size_t_mul, size_t_neg]
      split_ifs <;> omega
    · simp only [size_t_of_int_one, int_of_size_t, size_t_mul, size_t_neg]
      split_ifs <;> omega
  simp only [size_t_scale, key a ha, key b hb]

theorem square_apply (N x y : Int) :
    square N x y = true ↔ 0 ≤ x ∧ x < N ∧ 0 ≤ y ∧ y < N := by
  simp [square]

theorem east_expr_iff (c : Nat) (hc0 : 0 < c) (hc : c < 2 ^ 31) (N : Int) (M : CellSet)
    (hN : 2 * (c : Int) ≤ N) (x y : Int) :
    east_expr c (square N) M x y = true ↔
      M x y = true ∧ N - c ≤ x ∧ x < N ∧ (c : Int) ≤ y ∧ y < N - c := by
  have e1 := size_t_scale_pos c hc 1 0 (by simp) (by simp)
  have e2 := size_t_scale_pos c hc 0 1 (by simp) (by simp)
  have e3 := size_t_scale_neg c hc0 hc 1 0 (by simp) (by simp)
  have e4 := size_t_scale_neg c hc0 hc 0 1 (by simp) (by simp)
  simp only [east_expr, xp, yp, e1, e2, e3, e4, intersection, difference, translate,
    Bool.and_eq_true, Bool.not_eq_true', ← Bool.not_eq_true, square_apply]
  constructor
  · rintro ⟨⟨⟨⟨h1, h2⟩, h3⟩, h4⟩, h5⟩
    refine ⟨h5, ?_⟩
    omega
  · rintro ⟨h5, h6⟩
    refine ⟨⟨⟨⟨?_, ?_⟩, ?_⟩, ?_⟩, h5⟩ <;> omega

theorem north_expr_iff (c : Nat) (hc0 : 0 < c) (hc : c < 2 ^ 31) (N : Int) (M : CellSet)
    (hN : 2 * (c : Int) ≤ N) (x y : Int) :
    north_expr c (square N) M x y = true ↔
      M x y = true ∧ (c : Int) ≤ x ∧ x < N - c ∧ N - c ≤ y ∧ y < N := by
  have e1 := size_t_scale_pos c hc 1 0 (by simp) (by simp)
  have e3 := size_t_scale_neg c hc0 hc 1 0 (by simp) (by simp)
  have e4 := size_t_scale_neg c hc0 hc 0 1 (by simp) (by simp)
  simp only [north_expr, xp, yp, e1, e3, e4, intersection, difference, translate,
    Bool.and_eq_true, Bool.not_eq_true', ← Bool.not_eq_true, square_apply]
  constructor
  · rintro ⟨⟨⟨⟨h1, h2⟩, h3⟩, h4⟩, h5⟩
    refine ⟨h5, ?_⟩
    omega
  · rintro ⟨h5, h6⟩
    refine ⟨⟨⟨⟨?_, ?_⟩, ?_⟩, ?_⟩, h5⟩ <;> omega

theorem west_expr_iff (c : Nat) (hc0 : 0 < c) (hc : c < 2 ^ 31) (N : Int) (M : CellSet)
    (hN : 2 * (c : Int) ≤ N) (x y : Int) :
    west_expr c (square N) M x y = true ↔
      M x y = true ∧ 0 ≤ x ∧ x < (c : Int) ∧ (c : Int) ≤ y ∧ y < N - c := by
  have e1 := size_t_scale_pos c hc 1 0 (by simp) (by simp)
  have e2 := size_t_scale_pos c hc 0 1 (by simp) (by simp)
  have e4 := size_t_scale_neg c hc0 hc 0 1 (by simp) (by simp)
  simp only [west_expr, xp, yp, e1, e2, e4, intersection, difference, translate,
    Bool.and_eq_true, Bool.not_eq_true', ← Bool.not_eq_true, square_apply]
  constructor
  · rintro ⟨⟨⟨⟨h1, h2⟩, h3⟩, h4⟩, h5⟩
    refine ⟨h5, ?_⟩
    omega
  · rintro ⟨h5, h6⟩
    refine ⟨⟨⟨⟨?_, ?_⟩, ?_⟩, ?_⟩, h5⟩ <;> omega

theorem south_expr_iff (c : Nat) (hc0 : 0 < c) (hc : c < 2 ^ 31) (N : Int) (M : CellSet)
    (x y : Int) :
    south_expr c (square N) M x y = true ↔
      M x y = true ∧ (c : Int) ≤ x ∧ x < N - c ∧ 0 ≤ y ∧ y < (c : Int) := by
  have e1 := size_t_scale_pos c hc 1 0 (by simp) (by simp)
  have e2 := size_t_scale_pos c hc 0 1 (by simp) (by simp)
  have e3 := size_t_scale_neg c hc0 hc 1 0 (by simp) (by simp)
  simp only [south_expr, xp, yp, e1, e2, e3, intersection, difference, translate,
    Bool.and_eq_true, Bool.not_eq_true', ← Bool.not_eq_true, square_apply]
  constructor
  · rintro ⟨⟨⟨⟨h1, h2⟩, h3⟩, h4⟩, h5⟩
    refine ⟨h5, ?_⟩
    omega
  · rintro ⟨h5, h6⟩
    refine ⟨⟨⟨⟨?_, ?_⟩, ?_⟩, ?_⟩, h5⟩ <;> omega

theorem northeast_expr_iff (c : Nat) (hc0 : 0 < c) (hc : c < 2 ^ 31) (N : Int) (M : CellSet)
    (hN : 2 * (c : Int) ≤ N) (x y : Int) :
    northeast_expr c (square N) M x y = true ↔
      M x y = true ∧ N - c ≤ x ∧ x < N ∧ N - c ≤ y ∧ y < N := by
  have e3 := size_t_scale_neg c hc0 hc 1 0 (by simp) (by simp)
  have e4 := size_t_scale_neg c hc0 hc 0 1 (by simp) (by simp)
  have e5 := size_t_scale_neg c hc0 hc 1 1 (by simp) (by simp)
  simp only [northeast_expr, xp, yp, d11, e3, e4, e5, intersection, difference, translate,
    Bool.and_eq_true, Bool.not_eq_true', ← Bool.not_eq_true, square_apply]
  constructor
  · rintro ⟨⟨⟨⟨h1, h2⟩, h3⟩, h4⟩, h5⟩
    refine ⟨h5, ?_⟩
    omega
  · rintro ⟨h5, h6⟩
    refine ⟨⟨⟨⟨?_, ?_⟩, ?_⟩, ?_⟩, h5⟩ <;> omega

theorem northwest_expr_iff (c : Nat) (hc0 : 0 < c) (hc : c < 2 ^ 31) (N : Int) (M : CellSet)
    (hN : 2 * (c : Int) ≤ N) (x y : Int) :
    northwest_expr c (square N) M x y = true ↔
      M x y = true ∧ 0 ≤ x ∧ x < (c : Int) ∧ N - c ≤ y ∧ y < N := by
  have e1 := size_t_scale_pos c hc 1 0 (by simp) (by simp)
  have e4 := size_t_scale_neg c hc0 hc 0 1 (by simp) (by simp)
  have e6 := size_t_scale_pos c hc 1 (-1) (by simp) (by simp)
  simp only [northwest_expr, xp, yp, d1m1, e1, e4, e6, intersection, difference, translate,
    Bool.and_eq_true, Bool.not_eq_true', ← Bool.not_eq_true, square_apply]
  constructor
  · rintro ⟨⟨⟨⟨h1, h2⟩, h3⟩, h4⟩, h5⟩
    refine ⟨h5, ?_⟩
    omega
  · rintro ⟨h5, h6⟩
    refine ⟨⟨⟨⟨?_, ?_⟩, ?_⟩, ?_⟩, h5⟩ <;> omega

theorem southwest_expr_iff (c : Nat) (hc0 : 0 < c) (hc : c < 2 ^ 31) (N : Int) (M : CellSet)
    (hN : 2 * (c : Int) ≤ N) (x y : Int) :
    southwest_expr c (square N) M x y = true ↔
      M x y = true ∧ 0 ≤ x ∧ x < (c : Int) ∧ 0 ≤ y ∧ y < (c : Int) := by
  have e1 := size_t_scale_pos c hc 1 0 (by simp) (by simp)
  have e2 := size_t_scale_pos c hc 0 1 (by simp) (by simp)
  have e5 := size_t_scale_pos c hc 1 1 (by simp) (by simp)
  simp only [southwest_expr, xp, yp, d11, e1, e2, e5, intersection, difference, translate,
    Bool.and_eq_true, Bool.not_eq_true', ← Bool.not_eq_true, square_apply]
  constructor
  · rintro ⟨⟨⟨⟨h1, h2⟩, h3⟩, h4⟩, h5⟩
    refine ⟨h5, ?_⟩
    omega
  · rintro ⟨h5, h6⟩
    refine ⟨⟨⟨⟨?_, ?_⟩, ?_⟩, ?_⟩, h5⟩ <;> omega

theorem southeast_expr_iff (c : Nat) (hc0 : 0 < c) (hc : c < 2 ^ 31) (N : Int) (M : CellSet)
    (hN : 2 * (c : Int) ≤ N) (x y : Int) :
    southeast_expr c (square N) M x y = true ↔
      M x y = true ∧ N - c ≤ x ∧ x < N ∧ 0 ≤ y ∧ y < (c : Int) := by
  have e2 := size_t_scale_pos c hc 0 1 (by simp) (by simp)
  have e3 := size_t_scale_neg c hc0 hc 1 0 (by simp) (by simp)
  have e6 := size_t_scale_neg c hc0 hc 1 (-1) (by simp) (by simp)
  simp only [southeast_expr, xp, yp, d1m1, e2, e3, e6, intersection, difference, translate,
    Bool.and_eq_true, Bool.not_eq_true', ← Bool.not_eq_true, square_apply]
  constructor
  · rintro ⟨⟨⟨⟨h1, h2⟩, h3⟩, h4⟩, h5⟩
    refine ⟨h5, ?_⟩
    omega
  · rintro ⟨h5, h6⟩
    refine ⟨⟨⟨⟨?_, ?_⟩, ?_⟩, ?_⟩, h5⟩ <;> omega

theorem boundary_coeff_eq (m : Mesh) (level : Nat) (hlevel : level ≤ m.max_level)
    (hshift : m.max_level - level < 31) :
    boundary_coeff m level = some (2 ^ (m.max_level - level)) := by
  have h1 : size_t_sub m.max_level level = m.max_level - level := by
    unfold size_t_sub
    omega
  have h2 : (2 : Nat) ^ (m.max_level - level) < 2 ^ 64 :=
    Nat.pow_lt_pow_right (by norm_num) (by omega)
  have h0 : ∀ p : Nat, p < 2 ^ 64 → size_t_of_int (p : Int) = p := by
    intro p hp
    unfold size_t_of_int
    omega
  have h3 : size_t_of_int ((2 : Int) ^ (m.max_level - level)) = 2 ^ (m.max_level - level) := by
    have : ((2 : Int) ^ (m.max_level - level))
        = (((2 : Nat) ^ (m.max_level - level) : Nat) : Int) := by
      push_cast
      rfl
    rw [this]
    exact h0 _ h2
  simp only [boundary_coeff, h1, int_shl1, hshift, if_true, Option.map_some', h3]

theorem pow_shift_lt (d : Nat) (N : Int) (hN : 2 * ((2 ^ d : Nat) : Int) ≤ N)
    (hint : N < 2 ^ 31) : d < 31 ∧ 2 ^ d < 2 ^ 31 := by
  have h1 : (2 : Nat) ^ d < 2 ^ 31 := by
    have : ((2 ^ d : Nat) : Int) < 2 ^ 31 := by omega
    exact_mod_cast this
  exact ⟨(Nat.pow_lt_pow_iff_right (by norm_num)).1 h1, h1⟩

/-- C8: with the initial mesh `[0, N) x [0, N)` at the finest level (`N` an `int`),
`c = 2^(max_level - level)` and `2 c <= N`, the four functions
`get_adjacent_boundary_east/north/west/south` select exactly the cells of
`mesh[type][level]` in the strip of width `c` along that edge without the two
`c x c` corner squares, and the four functions
`get_adjacent_boundary_northeast/northwest/southwest/southeast` select exactly
the cells of `mesh[type][level]` in the `c x c` corner square. -/
theorem get_adjacent_boundary_spec (m : Mesh) (level : Nat) (t : MeshType) (N : Int) (c : Nat)
    (hD : m.initial_mesh = square N) (hlevel : level ≤ m.max_level)
    (hc : c = 2 ^ (m.max_level - level)) (hN : 2 * (c : Int) ≤ N) (hint : N < 2 ^ 31) :
    ∃ E No W S NE NW SW SE : CellSet,
      get_adjacent_boundary_east m level t = some E ∧
      get_adjacent_boundary_north m level t = some No ∧
      get_adjacent_boundary_west m level t = some W ∧
      get_adjacent_boundary_south m level t = some S ∧
      get_adjacent_boundary_northeast m level t = some NE ∧
      get_adjacent_boundary_northwest m level t = some NW ∧
      get_adjacent_boundary_southwest m level t = some SW ∧
      get_adjacent_boundary_southeast m level t = some SE ∧
      ∀ x y : Int,
        (E x y = true ↔
          m.at_finest t level x y = true ∧ N - c ≤ x ∧ x < N ∧ (c : Int) ≤ y ∧ y < N - c) ∧
        (No x y = true ↔
          m.at_finest t level x y = true ∧ (c : Int) ≤ x ∧ x < N - c ∧ N - c ≤ y ∧ y < N) ∧
        (W x y = true ↔
          m.at_finest t level x y = true ∧ 0 ≤ x ∧ x < (c : Int) ∧ (c : Int) ≤ y ∧ y < N - c) ∧
        (S x y = true ↔
          m.at_finest t level x y = true ∧ (c : Int) ≤ x ∧ x < N - c ∧ 0 ≤ y ∧ y < (c : Int)) ∧
        (NE x y = true ↔
          m.at_finest t level x y = true ∧ N - c ≤ x ∧ x < N ∧ N - c ≤ y ∧ y < N) ∧
        (NW x y = true ↔
          m.at_finest t level x y = true ∧ 0 ≤ x ∧ x < (c : Int) ∧ N - c ≤ y ∧ y < N) ∧
        (SW x y = true ↔
          m.at_finest t level x y = true ∧ 0 ≤ x ∧ x < (c : Int) ∧ 0 ≤ y ∧ y < (c : Int)) ∧
        (SE x y = true ↔
          m.at_finest t level x y = true ∧ N - c ≤ x ∧ x < N ∧ 0 ≤ y ∧ y < (c : Int)) := by
  subst hc
  obtain ⟨hd, hc31⟩ := pow_shift_lt (m.max_level - level) N hN hint
  have hc0 : 0 < 2 ^ (m.max_level - level) := Nat.pos_pow_of_pos _ (by norm_num)
  have hb := boundary_coeff_eq m level hlevel hd
  refine ⟨east_expr (2 ^ (m.max_level - level)) (square N) (m.at_finest t level),
    north_expr (2 ^ (m.max_level - level)) (square N) (m.at_finest t level),
    west_expr (2 ^ (m.max_level - level)) (square N) (m.at_finest t level),
    south_expr (2 ^ (m.max_level - level)) (square N) (m.at_finest t level),
    northeast_expr (2 ^ (m.max_level - level)) (square N) (m.at_finest t level),
    northwest_expr (2 ^ (m.max_level - level)) (square N) (m.at_finest t level),
    southwest_expr (2 ^ (m.max_level - level)) (square N) (m.at_finest t level),
    southeast_expr (2 ^ (m.max_level - level)) (square N) (m.at_finest t level),
    by simp only [get_adjacent_boundary_east, hb, Option.map_some', hD],
    by simp only [get_adjacent_boundary_north, hb, Option.map_some', hD],
    by simp only [get_adjacent_boundary_west, hb, Option.map_some', hD],
    by simp only [get_adjacent_boundary_south, hb, Option.map_some', hD],
    by simp only [get_adjacent_boundary_northeast, hb, Option.map_some', hD],
    by simp only [get_adjacent_boundary_northwest, hb, Option.map_some', hD],
    by simp only [get_adjacent_boundary_southwest, hb, Option.map_some', hD],
    by simp only [get_adjacent_boundary_southeast, hb, Option.map_some', hD], ?_⟩
  intro x y
  exact ⟨east_expr_iff _ hc0 hc31 N _ hN x y, north_expr_iff _ hc0 hc31 N _ hN x y,
    west_expr_iff _ hc0 hc31 N _ hN x y, south_expr_iff _ hc0 hc31 N _ x y,
    northeast_expr_iff _ hc0 hc31 N _ hN x y, northwest_expr_iff _ hc0 hc31 N _ hN x y,
    southwest_expr_iff _ hc0 hc31 N _ hN x y, southeast_expr_iff _ hc0 hc31 N _ hN x y⟩

theorem Mesh.at_finest_max_level (m : Mesh) (t : MeshType) (x y : Int) :
    m.at_finest t m.max_level x y = m.set t m.max_level x y := by
  simp [Mesh.at_finest]

theorem finest_regions_eq (m : Mesh) (N : Int) (hD : m.initial_mesh = square N) :
    finest_regions m = some
      ⟨east_expr 1 (square N) (m.at_finest MeshType.cells m.max_level),
       north_expr 1 (square N) (m.at_finest MeshType.cells m.max_level),
       northeast_expr 1 (square N) (m.at_finest MeshType.cells m.max_level),
       west_expr 1 (square N) (m.at_finest MeshType.cells m.max_level),
       northwest_expr 1 (square N) (m.at_finest MeshType.cells m.max_level),
       south_expr 1 (square N) (m.at_finest MeshType.cells m.max_level),
       southwest_expr 1 (square N) (m.at_finest MeshType.cells m.max_level),
       southeast_expr 1 (square N) (m.at_finest MeshType.cells m.max_level),
       difference (m.at_finest MeshType.cells m.max_level)
        (union_
          (union_ (union_ (union_
            (east_expr 1 (square N) (m.at_finest MeshType.cells m.max_level))
            (north_expr 1 (square N) (m.at_finest MeshType.cells m.max_level)))
            (west_expr 1 (square N) (m.at_finest MeshType.cells m.max_level)))
            (south_expr 1 (square N) (m.at_finest MeshType.cells m.max_level)))
          (union_ (union_ (union_
            (northeast_expr 1 (square N) (m.at_finest MeshType.cells m.max_level))
            (northwest_expr 1 (square N) (m.at_finest MeshType.cells m.max_level)))
            (southwest_expr 1 (square N) (m.at_finest MeshType.cells m.max_level)))
            (southeast_expr 1 (square N) (m.at_finest MeshType.cells m.max_level))))⟩ := by
  have hb : boundary_coeff m m.max_level = some 1 := by
    have := boundary_coeff_eq m m.max_level (le_refl _) (by simp)
    simpa using this
  simp only [finest_regions, get_adjacent_boundary_east, get_adjacent_boundary_north,
    get_adjacent_boundary_northeast, get_adjacent_boundary_west,
    get_adjacent_boundary_northwest, get_adjacent_boundary_south,
    get_adjacent_boundary_southwest, get_adjacent_boundary_southeast, hb, hD,
    Option.map_some', Option.bind_eq_bind, Option.some_bind]

theorem count_regions_bool (xw xm xe ys ym yn : Bool)
    (hx1 : ¬ (xw = true ∧ xm = true)) (hx2 : ¬ (xw = true ∧ xe = true))
    (hx3 : ¬ (xm = true ∧ xe = true)) (hy1 : ¬ (ys = true ∧ ym = true))
    (hy2 : ¬ (ys = true ∧ yn = true)) (hy3 : ¬ (ym = true ∧ yn = true)) :
    List.count true
      [xe && ym, xm && yn, xe && yn, xw && ym, xw && yn, xm && ys, xw && ys, xe && ys,
        true && !(((((xe && ym) || (xm && yn)) || (xw && ym)) || (xm && ys))
          || ((((xe && yn) || (xw && yn)) || (xw && ys)) || (xe && ys)))] = 1 := by
  revert hx1 hx2 hx3 hy1 hy2 hy3
  cases xw <;> cases xm <;> cases xe <;> cases ys <;> cases ym <;> cases yn <;> decide

theorem bool_eq_and_decide (b : Bool) (P Q : Prop) [Decidable P] [Decidable Q]
    (h : b = true ↔ P ∧ Q) : b = (decide P && decide Q) := by
  rw [Bool.eq_iff_iff, h]
  simp

/-- C9: at `max_level`, on a domain `[0, N) x [0, N)` of at least `2 x 2` cells, the
eight boundary regions are pairwise disjoint, and every leaf of `max_level` is in
exactly one of the nine regions (the eight and `internal_leaves`). -/
theorem finest_regions_partition (m : Mesh) (N : Int) (hD : m.initial_mesh = square N)
    (hN : 2 ≤ N) (hint : N < 2 ^ 31) :
    ∃ r : FinestRegions, finest_regions m = some r ∧
      r.boundary.Pairwise CellSet.disjoint ∧
      ∀ x y : Int, m.set MeshType.cells m.max_level x y = true →
        ((r.toList.map fun R => R x y).count true = 1) := by
  refine ⟨_, finest_regions_eq m N hD, ?_, ?_⟩
  · simp only [FinestRegions.boundary, List.pairwise_cons, List.mem_cons, List.mem_singleton,
      forall_eq_or_imp, forall_eq, List.not_mem_nil, false_implies, implies_true,
      List.Pairwise.nil, and_true, CellSet.disjoint]
    have hE := east_expr_iff 1 (by norm_num) (by norm_num) N
      (m.at_finest MeshType.cells m.max_level) (by omega)
    have hNo := north_expr_iff 1 (by norm_num) (by norm_num) N
      (m.at_finest MeshType.cells m.max_level) (by omega)
    have hW := west_expr_iff 1 (by norm_num) (by norm_num) N
      (m.at_finest MeshType.cells m.max_level) (by omega)
    have hS := south_expr_iff 1 (by norm_num) (by norm_num) N
      (m.at_finest MeshType.cells m.max_level)
    have hNE := northeast_expr_iff 1 (by norm_num) (by norm_num) N
      (m.at_finest MeshType.cells m.max_level) (by omega)
    have hNW := northwest_expr_iff 1 (by norm_num) (by norm_num) N
      (m.at_finest MeshType.cells m.max_level) (by omega)
    have hSW := southwest_expr_iff 1 (by norm_num) (by norm_num) N
      (m.at_finest MeshType.cells m.max_level) (by omega)
    have hSE := southeast_expr_iff 1 (by norm_num) (by norm_num) N
      (m.at_finest MeshType.cells m.max_level) (by omega)
    simp only [hE, hNo, hW, hS, hNE, hNW, hSW, hSE]
    refine ⟨⟨?_, ?_, ?_, ?_, ?_, ?_, ?_⟩, ⟨?_, ?_, ?_, ?_, ?_, ?_⟩, ⟨?_, ?_, ?_, ?_, ?_⟩,
      ⟨?_, ?_, ?_, ?_⟩, ⟨?_, ?_, ?_⟩, ⟨?_, ?_⟩, ?_⟩ <;>
    · intro x y
      omega
  · intro x y hleaf
    have hM : m.at_finest MeshType.cells m.max_level x y = true := by
      rw [Mesh.at_finest_max_level]
      exact hleaf
    have hE := east_expr_iff 1 (by norm_num) (by norm_num) N
      (m.at_finest MeshType.cells m.max_level) (by omega) x y
    have hNo := north_expr_iff 1 (by norm_num) (by norm_num) N
      (m.at_finest MeshType.cells m.max_level) (by omega) x y
    have hW := west_expr_iff 1 (by norm_num) (by norm_num) N
      (m.at_finest MeshType.cells m.max_level) (by omega) x y
    have hS := south_expr_iff 1 (by norm_num) (by norm_num) N
      (m.at_finest MeshType.cells m.max_level) x y
    have hNE := northeast_expr_iff 1 (by norm_num) (by norm_num) N
      (m.at_finest MeshType.cells m.max_level) (by omega) x y
    have hNW := northwest_expr_iff 1 (by norm_num) (by norm_num) N
      (m.at_finest MeshType.cells m.max_level) (by omega) x y
    have hSW := southwest_expr_iff 1 (by norm_num) (by norm_num) N
      (m.at_finest MeshType.cells m.max_level) (by omega) x y
    have hSE := southeast_expr_iff 1 (by norm_num) (by norm_num) N
      (m.at_finest MeshType.cells m.max_level) (by omega) x y
    simp only [hM, true_and, Nat.cast_one] at hE hNo hW hS hNE hNW hSW hSE
    have e1 := bool_eq_and_decide _ (N - 1 ≤ x ∧ x < N) (1 ≤ y ∧ y < N - 1)
      (hE.trans and_assoc.symm)
    have e2 := bool_eq_and_decide _ (1 ≤ x ∧ x < N - 1) (N - 1 ≤ y ∧ y < N)
      (hNo.trans and_assoc.symm)
    have e3 := bool_eq_and_decide _ (N - 1 ≤ x ∧ x < N) (N - 1 ≤ y ∧ y < N)
      (hNE.trans and_assoc.symm)
    have e4 := bool_eq_and_decide _ (0 ≤ x ∧ x < 1) (1 ≤ y ∧ y < N - 1)
      (hW.trans and_assoc.symm)
    have e5 := bool_eq_and_decide _ (0 ≤ x ∧ x < 1) (N - 1 ≤ y ∧ y < N)
      (hNW.trans and_assoc.symm)
    have e6 := bool_eq_and_decide _ (1 ≤ x ∧ x < N - 1) (0 ≤ y ∧ y < 1)
      (hS.trans and_assoc.symm)
    have e7 := bool_eq_and_decide _ (0 ≤ x ∧ x < 1) (0 ≤ y ∧ y < 1)
      (hSW.trans and_assoc.symm)
    have e8 := bool_eq_and_decide _ (N - 1 ≤ x ∧ x < N) (0 ≤ y ∧ y < 1)
      (hSE.trans and_assoc.symm)
    simp only [FinestRegions.toList, List.map_cons, List.map_nil, difference, union_, hM,
      e1, e2, e3, e4, e5, e6, e7, e8]
    apply count_regions_bool <;> simp only [decide_eq_true_eq] <;> omega

/-! ## The overleaves projection and the flux scale factor -/

/-- C6: below `max_level`, at a leaf `(k, h)` of `level`, the value of every moving
direction `v = 1..8` that enters the relaxation is `f(v, level, k, h)` plus one
quarter of the sum of `fluxes(v)` over the four overleaf children `(2k, 2h)`,
`(2k+1, 2h)`, `(2k, 2h+1)`, `(2k+1, 2h+1)` of `level + 1`; the rest component 0
enters unchanged; and `new_f` is the relaxation of these nine values. -/
theorem coarse_input_spec (max_level : Nat) (f fluxes : DistField) (level : Nat) (k h : Int)
    (v : Nat) (hv1 : 1 ≤ v) (hv8 : v ≤ 8) :
    coarse_input f fluxes level k h v =
        f v level k h + (1 / 4) * (fluxes v (level + 1) (2 * k) (2 * h)
          + fluxes v (level + 1) (2 * k + 1) (2 * h)
          + fluxes v (level + 1) (2 * k) (2 * h + 1)
          + fluxes v (level + 1) (2 * k + 1) (2 * h + 1))
      ∧ coarse_input f fluxes level k h 0 = f 0 level k h
      ∧ new_f_coarse max_level f fluxes level k h =
        (relaxation_rates max_level).map fun s =>
          relaxation s.1 s.2 (coarse_input f fluxes level k h 0)
            (coarse_input f fluxes level k h 1) (coarse_input f fluxes level k h 2)
            (coarse_input f fluxes level k h 3) (coarse_input f fluxes level k h 4)
            (coarse_input f fluxes level k h 5) (coarse_input f fluxes level k h 6)
            (coarse_input f fluxes level k h 7) (coarse_input f fluxes level k h 8) := by
  refine ⟨?_, rfl, rfl⟩
  interval_cases v <;>
    simp only [coarse_input, coarse_f1, coarse_f2, coarse_f3, coarse_f4, coarse_f5, coarse_f6,
      coarse_f7, coarse_f8] <;> norm_num

/-- Witness of `coarse_input_spec`: direction 3 on the field `ramp`, with `ramp` as
fluxes. -/
theorem coarse_input_spec_witness :
    (1 ≤ 3 ∧ 3 ≤ 8)
    ∧ coarse_input ramp ramp 0 0 0 3 =
        ramp 3 0 0 0 + (1 / 4) * (ramp 3 (0 + 1) (2 * 0) (2 * 0)
          + ramp 3 (0 + 1) (2 * 0 + 1) (2 * 0)
          + ramp 3 (0 + 1) (2 * 0) (2 * 0 + 1)
          + ramp 3 (0 + 1) (2 * 0 + 1) (2 * 0 + 1)) :=
  ⟨by decide, (coarse_input_spec 1 ramp ramp 0 0 0 3 (by decide) (by decide)).1⟩

theorem flux_coeff_small (max_level level : Nat) (hlevel : level < max_level)
    (hmax : max_level ≤ 20) (hj : max_level - (level + 1) ≤ 15) :
    flux_coeff max_level level = some (1 / 4 ^ (max_level - (level + 1))) := by
  have h1 : size_t_add level 1 = level + 1 := by
    unfold size_t_add
    omega
  have h2 : size_t_sub max_level (level + 1) = max_level - (level + 1) := by
    unfold size_t_sub
    omega
  have h3 : size_t_mul 2 (max_level - (level + 1)) = 2 * (max_level - (level + 1)) := by
    unfold size_t_mul
    omega
  have h4 : 2 * (max_level - (level + 1)) < 31 := by omega
  simp only [flux_coeff, h1, h2, h3, int_shl1, h4, if_true, Option.map_some']
  congr 2
  push_cast
  rw [pow_mul]
  norm_num

theorem flux_coeff_large (max_level level : Nat) (hlevel : level < max_level)
    (hmax : max_level ≤ 20) (hj : 16 ≤ max_level - (level + 1)) :
    flux_coeff max_level level = none := by
  have h1 : size_t_add level 1 = level + 1 := by
    unfold size_t_add
    omega
  have h2 : size_t_sub max_level (level + 1) = max_level - (level + 1) := by
    unfold size_t_sub
    omega
  have h3 : size_t_mul 2 (max_level - (level + 1)) = 2 * (max_level - (level + 1)) := by
    unfold size_t_mul
    omega
  have h4 : ¬ 2 * (max_level - (level + 1)) < 31 := by omega
  have h5 : ¬ 2 * (max_level - (level + 1)) = 31 := by omega
  simp only [flux_coeff, h1, h2, h3, int_shl1, h4, h5, if_false, Option.map_none']

/-- C7, evaluated on the code: with `max_level = 17 <= 20` and `level = 0` the
level gap is `j = 16`, the shift `1 << 32` of a 32-bit `int` is undefined and no
value `1/4^16` is produced; for `max_level <= 20` the factor is `1/4^j` exactly
when `j <= 15`, and undefined for every `j >= 16`. -/
theorem flux_coeff_overflow :
    flux_coeff 17 0 = none
    ∧ flux_coeff 17 0 ≠ some (1 / 4 ^ (17 - (0 + 1)))
    ∧ (∀ max_level level : Nat, level < max_level → max_level ≤ 20 →
        (max_level - (level + 1) ≤ 15 →
          flux_coeff max_level level = some (1 / 4 ^ (max_level - (level + 1))))
        ∧ (16 ≤ max_level - (level + 1) → flux_coeff max_level level = none)) := by
  have h0 : flux_coeff 17 0 = none := flux_coeff_large 17 0 (by decide) (by decide) (by decide)
  refine ⟨h0, ?_, ?_⟩
  · rw [h0]
    exact fun h => Option.noConfusion h
  · intro max_level level hl hmax
    exact ⟨flux_coeff_small max_level level hl hmax, flux_coeff_large max_level level hl hmax⟩

/-! ## The transport at `max_level` -/

theorem region_value (b v : Bool) (A B C D : Prop) [Decidable A] [Decidable B] [Decidable C]
    [Decidable D] (h : b = true ↔ v = true ∧ A ∧ B ∧ C ∧ D) :
    b = (v && (decide (A ∧ B) && decide (C ∧ D))) := by
  rw [Bool.eq_iff_iff, h]
  simp [and_assoc]

/-- The transport at a cell of `max_level`, from the position of the cell in the
domain `[0, N) x [0, N)`. -/
theorem advect_finest_eq (m : Mesh) (f : DistField) (N : Int)
    (hD : m.initial_mesh = square N) (hN : 2 ≤ N) (hint : N < 2 ^ 31) (x y : Int) :
    advect_finest m f x y = some (advect_cell f m.max_level x y
      (m.set MeshType.cells m.max_level x y
        && (decide (N - 1 ≤ x ∧ x < N) && decide (1 ≤ y ∧ y < N - 1)))
      (m.set MeshType.cells m.max_level x y
        && (decide (1 ≤ x ∧ x < N - 1) && decide (N - 1 ≤ y ∧ y < N)))
      (m.set MeshType.cells m.max_level x y
        && (decide (N - 1 ≤ x ∧ x < N) && decide (N - 1 ≤ y ∧ y < N)))
      (m.set MeshType.cells m.max_level x y
        && (decide (0 ≤ x ∧ x < 1) && decide (1 ≤ y ∧ y < N - 1)))
      (m.set MeshType.cells m.max_level x y
        && (decide (0 ≤ x ∧ x < 1) && decide (N - 1 ≤ y ∧ y < N)))
      (m.set MeshType.cells m.max_level x y
        && (decide (1 ≤ x ∧ x < N - 1) && decide (0 ≤ y ∧ y < 1)))
      (m.set MeshType.cells m.max_level x y
        && (decide (0 ≤ x ∧ x < 1) && decide (0 ≤ y ∧ y < 1)))
      (m.set MeshType.cells m.max_level x y
        && (decide (N - 1 ≤ x ∧ x < N) && decide (0 ≤ y ∧ y < 1)))
      (m.set MeshType.cells m.max_level x y
        && !(((((m.set MeshType.cells m.max_level x y
              && (decide (N - 1 ≤ x ∧ x < N) && decide (1 ≤ y ∧ y < N - 1)))
            || (m.set MeshType.cells m.max_level x y
              && (decide (1 ≤ x ∧ x < N - 1) && decide (N - 1 ≤ y ∧ y < N))))
            || (m.set MeshType.cells m.max_level x y
              && (decide (0 ≤ x ∧ x < 1) && decide (1 ≤ y ∧ y < N - 1))))
            || (m.set MeshType.cells m.max_level x y
              && (decide (1 ≤ x ∧ x < N - 1) && decide (0 ≤ y ∧ y < 1))))
          || ((((m.set MeshType.cells m.max_level x y
              && (decide (N - 1 ≤ x ∧ x < N) && decide (N - 1 ≤ y ∧ y < N)))
            || (m.set MeshType.cells m.max_level x y
              && (decide (0 ≤ x ∧ x < 1) && decide (N - 1 ≤ y ∧ y < N))))
            || (m.set MeshType.cells m.max_level x y
              && (decide (0 ≤ x ∧ x < 1) && decide (0 ≤ y ∧ y < 1))))
            || (m.set MeshType.cells m.max_level x y
              && (decide (N - 1 ≤ x ∧ x < N) && decide (0 ≤ y ∧ y < 1))))))) := by
  have hE := east_expr_iff 1 (by norm_num) (by norm_num) N
    (m.at_finest MeshType.cells m.max_level) (by omega) x y
  have hNo := north_expr_iff 1 (by norm_num) (by norm_num) N
    (m.at_finest MeshType.cells m.max_level) (by omega) x y
  have hW := west_expr_iff 1 (by norm_num) (by norm_num) N
    (m.at_finest MeshType.cells m.max_level) (by omega) x y
  have hS := south_expr_iff 1 (by norm_num) (by norm_num) N
    (m.at_finest MeshType.cells m.max_level) x y
  have hNE := northeast_expr_iff 1 (by norm_num) (by norm_num) N
    (m.at_finest MeshType.cells m.max_level) (by omega) x y
  have hNW := northwest_expr_iff 1 (by norm_num) (by norm_num) N
    (m.at_finest MeshType.cells m.max_level) (by omega) x y
  have hSW := southwest_expr_iff 1 (by norm_num) (by norm_num) N
    (m.at_finest MeshType.cells m.max_level) (by omega) x y
  have hSE := southeast_expr_iff 1 (by norm_num) (by norm_num) N
    (m.at_finest MeshType.cells m.max_level) (by omega) x y
  simp only [Nat.cast_one, Mesh.at_finest_max_level] at hE hNo hW hS hNE hNW hSW hSE
  have e1 := region_value _ _ _ _ _ _ hE
  have e2 := region_value _ _ _ _ _ _ hNo
  have e3 := region_value _ _ _ _ _ _ hNE
  have e4 := region_value _ _ _ _ _ _ hW
  have e5 := region_value _ _ _ _ _ _ hNW
  have e6 := region_value _ _ _ _ _ _ hS
  have e7 := region_value _ _ _ _ _ _ hSW
  have e8 := region_value _ _ _ _ _ _ hSE
  simp only [advect_finest, finest_regions_eq m N hD, Option.bind_eq_bind, Option.some_bind,
    on_region, difference, union_, e1, e2, e3, e4, e5, e6, e7, e8,
    Mesh.at_finest_max_level, advect_cell]

theorem advect_finest_east (m : Mesh) (f : DistField) (N : Int)
    (hD : m.initial_mesh = square N) (hN : 2 ≤ N) (hint : N < 2 ^ 31) (x y : Int)
    (hleaf : m.set MeshType.cells m.max_level x y = true)
    (hx : N - 1 ≤ x ∧ x < N) (hy : 1 ≤ y ∧ y < N - 1) (v : Nat) (hv1 : 1 ≤ v) (hv8 : v ≤ 8) :
    ∃ adv, advect_finest m f x y = some adv ∧ adv v = bounce_back f m.max_level N v x y := by
  refine ⟨_, advect_finest_eq m f N hD hN hint x y, ?_⟩
  have c1 : (0 ≤ x ∧ x < 1) = False := eq_false (by omega)
  have c2 : (1 ≤ x ∧ x < N - 1) = False := eq_false (by omega)
  have c3 : (N - 1 ≤ x ∧ x < N) = True := eq_true (by omega)
  have c4 : (0 ≤ y ∧ y < 1) = False := eq_false (by omega)
  have c5 : (1 ≤ y ∧ y < N - 1) = True := eq_true (by omega)
  have c6 : (N - 1 ≤ y ∧ y < N) = False := eq_false (by omega)
  simp only [hleaf, c1, c2, c3, c4, c5, c6, decide_True, decide_False, Bool.and_true,
      Bool.and_false, Bool.or_false, Bool.or_true, Bool.not_true, Bool.not_false, advect_cell,
      if_true, Bool.false_eq_true, if_false, Bool.true_and, Bool.false_or, Bool.or_self]
  interval_cases v <;>
    simp only [run_assigns, east_body, List.foldl, Rhs.eval, Function.update_apply, bounce_back,
      lattice_velocity, opp, square_apply] <;>
    norm_num <;>
    split_ifs <;> first | rfl | (exfalso; omega)

theorem advect_finest_west (m : Mesh) (f : DistField) (N : Int)
    (hD : m.initial_mesh = square N) (hN : 2 ≤ N) (hint : N < 2 ^ 31) (x y : Int)
    (hleaf : m.set MeshType.cells m.max_level x y = true)
    (hx : 0 ≤ x ∧ x < 1) (hy : 1 ≤ y ∧ y < N - 1) (v : Nat) (hv1 : 1 ≤ v) (hv8 : v ≤ 8) :
    ∃ adv, advect_finest m f x y = some adv ∧ adv v = bounce_back f m.max_level N v x y := by
  refine ⟨_, advect_finest_eq m f N hD hN hint x y, ?_⟩
  have c1 : (0 ≤ x ∧ x < 1) = True := eq_true (by omega)
  have c2 : (1 ≤ x ∧ x < N - 1) = False := eq_false (by omega)
  have c3 : (N - 1 ≤ x ∧ x < N) = False := eq_false (by omega)
  have c4 : (0 ≤ y ∧ y < 1) = False := eq_false (by omega)
  have c5 : (1 ≤ y ∧ y < N - 1) = True := eq_true (by omega)
  have c6 : (N - 1 ≤ y ∧ y < N) = False := eq_false (by omega)
  simp only [hleaf, c1, c2, c3, c4, c5, c6, decide_True, decide_False, Bool.and_true,
      Bool.and_false, Bool.or_false, Bool.or_true, Bool.not_true, Bool.not_false, advect_cell,
      if_true, Bool.false_eq_true, if_false, Bool.true_and, Bool.false_or, Bool.or_self]
  interval_cases v <;>
    simp only [run_assigns, west_body, List.foldl, Rhs.eval, Function.update_apply, bounce_back,
      lattice_velocity, opp, square_apply] <;>
    norm_num <;>
    split_ifs <;> first | rfl | (exfalso; omega)

theorem advect_finest_south (m : Mesh) (f : DistField) (N : Int)
    (hD : m.initial_mesh = square N) (hN : 2 ≤ N) (hint : N < 2 ^ 31) (x y : Int)
    (hleaf : m.set MeshType.cells m.max_level x y = true)
    (hx : 1 ≤ x ∧ x < N - 1) (hy : 0 ≤ y ∧ y < 1) (v : Nat) (hv1 : 1 ≤ v) (hv8 : v ≤ 8) :
    ∃ adv, advect_finest m f x y = some adv ∧ adv v = bounce_back f m.max_level N v x y := by
  refine ⟨_, advect_finest_eq m f N hD hN hint x y, ?_⟩
  have c1 : (0 ≤ x ∧ x < 1) = False := eq_false (by omega)
  have c2 : (1 ≤ x ∧ x < N - 1) = True := eq_true (by omega)
  have c3 : (N - 1 ≤ x ∧ x < N) = False := eq_false (by omega)
  have c4 : (0 ≤ y ∧ y < 1) = True := eq_true (by omega)
  have c5 : (1 ≤ y ∧ y < N - 1) = False := eq_false (by omega)
  have c6 : (N - 1 ≤ y ∧ y < N) = False := eq_false (by omega)
  simp only [hleaf, c1, c2, c3, c4, c5, c6, decide_True, decide_False, Bool.and_true,
      Bool.and_false, Bool.or_false, Bool.or_true, Bool.not_true, Bool.not_false, advect_cell,
      if_true, Bool.false_eq_true, if_false, Bool.true_and, Bool.false_or, Bool.or_self]
  interval_cases v <;>
    simp only [run_assigns, south_body, List.foldl, Rhs.eval, Function.update_apply, bounce_back,
      lattice_velocity, opp, square_apply] <;>
    norm_num <;>
    split_ifs <;> first | rfl | (exfalso; omega)

theorem advect_finest_northwest (m : Mesh) (f : DistField) (N : Int)
    (hD : m.initial_mesh = square N) (hN : 2 ≤ N) (hint : N < 2 ^ 31) (x y : Int)
    (hleaf : m.set MeshType.cells m.max_level x y = true)
    (hx : 0 ≤ x ∧ x < 1) (hy : N - 1 ≤ y ∧ y < N) (v : Nat) (hv1 : 1 ≤ v) (hv8 : v ≤ 8) :
    ∃ adv, advect_finest m f x y = some adv ∧ adv v = bounce_back f m.max_level N v x y := by
  refine ⟨_, advect_finest_eq m f N hD hN hint x y, ?_⟩
  have c1 : (0 ≤ x ∧ x < 1) = True := eq_true (by omega)
  have c2 : (1 ≤ x ∧ x < N - 1) = False := eq_false (by omega)
  have c3 : (N - 1 ≤ x ∧ x < N) = False := eq_false (by omega)
  have c4 : (0 ≤ y ∧ y < 1) = False := eq_false (by omega)
  have c5 : (1 ≤ y ∧ y < N - 1) = False := eq_false (by omega)
  have c6 : (N - 1 ≤ y ∧ y < N) = True := eq_true (by omega)
  simp only [hleaf, c1, c2, c3, c4, c5, c6, decide_True, decide_False, Bool.and_true,
      Bool.and_false, Bool.or_false, Bool.or_true, Bool.not_true, Bool.not_false, advect_cell,
      if_true, Bool.false_eq_true, if_false, Bool.true_and, Bool.false_or, Bool.or_self]
  interval_cases v <;>
    simp only [run_assigns, northwest_body, List.foldl, Rhs.eval, Function.update_apply, bounce_back,
      lattice_velocity, opp, square_apply] <;>
    norm_num <;>
    split_ifs <;> first | rfl | (exfalso; omega)

theorem advect_finest_southwest (m : Mesh) (f : DistField) (N : Int)
    (hD : m.initial_mesh = square N) (hN : 2 ≤ N) (hint : N < 2 ^ 31) (x y : Int)
    (hleaf : m.set MeshType.cells m.max_level x y = true)
    (hx : 0 ≤ x ∧ x < 1) (hy : 0 ≤ y ∧ y < 1) (v : Nat) (hv1 : 1 ≤ v) (hv8 : v ≤ 8) :
    ∃ adv, advect_finest m f x y = some adv ∧ adv v = bounce_back f m.max_level N v x y := by
  refine ⟨_, advect_finest_eq m f N hD hN hint x y, ?_⟩
  have c1 : (0 ≤ x ∧ x < 1) = True := eq_true (by omega)
  have c2 : (1 ≤ x ∧ x < N - 1) = False := eq_false (by omega)
  have c3 : (N - 1 ≤ x ∧ x < N) = False := eq_false (by omega)
  have c4 : (0 ≤ y ∧ y < 1) = True := eq_true (by omega)
  have c5 : (1 ≤ y ∧ y < N - 1) = False := eq_false (by omega)
  have c6 : (N - 1 ≤ y ∧ y < N) = False := eq_false (by omega)
  simp only [hleaf, c1, c2, c3, c4, c5, c6, decide_True, decide_False, Bool.and_true,
      Bool.and_false, Bool.or_false, Bool.or_true, Bool.not_true, Bool.not_false, advect_cell,
      if_true, Bool.false_eq_true, if_false, Bool.true_and, Bool.false_or, Bool.or_self]
  interval_cases v <;>
    simp only [run_assigns, southwest_body, List.foldl, Rhs.eval, Function.update_apply, bounce_back,
      lattice_velocity, opp, square_apply] <;>
    norm_num <;>
    split_ifs <;> first | rfl | (exfalso; omega)

theorem advect_finest_southeast (m : Mesh) (f : DistField) (N : Int)
    (hD : m.initial_mesh = square N) (hN : 2 ≤ N) (hint : N < 2 ^ 31) (x y : Int)
    (hleaf : m.set MeshType.cells m.max_level x y = true)
    (hx : N - 1 ≤ x ∧ x < N) (hy : 0 ≤ y ∧ y < 1) (v : Nat) (hv1 : 1 ≤ v) (hv8 : v ≤ 8) :
    ∃ adv, advect_finest m f x y = some adv ∧ adv v = bounce_back f m.max_level N v x y := by
  refine ⟨_, advect_finest_eq m f N hD hN hint x y, ?_⟩
  have c1 : (0 ≤ x ∧ x < 1) = False := eq_false (by omega)
  have c2 : (1 ≤ x ∧ x < N - 1) = False := eq_false (by omega)
  have c3 : (N - 1 ≤ x ∧ x < N) = True := eq_true (by omega)
  have c4 : (0 ≤ y ∧ y < 1) = True := eq_true (by omega)
  have c5 : (1 ≤ y ∧ y < N - 1) = False := eq_false (by omega)
  have c6 : (N - 1 ≤ y ∧ y < N) = False := eq_false (by omega)
  simp only [hleaf, c1, c2, c3, c4, c5, c6, decide_True, decide_False, Bool.and_true,
      Bool.and_false, Bool.or_false, Bool.or_true, Bool.not_true, Bool.not_false, advect_cell,
      if_true, Bool.false_eq_true, if_false, Bool.true_and, Bool.false_or, Bool.or_self]
  interval_cases v <;>
    simp only [run_assigns, southeast_body, List.foldl, Rhs.eval, Function.update_apply, bounce_back,
      lattice_velocity, opp, square_apply] <;>
    norm_num <;>
    split_ifs <;> first | rfl | (exfalso; omega)

theorem advect_finest_northeast (m : Mesh) (f : DistField) (N : Int)
    (hD : m.initial_mesh = square N) (hN : 2 ≤ N) (hint : N < 2 ^ 31) (x y : Int)
    (hleaf : m.set MeshType.cells m.max_level x y = true)
    (hx : N - 1 ≤ x ∧ x < N) (hy : N - 1 ≤ y ∧ y < N) (v : Nat) (hv1 : 1 ≤ v) (hv8 : v ≤ 8) :
    ∃ adv, advect_finest m f x y = some adv ∧
      (v ≠ 3 → v ≠ 6 → adv v = bounce_back f m.max_level N v x y) ∧
      adv 3 = f 3 m.max_level x y ∧ adv 6 = f 6 m.max_level x y ∧
      bounce_back f m.max_level N 3 x y = f 1 m.max_level x y ∧
      bounce_back f m.max_level N 6 x y = f 8 m.max_level x y := by
  refine ⟨_, advect_finest_eq m f N hD hN hint x y, ?_⟩
  have c1 : (0 ≤ x ∧ x < 1) = False := eq_false (by omega)
  have c2 : (1 ≤ x ∧ x < N - 1) = False := eq_false (by omega)
  have c3 : (N - 1 ≤ x ∧ x < N) = True := eq_true (by omega)
  have c4 : (0 ≤ y ∧ y < 1) = False := eq_false (by omega)
  have c5 : (1 ≤ y ∧ y < N - 1) = False := eq_false (by omega)
  have c6 : (N - 1 ≤ y ∧ y < N) = True := eq_true (by omega)
  simp only [hleaf, c1, c2, c3, c4, c5, c6, decide_True, decide_False, Bool.and_true,
      Bool.and_false, Bool.or_false, Bool.or_true, Bool.not_true, Bool.not_false, advect_cell,
      if_true, Bool.false_eq_true, if_false, Bool.true_and, Bool.false_or, Bool.or_self]
  refine ⟨?_, ?_, ?_, ?_, ?_⟩
  · intro h3 h6
    interval_cases v <;>
      simp only [run_assigns, northeast_body, List.foldl, Rhs.eval, Function.update_apply, bounce_back,
        lattice_velocity, opp, square_apply] <;>
      norm_num <;>
      first | (exfalso; omega) | (split_ifs <;> first | rfl | (exfalso; omega))
  · simp only [run_assigns, northeast_body, List.foldl, Rhs.eval, Function.update_apply]
    norm_num
  · simp only [run_assigns, northeast_body, List.foldl, Rhs.eval, Function.update_apply]
    norm_num
  · simp only [bounce_back, lattice_velocity, opp, square_apply]
    split_ifs <;> first | rfl | (exfalso; omega)
  · simp only [bounce_back, lattice_velocity, opp, square_apply]
    split_ifs <;> first | rfl | (exfalso; omega)

/-- C10, evaluated on the code: in the `2 x 2` cavity the leaf `(1, 1)` is in the
NorthEast region; its upstream cells for the directions 3 and 6 are outside the
domain, so the bounce-back rule prescribes `f(1, x)` and `f(8, x)`, but the
NorthEast lambda (lines 486-487) stores `f(3, x)` and `f(6, x)`: on the field
`ramp` the transported values are 3 and 6 where the rule gives 1 and 8. -/
theorem advect_finest_northeast_slip :
    (finest_regions cavity2).map (fun r => r.northeast 1 1) = some true
    ∧ ∃ adv, advect_finest cavity2 ramp 1 1 = some adv
      ∧ adv 3 = 3 ∧ bounce_back ramp cavity2.max_level 2 3 1 1 = 1
      ∧ adv 6 = 6 ∧ bounce_back ramp cavity2.max_level 2 6 1 1 = 8 := by
  constructor
  · rw [finest_regions_eq cavity2 2 rfl]
    simp only [Option.map_some', Option.some.injEq]
    exact (northeast_expr_iff 1 (by norm_num) (by norm_num) 2 _ (by norm_num) 1 1).2
      ⟨by decide, by decide⟩
  · obtain ⟨adv, h1, -, h3, h6, b3, b6⟩ :=
      advect_finest_northeast cavity2 ramp 2 rfl (by norm_num) (by norm_num) 1 1 (by decide)
        (by decide) (by decide) 3 (by decide) (by decide)
    refine ⟨adv, h1, ?_, ?_, ?_, ?_⟩
    · rw [h3]
      simp [ramp]
    · rw [b3]
      simp [ramp]
    · rw [h6]
      simp [ramp]
    · rw [b6]
      simp [ramp]

/-- Witness of `get_adjacent_boundary_spec`: `max_level = 3`, `N = 8`, `level = 2`,
`c = 2`. -/
theorem get_adjacent_boundary_spec_witness :
    cavity8.initial_mesh = square 8 ∧ 2 ≤ cavity8.max_level
    ∧ 2 = 2 ^ (cavity8.max_level - 2) ∧ 2 * ((2 : Nat) : Int) ≤ 8 ∧ (8 : Int) < 2 ^ 31
    ∧ ∃ E No W S NE NW SW SE : CellSet,
      get_adjacent_boundary_east cavity8 2 MeshType.overleaves = some E ∧
      get_adjacent_boundary_north cavity8 2 MeshType.overleaves = some No ∧
      get_adjacent_boundary_west cavity8 2 MeshType.overleaves = some W ∧
      get_adjacent_boundary_south cavity8 2 MeshType.overleaves = some S ∧
      get_adjacent_boundary_northeast cavity8 2 MeshType.overleaves = some NE ∧
      get_adjacent_boundary_northwest cavity8 2 MeshType.overleaves = some NW ∧
      get_adjacent_boundary_southwest cavity8 2 MeshType.overleaves = some SW ∧
      get_adjacent_boundary_southeast cavity8 2 MeshType.overleaves = some SE ∧
      ∀ x y : Int,
        (E x y = true ↔ cavity8.at_finest MeshType.overleaves 2 x y = true
          ∧ 8 - ((2 : Nat) : Int) ≤ x ∧ x < 8 ∧ ((2 : Nat) : Int) ≤ y ∧ y < 8 - ((2 : Nat) : Int)) ∧
        (No x y = true ↔ cavity8.at_finest MeshType.overleaves 2 x y = true
          ∧ ((2 : Nat) : Int) ≤ x ∧ x < 8 - ((2 : Nat) : Int) ∧ 8 - ((2 : Nat) : Int) ≤ y ∧ y < 8) ∧
        (W x y = true ↔ cavity8.at_finest MeshType.overleaves 2 x y = true
          ∧ 0 ≤ x ∧ x < ((2 : Nat) : Int) ∧ ((2 : Nat) : Int) ≤ y ∧ y < 8 - ((2 : Nat) : Int)) ∧
        (S x y = true ↔ cavity8.at_finest MeshType.overleaves 2 x y = true
          ∧ ((2 : Nat) : Int) ≤ x ∧ x < 8 - ((2 : Nat) : Int) ∧ 0 ≤ y ∧ y < ((2 : Nat) : Int)) ∧
        (NE x y = true ↔ cavity8.at_finest MeshType.overleaves 2 x y = true
          ∧ 8 - ((2 : Nat) : Int) ≤ x ∧ x < 8 ∧ 8 - ((2 : Nat) : Int) ≤ y ∧ y < 8) ∧
        (NW x y = true ↔ cavity8.at_finest MeshType.overleaves 2 x y = true
          ∧ 0 ≤ x ∧ x < ((2 : Nat) : Int) ∧ 8 - ((2 : Nat) : Int) ≤ y ∧ y < 8) ∧
        (SW x y = true ↔ cavity8.at_finest MeshType.overleaves 2 x y = true
          ∧ 0 ≤ x ∧ x < ((2 : Nat) : Int) ∧ 0 ≤ y ∧ y < ((2 : Nat) : Int)) ∧
        (SE x y = true ↔ cavity8.at_finest MeshType.overleaves 2 x y = true
          ∧ 8 - ((2 : Nat) : Int) ≤ x ∧ x < 8 ∧ 0 ≤ y ∧ y < ((2 : Nat) : Int)) :=
  ⟨rfl, by decide, by decide, by decide, by norm_num,
    get_adjacent_boundary_spec cavity8 2 MeshType.overleaves 8 2 rfl (by decide) (by decide)
      (by decide) (by norm_num)⟩

/-- Witness of `finest_regions_partition`: the `2 x 2` cavity. -/
theorem finest_regions_partition_witness :
    cavity2.initial_mesh = square 2 ∧ (2 : Int) ≤ 2 ∧ (2 : Int) < 2 ^ 31
    ∧ cavity2.set MeshType.cells cavity2.max_level 1 1 = true
    ∧ ∃ r : FinestRegions, finest_regions cavity2 = some r ∧
      r.boundary.Pairwise CellSet.disjoint ∧
      ∀ x y : Int, cavity2.set MeshType.cells cavity2.max_level x y = true →
        ((r.toList.map fun R => R x y).count true = 1) :=
  ⟨rfl, by decide, by norm_num, by decide,
    finest_regions_partition cavity2 2 rfl (by decide) (by norm_num)⟩

/-! ## Lemmas on `compute_prediction` -/

theorem tau_inverse_tau (delta : Nat) (k : Int) : tau_inverse delta (tau delta k) = k := by
  unfold tau tau_inverse
  by_cases h : delta = 0
  · simp [h]
  · simp only [h, if_false]
    have hpos : (0 : Int) < 2 ^ (delta - 1) := by positivity
    generalize (2 : Int) ^ (delta - 1) = T at hpos
    split_ifs <;> omega

theorem tau_inverse_neg_tau (delta : Nat) (k : Int) :
    tau_inverse delta (-(tau delta k)) = 2 ^ delta - 1 - k := by
  unfold tau tau_inverse
  rcases delta with _ | d
  · simp
  · simp only [Nat.succ_ne_zero, if_false, Nat.add_sub_cancel, pow_succ]
    have hpos : (0 : Int) < 2 ^ d := by positivity
    generalize (2 : Int) ^ d = T at hpos
    split_ifs <;> omega

theorem cosinus_values : cosinus 0 = 1 ∧ cosinus 1 = 0 ∧ cosinus 2 = -1 ∧ cosinus 3 = 0 := by
  decide

theorem sinus_values : sinus 0 = 0 ∧ sinus 1 = 1 ∧ sinus 2 = 0 ∧ sinus 3 = -1 := by
  decide

theorem rotation_values (k h : Int) :
    rotation_of_pi_over_two 0 k h = (k, h) ∧ rotation_of_pi_over_two 1 k h = (-h, k) ∧
    rotation_of_pi_over_two 2 k h = (-k, -h) ∧ rotation_of_pi_over_two 3 k h = (h, -k) := by
  obtain ⟨c0, c1, c2, c3⟩ := cosinus_values
  obtain ⟨s0, s1, s2, s3⟩ := sinus_values
  simp only [rotation_of_pi_over_two, c0, c1, c2, c3, s0, s1, s2, s3]
  refine ⟨?_, ?_, ?_, ?_⟩ <;> ext <;> simp

theorem accumulate_rotation (k s : Nat) (e : Bool) (alpha : Nat) (halpha : alpha < 4)
    (a b : Int) :
    accumulate k s e (rotation_of_pi_over_two alpha (tau k a) (tau k b))
      = ⟨s, e, quarter_turn (2 ^ k) alpha (a, b)⟩ := by
  obtain ⟨r0, r1, r2, r3⟩ := rotation_values (tau k a) (tau k b)
  interval_cases alpha
  · simp only [accumulate, Nat.cast_zero, r0, tau_inverse_tau, quarter_turn]
  · simp only [accumulate, Nat.cast_one, r1, tau_inverse_tau, tau_inverse_neg_tau, quarter_turn]
  · simp only [accumulate, Nat.cast_ofNat, r2, tau_inverse_tau, tau_inverse_neg_tau,
      quarter_turn]
  · simp only [accumulate, Nat.cast_ofNat, r3, tau_inverse_tau, tau_inverse_neg_tau,
      quarter_turn]

theorem flatMap_singleton_fun {α β : Type} (c : α → β) (L : List α) :
    (L.flatMap fun l => [c l]) = L.map c := (List.map_eq_flatMap c L).symm

theorem flatMap_nil_fun {α β : Type} (L : List α) :
    (L.flatMap fun _ => ([] : List β)) = [] := by
  induction L with
  | nil => rfl
  | cons x L ih => simp [ih]

theorem cells_filter_pair (s s1 s2 : Nat) (e1 e2 : Bool) (c1 c2 : Nat → Int × Int)
    (L : List Nat) :
    (((L.flatMap fun l => [(⟨s1, e1, c1 l⟩ : Accumulation), ⟨s2, e2, c2 l⟩]).filter
        fun a => a.slot == s).map Accumulation.cell)
      = L.flatMap fun l => (if s1 = s then [c1 l] else []) ++ (if s2 = s then [c2 l] else []) := by
  induction L with
  | nil => rfl
  | cons x L ih =>
    simp only [List.flatMap_cons, List.filter_append, List.map_append, ih]
    congr 1
    by_cases h1 : s1 = s <;> by_cases h2 : s2 = s <;> simp [List.filter_cons, h1, h2]

theorem flatMap_if_pair {β : Type} (P Q : Prop) [Decidable P] [Decidable Q] (h : ¬ (P ∧ Q))
    (x y : Nat → β) (L : List Nat) :
    (L.flatMap fun l => (if P then [x l] else []) ++ (if Q then [y l] else []))
      = (if P then L.map x else []) ++ (if Q then L.map y else []) := by
  by_cases hP : P <;> by_cases hQ : Q
  · exact absurd ⟨hP, hQ⟩ h
  · simp [hP, hQ, flatMap_singleton_fun]
  · simp [hP, hQ, flatMap_singleton_fun]
  · simp [hP, hQ]

theorem cells_filter_two (s : Nat) (a b : Accumulation) :
    (([a, b].filter fun x => x.slot == s).map Accumulation.cell)
      = (if a.slot = s then [a.cell] else []) ++ (if b.slot = s then [b.cell] else []) := by
  by_cases h1 : a.slot = s <;> by_cases h2 : b.slot = s <;> simp [List.filter_cons, h1, h2]

theorem parallel_velocities_eq (k : Nat) :
    parallel_velocities k = (List.range 4).flatMap fun (alpha : Nat) =>
      (List.range (2 ^ k)).flatMap fun (l : Nat) =>
        [(⟨0 + 2 * alpha, false, quarter_turn (2 ^ k) alpha (-1, l)⟩ : Accumulation),
         ⟨1 + 2 * alpha, true, quarter_turn (2 ^ k) alpha (2 ^ k - 1, l)⟩] := by
  unfold parallel_velocities
  apply List.flatMap_congr
  intro alpha halpha
  apply List.flatMap_congr
  intro l _
  simp only [accumulate_rotation _ _ _ alpha (List.mem_range.1 halpha), zero_mul, zero_sub,
    zero_add, one_mul]

theorem diagonal_velocities_eq (k : Nat) :
    diagonal_velocities k = (List.range 4).flatMap fun (alpha : Nat) =>
      ((List.range (2 ^ k - 1)).flatMap fun (l : Nat) =>
        [(⟨8 + 6 * alpha + 0, false, quarter_turn (2 ^ k) alpha (-1, l)⟩ : Accumulation),
         ⟨8 + 6 * alpha + 3, true, quarter_turn (2 ^ k) alpha (2 ^ k - 1, l)⟩])
      ++ [(⟨8 + 6 * alpha + 1, false, quarter_turn (2 ^ k) alpha (-1, -1)⟩ : Accumulation),
         ⟨8 + 6 * alpha + 4, true, quarter_turn (2 ^ k) alpha (2 ^ k - 1, 2 ^ k - 1)⟩]
      ++ ((List.range (2 ^ k - 1)).flatMap fun (l : Nat) =>
        [(⟨8 + 6 * alpha + 2, false, quarter_turn (2 ^ k) alpha (l, -1)⟩ : Accumulation),
         ⟨8 + 6 * alpha + 5, true, quarter_turn (2 ^ k) alpha (l, 2 ^ k - 1)⟩]) := by
  unfold diagonal_velocities
  apply List.flatMap_congr
  intro alpha halpha
  simp only [accumulate_rotation _ _ _ alpha (List.mem_range.1 halpha), zero_mul, zero_sub,
    zero_add, one_mul, Nat.reduceMul]

/-- The cells of every slot in closed form. -/
theorem slot_cells_eq (k s : Nat) :
    slot_cells k s =
      ((List.range 4).flatMap fun (alpha : Nat) =>
        (if 0 + 2 * alpha = s then
          (List.range (2 ^ k)).map fun (l : Nat) => quarter_turn (2 ^ k) alpha (-1, (l : Int))
         else [])
        ++ (if 1 + 2 * alpha = s then
          (List.range (2 ^ k)).map fun (l : Nat) =>
            quarter_turn (2 ^ k) alpha (2 ^ k - 1, (l : Int))
         else []))
      ++ ((List.range 4).flatMap fun (alpha : Nat) =>
        (if 8 + 6 * alpha + 0 = s then
          (List.range (2 ^ k - 1)).map fun (l : Nat) => quarter_turn (2 ^ k) alpha (-1, (l : Int))
         else [])
        ++ (if 8 + 6 * alpha + 3 = s then
          (List.range (2 ^ k - 1)).map fun (l : Nat) =>
            quarter_turn (2 ^ k) alpha (2 ^ k - 1, (l : Int))
         else [])
        ++ (if 8 + 6 * alpha + 1 = s then [quarter_turn (2 ^ k) alpha (-1, -1)] else [])
        ++ (if 8 + 6 * alpha + 4 = s then [quarter_turn (2 ^ k) alpha (2 ^ k - 1, 2 ^ k - 1)]
          else [])
        ++ (if 8 + 6 * alpha + 2 = s then
          (List.range (2 ^ k - 1)).map fun (l : Nat) => quarter_turn (2 ^ k) alpha ((l : Int), -1)
         else [])
        ++ (if 8 + 6 * alpha + 5 = s then
          (List.range (2 ^ k - 1)).map fun (l : Nat) =>
            quarter_turn (2 ^ k) alpha ((l : Int), 2 ^ k - 1)
         else [])) := by
  unfold slot_cells compute_prediction_level
  rw [parallel_velocities_eq, diagonal_velocities_eq, List.filter_append, List.map_append,
    List.filter_flatMap, List.filter_flatMap, List.map_flatMap, List.map_flatMap]
  congr 1
  · apply List.flatMap_congr
    intro alpha _
    rw [cells_filter_pair, flatMap_if_pair _ _ (by omega)]
  · apply List.flatMap_congr
    intro alpha _
    rw [List.filter_append, List.filter_append, List.map_append, List.map_append,
      cells_filter_pair, cells_filter_pair, flatMap_if_pair _ _ (by omega),
      flatMap_if_pair _ _ (by omega), cells_filter_two]
    simp only [List.append_assoc]

/-! ## The rotation and the change of coordinates of `compute_prediction` -/

theorem cos_quarter_turns (r : Int) (hr0 : 0 ≤ r) (hr4 : r < 4) :
    Real.cos ((r : ℝ) * Real.pi / 2) = (cosinus r : ℝ)
    ∧ Real.sin ((r : ℝ) * Real.pi / 2) = (sinus r : ℝ) := by
  have h3 : (3 : ℝ) * Real.pi / 2 = Real.pi / 2 + Real.pi := by ring
  have h2 : (2 : ℝ) * Real.pi / 2 = Real.pi := by ring
  interval_cases r
  · simp [cosinus, sinus]
  · simp [cosinus, sinus]
  · simp [cosinus, sinus, h2]
  · simp [cosinus, sinus, h3, Real.cos_add_pi, Real.sin_add_pi]

theorem cosinus_mod (alpha : Int) : cosinus (alpha % 4) = cosinus alpha := by
  unfold cosinus
  rw [Int.emod_emod_of_dvd alpha (dvd_refl 4)]

theorem sinus_mod (alpha : Int) : sinus (alpha % 4) = sinus alpha := by
  unfold sinus
  rw [Int.emod_emod_of_dvd alpha (dvd_refl 4)]

/-- The table `cosinus` is the rounding done by line 133 on the exact cosine. -/
theorem cosinus_eq_round (alpha : Int) :
    cosinus alpha = round (Real.cos ((alpha : ℝ) * Real.pi / 2)) := by
  have hsplit : ((alpha : ℝ) * Real.pi / 2)
      = ((alpha % 4 : Int) : ℝ) * Real.pi / 2 + ((alpha / 4 : Int) : ℝ) * (2 * Real.pi) := by
    have h : (alpha : ℝ) = ((alpha % 4 : Int) : ℝ) + 4 * ((alpha / 4 : Int) : ℝ) := by
      exact_mod_cast (Int.emod_add_ediv alpha 4).symm
    rw [h]
    ring
  rw [hsplit, Real.cos_add_int_mul_two_pi,
    (cos_quarter_turns (alpha % 4) (Int.emod_nonneg _ (by norm_num))
      (Int.emod_lt_of_pos _ (by norm_num))).1, cosinus_mod, round_intCast]

/-- The table `sinus` is the rounding done by line 134 on the exact sine. -/
theorem sinus_eq_round (alpha : Int) :
    sinus alpha = round (Real.sin ((alpha : ℝ) * Real.pi / 2)) := by
  have hsplit : ((alpha : ℝ) * Real.pi / 2)
      = ((alpha % 4 : Int) : ℝ) * Real.pi / 2 + ((alpha / 4 : Int) : ℝ) * (2 * Real.pi) := by
    have h : (alpha : ℝ) = ((alpha % 4 : Int) : ℝ) + 4 * ((alpha / 4 : Int) : ℝ) := by
      exact_mod_cast (Int.emod_add_ediv alpha 4).symm
    rw [h]
    ring
  rw [hsplit, Real.sin_add_int_mul_two_pi,
    (cos_quarter_turns (alpha % 4) (Int.emod_nonneg _ (by norm_num))
      (Int.emod_lt_of_pos _ (by norm_num))).2, sinus_mod, round_intCast]

/-- C18: for `alpha` in `{0, 1, 2, 3}` the rounded cosine and sine of
`alpha * pi / 2` are `(1, 0)`, `(0, 1)`, `(-1, 0)`, `(0, -1)`, so that
`rotation_of_pi_over_two(alpha, k, h)` returns `(k, h)`, `(-h, k)`, `(-k, -h)`,
`(h, -k)`; rotating by `alpha` and then by `beta` is rotating by
`(alpha + beta) mod 4`. -/
theorem rotation_of_pi_over_two_spec (k h : Int) :
    (round (Real.cos ((0 : ℝ) * Real.pi / 2)), round (Real.sin ((0 : ℝ) * Real.pi / 2)))
        = ((1 : Int), (0 : Int))
    ∧ (round (Real.cos ((1 : ℝ) * Real.pi / 2)), round (Real.sin ((1 : ℝ) * Real.pi / 2)))
        = ((0 : Int), (1 : Int))
    ∧ (round (Real.cos ((2 : ℝ) * Real.pi / 2)), round (Real.sin ((2 : ℝ) * Real.pi / 2)))
        = ((-1 : Int), (0 : Int))
    ∧ (round (Real.cos ((3 : ℝ) * Real.pi / 2)), round (Real.sin ((3 : ℝ) * Real.pi / 2)))
        = ((0 : Int), (-1 : Int))
    ∧ (cosinus 0, sinus 0) = (1, 0) ∧ (cosinus 1, sinus 1) = (0, 1)
    ∧ (cosinus 2, sinus 2) = (-1, 0) ∧ (cosinus 3, sinus 3) = (0, -1)
    ∧ rotation_of_pi_over_two 0 k h = (k, h)
    ∧ rotation_of_pi_over_two 1 k h = (-h, k)
    ∧ rotation_of_pi_over_two 2 k h = (-k, -h)
    ∧ rotation_of_pi_over_two 3 k h = (h, -k)
    ∧ ∀ alpha beta : Fin 4,
        rotation_of_pi_over_two (beta.val : Int)
            (rotation_of_pi_over_two (alpha.val : Int) k h).1
            (rotation_of_pi_over_two (alpha.val : Int) k h).2
          = rotation_of_pi_over_two (((alpha.val + beta.val) % 4 : Nat) : Int) k h := by
  obtain ⟨r0, r1, r2, r3⟩ := rotation_values k h
  have e0 := cosinus_eq_round 0
  have e1 := cosinus_eq_round 1
  have e2 := cosinus_eq_round 2
  have e3 := cosinus_eq_round 3
  have g0 := sinus_eq_round 0
  have g1 := sinus_eq_round 1
  have g2 := sinus_eq_round 2
  have g3 := sinus_eq_round 3
  push_cast at e0 e1 e2 e3 g0 g1 g2 g3
  refine ⟨?_, ?_, ?_, ?_, by decide, by decide, by decide, by decide, r0, r1, r2, r3, ?_⟩
  · rw [← e0, ← g0]
    decide
  · rw [← e1, ← g1]
    decide
  · rw [← e2, ← g2]
    decide
  · rw [← e3, ← g3]
    decide
  · intro alpha beta
    fin_cases alpha <;> fin_cases beta <;>
      simp [rotation_of_pi_over_two, cosinus, sinus]

theorem tau_tau_inverse (delta : Nat) (k : Int) (h : delta = 0 ∨ k ≠ 0) :
    tau delta (tau_inverse delta k) = k := by
  unfold tau tau_inverse
  by_cases hd : delta = 0
  · simp [hd]
  · simp only [hd, if_false]
    have hk : k ≠ 0 := h.resolve_left hd
    have hpos : (0 : Int) < 2 ^ (delta - 1) := by positivity
    generalize (2 : Int) ^ (delta - 1) = T at hpos
    split_ifs <;> omega

/-- The `int` shift `1 << (delta - 1)` of `tau` and `tau_inverse` is the power of
two used in their model for every `delta` up to 31. -/
theorem tau_shift_defined (delta : Nat) (h1 : 1 ≤ delta) (h31 : delta ≤ 31) :
    int_shl1 (delta - 1) = some (2 ^ (delta - 1)) := by
  unfold int_shl1
  rw [if_pos (by omega)]

/-- C19: `tau_inverse` undoes `tau`: `tau_inverse(delta, tau(delta, k)) = k` for
every `delta >= 0` and every integer `k`; `tau(delta, tau_inverse(delta, k)) = k`
for every `k` when `delta = 0` and for every `k != 0` when `delta >= 1` (at
`k = 0` it gives `-1`: the values of `tau` skip 0). -/
theorem tau_inverse_undoes_tau (delta : Nat) (k : Int) :
    tau_inverse delta (tau delta k) = k
    ∧ (delta = 0 → tau delta (tau_inverse delta k) = k)
    ∧ (1 ≤ delta → k ≠ 0 → tau delta (tau_inverse delta k) = k)
    ∧ (1 ≤ delta → tau delta (tau_inverse delta 0) = -1) := by
  refine ⟨tau_inverse_tau delta k, fun h0 => tau_tau_inverse delta k (Or.inl h0),
    fun _ hk => tau_tau_inverse delta k (Or.inr hk), ?_⟩
  intro h1
  unfold tau tau_inverse
  have hd : delta ≠ 0 := by omega
  simp only [hd, if_false]
  have hpos : (0 : Int) < 2 ^ (delta - 1) := by positivity
  generalize (2 : Int) ^ (delta - 1) = T at hpos
  split_ifs <;> omega

/-! ## The cells of the flux slots -/

theorem range_four : List.range 4 = [0, 1, 2, 3] := rfl

theorem slot_cells_parallel (k a : Nat) (ha : a < 4) :
    slot_cells k (2 * a)
      = (List.range (2 ^ k)).map (fun (l : Nat) => quarter_turn (2 ^ k) a (-1, (l : Int)))
    ∧ slot_cells k (2 * a + 1)
      = (List.range (2 ^ k)).map
          (fun (l : Nat) => quarter_turn (2 ^ k) a (2 ^ k - 1, (l : Int))) := by
  rw [slot_cells_eq, slot_cells_eq, range_four]
  interval_cases a <;> simp

theorem slot_cells_diagonal (k a : Nat) (ha : a < 4) :
    slot_cells k (8 + 6 * a)
      = (List.range (2 ^ k - 1)).map (fun (l : Nat) => quarter_turn (2 ^ k) a (-1, (l : Int)))
    ∧ slot_cells k (8 + 6 * a + 1) = [quarter_turn (2 ^ k) a (-1, -1)]
    ∧ slot_cells k (8 + 6 * a + 2)
      = (List.range (2 ^ k - 1)).map (fun (l : Nat) => quarter_turn (2 ^ k) a ((l : Int), -1))
    ∧ slot_cells k (8 + 6 * a + 3)
      = (List.range (2 ^ k - 1)).map
          (fun (l : Nat) => quarter_turn (2 ^ k) a (2 ^ k - 1, (l : Int)))
    ∧ slot_cells k (8 + 6 * a + 4) = [quarter_turn (2 ^ k) a (2 ^ k - 1, 2 ^ k - 1)]
    ∧ slot_cells k (8 + 6 * a + 5)
      = (List.range (2 ^ k - 1)).map
          (fun (l : Nat) => quarter_turn (2 ^ k) a ((l : Int), 2 ^ k - 1)) := by
  rw [slot_cells_eq, slot_cells_eq, slot_cells_eq, slot_cells_eq, slot_cells_eq, slot_cells_eq,
    range_four]
  interval_cases a <;> simp

theorem square_apply_false (N x y : Int) :
    square N x y = false ↔ ¬ (0 ≤ x ∧ x < N ∧ 0 ≤ y ∧ y < N) := by
  simp [square]

theorem pow_two_cast (k : Nat) : (((2 : Nat) ^ k : Nat) : Int) = (2 : Int) ^ k := by
  push_cast
  rfl

theorem quarter_turn_injective_snd (S : Int) (a : Nat) (x : Int) (l l2 : Nat)
    (h : quarter_turn S a (x, (l : Int)) = quarter_turn S a (x, (l2 : Int))) : l = l2 := by
  unfold quarter_turn at h
  split at h <;> simp only [Prod.mk.injEq] at h <;> omega

theorem quarter_turn_injective_fst (S : Int) (a : Nat) (y : Int) (l l2 : Nat)
    (h : quarter_turn S a ((l : Int), y) = quarter_turn S a ((l2 : Int), y)) : l = l2 := by
  unfold quarter_turn at h
  split at h <;> simp only [Prod.mk.injEq] at h <;> omega

theorem nodup_map_snd (S : Int) (a : Nat) (x : Int) (n : Nat) :
    ((List.range n).map (fun (l : Nat) => quarter_turn S a (x, (l : Int)))).Nodup :=
  List.Nodup.map_on (fun l _ l2 _ h => quarter_turn_injective_snd S a x l l2 h)
    (List.nodup_range n)

theorem nodup_map_fst (S : Int) (a : Nat) (y : Int) (n : Nat) :
    ((List.range n).map (fun (l : Nat) => quarter_turn S a ((l : Int), y))).Nodup :=
  List.Nodup.map_on (fun l _ l2 _ h => quarter_turn_injective_fst S a y l l2 h)
    (List.nodup_range n)

theorem slot_cells_parallel_mem (k a : Nat) (ha : a < 4) :
    (∀ q : Int × Int, q ∈ slot_cells k (2 * a) ↔
        ∃ p : Int × Int, square (2 ^ k) p.1 p.2 = true
          ∧ q = (p.1 - (rotation_of_pi_over_two a 1 0).1,
                 p.2 - (rotation_of_pi_over_two a 1 0).2)
          ∧ square (2 ^ k) q.1 q.2 = false)
    ∧ (∀ q : Int × Int, q ∈ slot_cells k (2 * a + 1) ↔
        square (2 ^ k) q.1 q.2 = true
          ∧ square (2 ^ k) (q.1 + (rotation_of_pi_over_two a 1 0).1)
              (q.2 + (rotation_of_pi_over_two a 1 0).2) = false) := by
  obtain ⟨hin, hout⟩ := slot_cells_parallel k a ha
  obtain ⟨r0, r1, r2, r3⟩ := rotation_values 1 0
  have hS := pow_two_cast k
  rw [hin, hout]
  refine ⟨?_, ?_⟩
  · rintro ⟨q1, q2⟩
    simp only [List.mem_map, List.mem_range, square_apply, square_apply_false, Prod.exists,
      Prod.mk.injEq]
    generalize (2 : Int) ^ k = S at hS
    generalize (2 : Nat) ^ k = n at hS
    interval_cases a
    · simp only [Nat.cast_zero, r0, quarter_turn, Prod.mk.injEq]
      constructor
      · rintro ⟨l, hl, h1, h2⟩
        exact ⟨q1 + 1, q2, by omega, by omega, by omega⟩
      · rintro ⟨p1, p2, hp, ⟨h1, h2⟩, hq⟩
        exact ⟨q2.toNat, by omega, by omega, by omega⟩
    · simp only [Nat.cast_one, r1, quarter_turn, Prod.mk.injEq]
      constructor
      · rintro ⟨l, hl, h1, h2⟩
        exact ⟨q1, q2 + 1, by omega, by omega, by omega⟩
      · rintro ⟨p1, p2, hp, ⟨h1, h2⟩, hq⟩
        exact ⟨(S - 1 - q1).toNat, by omega, by omega, by omega⟩
    · simp only [Nat.cast_ofNat, r2, quarter_turn, Prod.mk.injEq]
      constructor
      · rintro ⟨l, hl, h1, h2⟩
        exact ⟨q1 - 1, q2, by omega, by omega, by omega⟩
      · rintro ⟨p1, p2, hp, ⟨h1, h2⟩, hq⟩
        exact ⟨(S - 1 - q2).toNat, by omega, by omega, by omega⟩
    · simp only [Nat.cast_ofNat, r3, quarter_turn, Prod.mk.injEq]
      constructor
      · rintro ⟨l, hl, h1, h2⟩
        exact ⟨q1, q2 - 1, by omega, by omega, by omega⟩
      · rintro ⟨p1, p2, hp, ⟨h1, h2⟩, hq⟩
        exact ⟨q1.toNat, by omega, by omega, by omega⟩
  · rintro ⟨q1, q2⟩
    simp only [List.mem_map, List.mem_range, square_apply, square_apply_false, Prod.mk.injEq]
    generalize (2 : Int) ^ k = S at hS
    generalize (2 : Nat) ^ k = n at hS
    interval_cases a
    · simp only [Nat.cast_zero, r0, quarter_turn, Prod.mk.injEq]
      constructor
      · rintro ⟨l, hl, h1, h2⟩
        omega
      · rintro ⟨hq, hq2⟩
        exact ⟨q2.toNat, by omega, by omega, by omega⟩
    · simp only [Nat.cast_one, r1, quarter_turn, Prod.mk.injEq]
      constructor
      · rintro ⟨l, hl, h1, h2⟩
        omega
      · rintro ⟨hq, hq2⟩
        exact ⟨(S - 1 - q1).toNat, by omega, by omega, by omega⟩
    · simp only [Nat.cast_ofNat, r2, quarter_turn, Prod.mk.injEq]
      constructor
      · rintro ⟨l, hl, h1, h2⟩
        omega
      · rintro ⟨hq, hq2⟩
        exact ⟨(S - 1 - q2).toNat, by omega, by omega, by omega⟩
    · simp only [Nat.cast_ofNat, r3, quarter_turn, Prod.mk.injEq]
      constructor
      · rintro ⟨l, hl, h1, h2⟩
        omega
      · rintro ⟨hq, hq2⟩
        exact ⟨q1.toNat, by omega, by omega, by omega⟩

/-- C16: for every level gap `k` and every `a` in `0..3`, with
`B = [0, 2^k) x [0, 2^k)` and `c` the rotation of `(1, 0)` by `a * pi / 2`: the
cells accumulated into slot `2a` are exactly the `2^k` cells
`{p - c : p in B, p - c not in B}`, each once, and into slot `2a + 1` exactly the
`2^k` cells `{p in B : p + c not in B}`, each once. -/
theorem compute_prediction_parallel_slots (k a : Nat) (ha : a < 4) :
    (slot_cells k (2 * a)).Nodup ∧ (slot_cells k (2 * a)).length = 2 ^ k
    ∧ (∀ q : Int × Int, q ∈ slot_cells k (2 * a) ↔
        ∃ p : Int × Int, square (2 ^ k) p.1 p.2 = true
          ∧ q = (p.1 - (rotation_of_pi_over_two a 1 0).1,
                 p.2 - (rotation_of_pi_over_two a 1 0).2)
          ∧ square (2 ^ k) q.1 q.2 = false)
    ∧ (slot_cells k (2 * a + 1)).Nodup ∧ (slot_cells k (2 * a + 1)).length = 2 ^ k
    ∧ (∀ q : Int × Int, q ∈ slot_cells k (2 * a + 1) ↔
        square (2 ^ k) q.1 q.2 = true
          ∧ square (2 ^ k) (q.1 + (rotation_of_pi_over_two a 1 0).1)
              (q.2 + (rotation_of_pi_over_two a 1 0).2) = false) := by
  obtain ⟨hin, hout⟩ := slot_cells_parallel k a ha
  obtain ⟨min, mout⟩ := slot_cells_parallel_mem k a ha
  refine ⟨?_, ?_, min, ?_, ?_, mout⟩
  · rw [hin]
    exact nodup_map_snd _ _ _ _
  · rw [hin, List.length_map, List.length_range]
  · rw [hout]
    exact nodup_map_snd _ _ _ _
  · rw [hout, List.length_map, List.length_range]

/-- Witness of `compute_prediction_parallel_slots`: the level gap 1 and `a = 1`
(the slots 2 and 3 of the direction `(0, 1)`). -/
theorem compute_prediction_parallel_slots_witness :
    (1 : Nat) < 4
    ∧ (slot_cells 1 (2 * 1)).Nodup ∧ (slot_cells 1 (2 * 1)).length = 2 ^ 1
    ∧ (∀ q : Int × Int, q ∈ slot_cells 1 (2 * 1) ↔
        ∃ p : Int × Int, square (2 ^ 1) p.1 p.2 = true
          ∧ q = (p.1 - (rotation_of_pi_over_two ((1 : Nat) : Int) 1 0).1,
                 p.2 - (rotation_of_pi_over_two ((1 : Nat) : Int) 1 0).2)
          ∧ square (2 ^ 1) q.1 q.2 = false)
    ∧ (slot_cells 1 (2 * 1 + 1)).Nodup ∧ (slot_cells 1 (2 * 1 + 1)).length = 2 ^ 1
    ∧ (∀ q : Int × Int, q ∈ slot_cells 1 (2 * 1 + 1) ↔
        square (2 ^ 1) q.1 q.2 = true
          ∧ square (2 ^ 1) (q.1 + (rotation_of_pi_over_two ((1 : Nat) : Int) 1 0).1)
              (q.2 + (rotation_of_pi_over_two ((1 : Nat) : Int) 1 0).2) = false) :=
  ⟨by decide, compute_prediction_parallel_slots 1 1 (by decide)⟩

theorem slot_cells_diagonal_mem (k a : Nat) (ha : a < 4) :
    (∀ q : Int × Int,
        (q ∈ slot_cells k (8 + 6 * a) ∨ q ∈ slot_cells k (8 + 6 * a + 1)
          ∨ q ∈ slot_cells k (8 + 6 * a + 2)) ↔
        ∃ p : Int × Int, square (2 ^ k) p.1 p.2 = true
          ∧ q = (p.1 - (rotation_of_pi_over_two a 1 1).1,
                 p.2 - (rotation_of_pi_over_two a 1 1).2)
          ∧ square (2 ^ k) q.1 q.2 = false)
    ∧ (∀ q : Int × Int,
        (q ∈ slot_cells k (8 + 6 * a + 3) ∨ q ∈ slot_cells k (8 + 6 * a + 4)
          ∨ q ∈ slot_cells k (8 + 6 * a + 5)) ↔
        square (2 ^ k) q.1 q.2 = true
          ∧ square (2 ^ k) (q.1 + (rotation_of_pi_over_two a 1 1).1)
              (q.2 + (rotation_of_pi_over_two a 1 1).2) = false) := by
  obtain ⟨h0, h1, h2, h3, h4, h5⟩ := slot_cells_diagonal k a ha
  obtain ⟨r0, r1, r2, r3⟩ := rotation_values 1 1
  have hS := pow_two_cast k
  have hn : 1 ≤ 2 ^ k := Nat.one_le_two_pow
  rw [h0, h1, h2, h3, h4, h5]
  refine ⟨?_, ?_⟩
  · rintro ⟨q1, q2⟩
    simp only [List.mem_map, List.mem_range, List.mem_singleton, square_apply,
      square_apply_false, Prod.exists, Prod.mk.injEq]
    generalize (2 : Int) ^ k = S at hS
    generalize (2 : Nat) ^ k = n at hS hn
    interval_cases a
    · simp only [Nat.cast_zero, r0, quarter_turn, Prod.mk.injEq]
      constructor
      · rintro (⟨l, hl, e1, e2⟩ | ⟨e1, e2⟩ | ⟨l, hl, e1, e2⟩) <;>
          exact ⟨q1 + 1, q2 + 1, by omega, by omega, by omega⟩
      · rintro ⟨p1, p2, hp, ⟨e1, e2⟩, hq⟩
        by_cases hc : q1 = -1 ∧ q2 = -1
        · exact Or.inr (Or.inl ⟨by omega, by omega⟩)
        · by_cases hl : q1 = -1
          · exact Or.inl ⟨q2.toNat, by omega, by omega, by omega⟩
          · exact Or.inr (Or.inr ⟨q1.toNat, by omega, by omega, by omega⟩)
    · simp only [Nat.cast_one, r1, quarter_turn, Prod.mk.injEq]
      constructor
      · rintro (⟨l, hl, e1, e2⟩ | ⟨e1, e2⟩ | ⟨l, hl, e1, e2⟩) <;>
          exact ⟨q1 - 1, q2 + 1, by omega, by omega, by omega⟩
      · rintro ⟨p1, p2, hp, ⟨e1, e2⟩, hq⟩
        by_cases hc : q1 = S ∧ q2 = -1
        · exact Or.inr (Or.inl ⟨by omega, by omega⟩)
        · by_cases hl : q2 = -1
          · exact Or.inl ⟨(S - 1 - q1).toNat, by omega, by omega, by omega⟩
          · exact Or.inr (Or.inr ⟨q2.toNat, by omega, by omega, by omega⟩)
    · simp only [Nat.cast_ofNat, r2, quarter_turn, Prod.mk.injEq]
      constructor
      · rintro (⟨l, hl, e1, e2⟩ | ⟨e1, e2⟩ | ⟨l, hl, e1, e2⟩) <;>
          exact ⟨q1 - 1, q2 - 1, by omega, by omega, by omega⟩
      · rintro ⟨p1, p2, hp, ⟨e1, e2⟩, hq⟩
        by_cases hc : q1 = S ∧ q2 = S
        · exact Or.inr (Or.inl ⟨by omega, by omega⟩)
        · by_cases hl : q1 = S
          · exact Or.inl ⟨(S - 1 - q2).toNat, by omega, by omega, by omega⟩
          · exact Or.inr (Or.inr ⟨(S - 1 - q1).toNat, by omega, by omega, by omega⟩)
    · simp only [Nat.cast_ofNat, r3, quarter_turn, Prod.mk.injEq]
      constructor
      · rintro (⟨l, hl, e1, e2⟩ | ⟨e1, e2⟩ | ⟨l, hl, e1, e2⟩) <;>
          exact ⟨q1 + 1, q2 - 1, by omega, by omega, by omega⟩
      · rintro ⟨p1, p2, hp, ⟨e1, e2⟩, hq⟩
        by_cases hc : q1 = -1 ∧ q2 = S
        · exact Or.inr (Or.inl ⟨by omega, by omega⟩)
        · by_cases hl : q2 = S
          · exact Or.inl ⟨q1.toNat, by omega, by omega, by omega⟩
          · exact Or.inr (Or.inr ⟨(S - 1 - q2).toNat, by omega, by omega, by omega⟩)
  · rintro ⟨q1, q2⟩
    simp only [List.mem_map, List.mem_range, List.mem_singleton, square_apply,
      square_apply_false, Prod.mk.injEq]
    generalize (2 : Int) ^ k = S at hS
    generalize (2 : Nat) ^ k = n at hS hn
    interval_cases a
    · simp only [Nat.cast_zero, r0, quarter_turn, Prod.mk.injEq]
      constructor
      · rintro (⟨l, hl, e1, e2⟩ | ⟨e1, e2⟩ | ⟨l, hl, e1, e2⟩) <;> omega
      · rintro ⟨hq, hq2⟩
        by_cases hc : q1 = S - 1 ∧ q2 = S - 1
        · exact Or.inr (Or.inl ⟨by omega, by omega⟩)
        · by_cases hl : q1 = S - 1
          · exact Or.inl ⟨q2.toNat, by omega, by omega, by omega⟩
          · exact Or.inr (Or.inr ⟨q1.toNat, by omega, by omega, by omega⟩)
    · simp only [Nat.cast_one, r1, quarter_turn, Prod.mk.injEq]
      constructor
      · rintro (⟨l, hl, e1, e2⟩ | ⟨e1, e2⟩ | ⟨l, hl, e1, e2⟩) <;> omega
      · rintro ⟨hq, hq2⟩
        by_cases hc : q1 = 0 ∧ q2 = S - 1
        · exact Or.inr (Or.inl ⟨by omega, by omega⟩)
        · by_cases hl : q2 = S - 1
          · exact Or.inl ⟨(S - 1 - q1).toNat, by omega, by omega, by omega⟩
          · exact Or.inr (Or.inr ⟨q2.toNat, by omega, by omega, by omega⟩)
    · simp only [Nat.cast_ofNat, r2, quarter_turn, Prod.mk.injEq]
      constructor
      · rintro (⟨l, hl, e1, e2⟩ | ⟨e1, e2⟩ | ⟨l, hl, e1, e2⟩) <;> omega
      · rintro ⟨hq, hq2⟩
        by_cases hc : q1 = 0 ∧ q2 = 0
        · exact Or.inr (Or.inl ⟨by omega, by omega⟩)
        · by_cases hl : q1 = 0
          · exact Or.inl ⟨(S - 1 - q2).toNat, by omega, by omega, by omega⟩
          · exact Or.inr (Or.inr ⟨(S - 1 - q1).toNat, by omega, by omega, by omega⟩)
    · simp only [Nat.cast_ofNat, r3, quarter_turn, Prod.mk.injEq]
      constructor
      · rintro (⟨l, hl, e1, e2⟩ | ⟨e1, e2⟩ | ⟨l, hl, e1, e2⟩) <;> omega
      · rintro ⟨hq, hq2⟩
        by_cases hc : q1 = S - 1 ∧ q2 = 0
        · exact Or.inr (Or.inl ⟨by omega, by omega⟩)
        · by_cases hl : q2 = 0
          · exact Or.inl ⟨q1.toNat, by omega, by omega, by omega⟩
          · exact Or.inr (Or.inr ⟨(S - 1 - q2).toNat, by omega, by omega, by omega⟩)

/-- C17: for every level gap `k` and every `a` in `0..3`, with
`B = [0, 2^k) x [0, 2^k)` and `d` the rotation of `(1, 1)` by `a * pi / 2`: the
cells accumulated into the slots `8 + 6a + 0`, `8 + 6a + 1`, `8 + 6a + 2` are
pairwise disjoint and their union is exactly `{p - d : p in B, p - d not in B}`
(`2^(k+1) - 1` cells, none repeated), and those of the slots `8 + 6a + 3`,
`8 + 6a + 4`, `8 + 6a + 5` are pairwise disjoint with union exactly
`{p in B : p + d not in B}` (`2^(k+1) - 1` cells, none repeated). -/
theorem compute_prediction_diagonal_slots (k a : Nat) (ha : a < 4) :
    (slot_cells k (8 + 6 * a)).Disjoint (slot_cells k (8 + 6 * a + 1))
    ∧ (slot_cells k (8 + 6 * a)).Disjoint (slot_cells k (8 + 6 * a + 2))
    ∧ (slot_cells k (8 + 6 * a + 1)).Disjoint (slot_cells k (8 + 6 * a + 2))
    ∧ (∀ q : Int × Int,
        (q ∈ slot_cells k (8 + 6 * a) ∨ q ∈ slot_cells k (8 + 6 * a + 1)
          ∨ q ∈ slot_cells k (8 + 6 * a + 2)) ↔
        ∃ p : Int × Int, square (2 ^ k) p.1 p.2 = true
          ∧ q = (p.1 - (rotation_of_pi_over_two a 1 1).1,
                 p.2 - (rotation_of_pi_over_two a 1 1).2)
          ∧ square (2 ^ k) q.1 q.2 = false)
    ∧ (slot_cells k (8 + 6 * a)).Nodup ∧ (slot_cells k (8 + 6 * a + 1)).Nodup
    ∧ (slot_cells k (8 + 6 * a + 2)).Nodup
    ∧ (slot_cells k (8 + 6 * a)).length + (slot_cells k (8 + 6 * a + 1)).length
        + (slot_cells k (8 + 6 * a + 2)).length = 2 ^ (k + 1) - 1
    ∧ (slot_cells k (8 + 6 * a + 3)).Disjoint (slot_cells k (8 + 6 * a + 4))
    ∧ (slot_cells k (8 + 6 * a + 3)).Disjoint (slot_cells k (8 + 6 * a + 5))
    ∧ (slot_cells k (8 + 6 * a + 4)).Disjoint (slot_cells k (8 + 6 * a + 5))
    ∧ (∀ q : Int × Int,
        (q ∈ slot_cells k (8 + 6 * a + 3) ∨ q ∈ slot_cells k (8 + 6 * a + 4)
          ∨ q ∈ slot_cells k (8 + 6 * a + 5)) ↔
        square (2 ^ k) q.1 q.2 = true
          ∧ square (2 ^ k) (q.1 + (rotation_of_pi_over_two a 1 1).1)
              (q.2 + (rotation_of_pi_over_two a 1 1).2) = false)
    ∧ (slot_cells k (8 + 6 * a + 3)).Nodup ∧ (slot_cells k (8 + 6 * a + 4)).Nodup
    ∧ (slot_cells k (8 + 6 * a + 5)).Nodup
    ∧ (slot_cells k (8 + 6 * a + 3)).length + (slot_cells k (8 + 6 * a + 4)).length
        + (slot_cells k (8 + 6 * a + 5)).length = 2 ^ (k + 1) - 1 := by
  obtain ⟨h0, h1, h2, h3, h4, h5⟩ := slot_cells_diagonal k a ha
  obtain ⟨uin, uout⟩ := slot_cells_diagonal_mem k a ha
  have hS := pow_two_cast k
  have hn : 1 ≤ 2 ^ k := Nat.one_le_two_pow
  have hlen : 2 ^ k - 1 + 1 + (2 ^ k - 1) = 2 ^ (k + 1) - 1 := by
    rw [pow_succ]
    omega
  refine ⟨?_, ?_, ?_, uin, ?_, ?_, ?_, ?_, ?_, ?_, ?_, uout, ?_, ?_, ?_, ?_⟩
  · rw [h0, h1]
    rintro ⟨q1, q2⟩ h1 h2
    simp only [List.mem_map, List.mem_range, List.mem_singleton, Prod.mk.injEq] at h1 h2
    generalize (2 : Int) ^ k = S at hS h1 h2
    generalize (2 : Nat) ^ k = n at hS hn h1 h2
    interval_cases a <;> simp only [quarter_turn, Prod.mk.injEq] at h1 h2 <;>
      obtain ⟨l, hl, e1, e2⟩ := h1 <;> obtain ⟨e3, e4⟩ := h2 <;> omega
  · rw [h0, h2]
    rintro ⟨q1, q2⟩ h1 h2
    simp only [List.mem_map, List.mem_range, List.mem_singleton, Prod.mk.injEq] at h1 h2
    generalize (2 : Int) ^ k = S at hS h1 h2
    generalize (2 : Nat) ^ k = n at hS hn h1 h2
    interval_cases a <;> simp only [quarter_turn, Prod.mk.injEq] at h1 h2 <;>
      obtain ⟨l, hl, e1, e2⟩ := h1 <;> obtain ⟨l2, hl2, e3, e4⟩ := h2 <;> omega
  · rw [h1, h2]
    rintro ⟨q1, q2⟩ h1 h2
    simp only [List.mem_map, List.mem_range, List.mem_singleton, Prod.mk.injEq] at h1 h2
    generalize (2 : Int) ^ k = S at hS h1 h2
    generalize (2 : Nat) ^ k = n at hS hn h1 h2
    interval_cases a <;> simp only [quarter_turn, Prod.mk.injEq] at h1 h2 <;>
      obtain ⟨e1, e2⟩ := h1 <;> obtain ⟨l2, hl2, e3, e4⟩ := h2 <;> omega
  · rw [h0]
    exact nodup_map_snd _ _ _ _
  · rw [h1]
    exact List.nodup_singleton _
  · rw [h2]
    exact nodup_map_fst _ _ _ _
  · rw [h0, h1, h2]
    simpa using hlen
  · rw [h3, h4]
    rintro ⟨q1, q2⟩ h1 h2
    simp only [List.mem_map, List.mem_range, List.mem_singleton, Prod.mk.injEq] at h1 h2
    generalize (2 : Int) ^ k = S at hS h1 h2
    generalize (2 : Nat) ^ k = n at hS hn h1 h2
    interval_cases a <;> simp only [quarter_turn, Prod.mk.injEq] at h1 h2 <;>
      obtain ⟨l, hl, e1, e2⟩ := h1 <;> obtain ⟨e3, e4⟩ := h2 <;> omega
  · rw [h3, h5]
    rintro ⟨q1, q2⟩ h1 h2
    simp only [List.mem_map, List.mem_range, List.mem_singleton, Prod.mk.injEq] at h1 h2
    generalize (2 : Int) ^ k = S at hS h1 h2
    generalize (2 : Nat) ^ k = n at hS hn h1 h2
    interval_cases a <;> simp only [quarter_turn, Prod.mk.injEq] at h1 h2 <;>
      obtain ⟨l, hl, e1, e2⟩ := h1 <;> obtain ⟨l2, hl2, e3, e4⟩ := h2 <;> omega
  · rw [h4, h5]
    rintro ⟨q1, q2⟩ h1 h2
    simp only [List.mem_map, List.mem_range, List.mem_singleton, Prod.mk.injEq] at h1 h2
    generalize (2 : Int) ^ k = S at hS h1 h2
    generalize (2 : Nat) ^ k = n at hS hn h1 h2
    interval_cases a <;> simp only [quarter_turn, Prod.mk.injEq] at h1 h2 <;>
      obtain ⟨e1, e2⟩ := h1 <;> obtain ⟨l2, hl2, e3, e4⟩ := h2 <;> omega
  · rw [h3]
    exact nodup_map_snd _ _ _ _
  · rw [h4]
    exact List.nodup_singleton _
  · rw [h5]
    exact nodup_map_fst _ _ _ _
  · rw [h3, h4, h5]
    simpa using hlen

/-- Witness of `compute_prediction_diagonal_slots`: the level gap 2 and `a = 3`
(the slots 26..31 of the direction `(1, -1)`). -/
theorem compute_prediction_diagonal_slots_witness :
    (3 : Nat) < 4
    ∧ (slot_cells 2 (8 + 6 * 3)).Disjoint (slot_cells 2 (8 + 6 * 3 + 1))
    ∧ (slot_cells 2 (8 + 6 * 3)).Disjoint (slot_cells 2 (8 + 6 * 3 + 2))
    ∧ (slot_cells 2 (8 + 6 * 3 + 1)).Disjoint (slot_cells 2 (8 + 6 * 3 + 2))
    ∧ (∀ q : Int × Int,
        (q ∈ slot_cells 2 (8 + 6 * 3) ∨ q ∈ slot_cells 2 (8 + 6 * 3 + 1)
          ∨ q ∈ slot_cells 2 (8 + 6 * 3 + 2)) ↔
        ∃ p : Int × Int, square (2 ^ 2) p.1 p.2 = true
          ∧ q = (p.1 - (rotation_of_pi_over_two ((3 : Nat) : Int) 1 1).1,
                 p.2 - (rotation_of_pi_over_two ((3 : Nat) : Int) 1 1).2)
          ∧ square (2 ^ 2) q.1 q.2 = false)
    ∧ (slot_cells 2 (8 + 6 * 3)).Nodup ∧ (slot_cells 2 (8 + 6 * 3 + 1)).Nodup
    ∧ (slot_cells 2 (8 + 6 * 3 + 2)).Nodup
    ∧ (slot_cells 2 (8 + 6 * 3)).length + (slot_cells 2 (8 + 6 * 3 + 1)).length
        + (slot_cells 2 (8 + 6 * 3 + 2)).length = 2 ^ (2 + 1) - 1
    ∧ (slot_cells 2 (8 + 6 * 3 + 3)).Disjoint (slot_cells 2 (8 + 6 * 3 + 4))
    ∧ (slot_cells 2 (8 + 6 * 3 + 3)).Disjoint (slot_cells 2 (8 + 6 * 3 + 5))
    ∧ (slot_cells 2 (8 + 6 * 3 + 4)).Disjoint (slot_cells 2 (8 + 6 * 3 + 5))
    ∧ (∀ q : Int × Int,
        (q ∈ slot_cells 2 (8 + 6 * 3 + 3) ∨ q ∈ slot_cells 2 (8 + 6 * 3 + 4)
          ∨ q ∈ slot_cells 2 (8 + 6 * 3 + 5)) ↔
        square (2 ^ 2) q.1 q.2 = true
          ∧ square (2 ^ 2) (q.1 + (rotation_of_pi_over_two ((3 : Nat) : Int) 1 1).1)
              (q.2 + (rotation_of_pi_over_two ((3 : Nat) : Int) 1 1).2) = false)
    ∧ (slot_cells 2 (8 + 6 * 3 + 3)).Nodup ∧ (slot_cells 2 (8 + 6 * 3 + 4)).Nodup
    ∧ (slot_cells 2 (8 + 6 * 3 + 5)).Nodup
    ∧ (slot_cells 2 (8 + 6 * 3 + 3)).length + (slot_cells 2 (8 + 6 * 3 + 4)).length
        + (slot_cells 2 (8 + 6 * 3 + 5)).length = 2 ^ (2 + 1) - 1 :=
  ⟨by decide, compute_prediction_diagonal_slots 2 3 (by decide)⟩

/-! ## The slots of the flux tables -/

theorem slot_cells_length (k s : Nat) (hs : s < 32) :
    (slot_cells k s).length
      = if s < 8 then 2 ^ k else if (s - 8) % 3 = 1 then 1 else 2 ^ k - 1 := by
  rw [slot_cells_eq, range_four]
  interval_cases s <;> simp

theorem slot_cells_ne_nil (k s : Nat) (hs : s < 32) (hk : 1 ≤ k) : slot_cells k s ≠ [] := by
  intro h
  have hlen := slot_cells_length k s hs
  rw [h] at hlen
  have h2 : 2 ≤ 2 ^ k := by
    calc 2 = 2 ^ 1 := rfl
      _ ≤ 2 ^ k := Nat.pow_le_pow_right (by norm_num) hk
  simp only [List.length_nil] at hlen
  split_ifs at hlen <;> omega

theorem mem_slot_cells (k : Nat) (acc : Accumulation) (h : acc ∈ compute_prediction_level k) :
    acc.cell ∈ slot_cells k acc.slot := by
  unfold slot_cells
  exact List.mem_map_of_mem _ (List.mem_filter.2 ⟨h, by simp⟩)

theorem exists_of_slot_cells (k s : Nat) (q : Int × Int) (h : q ∈ slot_cells k s) :
    ∃ acc ∈ compute_prediction_level k, acc.slot = s ∧ acc.cell = q := by
  unfold slot_cells at h
  obtain ⟨acc, hacc, rfl⟩ := List.mem_map.1 h
  obtain ⟨h1, h2⟩ := List.mem_filter.1 hacc
  exact ⟨acc, h1, by simpa using h2, rfl⟩

/-- The slot of an accumulation tells whether it comes from `rotated_in` or from
`rotated_out`. -/
theorem accumulation_kind (k : Nat) (acc : Accumulation)
    (h : acc ∈ compute_prediction_level k) :
    ∃ a, a < 4 ∧
      ((acc.exiting = false ∧ (acc.slot = 2 * a ∨ acc.slot = 8 + 6 * a
          ∨ acc.slot = 8 + 6 * a + 1 ∨ acc.slot = 8 + 6 * a + 2))
        ∨ (acc.exiting = true ∧ (acc.slot = 2 * a + 1 ∨ acc.slot = 8 + 6 * a + 3
          ∨ acc.slot = 8 + 6 * a + 4 ∨ acc.slot = 8 + 6 * a + 5))) := by
  unfold compute_prediction_level at h
  rw [parallel_velocities_eq, diagonal_velocities_eq] at h
  simp only [List.mem_append, List.mem_flatMap, List.mem_range, List.mem_cons,
    List.mem_singleton, List.not_mem_nil, or_false] at h
  rcases h with ⟨a, ha, l, -, rfl | rfl⟩
    | ⟨a, ha, (⟨l, -, rfl | rfl⟩ | rfl | rfl) | ⟨l, -, rfl | rfl⟩⟩ <;>
    refine ⟨a, ha, ?_⟩ <;> first | (simp; done) | (simp; omega)

theorem slot_cells_side (k s : Nat) (q : Int × Int) (hq : q ∈ slot_cells k s) :
    ((s = 0 ∨ s = 8 ∨ s = 28) → q.1 = -1 ∧ 0 ≤ q.2 ∧ q.2 < 2 ^ k)
    ∧ ((s = 2 ∨ s = 10 ∨ s = 14) → q.2 = -1 ∧ 0 ≤ q.1 ∧ q.1 < 2 ^ k)
    ∧ ((s = 4 ∨ s = 16 ∨ s = 20) → q.1 = 2 ^ k ∧ 0 ≤ q.2 ∧ q.2 < 2 ^ k)
    ∧ ((s = 6 ∨ s = 22 ∨ s = 26) → q.2 = 2 ^ k ∧ 0 ≤ q.1 ∧ q.1 < 2 ^ k)
    ∧ (s = 9 → q.1 = -1 ∧ q.2 = -1)
    ∧ (s = 15 → q.1 = 2 ^ k ∧ q.2 = -1)
    ∧ (s = 21 → q.1 = 2 ^ k ∧ q.2 = 2 ^ k)
    ∧ (s = 27 → q.1 = -1 ∧ q.2 = 2 ^ k) := by
  have hS := pow_two_cast k
  have hn : 1 ≤ 2 ^ k := Nat.one_le_two_pow
  have p0 := slot_cells_parallel k 0 (by norm_num)
  have p1 := slot_cells_parallel k 1 (by norm_num)
  have p2 := slot_cells_parallel k 2 (by norm_num)
  have p3 := slot_cells_parallel k 3 (by norm_num)
  have d0 := slot_cells_diagonal k 0 (by norm_num)
  have d1 := slot_cells_diagonal k 1 (by norm_num)
  have d2 := slot_cells_diagonal k 2 (by norm_num)
  have d3 := slot_cells_diagonal k 3 (by norm_num)
  simp only [Nat.reduceMul, Nat.reduceAdd, quarter_turn] at p0 p1 p2 p3 d0 d1 d2 d3
  obtain ⟨q1, q2⟩ := q
  generalize (2 : Int) ^ k = S at *
  generalize (2 : Nat) ^ k = n at *
  refine ⟨?_, ?_, ?_, ?_, ?_, ?_, ?_, ?_⟩
  · rintro (rfl | rfl | rfl)
    · rw [p0.1] at hq
      simp only [List.mem_map, List.mem_range, Prod.mk.injEq] at hq
      obtain ⟨l, hl, e1, e2⟩ := hq
      simp only
      omega
    · rw [d0.1] at hq
      simp only [List.mem_map, List.mem_range, Prod.mk.injEq] at hq
      obtain ⟨l, hl, e1, e2⟩ := hq
      simp only
      omega
    · rw [d3.2.2.1] at hq
      simp only [List.mem_map, List.mem_range, Prod.mk.injEq] at hq
      obtain ⟨l, hl, e1, e2⟩ := hq
      simp only
      omega
  · rintro (rfl | rfl | rfl)
    · rw [p1.1] at hq
      simp only [List.mem_map, List.mem_range, Prod.mk.injEq] at hq
      obtain ⟨l, hl, e1, e2⟩ := hq
      simp only
      omega
    · rw [d0.2.2.1] at hq
      simp only [List.mem_map, List.mem_range, Prod.mk.injEq] at hq
      obtain ⟨l, hl, e1, e2⟩ := hq
      simp only
      omega
    · rw [d1.1] at hq
      simp only [List.mem_map, List.mem_range, Prod.mk.injEq] at hq
      obtain ⟨l, hl, e1, e2⟩ := hq
      simp only
      omega
  · rintro (rfl | rfl | rfl)
    · rw [p2.1] at hq
      simp only [List.mem_map, List.mem_range, Prod.mk.injEq] at hq
      obtain ⟨l, hl, e1, e2⟩ := hq
      simp only
      omega
    · rw [d1.2.2.1] at hq
      simp only [List.mem_map, List.mem_range, Prod.mk.injEq] at hq
      obtain ⟨l, hl, e1, e2⟩ := hq
      simp only
      omega
    · rw [d2.1] at hq
      simp only [List.mem_map, List.mem_range, Prod.mk.injEq] at hq
      obtain ⟨l, hl, e1, e2⟩ := hq
      simp only
      omega
  · rintro (rfl | rfl | rfl)
    · rw [p3.1] at hq
      simp only [List.mem_map, List.mem_range, Prod.mk.injEq] at hq
      obtain ⟨l, hl, e1, e2⟩ := hq
      simp only
      omega
    · rw [d2.2.2.1] at hq
      simp only [List.mem_map, List.mem_range, Prod.mk.injEq] at hq
      obtain ⟨l, hl, e1, e2⟩ := hq
      simp only
      omega
    · rw [d3.1] at hq
      simp only [List.mem_map, List.mem_range, Prod.mk.injEq] at hq
      obtain ⟨l, hl, e1, e2⟩ := hq
      simp only
      omega
  · rintro rfl
    rw [d0.2.1] at hq
    simp only [List.mem_singleton, Prod.mk.injEq] at hq
    exact hq
  · rintro rfl
    rw [d1.2.1] at hq
    simp only [List.mem_singleton, Prod.mk.injEq] at hq
    simp only
    omega
  · rintro rfl
    rw [d2.2.1] at hq
    simp only [List.mem_singleton, Prod.mk.injEq] at hq
    simp only
    omega
  · rintro rfl
    rw [d3.2.1] at hq
    simp only [List.mem_singleton, Prod.mk.injEq] at hq
    simp only
    omega

theorem slot_direction_rotation (a : Nat) (ha : a < 4) :
    slot_direction (2 * a) = a + 1 ∧ slot_direction (2 * a + 1) = a + 1
    ∧ lattice_velocity (a + 1) = rotation_of_pi_over_two a 1 0
    ∧ (∀ i, i < 6 → slot_direction (8 + 6 * a + i) = a + 5)
    ∧ lattice_velocity (a + 5) = rotation_of_pi_over_two a 1 1 := by
  refine ⟨?_, ?_, ?_, ?_, ?_⟩
  · unfold slot_direction
    rw [if_pos (by omega)]
    omega
  · unfold slot_direction
    rw [if_pos (by omega)]
    omega
  · interval_cases a <;> decide
  · intro i hi
    unfold slot_direction
    rw [if_neg (by omega)]
    omega
  · interval_cases a <;> decide

/-- C14: in every `flx_num`/`flx_vel` table of `one_time_step_overleaves_corrected`
the two lists have equal length, every slot number is in `0..31`, and the slot `s`
is always paired with the direction `dir(s) = s / 2 + 1` for `s < 8` and
`(s - 8) / 6 + 5` for `s >= 8`; this is the direction whose stencil
`compute_prediction` stores in slot `s`: the pass `alpha = a` of its loops writes
the slots `2a`, `2a + 1` for the velocity `(1, 0)` turned by `a` quarter turns,
which is `c_(a+1)`, and the slots `8 + 6a + i` for `(1, 1)` turned by `a` quarter
turns, which is `c_(a+5)`, and every cell it accumulates into a slot is an
upstream cell of the block for `c_dir(s)` (`rotated_in`) or a cell of the block
that `c_dir(s)` takes out (`rotated_out`); every moving direction `1..8` has at
least one slot. -/
theorem flux_tables_direction :
    (∀ t ∈ flux_tables, t.flx_num.length = t.flx_vel.length
      ∧ t.entries = some (t.flx_num.zip t.flx_vel)
      ∧ ∀ p ∈ t.flx_num.zip t.flx_vel, p.1 ≤ 31 ∧ p.2 = slot_direction p.1)
    ∧ (∀ a : Fin 4,
        slot_direction (2 * a.val) = a.val + 1 ∧ slot_direction (2 * a.val + 1) = a.val + 1
        ∧ lattice_velocity (a.val + 1) = rotation_of_pi_over_two a.val 1 0
        ∧ (∀ i : Fin 6, slot_direction (8 + 6 * a.val + i.val) = a.val + 5)
        ∧ lattice_velocity (a.val + 5) = rotation_of_pi_over_two a.val 1 1)
    ∧ (∀ (k : Nat) (acc : Accumulation), acc ∈ compute_prediction_level k →
        acc.slot ≤ 31
        ∧ (acc.exiting = false →
            ∃ p : Int × Int, square (2 ^ k) p.1 p.2 = true
              ∧ acc.cell = (p.1 - (lattice_velocity (slot_direction acc.slot)).1,
                  p.2 - (lattice_velocity (slot_direction acc.slot)).2)
              ∧ square (2 ^ k) acc.cell.1 acc.cell.2 = false)
        ∧ (acc.exiting = true →
            square (2 ^ k) acc.cell.1 acc.cell.2 = true
              ∧ square (2 ^ k) (acc.cell.1 + (lattice_velocity (slot_direction acc.slot)).1)
                  (acc.cell.2 + (lattice_velocity (slot_direction acc.slot)).2) = false))
    ∧ (∀ s, s ≤ 31 → 1 ≤ slot_direction s ∧ slot_direction s ≤ 8)
    ∧ (∀ v : Fin 8, ∃ s, s ≤ 31 ∧ slot_direction s = v.val + 1
        ∧ (s, v.val + 1) ∈ far_boundary_table.flx_num.zip far_boundary_table.flx_vel) := by
  refine ⟨by decide, ?_, ?_, ?_, ?_⟩
  · intro a
    obtain ⟨h1, h2, h3, h4, h5⟩ := slot_direction_rotation a.val a.isLt
    exact ⟨h1, h2, h3, fun i => h4 i.val i.isLt, h5⟩
  · intro k acc hacc
    have hmem := mem_slot_cells k acc hacc
    obtain ⟨a, ha, hkind⟩ := accumulation_kind k acc hacc
    obtain ⟨h1, h2, h3, h4, h5⟩ := slot_direction_rotation a ha
    obtain ⟨pin, pout⟩ := slot_cells_parallel_mem k a ha
    obtain ⟨din, dout⟩ := slot_cells_diagonal_mem k a ha
    have g0 : slot_direction (8 + 6 * a) = a + 5 := h4 0 (by norm_num)
    have g1 := h4 1 (by norm_num)
    have g2 := h4 2 (by norm_num)
    have g3 := h4 3 (by norm_num)
    have g4 := h4 4 (by norm_num)
    have g5 := h4 5 (by norm_num)
    rcases hkind with ⟨he, hs | hs | hs | hs⟩ | ⟨he, hs | hs | hs | hs⟩
    · rw [hs] at hmem ⊢
      refine ⟨by omega, fun _ => ?_, fun h => by simp [he] at h⟩
      rw [h1, h3]
      exact (pin _).1 hmem
    · rw [hs] at hmem ⊢
      refine ⟨by omega, fun _ => ?_, fun h => by simp [he] at h⟩
      rw [g0, h5]
      exact (din _).1 (Or.inl hmem)
    · rw [hs] at hmem ⊢
      refine ⟨by omega, fun _ => ?_, fun h => by simp [he] at h⟩
      rw [g1, h5]
      exact (din _).1 (Or.inr (Or.inl hmem))
    · rw [hs] at hmem ⊢
      refine ⟨by omega, fun _ => ?_, fun h => by simp [he] at h⟩
      rw [g2, h5]
      exact (din _).1 (Or.inr (Or.inr hmem))
    · rw [hs] at hmem ⊢
      refine ⟨by omega, fun h => by simp [he] at h, fun _ => ?_⟩
      rw [h2, h3]
      exact (pout _).1 hmem
    · rw [hs] at hmem ⊢
      refine ⟨by omega, fun h => by simp [he] at h, fun _ => ?_⟩
      rw [g3, h5]
      exact (dout _).1 (Or.inl hmem)
    · rw [hs] at hmem ⊢
      refine ⟨by omega, fun h => by simp [he] at h, fun _ => ?_⟩
      rw [g4, h5]
      exact (dout _).1 (Or.inr (Or.inl hmem))
    · rw [hs] at hmem ⊢
      refine ⟨by omega, fun h => by simp [he] at h, fun _ => ?_⟩
      rw [g5, h5]
      exact (dout _).1 (Or.inr (Or.inr hmem))
  · intro s hs
    interval_cases s <;> decide
  · decide

theorem exists_accumulation (s : Nat) (hs : s < 32) :
    ∃ acc ∈ compute_prediction_level 1, acc.slot = s := by
  have hne := slot_cells_ne_nil 1 s hs (le_refl 1)
  obtain ⟨q, hq⟩ := List.exists_mem_of_ne_nil _ hne
  obtain ⟨acc, hacc, hslot, -⟩ := exists_of_slot_cells 1 s q hq
  exact ⟨acc, hacc, hslot⟩

/-- C15: the 16 slots subtracted on every overleaf as exiting fluxes and the 16
slots added on the overleaves far from the boundary as incoming fluxes are
disjoint and together are exactly `0..31`; the exiting slots are exactly the
slots that `compute_prediction` fills from `rotated_out` (`2a + 1` and
`8 + 6a + {3, 4, 5}` for `a` in `0..3`) and the incoming slots exactly those it
fills from `rotated_in` (`2a` and `8 + 6a + {0, 1, 2}`). -/
theorem exiting_incoming_slots :
    exiting_table.flx_num.Disjoint far_boundary_table.flx_num
    ∧ exiting_table.flx_num.length = 16 ∧ far_boundary_table.flx_num.length = 16
    ∧ exiting_table.flx_num.Nodup ∧ far_boundary_table.flx_num.Nodup
    ∧ (∀ s, s < 32 ↔ (s ∈ exiting_table.flx_num ∨ s ∈ far_boundary_table.flx_num))
    ∧ (∀ s, s ∈ exiting_table.flx_num ↔
        ∃ a, a < 4 ∧ (s = 2 * a + 1 ∨ s = 8 + 6 * a + 3 ∨ s = 8 + 6 * a + 4
          ∨ s = 8 + 6 * a + 5))
    ∧ (∀ s, s ∈ far_boundary_table.flx_num ↔
        ∃ a, a < 4 ∧ (s = 2 * a ∨ s = 8 + 6 * a ∨ s = 8 + 6 * a + 1 ∨ s = 8 + 6 * a + 2))
    ∧ (∀ s, s ∈ exiting_table.flx_num ↔
        ∃ k, ∃ acc ∈ compute_prediction_level k, acc.slot = s ∧ acc.exiting = true)
    ∧ (∀ s, s ∈ far_boundary_table.flx_num ↔
        ∃ k, ∃ acc ∈ compute_prediction_level k, acc.slot = s ∧ acc.exiting = false) := by
  have hout : ∀ s, s ∈ exiting_table.flx_num ↔
      ∃ a, a < 4 ∧ (s = 2 * a + 1 ∨ s = 8 + 6 * a + 3 ∨ s = 8 + 6 * a + 4
        ∨ s = 8 + 6 * a + 5) := by
    intro s
    simp only [exiting_table, List.mem_cons, List.mem_singleton, List.not_mem_nil, or_false]
    constructor
    · intro h
      refine ⟨if s < 8 then s / 2 else (s - 8) / 6, ?_⟩
      split_ifs <;> omega
    · rintro ⟨a, ha, h⟩
      omega
  have hin : ∀ s, s ∈ far_boundary_table.flx_num ↔
      ∃ a, a < 4 ∧ (s = 2 * a ∨ s = 8 + 6 * a ∨ s = 8 + 6 * a + 1 ∨ s = 8 + 6 * a + 2) := by
    intro s
    simp only [far_boundary_table, List.mem_cons, List.mem_singleton, List.not_mem_nil,
      or_false]
    constructor
    · intro h
      refine ⟨if s < 8 then s / 2 else (s - 8) / 6, ?_⟩
      split_ifs <;> omega
    · rintro ⟨a, ha, h⟩
      omega
  refine ⟨?_, by decide, by decide, by decide, by decide, ?_, hout, hin, ?_, ?_⟩
  · intro s h1 h2
    obtain ⟨a, ha, h1⟩ := (hout s).1 h1
    obtain ⟨b, hb, h2⟩ := (hin s).1 h2
    omega
  · intro s
    rw [hout, hin]
    constructor
    · intro h
      by_cases h8 : s < 8
      · by_cases hodd : s % 2 = 1
        · exact Or.inl ⟨s / 2, by omega, by omega⟩
        · exact Or.inr ⟨s / 2, by omega, by omega⟩
      · by_cases h3 : (s - 8) % 6 < 3
        · exact Or.inr ⟨(s - 8) / 6, by omega, by omega⟩
        · exact Or.inl ⟨(s - 8) / 6, by omega, by omega⟩
    · rintro (⟨a, ha, h⟩ | ⟨a, ha, h⟩) <;> omega
  · intro s
    rw [hout]
    constructor
    · rintro ⟨a, ha, h⟩
      obtain ⟨acc, hacc, hslot⟩ := exists_accumulation s (by omega)
      obtain ⟨b, hb, hkind⟩ := accumulation_kind 1 acc hacc
      refine ⟨1, acc, hacc, hslot, ?_⟩
      rcases hkind with ⟨-, hs⟩ | ⟨he, -⟩
      · exfalso
        omega
      · exact he
    · rintro ⟨k, acc, hacc, hslot, he⟩
      obtain ⟨b, hb, hkind⟩ := accumulation_kind k acc hacc
      rcases hkind with ⟨he2, -⟩ | ⟨-, hs⟩
      · rw [he] at he2
        exact absurd he2 (by simp)
      · exact ⟨b, hb, by omega⟩
  · intro s
    rw [hin]
    constructor
    · rintro ⟨a, ha, h⟩
      obtain ⟨acc, hacc, hslot⟩ := exists_accumulation s (by omega)
      obtain ⟨b, hb, hkind⟩ := accumulation_kind 1 acc hacc
      refine ⟨1, acc, hacc, hslot, ?_⟩
      rcases hkind with ⟨he, -⟩ | ⟨-, hs⟩
      · exact he
      · exfalso
        omega
    · rintro ⟨k, acc, hacc, hslot, he⟩
      obtain ⟨b, hb, hkind⟩ := accumulation_kind k acc hacc
      rcases hkind with ⟨-, hs⟩ | ⟨he2, -⟩
      · exact ⟨b, hb, by omega⟩
      · rw [he] at he2
        exact absurd he2 (by simp)

/-! ## The regular incoming slots of the boundary overleaves -/

theorem overleaf_slots_core (k c : Nat) (hc : c = 2 ^ k) (N X0 Y0 : Int)
    (xw xm xe ys ym yn : Bool)
    (hxw : xw = true → X0 = 0 ∧ X0 + 2 * (c : Int) ≤ N)
    (hxm : xm = true → (c : Int) ≤ X0 ∧ X0 + 2 * (c : Int) ≤ N)
    (hxe : xe = true → X0 + (c : Int) = N ∧ (c : Int) ≤ X0)
    (hys : ys = true → Y0 = 0 ∧ Y0 + 2 * (c : Int) ≤ N)
    (hym : ym = true → (c : Int) ≤ Y0 ∧ Y0 + 2 * (c : Int) ≤ N)
    (hyn : yn = true → Y0 + (c : Int) = N ∧ (c : Int) ≤ Y0)
    (hreg : ((xw && ym) || (xw && yn) || (xw && ys) || (xe && ym) || (xe && yn)
      || (xe && ys) || (xm && yn) || (xm && ys)) = true)
    (s : Nat) (hs : s ∈ far_boundary_table.flx_num) :
    (s ∈ (incoming_tables_of (((xw && ym) || (xw && yn)) || (xw && ys)) (xw && ym) (xw && yn)
          (xw && ys) (((xe && ym) || (xe && yn)) || (xe && ys)) (xe && ym) (xe && yn)
          (xe && ys) (xm && yn) (xm && ys)
          (!(((((xe && ym) || (xe && yn)) || (xe && ys))
            || (((xw && ym) || (xw && yn)) || (xw && ys)))
            || ((xm && ys) || (xm && yn))))).flatMap FluxTable.flx_num →
      ∀ q ∈ slot_cells k s, square N (X0 + q.1) (Y0 + q.2) = true)
    ∧ (s ∉ (incoming_tables_of (((xw && ym) || (xw && yn)) || (xw && ys)) (xw && ym)
          (xw && yn) (xw && ys) (((xe && ym) || (xe && yn)) || (xe && ys)) (xe && ym)
          (xe && yn) (xe && ys) (xm && yn) (xm && ys)
          (!(((((xe && ym) || (xe && yn)) || (xe && ys))
            || (((xw && ym) || (xw && yn)) || (xw && ys)))
            || ((xm && ys) || (xm && yn))))).flatMap FluxTable.flx_num →
      (∀ q ∈ slot_cells k s, square N (X0 + q.1) (Y0 + q.2) = false)
      ∧ slot_direction s ∈ (closures_of (xw && ym) (xw && yn) (xw && ys) (xe && ym)
          (xe && yn) (xe && ys) (xm && yn) (xm && ys)).map Closure.dst) := by
  have hpos : (0 : Int) < 2 ^ k := by positivity
  have hS : (c : Int) = 2 ^ k := by
    rw [hc]
    exact pow_two_cast k
  have side : ∀ q ∈ slot_cells k s, _ := fun q hq => slot_cells_side k s q hq
  rw [← hS] at hpos side
  clear hS hc
  generalize (c : Int) = S at *
  simp only [far_boundary_table, List.mem_cons, List.mem_singleton, List.not_mem_nil,
    or_false] at hs
  cases xw <;> cases xm <;> cases xe <;> cases ys <;> cases ym <;> cases yn <;>
    first
    | exact absurd hreg (by decide)
    | (exfalso
       simp only [true_implies, false_implies, Bool.false_eq_true] at hxw hxm hxe hys hym hyn
       omega)
    | (simp only [true_implies, false_implies, Bool.false_eq_true, implies_true]
         at hxw hxm hxe hys hym hyn
       rcases hs with rfl | rfl | rfl | rfl | rfl | rfl | rfl | rfl | rfl | rfl | rfl | rfl
         | rfl | rfl | rfl | rfl <;>
       refine ⟨fun happ q hq => ?_, fun hnot => ⟨fun q hq => ?_, ?_⟩⟩ <;>
       first
       | exact absurd happ (by decide)
       | exact absurd (by decide) hnot
       | decide
       | (have hb := side q hq
          simp only [true_or, or_true, true_implies, Nat.reduceEqDiff, false_implies, or_self,
            and_true, true_and, OfNat.ofNat_ne_zero, OfNat.zero_ne_ofNat] at hb
          first
          | (rw [square_apply]
             omega)
          | (rw [square_apply_false]
             omega)))

theorem overleaf_closures_core (xw xm xe ys ym yn : Bool)
    (hx : ((xw && xm) || (xw && xe) || (xm && xe)) = false)
    (hy : ((ys && ym) || (ys && yn) || (ym && yn)) = false) :
    (∀ s ∈ (incoming_tables_of (((xw && ym) || (xw && yn)) || (xw && ys)) (xw && ym)
          (xw && yn) (xw && ys) (((xe && ym) || (xe && yn)) || (xe && ys)) (xe && ym)
          (xe && yn) (xe && ys) (xm && yn) (xm && ys)
          (!(((((xe && ym) || (xe && yn)) || (xe && ys))
            || (((xw && ym) || (xw && yn)) || (xw && ys)))
            || ((xm && ys) || (xm && yn))))).flatMap FluxTable.flx_num,
        s ∈ far_boundary_table.flx_num)
    ∧ ∀ cl ∈ closures_of (xw && ym) (xw && yn) (xw && ys) (xe && ym) (xe && yn) (xe && ys)
        (xm && yn) (xm && ys),
      ∃ s ∈ far_boundary_table.flx_num,
        s ∉ (incoming_tables_of (((xw && ym) || (xw && yn)) || (xw && ys)) (xw && ym)
          (xw && yn) (xw && ys) (((xe && ym) || (xe && yn)) || (xe && ys)) (xe && ym)
          (xe && yn) (xe && ys) (xm && yn) (xm && ys)
          (!(((((xe && ym) || (xe && yn)) || (xe && ys))
            || (((xw && ym) || (xw && yn)) || (xw && ys)))
            || ((xm && ys) || (xm && yn))))).flatMap FluxTable.flx_num
        ∧ slot_direction s = cl.dst := by
  revert hx hy
  cases xw <;> cases xm <;> cases xe <;> cases ys <;> cases ym <;> cases yn <;> decide

theorem overleaf_flag (e mo mc : Bool) (A B C D : Prop) [Decidable A] [Decidable B]
    [Decidable C] [Decidable D] (h : e = true ↔ mo = true ∧ A ∧ B ∧ C ∧ D) :
    (e && mc) = ((mo && mc) && (decide (A ∧ B) && decide (C ∧ D))) := by
  rw [Bool.eq_iff_iff]
  simp only [Bool.and_eq_true, h, decide_eq_true_eq]
  tauto

theorem overleaf_regions_eq (m : Mesh) (N : Int) (level c : Nat)
    (hD : m.initial_mesh = square N) (hb : boundary_coeff m (level + 1) = some c) :
    overleaf_regions m level = some
      ⟨intersection (west_expr c (square N) (m.at_finest MeshType.overleaves (level + 1)))
          (m.at_finest MeshType.cells level),
       intersection (northwest_expr c (square N) (m.at_finest MeshType.overleaves (level + 1)))
          (m.at_finest MeshType.cells level),
       intersection (southwest_expr c (square N) (m.at_finest MeshType.overleaves (level + 1)))
          (m.at_finest MeshType.cells level),
       union_ (union_
          (intersection (west_expr c (square N) (m.at_finest MeshType.overleaves (level + 1)))
            (m.at_finest MeshType.cells level))
          (intersection
            (northwest_expr c (square N) (m.at_finest MeshType.overleaves (level + 1)))
            (m.at_finest MeshType.cells level)))
          (intersection
            (southwest_expr c (square N) (m.at_finest MeshType.overleaves (level + 1)))
            (m.at_finest MeshType.cells level)),
       intersection (east_expr c (square N) (m.at_finest MeshType.overleaves (level + 1)))
          (m.at_finest MeshType.cells level),
       intersection (northeast_expr c (square N) (m.at_finest MeshType.overleaves (level + 1)))
          (m.at_finest MeshType.cells level),
       intersection (southeast_expr c (square N) (m.at_finest MeshType.overleaves (level + 1)))
          (m.at_finest MeshType.cells level),
       union_ (union_
          (intersection (east_expr c (square N) (m.at_finest MeshType.overleaves (level + 1)))
            (m.at_finest MeshType.cells level))
          (intersection
            (northeast_expr c (square N) (m.at_finest MeshType.overleaves (level + 1)))
            (m.at_finest MeshType.cells level)))
          (intersection
            (southeast_expr c (square N) (m.at_finest MeshType.overleaves (level + 1)))
            (m.at_finest MeshType.cells level)),
       intersection (south_expr c (square N) (m.at_finest MeshType.overleaves (level + 1)))
          (m.at_finest MeshType.cells level),
       intersection (north_expr c (square N) (m.at_finest MeshType.overleaves (level + 1)))
          (m.at_finest MeshType.cells level),
       union_
          (intersection (south_expr c (square N) (m.at_finest MeshType.overleaves (level + 1)))
            (m.at_finest MeshType.cells level))
          (intersection (north_expr c (square N) (m.at_finest MeshType.overleaves (level + 1)))
            (m.at_finest MeshType.cells level)),
       intersection (m.at_finest MeshType.cells level) (m.at_finest MeshType.cells level),
       difference (m.at_finest MeshType.cells level)
        (union_ (union_
          (union_ (union_
            (intersection (east_expr c (square N) (m.at_finest MeshType.overleaves (level + 1)))
              (m.at_finest MeshType.cells level))
            (intersection
              (northeast_expr c (square N) (m.at_finest MeshType.overleaves (level + 1)))
              (m.at_finest MeshType.cells level)))
            (intersection
              (southeast_expr c (square N) (m.at_finest MeshType.overleaves (level + 1)))
              (m.at_finest MeshType.cells level)))
          (union_ (union_
            (intersection (west_expr c (square N) (m.at_finest MeshType.overleaves (level + 1)))
              (m.at_finest MeshType.cells level))
            (intersection
              (northwest_expr c (square N) (m.at_finest MeshType.overleaves (level + 1)))
              (m.at_finest MeshType.cells level)))
            (intersection
              (southwest_expr c (square N) (m.at_finest MeshType.overleaves (level + 1)))
              (m.at_finest MeshType.cells level))))
          (union_
            (intersection
              (south_expr c (square N) (m.at_finest MeshType.overleaves (level + 1)))
              (m.at_finest MeshType.cells level))
            (intersection
              (north_expr c (square N) (m.at_finest MeshType.overleaves (level + 1)))
              (m.at_finest MeshType.cells level))))⟩ := by
  simp only [overleaf_regions, get_adjacent_boundary_east, get_adjacent_boundary_north,
    get_adjacent_boundary_northeast, get_adjacent_boundary_west,
    get_adjacent_boundary_northwest, get_adjacent_boundary_south,
    get_adjacent_boundary_southwest, get_adjacent_boundary_southeast, hb, hD,
    Option.map_some', Option.bind_eq_bind, Option.some_bind]

/-- C13: below `max_level`, at an overleaf block `[X0, X0 + c) x [Y0, Y0 + c)`
(`c = 2^j`, `j = max_level - (level + 1)`) lying in one of the eight boundary
sets of overleaves: every regular incoming slot applied there (the `flx_num` of
the tables of the sets that hold the overleaf, the shared touching-west /
touching-east table included) is one of the 16 incoming slots and all its source
cells, as enumerated by `compute_prediction` at the level gap `j`, are inside the
domain; every incoming slot that is not applied has all its source cells outside
the domain, and its direction receives a closure; every closure is for the
direction of such an omitted slot. For `j >= 1` no slot is empty, so that the
applied slots are exactly the incoming slots whose source cells are inside. -/
theorem overleaf_incoming_slots (m : Mesh) (N : Int) (level c : Nat) (X0 Y0 : Int)
    (hD : m.initial_mesh = square N) (hlevel : level < m.max_level)
    (hc : c = 2 ^ (m.max_level - (level + 1))) (hN : 2 * (c : Int) ≤ N)
    (hint : N < 2 ^ 31) :
    ∃ r : OverleafRegions, overleaf_regions m level = some r ∧
      ∀ R ∈ r.boundary, R X0 Y0 = true → R (X0 + c - 1) (Y0 + c - 1) = true →
        (∀ s ∈ far_boundary_table.flx_num,
          (s ∈ incoming_slots r X0 Y0 →
            ∀ q ∈ slot_cells (m.max_level - (level + 1)) s,
              square N (X0 + q.1) (Y0 + q.2) = true)
          ∧ (s ∉ incoming_slots r X0 Y0 →
            (∀ q ∈ slot_cells (m.max_level - (level + 1)) s,
              square N (X0 + q.1) (Y0 + q.2) = false)
            ∧ slot_direction s ∈ (closures_at r X0 Y0).map Closure.dst)
          ∧ (1 ≤ m.max_level - (level + 1) →
            slot_cells (m.max_level - (level + 1)) s ≠ []))
        ∧ (∀ s ∈ incoming_slots r X0 Y0, s ∈ far_boundary_table.flx_num)
        ∧ (∀ cl ∈ closures_at r X0 Y0, ∃ s ∈ far_boundary_table.flx_num,
            s ∉ incoming_slots r X0 Y0 ∧ slot_direction s = cl.dst) := by
  obtain ⟨hd, hc31⟩ := pow_shift_lt (m.max_level - (level + 1)) N (by rw [← hc]; exact hN) hint
  have hc0 : 0 < c := by
    rw [hc]
    exact Nat.pos_pow_of_pos _ (by norm_num)
  rw [← hc] at hc31
  have hb : boundary_coeff m (level + 1) = some c := by
    rw [hc]
    exact boundary_coeff_eq m (level + 1) (by omega) hd
  have iE := east_expr_iff c hc0 hc31 N (m.at_finest MeshType.overleaves (level + 1)) hN
  have iNo := north_expr_iff c hc0 hc31 N (m.at_finest MeshType.overleaves (level + 1)) hN
  have iW := west_expr_iff c hc0 hc31 N (m.at_finest MeshType.overleaves (level + 1)) hN
  have iS := south_expr_iff c hc0 hc31 N (m.at_finest MeshType.overleaves (level + 1))
  have iNE := northeast_expr_iff c hc0 hc31 N (m.at_finest MeshType.overleaves (level + 1)) hN
  have iNW := northwest_expr_iff c hc0 hc31 N (m.at_finest MeshType.overleaves (level + 1)) hN
  have iSW := southwest_expr_iff c hc0 hc31 N (m.at_finest MeshType.overleaves (level + 1)) hN
  have iSE := southeast_expr_iff c hc0 hc31 N (m.at_finest MeshType.overleaves (level + 1)) hN
  refine ⟨_, overleaf_regions_eq m N level c hD hb, ?_⟩
  intro R hR h0 h1
  simp only [OverleafRegions.boundary, List.mem_cons, List.mem_singleton, List.not_mem_nil,
    or_false] at hR
  have hx : ((decide (0 ≤ X0 ∧ X0 < (c : Int)) && decide ((c : Int) ≤ X0 ∧ X0 < N - c))
      || (decide (0 ≤ X0 ∧ X0 < (c : Int)) && decide (N - c ≤ X0 ∧ X0 < N))
      || (decide ((c : Int) ≤ X0 ∧ X0 < N - c) && decide (N - c ≤ X0 ∧ X0 < N))) = false := by
    rw [Bool.eq_false_iff]
    simp only [ne_eq, Bool.or_eq_true, Bool.and_eq_true, decide_eq_true_eq]
    omega
  have hy : ((decide (0 ≤ Y0 ∧ Y0 < (c : Int)) && decide ((c : Int) ≤ Y0 ∧ Y0 < N - c))
      || (decide (0 ≤ Y0 ∧ Y0 < (c : Int)) && decide (N - c ≤ Y0 ∧ Y0 < N))
      || (decide ((c : Int) ≤ Y0 ∧ Y0 < N - c) && decide (N - c ≤ Y0 ∧ Y0 < N))) = false := by
    rw [Bool.eq_false_iff]
    simp only [ne_eq, Bool.or_eq_true, Bool.and_eq_true, decide_eq_true_eq]
    omega
  have geo : m.at_finest MeshType.overleaves (level + 1) X0 Y0 = true
      ∧ m.at_finest MeshType.cells level X0 Y0 = true
      ∧ (decide (0 ≤ X0 ∧ X0 < (c : Int)) = true → X0 = 0 ∧ X0 + 2 * (c : Int) ≤ N)
      ∧ (decide ((c : Int) ≤ X0 ∧ X0 < N - c) = true → (c : Int) ≤ X0 ∧ X0 + 2 * (c : Int) ≤ N)
      ∧ (decide (N - c ≤ X0 ∧ X0 < N) = true → X0 + (c : Int) = N ∧ (c : Int) ≤ X0)
      ∧ (decide (0 ≤ Y0 ∧ Y0 < (c : Int)) = true → Y0 = 0 ∧ Y0 + 2 * (c : Int) ≤ N)
      ∧ (decide ((c : Int) ≤ Y0 ∧ Y0 < N - c) = true → (c : Int) ≤ Y0 ∧ Y0 + 2 * (c : Int) ≤ N)
      ∧ (decide (N - c ≤ Y0 ∧ Y0 < N) = true → Y0 + (c : Int) = N ∧ (c : Int) ≤ Y0)
      ∧ ((decide (0 ≤ X0 ∧ X0 < (c : Int)) && decide ((c : Int) ≤ Y0 ∧ Y0 < N - c))
        || (decide (0 ≤ X0 ∧ X0 < (c : Int)) && decide (N - c ≤ Y0 ∧ Y0 < N))
        || (decide (0 ≤ X0 ∧ X0 < (c : Int)) && decide (0 ≤ Y0 ∧ Y0 < (c : Int)))
        || (decide (N - c ≤ X0 ∧ X0 < N) && decide ((c : Int) ≤ Y0 ∧ Y0 < N - c))
        || (decide (N - c ≤ X0 ∧ X0 < N) && decide (N - c ≤ Y0 ∧ Y0 < N))
        || (decide (N - c ≤ X0 ∧ X0 < N) && decide (0 ≤ Y0 ∧ Y0 < (c : Int)))
        || (decide ((c : Int) ≤ X0 ∧ X0 < N - c) && decide (N - c ≤ Y0 ∧ Y0 < N))
        || (decide ((c : Int) ≤ X0 ∧ X0 < N - c) && decide (0 ≤ Y0 ∧ Y0 < (c : Int)))) = true := by
    rcases hR with rfl | rfl | rfl | rfl | rfl | rfl | rfl | rfl <;>
      simp only [intersection, Bool.and_eq_true, iE, iNo, iW, iS, iNE, iNW, iSW, iSE]
        at h0 h1 <;>
      obtain ⟨⟨hMo, a1, a2, a3, a4⟩, hMc⟩ := h0 <;>
      obtain ⟨⟨-, b1, b2, b3, b4⟩, -⟩ := h1 <;>
      refine ⟨hMo, hMc, ?_, ?_, ?_, ?_, ?_, ?_, ?_⟩ <;>
      first
      | (intro h
         simp only [decide_eq_true_eq] at h
         omega)
      | (have ex := decide_eq_true (And.intro a1 a2)
         have ey := decide_eq_true (And.intro a3 a4)
         simp only [ex, ey, Bool.and_self, Bool.or_true, Bool.true_or])
  obtain ⟨hMo, hMc, hxw, hxm, hxe, hys, hym, hyn, hreg⟩ := geo
  have fE := region_value _ _ _ _ _ _ (iE X0 Y0)
  have fNo := region_value _ _ _ _ _ _ (iNo X0 Y0)
  have fW := region_value _ _ _ _ _ _ (iW X0 Y0)
  have fS := region_value _ _ _ _ _ _ (iS X0 Y0)
  have fNE := region_value _ _ _ _ _ _ (iNE X0 Y0)
  have fNW := region_value _ _ _ _ _ _ (iNW X0 Y0)
  have fSW := region_value _ _ _ _ _ _ (iSW X0 Y0)
  have fSE := region_value _ _ _ _ _ _ (iSE X0 Y0)
  simp only [incoming_slots, incoming_tables, closures_at, union_, intersection, difference,
    fE, fNo, fW, fS, fNE, fNW, fSW, fSE, hMo, hMc, Bool.true_and, Bool.and_true]
  have hcl := overleaf_closures_core _ _ _ _ _ _ hx hy
  refine ⟨fun s hs => ?_, hcl.1, hcl.2⟩
  have hcore := overleaf_slots_core (m.max_level - (level + 1)) c hc N X0 Y0 _ _ _ _ _ _
    hxw hxm hxe hys hym hyn hreg s hs
  refine ⟨hcore.1, hcore.2, fun hj => slot_cells_ne_nil _ s ?_ hj⟩
  simp only [far_boundary_table, List.mem_cons, List.mem_singleton, List.not_mem_nil,
    or_false] at hs
  omega

/-- Witness of `overleaf_incoming_slots`: the cavity of `8 x 8` finest cells with
leaves at level 1 and overleaves at level 2 (`j = 1`, `c = 2`); the overleaf block
`[0, 2) x [2, 4)` lies in the West set. -/
theorem overleaf_incoming_slots_witness :
    cavity8_coarse.initial_mesh = square 8 ∧ 1 < cavity8_coarse.max_level
    ∧ 2 = 2 ^ (cavity8_coarse.max_level - (1 + 1)) ∧ 2 * ((2 : Nat) : Int) ≤ 8
    ∧ (8 : Int) < 2 ^ 31
    ∧ (∃ r : OverleafRegions, overleaf_regions cavity8_coarse 1 = some r
        ∧ r.west ∈ r.boundary ∧ r.west 0 2 = true
        ∧ r.west (0 + ((2 : Nat) : Int) - 1) (2 + ((2 : Nat) : Int) - 1) = true)
    ∧ ∃ r : OverleafRegions, overleaf_regions cavity8_coarse 1 = some r ∧
      ∀ R ∈ r.boundary, R 0 2 = true →
        R (0 + ((2 : Nat) : Int) - 1) (2 + ((2 : Nat) : Int) - 1) = true →
        (∀ s ∈ far_boundary_table.flx_num,
          (s ∈ incoming_slots r 0 2 →
            ∀ q ∈ slot_cells (cavity8_coarse.max_level - (1 + 1)) s,
              square 8 (0 + q.1) (2 + q.2) = true)
          ∧ (s ∉ incoming_slots r 0 2 →
            (∀ q ∈ slot_cells (cavity8_coarse.max_level - (1 + 1)) s,
              square 8 (0 + q.1) (2 + q.2) = false)
            ∧ slot_direction s ∈ (closures_at r 0 2).map Closure.dst)
          ∧ (1 ≤ cavity8_coarse.max_level - (1 + 1) →
            slot_cells (cavity8_coarse.max_level - (1 + 1)) s ≠ []))
        ∧ (∀ s ∈ incoming_slots r 0 2, s ∈ far_boundary_table.flx_num)
        ∧ (∀ cl ∈ closures_at r 0 2, ∃ s ∈ far_boundary_table.flx_num,
            s ∉ incoming_slots r 0 2 ∧ slot_direction s = cl.dst) :=
  ⟨rfl, by decide, by decide, by decide, by norm_num,
    ⟨_, overleaf_regions_eq cavity8_coarse 8 1 2 rfl
        (boundary_coeff_eq cavity8_coarse 2 (by decide) (by decide)),
      by simp [OverleafRegions.boundary],
      by
        simp only [intersection, Bool.and_eq_true]
        exact ⟨(west_expr_iff 2 (by norm_num) (by norm_num) 8 _ (by norm_num) 0 2).2
          ⟨by decide, by decide⟩, by decide⟩,
      by
        simp only [intersection, Bool.and_eq_true]
        exact ⟨(west_expr_iff 2 (by norm_num) (by norm_num) 8 _ (by norm_num) _ _).2
          ⟨by decide, by decide⟩, by decide⟩⟩,
    overleaf_incoming_slots cavity8_coarse 8 1 2 0 2 rfl (by decide) (by decide) (by decide)
      (by norm_num)⟩

/-! ## Moments and distributions -/

theorem relaxation_eq (s_1 s_2 f0 f1 f2 f3 f4 f5 f6 f7 f8 : ℚ) :
    relaxation s_1 s_2 f0 f1 f2 f3 f4 f5 f6 f7 f8
      = relaxation_of lambda s_1 s_2 (vec9 f0 f1 f2 f3 f4 f5 f6 f7 f8) := rfl

theorem distributions_moments (lam : ℚ) (hlam : lam ≠ 0) (F : Nat → ℚ) (v : Nat) (hv : v ≤ 8) :
    distributions_of lam (moments lam F) v = F v := by
  interval_cases v <;> simp only [distributions_of, distributions, moments] <;> field_simp <;>
    ring

theorem collision_zero (lam : ℚ) (M : Nat → ℚ) (v : Nat) (hv : v ≤ 8) :
    collision lam 0 0 M v = M v := by
  interval_cases v <;> simp [collision]

theorem moments_values (lam : ℚ) (F : Nat → ℚ) :
    moments lam F 0 = F 0 + F 1 + F 2 + F 3 + F 4 + F 5 + F 6 + F 7 + F 8
    ∧ moments lam F 1 = lam * (F 1 - F 3 + F 5 - F 6 - F 7 + F 8)
    ∧ moments lam F 2 = lam * (F 2 - F 4 + F 5 + F 6 - F 7 - F 8)
    ∧ moments lam F 3
      = lam * lam * (F 1 + F 2 + F 3 + F 4 + 2 * F 5 + 2 * F 6 + 2 * F 7 + 2 * F 8)
    ∧ moments lam F 4 = lam * lam * lam * (F 5 - F 6 - F 7 + F 8)
    ∧ moments lam F 5 = lam * lam * lam * (F 5 + F 6 - F 7 - F 8)
    ∧ moments lam F 6 = lam * lam * lam * lam * (F 5 + F 6 + F 7 + F 8)
    ∧ moments lam F 7 = lam * lam * (F 1 - F 2 + F 3 - F 4)
    ∧ moments lam F 8 = lam * lam * (F 5 - F 6 + F 7 - F 8) :=
  ⟨rfl, rfl, rfl, rfl, rfl, rfl, rfl, rfl, rfl⟩

theorem distributions_of_values (lam : ℚ) (M : Nat → ℚ) :
    distributions_of lam M 0
      = M 0 - 1 / (lam * lam) * M 3 + 1 / (lam * lam * lam * lam) * M 6
    ∧ distributions_of lam M 1
      = 0.5 * (1 / lam) * M 1 + 0.25 * (1 / (lam * lam)) * M 3
        - 0.5 * (1 / (lam * lam * lam)) * M 4 - 0.5 * (1 / (lam * lam * lam * lam)) * M 6
        + 0.25 * (1 / (lam * lam)) * M 7
    ∧ distributions_of lam M 2
      = 0.5 * (1 / lam) * M 2 + 0.25 * (1 / (lam * lam)) * M 3
        - 0.5 * (1 / (lam * lam * lam)) * M 5 - 0.5 * (1 / (lam * lam * lam * lam)) * M 6
        - 0.25 * (1 / (lam * lam)) * M 7
    ∧ distributions_of lam M 3
      = -0.5 * (1 / lam) * M 1 + 0.25 * (1 / (lam * lam)) * M 3
        + 0.5 * (1 / (lam * lam * lam)) * M 4 - 0.5 * (1 / (lam * lam * lam * lam)) * M 6
        + 0.25 * (1 / (lam * lam)) * M 7
    ∧ distributions_of lam M 4
      = -0.5 * (1 / lam) * M 2 + 0.25 * (1 / (lam * lam)) * M 3
        + 0.5 * (1 / (lam * lam * lam)) * M 5 - 0.5 * (1 / (lam * lam * lam * lam)) * M 6
        - 0.25 * (1 / (lam * lam)) * M 7
    ∧ distributions_of lam M 5
      = 0.25 * (1 / (lam * lam * lam)) * M 4 + 0.25 * (1 / (lam * lam * lam)) * M 5
        + 0.25 * (1 / (lam * lam * lam * lam)) * M 6 + 0.25 * (1 / (lam * lam)) * M 8
    ∧ distributions_of lam M 6
      = -0.25 * (1 / (lam * lam * lam)) * M 4 + 0.25 * (1 / (lam * lam * lam)) * M 5
        + 0.25 * (1 / (lam * lam * lam * lam)) * M 6 - 0.25 * (1 / (lam * lam)) * M 8
    ∧ distributions_of lam M 7
      = -0.25 * (1 / (lam * lam * lam)) * M 4 - 0.25 * (1 / (lam * lam * lam)) * M 5
        + 0.25 * (1 / (lam * lam * lam * lam)) * M 6 + 0.25 * (1 / (lam * lam)) * M 8
    ∧ distributions_of lam M 8
      = 0.25 * (1 / (lam * lam * lam)) * M 4 - 0.25 * (1 / (lam * lam * lam)) * M 5
        + 0.25 * (1 / (lam * lam * lam * lam)) * M 6 - 0.25 * (1 / (lam * lam)) * M 8 :=
  ⟨rfl, rfl, rfl, rfl, rfl, rfl, rfl, rfl, rfl⟩

theorem moments_distributions (lam : ℚ) (hlam : lam ≠ 0) (M : Nat → ℚ) (v : Nat)
    (hv : v ≤ 8) : moments lam (distributions_of lam M) v = M v := by
  obtain ⟨m0, m1, m2, m3, m4, m5, m6, m7, m8⟩ := moments_values lam (distributions_of lam M)
  obtain ⟨d0, d1, d2, d3, d4, d5, d6, d7, d8⟩ := distributions_of_values lam M
  have hr : lam * lam⁻¹ = 1 := mul_inv_cancel₀ hlam
  interval_cases v
  · simp only [m0, d0, d1, d2, d3, d4, d5, d6, d7, d8]
    norm_num
    ring
  · simp only [m1, d1, d3, d5, d6, d7, d8]
    norm_num
    linear_combination (M 1) * hr
  · simp only [m2, d2, d4, d5, d6, d7, d8]
    norm_num
    linear_combination (M 2) * hr
  · simp only [m3, d1, d2, d3, d4, d5, d6, d7, d8]
    norm_num
    linear_combination (M 3) * (lam * lam⁻¹ + 1) * hr
  · simp only [m4, d5, d6, d7, d8]
    norm_num
    linear_combination (M 4) * (lam * lam * lam⁻¹ * lam⁻¹ + lam * lam⁻¹ + 1) * hr
  · simp only [m5, d5, d6, d7, d8]
    norm_num
    linear_combination (M 5) * (lam * lam * lam⁻¹ * lam⁻¹ + lam * lam⁻¹ + 1) * hr
  · simp only [m6, d5, d6, d7, d8]
    norm_num
    linear_combination
      (M 6) * (lam * lam⁻¹ + 1) * (lam * lam * lam⁻¹ * lam⁻¹ + 1) * hr
  · simp only [m7, d1, d2, d3, d4]
    norm_num
    linear_combination (M 7) * (lam * lam⁻¹ + 1) * hr
  · simp only [m8, d5, d6, d7, d8]
    norm_num
    linear_combination (M 8) * (lam * lam⁻¹ + 1) * hr

/-- C20: for every `lambda != 0` the map from the moments to the distributions used
to write `new_f` (and `init_f`) is the two-sided inverse of the moment map
`m0..m8` of `f0..f8`: the distributions of the moments of any nine values are
these values (with the relaxation switched off, `s_1 = s_2 = 0`, `new_f` is the
transported 9-vector), and the moments of the distributions built from any
`m0..m8` are `m0..m8` again. -/
theorem distributions_inverse_of_moments (lam : ℚ) (hlam : lam ≠ 0) :
    (∀ (F : Nat → ℚ) (v : Nat), v ≤ 8 → distributions_of lam (moments lam F) v = F v)
    ∧ (∀ (F : Nat → ℚ) (v : Nat), v ≤ 8 → relaxation_of lam 0 0 F v = F v)
    ∧ (∀ (M : Nat → ℚ) (v : Nat), v ≤ 8 → moments lam (distributions_of lam M) v = M v)
    ∧ (∀ s_1 s_2 f0 f1 f2 f3 f4 f5 f6 f7 f8 : ℚ,
        relaxation s_1 s_2 f0 f1 f2 f3 f4 f5 f6 f7 f8
          = relaxation_of lambda s_1 s_2 (vec9 f0 f1 f2 f3 f4 f5 f6 f7 f8))
    ∧ (∀ rho qx qy : ℚ, ∃ M : Nat → ℚ,
        equilibrium rho qx qy = distributions_of lambda M
          ∧ M 0 = rho ∧ M 1 = qx ∧ M 2 = qy) := by
  refine ⟨fun F v hv => distributions_moments lam hlam F v hv, fun F v hv => ?_,
    fun M v hv => moments_distributions lam hlam M v hv, relaxation_eq, fun rho qx qy => ?_⟩
  · unfold relaxation_of
    have h : ∀ w, w ≤ 8 → collision lam 0 0 (moments lam F) w = moments lam F w :=
      fun w hw => collision_zero lam _ w hw
    have e : distributions_of lam (collision lam 0 0 (moments lam F))
        = distributions_of lam (moments lam F) := by
      unfold distributions_of
      rw [h 0 (by norm_num), h 1 (by norm_num), h 2 (by norm_num), h 3 (by norm_num),
        h 4 (by norm_num), h 5 (by norm_num), h 6 (by norm_num), h 7 (by norm_num),
        h 8 (by norm_num)]
    rw [e]
    exact distributions_moments lam hlam F v hv
  · exact ⟨vec9 rho qx qy
      ((qx * qx + qy * qy) / rho + 2 * rho * ((lambda * lambda) / 3))
      (qx * ((lambda * lambda) / 3 + (qy / rho) * (qy / rho)))
      (qy * ((lambda * lambda) / 3 + (qx / rho) * (qx / rho)))
      (rho * ((lambda * lambda) / 3 + (qx / rho) * (qx / rho))
        * ((lambda * lambda) / 3 + (qy / rho) * (qy / rho)))
      ((qx * qx - qy * qy) / rho) (qx * qy / rho), rfl, rfl, rfl, rfl⟩

/-- Witness of `distributions_inverse_of_moments`: `lambda = 1`, the value of the
source. -/
theorem distributions_inverse_of_moments_witness :
    lambda ≠ 0
    ∧ (∀ (F : Nat → ℚ) (v : Nat), v ≤ 8 → distributions_of lambda (moments lambda F) v = F v)
    ∧ (∀ (F : Nat → ℚ) (v : Nat), v ≤ 8 → relaxation_of lambda 0 0 F v = F v)
    ∧ (∀ (M : Nat → ℚ) (v : Nat), v ≤ 8 →
        moments lambda (distributions_of lambda M) v = M v)
    ∧ (∀ s_1 s_2 f0 f1 f2 f3 f4 f5 f6 f7 f8 : ℚ,
        relaxation s_1 s_2 f0 f1 f2 f3 f4 f5 f6 f7 f8
          = relaxation_of lambda s_1 s_2 (vec9 f0 f1 f2 f3 f4 f5 f6 f7 f8))
    ∧ (∀ rho qx qy : ℚ, ∃ M : Nat → ℚ,
        equilibrium rho qx qy = distributions_of lambda M
          ∧ M 0 = rho ∧ M 1 = qx ∧ M 2 = qy) :=
  ⟨by simp [lambda], distributions_inverse_of_moments lambda (by simp [lambda])⟩

/-! ## The assignments of the transport at `max_level` -/

theorem assigned_cell_bool (xw xm xe ys ym yn : Bool)
    (hx1 : ¬ (xw = true ∧ xm = true)) (hx2 : ¬ (xw = true ∧ xe = true))
    (hx3 : ¬ (xm = true ∧ xe = true)) (hy1 : ¬ (ys = true ∧ ym = true))
    (hy2 : ¬ (ys = true ∧ yn = true)) (hy3 : ¬ (ym = true ∧ yn = true)) :
    (assigned_cell (xe && ym) (xm && yn) (xe && yn) (xw && ym) (xw && yn) (xm && ys)
        (xw && ys) (xe && ys)
        (true && !(((((xe && ym) || (xm && yn)) || (xw && ym)) || (xm && ys))
          || ((((xe && yn) || (xw && yn)) || (xw && ys)) || (xe && ys))))).length = 9
    ∧ ∀ v, v < 9 →
      (assigned_cell (xe && ym) (xm && yn) (xe && yn) (xw && ym) (xw && yn) (xm && ys)
        (xw && ys) (xe && ys)
        (true && !(((((xe && ym) || (xm && yn)) || (xw && ym)) || (xm && ys))
          || ((((xe && yn) || (xw && yn)) || (xw && ys)) || (xe && ys))))).count v = 1 := by
  revert hx1 hx2 hx3 hy1 hy2 hy3
  cases xw <;> cases xm <;> cases xe <;> cases ys <;> cases ym <;> cases yn <;> decide

theorem advect_finest_assigned_eq (m : Mesh) (N : Int)
    (hD : m.initial_mesh = square N) (hN : 2 ≤ N) (x y : Int)
    (hleaf : m.set MeshType.cells m.max_level x y = true) :
    advect_finest_assigned m x y = some
      (assigned_cell
        (decide (N - 1 ≤ x ∧ x < N) && decide (1 ≤ y ∧ y < N - 1))
        (decide (1 ≤ x ∧ x < N - 1) && decide (N - 1 ≤ y ∧ y < N))
        (decide (N - 1 ≤ x ∧ x < N) && decide (N - 1 ≤ y ∧ y < N))
        (decide (0 ≤ x ∧ x < 1) && decide (1 ≤ y ∧ y < N - 1))
        (decide (0 ≤ x ∧ x < 1) && decide (N - 1 ≤ y ∧ y < N))
        (decide (1 ≤ x ∧ x < N - 1) && decide (0 ≤ y ∧ y < 1))
        (decide (0 ≤ x ∧ x < 1) && decide (0 ≤ y ∧ y < 1))
        (decide (N - 1 ≤ x ∧ x < N) && decide (0 ≤ y ∧ y < 1))
        (true && !(((((decide (N - 1 ≤ x ∧ x < N) && decide (1 ≤ y ∧ y < N - 1))
              || (decide (1 ≤ x ∧ x < N - 1) && decide (N - 1 ≤ y ∧ y < N)))
              || (decide (0 ≤ x ∧ x < 1) && decide (1 ≤ y ∧ y < N - 1)))
              || (decide (1 ≤ x ∧ x < N - 1) && decide (0 ≤ y ∧ y < 1)))
          || ((((decide (N - 1 ≤ x ∧ x < N) && decide (N - 1 ≤ y ∧ y < N))
              || (decide (0 ≤ x ∧ x < 1) && decide (N - 1 ≤ y ∧ y < N)))
              || (decide (0 ≤ x ∧ x < 1) && decide (0 ≤ y ∧ y < 1)))
              || (decide (N - 1 ≤ x ∧ x < N) && decide (0 ≤ y ∧ y < 1)))))) := by
  have hM : m.at_finest MeshType.cells m.max_level x y = true := by
    rw [Mesh.at_finest_max_level]
    exact hleaf
  have hE := east_expr_iff 1 (by norm_num) (by norm_num) N
    (m.at_finest MeshType.cells m.max_level) (by omega) x y
  have hNo := north_expr_iff 1 (by norm_num) (by norm_num) N
    (m.at_finest MeshType.cells m.max_level) (by omega) x y
  have hW := west_expr_iff 1 (by norm_num) (by norm_num) N
    (m.at_finest MeshType.cells m.max_level) (by omega) x y
  have hS := south_expr_iff 1 (by norm_num) (by norm_num) N
    (m.at_finest MeshType.cells m.max_level) x y
  have hNE := northeast_expr_iff 1 (by norm_num) (by norm_num) N
    (m.at_finest MeshType.cells m.max_level) (by omega) x y
  have hNW := northwest_expr_iff 1 (by norm_num) (by norm_num) N
    (m.at_finest MeshType.cells m.max_level) (by omega) x y
  have hSW := southwest_expr_iff 1 (by norm_num) (by norm_num) N
    (m.at_finest MeshType.cells m.max_level) (by omega) x y
  have hSE := southeast_expr_iff 1 (by norm_num) (by norm_num) N
    (m.at_finest MeshType.cells m.max_level) (by omega) x y
  simp only [hM, true_and, Nat.cast_one] at hE hNo hW hS hNE hNW hSW hSE
  have e1 := bool_eq_and_decide _ (N - 1 ≤ x ∧ x < N) (1 ≤ y ∧ y < N - 1)
    (hE.trans and_assoc.symm)
  have e2 := bool_eq_and_decide _ (1 ≤ x ∧ x < N - 1) (N - 1 ≤ y ∧ y < N)
    (hNo.trans and_assoc.symm)
  have e3 := bool_eq_and_decide _ (N - 1 ≤ x ∧ x < N) (N - 1 ≤ y ∧ y < N)
    (hNE.trans and_assoc.symm)
  have e4 := bool_eq_and_decide _ (0 ≤ x ∧ x < 1) (1 ≤ y ∧ y < N - 1)
    (hW.trans and_assoc.symm)
  have e5 := bool_eq_and_decide _ (0 ≤ x ∧ x < 1) (N - 1 ≤ y ∧ y < N)
    (hNW.trans and_assoc.symm)
  have e6 := bool_eq_and_decide _ (1 ≤ x ∧ x < N - 1) (0 ≤ y ∧ y < 1)
    (hS.trans and_assoc.symm)
  have e7 := bool_eq_and_decide _ (0 ≤ x ∧ x < 1) (0 ≤ y ∧ y < 1)
    (hSW.trans and_assoc.symm)
  have e8 := bool_eq_and_decide _ (N - 1 ≤ x ∧ x < N) (0 ≤ y ∧ y < 1)
    (hSE.trans and_assoc.symm)
  simp only [advect_finest_assigned, finest_regions_eq m N hD, Option.bind_eq_bind,
    Option.some_bind, difference, union_, hM, e1, e2, e3, e4, e5, e6, e7, e8]

/-- C11: at `max_level`, each of the nine lambda bodies (eight boundary regions
and the interior) assigns each of the nine components `0..8` of `advected`
exactly once, and every leaf is visited by the body of exactly one region, so
that at every leaf each component is assigned exactly once: none keeps its zero
initial value for want of an assignment and none is assigned twice. -/
theorem advected_assigned_once (m : Mesh) (N : Int) (hD : m.initial_mesh = square N)
    (hN : 2 ≤ N) :
    (∀ body ∈ finest_bodies, body.length = 9 ∧ ∀ v, v < 9 → (assigned body).count v = 1)
    ∧ ∀ x y : Int, m.set MeshType.cells m.max_level x y = true →
        ∃ l, advect_finest_assigned m x y = some l ∧ l.length = 9
          ∧ ∀ v, v < 9 → l.count v = 1 := by
  refine ⟨by decide, fun x y hleaf => ?_⟩
  refine ⟨_, advect_finest_assigned_eq m N hD hN x y hleaf, ?_⟩
  apply assigned_cell_bool <;> simp only [decide_eq_true_eq] <;> omega

/-- Witness of `advected_assigned_once`: the `2 x 2` cavity. -/
theorem advected_assigned_once_witness :
    cavity2.initial_mesh = square 2 ∧ (2 : Int) ≤ 2
    ∧ cavity2.set MeshType.cells cavity2.max_level 1 1 = true
    ∧ (∀ body ∈ finest_bodies, body.length = 9 ∧ ∀ v, v < 9 → (assigned body).count v = 1)
    ∧ ∀ x y : Int, cavity2.set MeshType.cells cavity2.max_level x y = true →
        ∃ l, advect_finest_assigned cavity2 x y = some l ∧ l.length = 9
          ∧ ∀ v, v < 9 → l.count v = 1 :=
  ⟨rfl, by decide, by decide, advected_assigned_once cavity2 2 rfl (by decide)⟩

theorem advect_cell_internal (f : DistField) (level : Nat) (k h : Int)
    (e n ne w nw s sw se leaf : Bool)
    (hi : (leaf && !(((((e || n) || w) || s) || (((ne || nw) || sw) || se)))) = true) :
    advect_cell f level k h e n ne w nw s sw se
        (leaf && !(((((e || n) || w) || s) || (((ne || nw) || sw) || se))))
      = run_assigns f level k h internal_body (fun _ => 0) := by
  rw [hi]
  simp only [Bool.and_eq_true, Bool.not_eq_true', Bool.or_eq_false_iff] at hi
  obtain ⟨-, ⟨⟨⟨he, hn⟩, hw⟩, hs⟩, ⟨⟨hne, hnw⟩, hsw⟩, hse⟩ := hi
  subst he hn hw hs hne hnw hsw hse
  rfl

theorem internal_body_value (f : DistField) (level : Nat) (k h : Int) (v : Nat) (hv : v ≤ 8) :
    run_assigns f level k h internal_body (fun _ => 0) v
      = f v level (k - (lattice_velocity v).1) (h - (lattice_velocity v).2) := by
  interval_cases v <;>
    simp [run_assigns, internal_body, Rhs.eval, Function.update_apply, lattice_velocity,
      sub_eq_add_neg]

theorem moment_rows (lam : ℚ) (F : Nat → ℚ) :
    moments lam F 1
      = lam * ((List.range 9).map fun (v : Nat) => ((lattice_velocity v).1 : ℚ) * F v).sum
    ∧ moments lam F 2
      = lam * ((List.range 9).map fun (v : Nat) => ((lattice_velocity v).2 : ℚ) * F v).sum := by
  obtain ⟨-, m1, m2, -⟩ := moments_values lam F
  rw [m1, m2]
  constructor <;> congr 1 <;>
    simp only [List.range_succ, List.range_zero, List.nil_append, List.cons_append,
      List.map_cons, List.map_nil, List.sum_cons, List.sum_nil, lattice_velocity] <;>
    push_cast <;> ring

/-- C12: at `max_level`, at every cell `x` of `internal_leaves` and for every `v`
in `0..8`, `advected(v, x) = f(v, x - c_v)`, where `c_v` is the lattice velocity of
the direction `v` read off the momentum rows of the relaxation:
`m1 = lambda * sum_v (c_v).1 f_v` and `m2 = lambda * sum_v (c_v).2 f_v`, with
`c_0 = (0, 0)`. -/
theorem advect_finest_interior (m : Mesh) (f : DistField) (N : Int)
    (hD : m.initial_mesh = square N) (hN : 2 ≤ N) (hint : N < 2 ^ 31) (x y : Int) :
    ∃ r : FinestRegions, finest_regions m = some r ∧
      (r.internal x y = true →
        ∃ adv, advect_finest m f x y = some adv ∧
          ∀ v, v ≤ 8 →
            adv v = f v m.max_level (x - (lattice_velocity v).1) (y - (lattice_velocity v).2))
      ∧ lattice_velocity 0 = (0, 0)
      ∧ ∀ (lam : ℚ) (F : Nat → ℚ),
          moments lam F 1
            = lam * ((List.range 9).map
                fun (v : Nat) => ((lattice_velocity v).1 : ℚ) * F v).sum
          ∧ moments lam F 2
            = lam * ((List.range 9).map
                fun (v : Nat) => ((lattice_velocity v).2 : ℚ) * F v).sum := by
  refine ⟨_, finest_regions_eq m N hD, fun hi => ?_, rfl, moment_rows⟩
  have hE := east_expr_iff 1 (by norm_num) (by norm_num) N
    (m.at_finest MeshType.cells m.max_level) (by omega) x y
  have hNo := north_expr_iff 1 (by norm_num) (by norm_num) N
    (m.at_finest MeshType.cells m.max_level) (by omega) x y
  have hW := west_expr_iff 1 (by norm_num) (by norm_num) N
    (m.at_finest MeshType.cells m.max_level) (by omega) x y
  have hS := south_expr_iff 1 (by norm_num) (by norm_num) N
    (m.at_finest MeshType.cells m.max_level) x y
  have hNE := northeast_expr_iff 1 (by norm_num) (by norm_num) N
    (m.at_finest MeshType.cells m.max_level) (by omega) x y
  have hNW := northwest_expr_iff 1 (by norm_num) (by norm_num) N
    (m.at_finest MeshType.cells m.max_level) (by omega) x y
  have hSW := southwest_expr_iff 1 (by norm_num) (by norm_num) N
    (m.at_finest MeshType.cells m.max_level) (by omega) x y
  have hSE := southeast_expr_iff 1 (by norm_num) (by norm_num) N
    (m.at_finest MeshType.cells m.max_level) (by omega) x y
  simp only [Nat.cast_one, Mesh.at_finest_max_level] at hE hNo hW hS hNE hNW hSW hSE
  have e1 := region_value _ _ _ _ _ _ hE
  have e2 := region_value _ _ _ _ _ _ hNo
  have e3 := region_value _ _ _ _ _ _ hNE
  have e4 := region_value _ _ _ _ _ _ hW
  have e5 := region_value _ _ _ _ _ _ hNW
  have e6 := region_value _ _ _ _ _ _ hS
  have e7 := region_value _ _ _ _ _ _ hSW
  have e8 := region_value _ _ _ _ _ _ hSE
  simp only [difference, union_, e1, e2, e3, e4, e5, e6, e7, e8,
    Mesh.at_finest_max_level] at hi
  refine ⟨_, advect_finest_eq m f N hD hN hint x y, fun v hv => ?_⟩
  rw [advect_cell_internal f m.max_level x y _ _ _ _ _ _ _ _ _ hi]
  exact internal_body_value f m.max_level x y v hv

/-- Witness of `advect_finest_interior`: the cavity of `8 x 8` leaves; the cell
`(3, 4)` is interior. -/
theorem advect_finest_interior_witness :
    cavity8_fine.initial_mesh = square 8 ∧ (2 : Int) ≤ 8 ∧ (8 : Int) < 2 ^ 31
    ∧ (∃ r : FinestRegions, finest_regions cavity8_fine = some r ∧ r.internal 3 4 = true)
    ∧ ∃ r : FinestRegions, finest_regions cavity8_fine = some r ∧
      (r.internal 3 4 = true →
        ∃ adv, advect_finest cavity8_fine ramp 3 4 = some adv ∧
          ∀ v, v ≤ 8 →
            adv v = ramp v cavity8_fine.max_level (3 - (lattice_velocity v).1)
              (4 - (lattice_velocity v).2))
      ∧ lattice_velocity 0 = (0, 0)
      ∧ ∀ (lam : ℚ) (F : Nat → ℚ),
          moments lam F 1
            = lam * ((List.range 9).map
                fun (v : Nat) => ((lattice_velocity v).1 : ℚ) * F v).sum
          ∧ moments lam F 2
            = lam * ((List.range 9).map
                fun (v : Nat) => ((lattice_velocity v).2 : ℚ) * F v).sum :=
  ⟨rfl, by decide, by norm_num,
    ⟨_, finest_regions_eq cavity8_fine 8 rfl, by decide⟩,
    advect_finest_interior cavity8_fine ramp 8 rfl (by decide) (by norm_num) 3 4⟩

/-! ## Evaluations on small inputs -/

theorem slot_cells_examples :
    slot_cells 0 8 = [] ∧ slot_cells 0 9 = [(-1, -1)] ∧ slot_cells 1 2 = [(1, -1), (0, -1)]
    ∧ slot_cells 2 14 = [(3, -1), (2, -1), (1, -1)] ∧ slot_cells 2 15 = [(4, -1)]
    ∧ slot_cells 2 16 = [(4, 0), (4, 1), (4, 2)]
    ∧ slot_cells 2 28 = [(-1, 3), (-1, 2), (-1, 1)]
    ∧ slot_cells 2 31 = [(3, 3), (3, 2), (3, 1)] := by
  decide

set_option maxRecDepth 100000 in
theorem incoming_slots_examples :
    (overleaf_regions cavity8_coarse 1).map (fun r => incoming_slots r 0 2)
      = some [4, 16, 20, 2, 6, 10, 14, 15, 21, 22, 26]
    ∧ (overleaf_regions cavity8_coarse 1).map (fun r => (closures_at r 0 2).map Closure.dst)
      = some [1, 5, 8]
    ∧ (overleaf_regions cavity8_coarse 1).map (fun r => incoming_slots r 6 6)
      = some [0, 8, 28, 2, 9, 10, 14]
    ∧ (overleaf_regions cavity8_coarse 1).map (fun r => (closures_at r 6 6).map Closure.dst)
      = some [3, 4, 6, 7, 7, 8]
    ∧ (overleaf_regions cavity8_coarse 1).map (fun r => incoming_slots r 2 2)
      = some far_boundary_table.flx_num := by
  rw [overleaf_regions_eq cavity8_coarse 8 1 2 rfl
    (boundary_coeff_eq cavity8_coarse 2 (by decide) (by decide))]
  decide

theorem tau_examples :
    (List.range 4).map (fun (k : Nat) => tau 2 (k : Int)) = [-2, -1, 1, 2]
    ∧ [-2, -1, 1, 2].map (tau_inverse 2) = [0, 1, 2, 3]
    ∧ tau 2 (-1) = -3 ∧ tau 2 4 = 3 ∧ tau_inverse 2 0 = 1 := by
  decide

/-! ## The adaptation loops of the drivers -/

theorem size_t_sub_le (a b : Nat) (hle : b ≤ a) (ha : a < 2 ^ 64) : size_t_sub a b = a - b := by
  unfold size_t_sub
  have h1 : a + 2 ^ 64 - b = (a - b) + 2 ^ 64 := by omega
  rw [h1, Nat.add_mod_right]
  exact Nat.mod_eq_of_lt (by omega)

theorem level_loop_spec {σ : Type} (pass : Nat → σ → Bool × σ) (bound : Nat)
    (hb : bound < 2 ^ 64) (st0 : σ) :
    ∀ (fuel i : Nat), i ≤ bound → bound - i < fuel →
      ∃ (t : List (Nat × Bool)) (st1 : σ),
        level_loop pass bound fuel i (state_before pass i st0) = some (t, st1)
        ∧ t.length ≤ bound - i
        ∧ (∀ n, n < t.length →
            t[n]? = some (i + n, (pass (i + n) (state_before pass (i + n) st0)).1))
        ∧ (∀ n, n + 1 < t.length → (pass (i + n) (state_before pass (i + n) st0)).1 = false)
        ∧ (t.length < bound - i → 0 < t.length
            ∧ (pass (i + t.length - 1) (state_before pass (i + t.length - 1) st0)).1 = true)
        ∧ st1 = state_before pass (i + t.length) st0 := by
  intro fuel
  induction fuel with
  | zero =>
    intro i _ h
    omega
  | succ fuel ih =>
    intro i hi hf
    by_cases hlt : i < bound
    · cases hp : (pass i (state_before pass i st0)).1 with
      | true =>
        refine ⟨[(i, true)], (pass i (state_before pass i st0)).2, ?_, ?_, ?_, ?_, ?_, ?_⟩
        · simp only [level_loop, hlt, if_true, hp]
        · simp only [List.length_singleton]
          omega
        · intro n hn
          simp only [List.length_singleton] at hn
          have hn0 : n = 0 := by omega
          subst hn0
          simp only [Nat.add_zero, hp, List.getElem?_cons_zero]
        · intro n hn
          simp only [List.length_singleton] at hn
          omega
        · intro _
          simp only [List.length_singleton, Nat.add_sub_cancel, hp]
          exact ⟨Nat.one_pos, trivial⟩
        · simp only [List.length_singleton]
          rfl
      | false =>
        have hs : size_t_add i 1 = i + 1 := by
          unfold size_t_add
          exact Nat.mod_eq_of_lt (by omega)
        obtain ⟨t, st1, h1, h2, h3, h4, h5, h6⟩ := ih (i + 1) (by omega) (by omega)
        have hst : state_before pass (i + 1) st0 = (pass i (state_before pass i st0)).2 := rfl
        refine ⟨(i, false) :: t, st1, ?_, ?_, ?_, ?_, ?_, ?_⟩
        · simp only [level_loop, hlt, if_true, hp, hs, ← hst, h1, Option.map_some',
            Bool.false_eq_true, if_false]
        · simp only [List.length_cons]
          omega
        · intro n hn
          simp only [List.length_cons] at hn
          cases n with
          | zero =>
            simp only [Nat.add_zero, hp, List.getElem?_cons_zero]
          | succ n =>
            have := h3 n (by omega)
            simp only [List.getElem?_cons_succ, this]
            have e : i + 1 + n = i + (n + 1) := by omega
            rw [e]
        · intro n hn
          simp only [List.length_cons] at hn
          cases n with
          | zero => exact hp
          | succ n =>
            have := h4 n (by omega)
            have e : i + 1 + n = i + (n + 1) := by omega
            rw [e] at this
            exact this
        · intro hlen
          simp only [List.length_cons] at hlen ⊢
          obtain ⟨hpos, hlast⟩ := h5 (by omega)
          refine ⟨Nat.succ_pos _, ?_⟩
          have e : i + 1 + t.length - 1 = i + (t.length + 1) - 1 := by omega
          rw [e] at hlast
          exact hlast
        · simp only [List.length_cons]
          have e : i + 1 + t.length = i + (t.length + 1) := by omega
          rw [← e]
          exact h6
    · refine ⟨[], state_before pass i st0, ?_, ?_, ?_, ?_, ?_, ?_⟩
      · simp only [level_loop, hlt, if_false]
      · simp
      · intro n hn
        simp at hn
      · intro n hn
        simp at hn
      · intro h
        simp only [List.length_nil] at h
        omega
      · simp

theorem map_fst_eq_range (t : List (Nat × Bool)) (g : Nat → Bool)
    (h : ∀ n, n < t.length → t[n]? = some (n, g n)) : t.map Prod.fst = List.range t.length := by
  apply List.ext_getElem?
  intro n
  by_cases hn : n < t.length
  · simp only [List.getElem?_map, h n hn, Option.map_some', List.getElem?_range hn]
  · have h1 : t.length ≤ n := by omega
    rw [List.getElem?_eq_none (by simpa using h1), List.getElem?_eq_none (by simpa using h1)]

theorem getLast?_of_getElem? (t : List (Nat × Bool)) (p : Nat × Bool)
    (h : t[t.length - 1]? = some p) : t.getLast? = some p := by
  rw [List.getLast?_eq_getElem?]
  exact h

/-- The passes run by one loop of bound `max_level - min_level` entered in the state
`st`, with enough loop tests allowed. -/
theorem level_loop_passes {σ : Type} (pass : Nat → σ → Bool × σ) (min_level max_level : Nat)
    (hle : min_level ≤ max_level) (hmax : max_level < 2 ^ 64) (st : σ) (fuel : Nat)
    (hfuel : max_level - min_level < fuel) :
    ∃ (t : List (Nat × Bool)) (st1 : σ),
      level_loop pass (size_t_sub max_level min_level) fuel 0 st = some (t, st1)
      ∧ t.length ≤ max_level - min_level
      ∧ t.map Prod.fst = List.range t.length
      ∧ (∀ n, n < t.length → t[n]? = some (n, (pass n (state_before pass n st)).1))
      ∧ (∀ n, n + 1 < t.length → t[n]? = some (n, false))
      ∧ (t.length < max_level - min_level → t.getLast? = some (t.length - 1, true))
      ∧ (max_level = min_level → t = [])
      ∧ st1 = state_before pass t.length st := by
  rw [size_t_sub_le max_level min_level hle hmax]
  obtain ⟨t, st1, h1, h2, h3, h4, h5, h6⟩ :=
    level_loop_spec pass (max_level - min_level) (by omega) st fuel 0 (Nat.zero_le _)
      (by omega)
  simp only [Nat.zero_add, Nat.sub_zero] at h2 h3 h4 h5 h6
  refine ⟨t, st1, h1, h2, map_fst_eq_range t _ h3, h3, ?_, ?_, ?_, h6⟩
  · intro n hn
    rw [h3 n (by omega), h4 n hn]
  · intro hlen
    obtain ⟨hpos, hlast⟩ := h5 hlen
    apply getLast?_of_getElem?
    rw [h3 _ (by omega), hlast]
  · intro heq
    apply List.eq_nil_of_length_eq_zero
    omega

/-- C21: for `min_level <= max_level`, the coarsening loop and the refinement loop
of a time step (the second entered in the state left by the first) both return
when `max_level - min_level + 1` loop tests are allowed, and each of them runs at
most `max_level - min_level` passes; the passes run have the indices `0, 1, 2, ...`
in order, each called in the state left by the passes before it; every pass but
the last of the loop has returned `false`, so that no pass is run after one that
returns `true`; a loop that runs fewer than `max_level - min_level` passes has
ended on a pass returning `true`; with `max_level = min_level` no pass is run. -/
theorem adaptation_loops_bounded {σ : Type} (coarsening refinement : Nat → σ → Bool × σ)
    (min_level max_level : Nat) (hle : min_level ≤ max_level) (hmax : max_level < 2 ^ 64)
    (st : σ) (fuel : Nat) (hfuel : max_level - min_level < fuel) :
    ∃ (tc tr : List (Nat × Bool)) (st1 st2 : σ),
      adaptation_loops coarsening refinement min_level max_level fuel st = some (tc, tr, st2)
      ∧ (tc.length ≤ max_level - min_level ∧ tr.length ≤ max_level - min_level)
      ∧ (tc.map Prod.fst = List.range tc.length ∧ tr.map Prod.fst = List.range tr.length)
      ∧ (∀ n, n < tc.length →
          tc[n]? = some (n, (coarsening n (state_before coarsening n st)).1))
      ∧ (∀ n, n < tr.length →
          tr[n]? = some (n, (refinement n (state_before refinement n st1)).1))
      ∧ (∀ n, n + 1 < tc.length → tc[n]? = some (n, false))
      ∧ (∀ n, n + 1 < tr.length → tr[n]? = some (n, false))
      ∧ (tc.length < max_level - min_level → tc.getLast? = some (tc.length - 1, true))
      ∧ (tr.length < max_level - min_level → tr.getLast? = some (tr.length - 1, true))
      ∧ (max_level = min_level → tc = [] ∧ tr = [])
      ∧ st1 = state_before coarsening tc.length st
      ∧ st2 = state_before refinement tr.length st1 := by
  obtain ⟨tc, st1, c1, c2, c3, c4, c5, c6, c7, c8⟩ :=
    level_loop_passes coarsening min_level max_level hle hmax st fuel hfuel
  obtain ⟨tr, st2, r1, r2, r3, r4, r5, r6, r7, r8⟩ :=
    level_loop_passes refinement min_level max_level hle hmax st1 fuel hfuel
  refine ⟨tc, tr, st1, st2, ?_, ⟨c2, r2⟩, ⟨c3, r3⟩, c4, r4, c5, r5, c6, r6,
    fun h => ⟨c7 h, r7 h⟩, c8, r8⟩
  simp only [adaptation_loops, c1, r1, Option.bind_eq_bind, Option.some_bind]

/-- Witness of `adaptation_loops_bounded`: `min_level = 6`, `max_level = 9`, a state
that counts the passes, a coarsening that reports no change at its pass of index 1
and a refinement that reports no change at once. -/
theorem adaptation_loops_bounded_witness :
    (6 : Nat) ≤ 9 ∧ (9 : Nat) < 2 ^ 64 ∧ 9 - 6 < 4
    ∧ adaptation_loops (fun i (st : Nat) => (i == 1, st + 1)) (fun _ (st : Nat) => (true, st + 1))
        6 9 4 0 = some ([(0, false), (1, true)], [(0, true)], 3)
    ∧ ∃ (tc tr : List (Nat × Bool)) (st1 st2 : Nat),
      adaptation_loops (fun i (st : Nat) => (i == 1, st + 1)) (fun _ (st : Nat) => (true, st + 1))
        6 9 4 0 = some (tc, tr, st2)
      ∧ (tc.length ≤ 9 - 6 ∧ tr.length ≤ 9 - 6)
      ∧ (tc.map Prod.fst = List.range tc.length ∧ tr.map Prod.fst = List.range tr.length)
      ∧ (∀ n, n < tc.length →
          tc[n]? = some (n, ((fun i (st : Nat) => (i == 1, st + 1)) n
            (state_before (fun i (st : Nat) => (i == 1, st + 1)) n 0)).1))
      ∧ (∀ n, n < tr.length →
          tr[n]? = some (n, ((fun _ (st : Nat) => (true, st + 1)) n
            (state_before (fun _ (st : Nat) => (true, st + 1)) n st1)).1))
      ∧ (∀ n, n + 1 < tc.length → tc[n]? = some (n, false))
      ∧ (∀ n, n + 1 < tr.length → tr[n]? = some (n, false))
      ∧ (tc.length < 9 - 6 → tc.getLast? = some (tc.length - 1, true))
      ∧ (tr.length < 9 - 6 → tr.getLast? = some (tr.length - 1, true))
      ∧ ((9 : Nat) = 6 → tc = [] ∧ tr = [])
      ∧ st1 = state_before (fun i (st : Nat) => (i == 1, st + 1)) tc.length 0
      ∧ st2 = state_before (fun _ (st : Nat) => (true, st + 1)) tr.length st1 :=
  ⟨by decide, by norm_num, by decide, by decide,
    adaptation_loops_bounded (fun i (st : Nat) => (i == 1, st + 1))
      (fun _ (st : Nat) => (true, st + 1)) 6 9 (by decide) (by norm_num) 0 4 (by decide)⟩

/-! ## The relaxation rates -/

theorem relaxation_rates_eq (max_level : Nat) :
    relaxation_rates max_level
      = (int_shl1 max_level).map fun (p : Int) => rates_of_step (1 / (p : ℚ)) := rfl

theorem rates_of_step_pow (L : Nat) :
    rates_of_step (1 / 2 ^ L)
      = (1 / (1 / 2 + 149 / 100000 * 2 ^ L), 1 / (1 / 2 + 3 / 200000 * 2 ^ L)) := by
  have hP : (2 : ℚ) ^ L ≠ 0 := pow_ne_zero _ (by norm_num)
  simp only [rates_of_step, lambda, rho0, zeta, mu]
  congr 1
  · congr 1
    field_simp
    ring
  · congr 1
    field_simp
    ring

theorem rate_stable (x : ℚ) (hx : 0 < x) : 0 < 1 / (1 / 2 + x) ∧ 1 / (1 / 2 + x) < 2 := by
  have h : (0 : ℚ) < 1 / 2 + x := by linarith
  refine ⟨by positivity, ?_⟩
  rw [div_lt_iff₀ h]
  linarith

/-- C22: with `lambda = 1`, `rho0 = 1`, `mu = 5e-6`, `zeta = 100 * mu` and
`space_step = 1 / 2^max_level`, for every `max_level` the rates of lines 679-683 are
`s_1 = 1 / (1/2 + 298 * 2^max_level * mu)` and `s_2 = 1 / (1/2 + 3 * 2^max_level * mu)`
and satisfy `0 < s_1 < 2` and `0 < s_2 < 2`; and for `max_level <= 30` the shift
`1 << max_level` of the source is `2^max_level`, so that these are the rates the
code computes. -/
theorem relaxation_rates_stable :
    (∀ max_level : Nat,
      rates_of_step (1 / 2 ^ max_level)
        = (1 / (1 / 2 + 298 * 2 ^ max_level * mu), 1 / (1 / 2 + 3 * 2 ^ max_level * mu))
      ∧ 0 < (rates_of_step (1 / 2 ^ max_level)).1 ∧ (rates_of_step (1 / 2 ^ max_level)).1 < 2
      ∧ 0 < (rates_of_step (1 / 2 ^ max_level)).2 ∧ (rates_of_step (1 / 2 ^ max_level)).2 < 2)
    ∧ (∀ max_level : Nat, max_level ≤ 30 →
        relaxation_rates max_level = some (rates_of_step (1 / 2 ^ max_level))) := by
  constructor
  · intro L
    have hP : (0 : ℚ) < 2 ^ L := by positivity
    have h1 := rate_stable (149 / 100000 * 2 ^ L) (by positivity)
    have h2 := rate_stable (3 / 200000 * 2 ^ L) (by positivity)
    rw [rates_of_step_pow]
    refine ⟨?_, h1.1, h1.2, h2.1, h2.2⟩
    simp only [mu]
    congr 1 <;> congr 1 <;> ring
  · intro L hL
    have h : L < 31 := by omega
    rw [relaxation_rates_eq]
    simp only [int_shl1, h, if_true, Option.map_some']
    congr 2
    push_cast
    rfl

/-! ## The closures of the overleaves that touch the lid -/

theorem init_f_values :
    init_f 0 = 4 / 9 ∧ init_f 1 = 1 / 9 ∧ init_f 2 = 1 / 9 ∧ init_f 3 = 1 / 9 ∧ init_f 4 = 1 / 9
    ∧ init_f 5 = 1 / 36 ∧ init_f 6 = 1 / 36 ∧ init_f 7 = 1 / 36 ∧ init_f 8 = 1 / 36 := by
  simp only [init_f, equilibrium, distributions, lambda, rho0]
  norm_num

theorem overleaf_rho_init_f : overleaf_rho init_f = 1 := by
  obtain ⟨h0, h1, h2, h3, h4, h5, h6, h7, h8⟩ := init_f_values
  simp only [overleaf_rho, h0, h1, h2, h3, h4, h5, h6, h7, h8]
  norm_num

set_option maxRecDepth 100000 in
theorem northwest_closures_at :
    (overleaf_regions cavity8_coarse 1).map
        (fun r => (r.northwest 0 6, (closures_at r 0 6).map fun c => (c.dst, c.src, c.lid)))
      = some (true, northwest_closures.map fun c => (c.dst, c.src, c.lid)) := by
  rw [overleaf_regions_eq cavity8_coarse 8 1 2 rfl
    (boundary_coeff_eq cavity8_coarse 2 (by decide) (by decide))]
  decide

/-- C23, evaluated on the code: at the level gap `j`, with the factor `coeff` and
the components `F` of the overleaf, the closures of the North overleaves (lines
1095-1099) and of the NorthEast overleaves (lines 1006-1015) add to the directions
7 and 8 the terms `2^j * coeff * (F 5 - (1/2) * u0 * rho)` and
`2^j * coeff * (F 6 + (1/2) * u0 * rho)`, but the closures of the NorthWest
overleaves (lines 849-857) add `2^j * coeff * F 5` and `(2 * 2^j - 1) * coeff * F 6`:
none of the NorthWest closures has a lid term. In the cavity of `8 x 8` finest cells
with leaves at level 1, the overleaf block at `(0, 6)` is in the NorthWest set; with
the components of `init_f` (`rho = 1`), `j = 1` and `coeff = 1/4` the direction 7
receives `1/72` where the rule of the claim gives `1/72 - 1/80`. -/
theorem northwest_closures_no_lid :
    (∀ (j : Nat) (coeff : ℚ) (F : Nat → ℚ),
      closure_flux j coeff F north_closures 7
        = 2 ^ j * coeff * (F 5 - 1 / 2 * u0 * overleaf_rho F)
      ∧ closure_flux j coeff F north_closures 8
        = 2 ^ j * coeff * (F 6 + 1 / 2 * u0 * overleaf_rho F)
      ∧ closure_flux j coeff F northeast_closures 7
        = 2 ^ j * coeff * (F 5 - 1 / 2 * u0 * overleaf_rho F) + (2 ^ j - 1) * coeff * F 5
      ∧ closure_flux j coeff F northeast_closures 8
        = 2 ^ j * coeff * (F 6 + 1 / 2 * u0 * overleaf_rho F)
      ∧ closure_flux j coeff F northwest_closures 7 = 2 ^ j * coeff * F 5
      ∧ closure_flux j coeff F northwest_closures 8 = (2 * 2 ^ j - 1) * coeff * F 6)
    ∧ (∀ c ∈ northwest_closures, c.lid = 0)
    ∧ (overleaf_regions cavity8_coarse 1).map
          (fun r => (r.northwest 0 6, (closures_at r 0 6).map fun c => (c.dst, c.src, c.lid)))
        = some (true, [(1, 3, 0), (4, 2, 0), (5, 7, 0), (7, 5, 0), (8, 6, 0)])
    ∧ flux_coeff cavity8_coarse.max_level 1 = some (1 / 4)
    ∧ closure_flux 1 (1 / 4) init_f northwest_closures 7 = 1 / 72
    ∧ 2 ^ 1 * (1 / 4) * (init_f 5 - 1 / 2 * u0 * overleaf_rho init_f) = 1 / 72 - 1 / 80
    ∧ closure_flux 1 (1 / 4) init_f northwest_closures 8 = 1 / 48
    ∧ 2 ^ 1 * (1 / 4) * (init_f 6 + 1 / 2 * u0 * overleaf_rho init_f) = 1 / 72 + 1 / 80 := by
  have hgen : ∀ (j : Nat) (coeff : ℚ) (F : Nat → ℚ),
      closure_flux j coeff F north_closures 7
        = 2 ^ j * coeff * (F 5 - 1 / 2 * u0 * overleaf_rho F)
      ∧ closure_flux j coeff F north_closures 8
        = 2 ^ j * coeff * (F 6 + 1 / 2 * u0 * overleaf_rho F)
      ∧ closure_flux j coeff F northeast_closures 7
        = 2 ^ j * coeff * (F 5 - 1 / 2 * u0 * overleaf_rho F) + (2 ^ j - 1) * coeff * F 5
      ∧ closure_flux j coeff F northeast_closures 8
        = 2 ^ j * coeff * (F 6 + 1 / 2 * u0 * overleaf_rho F)
      ∧ closure_flux j coeff F northwest_closures 7 = 2 ^ j * coeff * F 5
      ∧ closure_flux j coeff F northwest_closures 8 = (2 * 2 ^ j - 1) * coeff * F 6 := by
    intro j coeff F
    refine ⟨?_, ?_, ?_, ?_, ?_, ?_⟩ <;>
      simp only [closure_flux, north_closures, northeast_closures, northwest_closures,
        Closure.value, ClosureWeight.eval, List.filter, Nat.reduceBEq, List.map_cons,
        List.map_nil, List.sum_cons, List.sum_nil] <;>
      push_cast <;> ring
  obtain ⟨h0, h1, h2, h3, h4, h5, h6, h7, h8⟩ := init_f_values
  refine ⟨hgen, by decide, northwest_closures_at, ?_, ?_, ?_, ?_, ?_⟩
  · exact flux_coeff_small 3 1 (by decide) (by decide) (by decide)
  · rw [(hgen 1 (1 / 4) init_f).2.2.2.2.1, h5]
    norm_num
  · rw [h5, overleaf_rho_init_f]
    norm_num [u0]
  · rw [(hgen 1 (1 / 4) init_f).2.2.2.2.2, h6]
    norm_num
  · rw [h6, overleaf_rho_init_f]
    norm_num [u0]

/-! ## The right-hand side of the Nagumo driver -/

/-- C24, evaluated on the code: the right-hand side passed to the linear solve is
`u + react(u)` with `react(u) = k * u * u * (1 - u)` cell by cell (line 188), with no
factor `dt`; it differs from the `u + dt * react(u)` of line 185 by
`(1 - dt) * react(u)`. For `k = 1`, `dt = 1/100` and a cell where `u = 1/2` the code
passes `5/8` where `u + dt * react(u)` is `401/800`. -/
theorem nagumo_rhs_without_dt :
    (∀ (Cell : Type) (k : ℚ) (u : Cell → ℚ) (c : Cell),
      react k u c = k * u c * u c * (1 - u c)
      ∧ nagumo_rhs k u c = u c + k * u c * u c * (1 - u c)
      ∧ ∀ dt : ℚ, nagumo_rhs k u c - nagumo_rhs_documented k dt u c = (1 - dt) * react k u c)
    ∧ nagumo_rhs 1 (fun _ : Unit => (1 / 2 : ℚ)) () = 5 / 8
    ∧ nagumo_rhs_documented 1 nagumo_dt (fun _ : Unit => (1 / 2 : ℚ)) () = 401 / 800
    ∧ nagumo_rhs 1 (fun _ : Unit => (1 / 2 : ℚ)) ()
        ≠ nagumo_rhs_documented 1 nagumo_dt (fun _ : Unit => (1 / 2 : ℚ)) () := by
  have h1 : nagumo_rhs 1 (fun _ : Unit => (1 / 2 : ℚ)) () = 5 / 8 := by
    simp only [nagumo_rhs, react, react_function]
    norm_num
  have h2 : nagumo_rhs_documented 1 nagumo_dt (fun _ : Unit => (1 / 2 : ℚ)) () = 401 / 800 := by
    simp only [nagumo_rhs_documented, react, react_function, nagumo_dt]
    norm_num
  refine ⟨fun Cell k u c => ⟨rfl, rfl, fun dt => ?_⟩, h1, h2, ?_⟩
  · simp only [nagumo_rhs, nagumo_rhs_documented]
    ring
  · rw [h1, h2]
    norm_num

/-! ## The default configuration -/

/-- C25: `default_config::max_level = 20`, `ghost_width = 1` (a halo of one cell)
and `graduation_width = 1` (and `prediction_order = 1`). With these values the shift
`1 << max_level` is defined and equal to `2^20`, and every assignment of the
transport at `max_level` reads `f` at most `ghost_width` cells away from the cell it
writes. -/
theorem default_config_reference :
    default_config.max_level = 20 ∧ default_config.ghost_width = 1
    ∧ default_config.graduation_width = 1 ∧ default_config.prediction_order = 1
    ∧ int_shl1 default_config.max_level = some (2 ^ 20)
    ∧ ∀ body ∈ finest_bodies, ∀ a ∈ body, a.rhs.reach ≤ default_config.ghost_width := by
  refine ⟨rfl, rfl, rfl, rfl, by decide, ?_⟩
  simp only [finest_bodies, List.mem_cons, List.mem_singleton, List.not_mem_nil, or_false]
  rintro body (rfl | rfl | rfl | rfl | rfl | rfl | rfl | rfl | rfl) a ha <;>
    simp only [east_body, north_body, northeast_body, west_body, northwest_body, south_body,
      southwest_body, southeast_body, internal_body, List.mem_cons, List.mem_singleton,
      List.not_mem_nil, or_false] at ha <;>
    rcases ha with rfl | rfl | rfl | rfl | rfl | rfl | rfl | rfl | rfl <;> decide

/-! ## The prediction of one level from stored coarse values -/

theorem Field.getD_at (f : Field) (lvl : Nat) (k : Interval) (h : Int) (j : Nat)
    (hj : j < k.size) : (f.at lvl k h).getD j 0 = f.value lvl (k.start + (j : Int)) h := by
  simp only [Field.at, List.getD_eq_getElem?_getD, List.getElem?_map,
    Interval.getElem?_cells k j hj, Option.map_some', Option.getD_some]

/-- One level of prediction above stored values: when every cell of level `level_g`
is stored and the cell `(2 kc + dx, 2 hc + dy)` of level `level_g + 1` is not, the
call on an interval that holds this cell returns, with two nested calls allowed, and
gives it the formula applied to the stored values of the parent `(kc, hc)` and of
its eight neighbours. -/
theorem prediction_all_one_level (f : Field) (level_g : Nat) (k : Interval) (kc hc : Int)
    (dx dy : Nat) (hdx : dx < 2) (hdy : dy < 2)
    (hin : k.start ≤ 2 * kc + (dx : Int) ∧ 2 * kc + (dx : Int) < k.stop)
    (hcoarse : ∀ x y : Int,
      f.mesh.set MeshType.cells_and_ghosts (size_t_add level_g 0) x y = true)
    (hnot : f.mesh.set MeshType.cells_and_ghosts (size_t_add level_g 1)
      (2 * kc + (dx : Int)) (2 * hc + (dy : Int)) = false) :
    ∃ out, prediction_all f level_g 2 1 k (2 * hc + (dy : Int)) = some out
      ∧ value_at k out (2 * kc + (dx : Int)) =
        some (f.value (size_t_add level_g 0) kc hc
          + ((-1 : ℚ) ^ dx / 8) • (f.value (size_t_add level_g 0) (kc - 1) hc
              - f.value (size_t_add level_g 0) (kc + 1) hc)
          + ((-1 : ℚ) ^ dy / 8) • (f.value (size_t_add level_g 0) kc (hc - 1)
              - f.value (size_t_add level_g 0) kc (hc + 1))
          - ((-1 : ℚ) ^ (dx + dy) / 64) • (f.value (size_t_add level_g 0) (kc + 1) (hc + 1)
              - f.value (size_t_add level_g 0) (kc - 1) (hc + 1)
              - f.value (size_t_add level_g 0) (kc + 1) (hc - 1)
              + f.value (size_t_add level_g 0) (kc - 1) (hc - 1))) := by
  obtain ⟨hin1, hin2⟩ := hin
  have hsz : k.size = (k.stop - k.start).toNat := rfl
  have hgsz : k.shr1.size = ((k.stop - 1) / 2 + 1 - k.start / 2).toNat := rfl
  have hgst : k.shr1.start = k.start / 2 := rfl
  obtain ⟨i, hi⟩ : ∃ i : Nat, (i : Int) = 2 * kc + (dx : Int) - k.start :=
    ⟨(2 * kc + (dx : Int) - k.start).toNat, by omega⟩
  have hx : k.start + (i : Int) = 2 * kc + (dx : Int) := by omega
  have hik : i < k.size := by omega
  have hh : (2 * hc + (dy : Int)) / 2 = hc := by omega
  have hp1 : size_t_pred 1 = 0 := by decide
  have hst : ∀ (kk : Interval) (y : Int), prediction_all f level_g 1 0 kk y
      = some (f.at (size_t_add level_g 0) kk y) := by
    intro kk y
    apply prediction_all_stored
    rw [Mesh.all_exists]
    intro n _
    exact hcoarse _ _
  have hall : ¬ (f.mesh.exists_ MeshType.cells_and_ghosts (size_t_add level_g 1) k
      (2 * hc + (dy : Int))).all id = true := by
    rw [Mesh.all_exists]
    intro hcon
    have := hcon i hik
    rw [hx, hnot] at this
    exact Bool.noConfusion this
  have hk : k.start < k.stop := by omega
  have hrec := prediction_all_rec f level_g 1 1 k (2 * hc + (dy : Int)) hall
    (f.at (size_t_add level_g 0) k.shr1 hc)
    (f.at (size_t_add level_g 0) (k.shr1.shift (-1)) hc)
    (f.at (size_t_add level_g 0) (k.shr1.shift 1) hc)
    (f.at (size_t_add level_g 0) k.shr1 (hc - 1))
    (f.at (size_t_add level_g 0) k.shr1 (hc + 1))
    (f.at (size_t_add level_g 0) (k.shr1.shift (-1)) (hc - 1))
    (f.at (size_t_add level_g 0) (k.shr1.shift 1) (hc - 1))
    (f.at (size_t_add level_g 0) (k.shr1.shift (-1)) (hc + 1))
    (f.at (size_t_add level_g 0) (k.shr1.shift 1) (hc + 1))
    (by rw [hp1, hh]; exact hst _ _) (by rw [hp1, hh]; exact hst _ _)
    (by rw [hp1, hh]; exact hst _ _) (by rw [hp1, hh]; exact hst _ _)
    (by rw [hp1, hh]; exact hst _ _) (by rw [hp1, hh]; exact hst _ _)
    (by rw [hp1, hh]; exact hst _ _) (by rw [hp1, hh]; exact hst _ _)
    (by rw [hp1, hh]; exact hst _ _)
  have hlen : (f.at (size_t_add level_g 0) k.shr1 hc).length = k.shr1.size := by
    simp only [Field.at, List.length_map, Interval.length_cells]
  rw [assemble_eq f _ k _ _ _ _ _ _ _ _ _ _ hk hlen] at hrec
  refine ⟨_, hrec, ?_⟩
  have hjlt : parent_index k i < k.shr1.size := parent_index_lt k i hik
  have hj : k.shr1.start + ((parent_index k i : Nat) : Int) = kc := by
    unfold parent_index
    rw [hgst]
    omega
  have hjm : (k.shr1.shift (-1)).start + ((parent_index k i : Nat) : Int) = kc - 1 := by
    simp only [Interval.shift]
    omega
  have hjp : (k.shr1.shift 1).start + ((parent_index k i : Nat) : Int) = kc + 1 := by
    simp only [Interval.shift]
    omega
  have g0 : ∀ y : Int, (f.at (size_t_add level_g 0) k.shr1 y).getD (parent_index k i) 0
      = f.value (size_t_add level_g 0) kc y := by
    intro y
    rw [Field.getD_at f _ _ _ _ hjlt, hj]
  have gm : ∀ y : Int,
      (f.at (size_t_add level_g 0) (k.shr1.shift (-1)) y).getD (parent_index k i) 0
      = f.value (size_t_add level_g 0) (kc - 1) y := by
    intro y
    rw [Field.getD_at f _ _ _ _ (by rw [Interval.size_shift]; exact hjlt), hjm]
  have gp : ∀ y : Int,
      (f.at (size_t_add level_g 0) (k.shr1.shift 1) y).getD (parent_index k i) 0
      = f.value (size_t_add level_g 0) (kc + 1) y := by
    intro y
    rw [Field.getD_at f _ _ _ _ (by rw [Interval.size_shift]; exact hjlt), hjp]
  have hnot2 : ¬ f.mesh.set MeshType.cells_and_ghosts (size_t_add level_g 1)
      (k.start + (i : Int)) (2 * hc + (dy : Int)) = true := by
    rw [hx, hnot]
    exact Bool.false_ne_true
  rw [← hx, value_at_index]
  simp only [List.getElem?_map, List.getElem?_range hik, Option.map_some', hnot2, if_false,
    g0, gm, gp]
  rw [hx, formula_cases dx dy hdx hdy]
  simp only [Bool.false_eq_true, if_false]

theorem coarse_mesh_stored (x y : Int) :
    coarse_mesh.set MeshType.cells_and_ghosts (size_t_add 0 0) x y = true := rfl

/-- C26, evaluated on the code: on `bilinear_field` (the cell `(i, j)` of level 0
holds `(i + 1/2) * (j + 1/2)`) the call of `prediction_all` for the cells `0, 1` of
the row 0 of level 1 returns, and gives the child `(0, 0)` of the parent `(0, 0)`
the value `-1/16`, whereas the average of `x * y` over that child is
`(0 + 0/2 + 1/4) * (0 + 0/2 + 1/4) = 1/16`. -/
theorem prediction_all_bilinear_counterexample :
    ∃ out, prediction_all bilinear_field 0 2 1 ⟨0, 2⟩ 0 = some out
      ∧ value_at ⟨0, 2⟩ out 0 = some (-1 / 16, -1 / 16)
      ∧ value_at ⟨0, 2⟩ out 0
        ≠ some ((((0 : Int) : ℚ) + ((0 : Nat) : ℚ) / 2 + 1 / 4)
              * (((0 : Int) : ℚ) + ((0 : Nat) : ℚ) / 2 + 1 / 4),
            (((0 : Int) : ℚ) + ((0 : Nat) : ℚ) / 2 + 1 / 4)
              * (((0 : Int) : ℚ) + ((0 : Nat) : ℚ) / 2 + 1 / 4)) := by
  obtain ⟨out, h1, h2⟩ := prediction_all_one_level bilinear_field 0 ⟨0, 2⟩ 0 0 0 0
    (by decide) (by decide) (by decide) coarse_mesh_stored rfl
  have h3 : value_at ⟨0, 2⟩ out 0 = some (-1 / 16, -1 / 16) := by
    have e : (2 * 0 + ((0 : Nat) : Int)) = 0 := rfl
    rw [e] at h2
    rw [h2]
    simp only [bilinear_field]
    norm_num
  refine ⟨out, h1, h3, ?_⟩
  rw [h3]
  norm_num

theorem sign_cases (d : Nat) (hd : d < 2) :
    (d = 0 ∧ (-1 : ℚ) ^ d = 1 ∧ ((d : Nat) : ℚ) = 0)
    ∨ (d = 1 ∧ (-1 : ℚ) ^ d = -1 ∧ ((d : Nat) : ℚ) = 1) := by
  interval_cases d
  · left
    norm_num
  · right
    norm_num

/-- C26 (amended): when every cell `(i, j)` of level `level_g` is stored and holds
`(i + 1/2) * (j + 1/2)` (times a fixed pair `u` of components), the call of
`prediction_all` one level above returns and gives every child `(2 kc + dx, 2 hc + dy)`
that is not stored the value `(kc + dx/2 + 1/4) * (hc + dy/2 + 1/4) - (-1)^(dx+dy) / 8`,
which is not the average `(kc + dx/2 + 1/4) * (hc + dy/2 + 1/4)` of `x * y` over the
child; and on any nine values the expression of lines 184-194 is the 1D prediction
applied along `x` and then along `y` minus `(-1)^(dx+dy) / 32 * (NE - NW - SE + SW)`:
the cross term has the opposite sign. -/
theorem prediction_all_bilinear (f : Field) (level_g : Nat) (k : Interval) (kc hc : Int)
    (dx dy : Nat) (u : Val) (hdx : dx < 2) (hdy : dy < 2)
    (hin : k.start ≤ 2 * kc + (dx : Int) ∧ 2 * kc + (dx : Int) < k.stop)
    (hcoarse : ∀ x y : Int,
      f.mesh.set MeshType.cells_and_ghosts (size_t_add level_g 0) x y = true)
    (hval : ∀ x y : Int, f.value (size_t_add level_g 0) x y
      = (((x : ℚ) + 1 / 2) * ((y : ℚ) + 1 / 2)) • u)
    (hnot : f.mesh.set MeshType.cells_and_ghosts (size_t_add level_g 1)
      (2 * kc + (dx : Int)) (2 * hc + (dy : Int)) = false) :
    (∃ out, prediction_all f level_g 2 1 k (2 * hc + (dy : Int)) = some out
      ∧ value_at k out (2 * kc + (dx : Int)) =
        some ((((kc : ℚ) + (dx : ℚ) / 2 + 1 / 4) * ((hc : ℚ) + (dy : ℚ) / 2 + 1 / 4)
          - (-1 : ℚ) ^ (dx + dy) / 8) • u))
    ∧ ∀ P W E S N NE NW SE SW : Val,
      (if (2 * kc + (dx : Int)) % 2 = 0 then
          val_even (m1_delta_y (2 * hc + (dy : Int))) P W E S N NE NW SE SW
        else val_odd (m1_delta_y (2 * hc + (dy : Int))) P W E S N NE NW SE SW)
      = prediction_x_then_y ((-1) ^ dx) ((-1) ^ dy) P W E S N NE NW SE SW
        - ((-1 : ℚ) ^ (dx + dy) / 32) • (NE - NW - SE + SW) := by
  constructor
  · obtain ⟨out, h1, h2⟩ :=
      prediction_all_one_level f level_g k kc hc dx dy hdx hdy hin hcoarse hnot
    refine ⟨out, h1, ?_⟩
    rw [h2]
    congr 1
    simp only [hval, pow_add]
    rcases sign_cases dx hdx with ⟨-, e1, e2⟩ | ⟨-, e1, e2⟩ <;>
      rcases sign_cases dy hdy with ⟨-, e3, e4⟩ | ⟨-, e3, e4⟩ <;>
      rw [e1, e2, e3, e4] <;> ext <;>
      simp only [Prod.fst_add, Prod.snd_add, Prod.fst_sub, Prod.snd_sub, Prod.smul_fst,
        Prod.smul_snd, smul_eq_mul] <;> push_cast <;> ring
  · intro P W E S N NE NW SE SW
    rw [formula_cases dx dy hdx hdy]
    simp only [pow_add, prediction_x_then_y, prediction_1d]
    rcases sign_cases dx hdx with ⟨-, e1, -⟩ | ⟨-, e1, -⟩ <;>
      rcases sign_cases dy hdy with ⟨-, e3, -⟩ | ⟨-, e3, -⟩ <;>
      rw [e1, e3] <;> ext <;>
      simp only [Prod.fst_add, Prod.snd_add, Prod.fst_sub, Prod.snd_sub, Prod.smul_fst,
        Prod.smul_snd, smul_eq_mul] <;> ring

/-- Witness of `prediction_all_bilinear`: `bilinear_field`, the cells `0, 1` of the
row 0 of level 1, the child `(1, 0)` of the parent `(0, 0)`. -/
theorem prediction_all_bilinear_witness :
    ((1 : Nat) < 2 ∧ (0 : Nat) < 2)
    ∧ ((⟨0, 2⟩ : Interval).start ≤ 2 * 0 + ((1 : Nat) : Int)
        ∧ 2 * 0 + ((1 : Nat) : Int) < (⟨0, 2⟩ : Interval).stop)
    ∧ (∀ x y : Int,
        bilinear_field.mesh.set MeshType.cells_and_ghosts (size_t_add 0 0) x y = true)
    ∧ (∀ x y : Int, bilinear_field.value (size_t_add 0 0) x y
        = (((x : ℚ) + 1 / 2) * ((y : ℚ) + 1 / 2)) • ((1, 1) : Val))
    ∧ bilinear_field.mesh.set MeshType.cells_and_ghosts (size_t_add 0 1)
        (2 * 0 + ((1 : Nat) : Int)) (2 * 0 + ((0 : Nat) : Int)) = false
    ∧ (∃ out, prediction_all bilinear_field 0 2 1 ⟨0, 2⟩ (2 * 0 + ((0 : Nat) : Int)) = some out
      ∧ value_at ⟨0, 2⟩ out (2 * 0 + ((1 : Nat) : Int)) =
        some (((((0 : Int) : ℚ) + ((1 : Nat) : ℚ) / 2 + 1 / 4)
            * (((0 : Int) : ℚ) + ((0 : Nat) : ℚ) / 2 + 1 / 4)
          - (-1 : ℚ) ^ (1 + 0) / 8) • ((1, 1) : Val)))
    ∧ ∀ P W E S N NE NW SE SW : Val,
      (if (2 * 0 + ((1 : Nat) : Int)) % 2 = 0 then
          val_even (m1_delta_y (2 * 0 + ((0 : Nat) : Int))) P W E S N NE NW SE SW
        else val_odd (m1_delta_y (2 * 0 + ((0 : Nat) : Int))) P W E S N NE NW SE SW)
      = prediction_x_then_y ((-1) ^ 1) ((-1) ^ 0) P W E S N NE NW SE SW
        - ((-1 : ℚ) ^ (1 + 0) / 32) • (NE - NW - SE + SW) :=
  have hval : ∀ x y : Int, bilinear_field.value (size_t_add 0 0) x y
      = (((x : ℚ) + 1 / 2) * ((y : ℚ) + 1 / 2)) • ((1, 1) : Val) := by
    intro x y
    ext <;> simp [bilinear_field]
  ⟨by decide, by decide, coarse_mesh_stored, hval, rfl,
    prediction_all_bilinear bilinear_field 0 ⟨0, 2⟩ 0 0 1 0 (1, 1) (by decide) (by decide)
      (by decide) coarse_mesh_stored hval rfl⟩

/-- C27: when every cell `(i, j)` of level `level_g` is stored and holds
`a + (i + 1/2) b + (j + 1/2) c` (for fixed pairs of components `a`, `b`, `c`), the call
of `prediction_all` one level above returns and gives every child
`(2 kc + dx, 2 hc + dy)` that is not stored the value
`a + (kc + dx/2 + 1/4) b + (hc + dy/2 + 1/4) c`, the affine function at the centre of
the child. -/
theorem prediction_all_affine (f : Field) (level_g : Nat) (k : Interval) (kc hc : Int)
    (dx dy : Nat) (a b c : Val) (hdx : dx < 2) (hdy : dy < 2)
    (hin : k.start ≤ 2 * kc + (dx : Int) ∧ 2 * kc + (dx : Int) < k.stop)
    (hcoarse : ∀ x y : Int,
      f.mesh.set MeshType.cells_and_ghosts (size_t_add level_g 0) x y = true)
    (hval : ∀ x y : Int, f.value (size_t_add level_g 0) x y
      = a + ((x : ℚ) + 1 / 2) • b + ((y : ℚ) + 1 / 2) • c)
    (hnot : f.mesh.set MeshType.cells_and_ghosts (size_t_add level_g 1)
      (2 * kc + (dx : Int)) (2 * hc + (dy : Int)) = false) :
    ∃ out, prediction_all f level_g 2 1 k (2 * hc + (dy : Int)) = some out
      ∧ value_at k out (2 * kc + (dx : Int)) =
        some (a + ((kc : ℚ) + (dx : ℚ) / 2 + 1 / 4) • b
          + ((hc : ℚ) + (dy : ℚ) / 2 + 1 / 4) • c) := by
  obtain ⟨out, h1, h2⟩ :=
    prediction_all_one_level f level_g k kc hc dx dy hdx hdy hin hcoarse hnot
  refine ⟨out, h1, ?_⟩
  rw [h2]
  congr 1
  simp only [hval, pow_add]
  rcases sign_cases dx hdx with ⟨-, e1, e2⟩ | ⟨-, e1, e2⟩ <;>
    rcases sign_cases dy hdy with ⟨-, e3, e4⟩ | ⟨-, e3, e4⟩ <;>
    rw [e1, e2, e3, e4] <;> ext <;>
    simp only [Prod.fst_add, Prod.snd_add, Prod.fst_sub, Prod.snd_sub, Prod.smul_fst,
      Prod.smul_snd, smul_eq_mul] <;> push_cast <;> ring

/-- Witness of `prediction_all_affine`: the field `1 + 2 (i + 1/2) + 3 (j + 1/2)` on
`coarse_mesh`, the cells `0, 1` of the row 1 of level 1, the child `(0, 1)` of the
parent `(0, 0)`. -/
theorem prediction_all_affine_witness :
    ((0 : Nat) < 2 ∧ (1 : Nat) < 2)
    ∧ ((⟨0, 2⟩ : Interval).start ≤ 2 * 0 + ((0 : Nat) : Int)
        ∧ 2 * 0 + ((0 : Nat) : Int) < (⟨0, 2⟩ : Interval).stop)
    ∧ (∀ x y : Int,
        (affine_field 1 2 3).mesh.set MeshType.cells_and_ghosts (size_t_add 0 0) x y = true)
    ∧ (∀ x y : Int, (affine_field 1 2 3).value (size_t_add 0 0) x y
        = ((1, 1) : Val) + ((x : ℚ) + 1 / 2) • ((2, 2) : Val)
          + ((y : ℚ) + 1 / 2) • ((3, 3) : Val))
    ∧ (affine_field 1 2 3).mesh.set MeshType.cells_and_ghosts (size_t_add 0 1)
        (2 * 0 + ((0 : Nat) : Int)) (2 * 0 + ((1 : Nat) : Int)) = false
    ∧ ∃ out, prediction_all (affine_field 1 2 3) 0 2 1 ⟨0, 2⟩ (2 * 0 + ((1 : Nat) : Int))
        = some out
      ∧ value_at ⟨0, 2⟩ out (2 * 0 + ((0 : Nat) : Int)) =
        some (((1, 1) : Val) + ((((0 : Int) : ℚ)) + ((0 : Nat) : ℚ) / 2 + 1 / 4) • ((2, 2) : Val)
          + ((((0 : Int) : ℚ)) + ((1 : Nat) : ℚ) / 2 + 1 / 4) • ((3, 3) : Val)) :=
  have hval : ∀ x y : Int, (affine_field 1 2 3).value (size_t_add 0 0) x y
      = ((1, 1) : Val) + ((x : ℚ) + 1 / 2) • ((2, 2) : Val)
        + ((y : ℚ) + 1 / 2) • ((3, 3) : Val) := by
    intro x y
    ext <;> simp [affine_field] <;> ring
  ⟨by decide, by decide, coarse_mesh_stored, hval, rfl,
    prediction_all_affine (affine_field 1 2 3) 0 ⟨0, 2⟩ 0 0 0 1 (1, 1) (2, 2) (3, 3)
      (by decide) (by decide) (by decide) coarse_mesh_stored hval rfl⟩

/-! ## The numbers of terms added to the fluxes of a boundary overleaf -/

theorem one_flag_cases (w nw sw e ne se n s : Bool)
    (hone : [w, nw, sw, e, ne, se, n, s].count true = 1) :
    (w = true ∧ nw = false ∧ sw = false ∧ e = false
        ∧ ne = false ∧ se = false ∧ n = false ∧ s = false)
    ∨ (w = false ∧ nw = true ∧ sw = false ∧ e = false
        ∧ ne = false ∧ se = false ∧ n = false ∧ s = false)
    ∨ (w = false ∧ nw = false ∧ sw = true ∧ e = false
        ∧ ne = false ∧ se = false ∧ n = false ∧ s = false)
    ∨ (w = false ∧ nw = false ∧ sw = false ∧ e = true
        ∧ ne = false ∧ se = false ∧ n = false ∧ s = false)
    ∨ (w = false ∧ nw = false ∧ sw = false ∧ e = false
        ∧ ne = true ∧ se = false ∧ n = false ∧ s = false)
    ∨ (w = false ∧ nw = false ∧ sw = false ∧ e = false
        ∧ ne = false ∧ se = true ∧ n = false ∧ s = false)
    ∨ (w = false ∧ nw = false ∧ sw = false ∧ e = false
        ∧ ne = false ∧ se = false ∧ n = true ∧ s = false)
    ∨ (w = false ∧ nw = false ∧ sw = false ∧ e = false
        ∧ ne = false ∧ se = false ∧ n = false ∧ s = true) := by
  revert hone
  cases w <;> cases nw <;> cases sw <;> cases e <;> cases ne <;> cases se <;> cases n <;>
    cases s <;> intro h <;> first | exact absurd h (by decide) | simp

theorem slot_cells_lengths (j : Nat) :
    (slot_cells j 0).length = 2 ^ j
    ∧ (slot_cells j 1).length = 2 ^ j
    ∧ (slot_cells j 2).length = 2 ^ j
    ∧ (slot_cells j 3).length = 2 ^ j
    ∧ (slot_cells j 4).length = 2 ^ j
    ∧ (slot_cells j 5).length = 2 ^ j
    ∧ (slot_cells j 6).length = 2 ^ j
    ∧ (slot_cells j 7).length = 2 ^ j
    ∧ (slot_cells j 8).length = 2 ^ j - 1
    ∧ (slot_cells j 9).length = 1
    ∧ (slot_cells j 10).length = 2 ^ j - 1
    ∧ (slot_cells j 11).length = 2 ^ j - 1
    ∧ (slot_cells j 12).length = 1
    ∧ (slot_cells j 13).length = 2 ^ j - 1
    ∧ (slot_cells j 14).length = 2 ^ j - 1
    ∧ (slot_cells j 15).length = 1
    ∧ (slot_cells j 16).length = 2 ^ j - 1
    ∧ (slot_cells j 17).length = 2 ^ j - 1
    ∧ (slot_cells j 18).length = 1
    ∧ (slot_cells j 19).length = 2 ^ j - 1
    ∧ (slot_cells j 20).length = 2 ^ j - 1
    ∧ (slot_cells j 21).length = 1
    ∧ (slot_cells j 22).length = 2 ^ j - 1
    ∧ (slot_cells j 23).length = 2 ^ j - 1
    ∧ (slot_cells j 24).length = 1
    ∧ (slot_cells j 25).length = 2 ^ j - 1
    ∧ (slot_cells j 26).length = 2 ^ j - 1
    ∧ (slot_cells j 27).length = 1
    ∧ (slot_cells j 28).length = 2 ^ j - 1
    ∧ (slot_cells j 29).length = 2 ^ j - 1
    ∧ (slot_cells j 30).length = 1
    ∧ (slot_cells j 31).length = 2 ^ j - 1 := by
  have h : ∀ s, s < 32 → (slot_cells j s).length
      = if s < 8 then 2 ^ j else if (s - 8) % 3 = 1 then 1 else 2 ^ j - 1 :=
    fun s hs => slot_cells_length j s hs
  refine ⟨?_, ?_, ?_, ?_, ?_, ?_, ?_, ?_, ?_, ?_, ?_, ?_, ?_, ?_, ?_, ?_, ?_, ?_, ?_, ?_, ?_, ?_,
    ?_, ?_, ?_, ?_, ?_, ?_, ?_, ?_, ?_, ?_⟩ <;>
    exact h _ (by norm_num)

theorem overleaf_terms_core (j : Nat) (w nw sw e ne se n s : Bool)
    (hone : [w, nw, sw, e, ne, se, n, s].count true = 1) (v : Nat) (hv1 : 1 ≤ v)
    (hv8 : v ≤ 8) :
    ((tables_terms j
        (incoming_tables_of (w || nw || sw) w nw sw (e || ne || se) e ne se n s false) v : Nat)
        : Int)
      + closure_multiplicity j (closures_of w nw sw e ne se n s) v
      = if v ≤ 4 then 2 ^ j else 2 ^ (j + 1) - 1 := by
  have hP : 1 ≤ 2 ^ j := Nat.one_le_two_pow
  have hS := pow_two_cast j
  have hS2 : (2 : Int) ^ (j + 1) = 2 * 2 ^ j := by ring
  rw [hS2, ← hS]
  obtain ⟨l0, l1, l2, l3, l4, l5, l6, l7, l8, l9, l10, l11, l12, l13, l14, l15, l16, l17,
    l18, l19, l20, l21, l22, l23, l24, l25, l26, l27, l28, l29, l30, l31⟩ :=
    slot_cells_lengths j
  rcases one_flag_cases w nw sw e ne se n s hone with h | h | h | h | h | h | h | h <;>
    obtain ⟨rfl, rfl, rfl, rfl, rfl, rfl, rfl, rfl⟩ := h <;>
    interval_cases v <;>
    simp only [tables_terms, table_terms, incoming_tables_of, closures_of, closure_multiplicity,
      touching_west_table, west_table, northwest_table, southwest_table, touching_east_table,
      east_table, northeast_table, southeast_table, north_table, south_table,
      west_closures, northwest_closures, southwest_closures, east_closures, northeast_closures,
      southeast_closures, north_closures, south_closures, ClosureWeight.eval,
      Bool.or_false, Bool.or_true, Bool.or_self, if_true, if_false, Bool.false_eq_true,
      List.append_nil, List.nil_append, List.cons_append, List.map_cons, List.map_nil,
      List.sum_cons, List.sum_nil, List.zip_cons_cons, List.zip_nil_right, List.zip_nil_left,
      List.filter_cons, List.filter_nil, Nat.reduceBEq, l0, l2, l4, l6, l8, l9, l10, l14,
      l15, l16, l20, l21, l22, l26, l27, l28, Nat.reduceLeDiff, ← hS] <;>
    clear l0 l1 l2 l3 l4 l5 l6 l7 l8 l9 l10 l11 l12 l13 l14 l15 l16 l17 l18 l19 l20 l21 l22 l23
      l24 l25 l26 l27 l28 l29 l30 l31 <;>
    generalize 2 ^ j = P at hP ⊢ <;> omega

theorem one_flag_bool (xw xm xe ys ym yn : Bool)
    (hx : ((xw && xm) || (xw && xe) || (xm && xe)) = false)
    (hy : ((ys && ym) || (ys && yn) || (ym && yn)) = false)
    (hreg : ((xw && ym) || (xw && yn) || (xw && ys) || (xe && ym) || (xe && yn)
      || (xe && ys) || (xm && yn) || (xm && ys)) = true) :
    [xw && ym, xw && yn, xw && ys, xe && ym, xe && yn, xe && ys, xm && yn, xm && ys].count true
      = 1
    ∧ (!(((((xe && ym) || (xe && yn)) || (xe && ys))
            || (((xw && ym) || (xw && yn)) || (xw && ys)))
            || ((xm && ys) || (xm && yn)))) = false := by
  revert hx hy hreg
  cases xw <;> cases xm <;> cases xe <;> cases ys <;> cases ym <;> cases yn <;> decide

/-- An overleaf cell of one of the eight boundary sets lies in exactly one of them,
and not in `overleaves_far_boundary`; `touching_west` and `touching_east` are the
unions of lines 774 and 925. -/
theorem overleaf_point_flags (m : Mesh) (N : Int) (level c : Nat) (X0 Y0 : Int)
    (hD : m.initial_mesh = square N) (hlevel : level < m.max_level)
    (hc : c = 2 ^ (m.max_level - (level + 1))) (hN : 2 * (c : Int) ≤ N)
    (hint : N < 2 ^ 31) :
    ∃ r : OverleafRegions, overleaf_regions m level = some r ∧
      ∀ R ∈ r.boundary, R X0 Y0 = true →
        [r.west X0 Y0, r.northwest X0 Y0, r.southwest X0 Y0, r.east X0 Y0,
          r.northeast X0 Y0, r.southeast X0 Y0, r.north X0 Y0, r.south X0 Y0].count true = 1
        ∧ r.touching_west X0 Y0 = (r.west X0 Y0 || r.northwest X0 Y0 || r.southwest X0 Y0)
        ∧ r.touching_east X0 Y0 = (r.east X0 Y0 || r.northeast X0 Y0 || r.southeast X0 Y0)
        ∧ r.far_boundary X0 Y0 = false := by
  obtain ⟨hd, hc31⟩ := pow_shift_lt (m.max_level - (level + 1)) N (by rw [← hc]; exact hN) hint
  have hc0 : 0 < c := by
    rw [hc]
    exact Nat.pos_pow_of_pos _ (by norm_num)
  rw [← hc] at hc31
  have hb : boundary_coeff m (level + 1) = some c := by
    rw [hc]
    exact boundary_coeff_eq m (level + 1) (by omega) hd
  have iE := east_expr_iff c hc0 hc31 N (m.at_finest MeshType.overleaves (level + 1)) hN
  have iNo := north_expr_iff c hc0 hc31 N (m.at_finest MeshType.overleaves (level + 1)) hN
  have iW := west_expr_iff c hc0 hc31 N (m.at_finest MeshType.overleaves (level + 1)) hN
  have iS := south_expr_iff c hc0 hc31 N (m.at_finest MeshType.overleaves (level + 1))
  have iNE := northeast_expr_iff c hc0 hc31 N (m.at_finest MeshType.overleaves (level + 1)) hN
  have iNW := northwest_expr_iff c hc0 hc31 N (m.at_finest MeshType.overleaves (level + 1)) hN
  have iSW := southwest_expr_iff c hc0 hc31 N (m.at_finest MeshType.overleaves (level + 1)) hN
  have iSE := southeast_expr_iff c hc0 hc31 N (m.at_finest MeshType.overleaves (level + 1)) hN
  refine ⟨_, overleaf_regions_eq m N level c hD hb, ?_⟩
  intro R hR h0
  simp only [OverleafRegions.boundary, List.mem_cons, List.mem_singleton, List.not_mem_nil,
    or_false] at hR
  have hx : ((decide (0 ≤ X0 ∧ X0 < (c : Int)) && decide ((c : Int) ≤ X0 ∧ X0 < N - c))
      || (decide (0 ≤ X0 ∧ X0 < (c : Int)) && decide (N - c ≤ X0 ∧ X0 < N))
      || (decide ((c : Int) ≤ X0 ∧ X0 < N - c) && decide (N - c ≤ X0 ∧ X0 < N))) = false := by
    rw [Bool.eq_false_iff]
    simp only [ne_eq, Bool.or_eq_true, Bool.and_eq_true, decide_eq_true_eq]
    omega
  have hy : ((decide (0 ≤ Y0 ∧ Y0 < (c : Int)) && decide ((c : Int) ≤ Y0 ∧ Y0 < N - c))
      || (decide (0 ≤ Y0 ∧ Y0 < (c : Int)) && decide (N - c ≤ Y0 ∧ Y0 < N))
      || (decide ((c : Int) ≤ Y0 ∧ Y0 < N - c) && decide (N - c ≤ Y0 ∧ Y0 < N))) = false := by
    rw [Bool.eq_false_iff]
    simp only [ne_eq, Bool.or_eq_true, Bool.and_eq_true, decide_eq_true_eq]
    omega
  have geo : m.at_finest MeshType.overleaves (level + 1) X0 Y0 = true
      ∧ m.at_finest MeshType.cells level X0 Y0 = true
      ∧ ((decide (0 ≤ X0 ∧ X0 < (c : Int)) && decide ((c : Int) ≤ Y0 ∧ Y0 < N - c))
        || (decide (0 ≤ X0 ∧ X0 < (c : Int)) && decide (N - c ≤ Y0 ∧ Y0 < N))
        || (decide (0 ≤ X0 ∧ X0 < (c : Int)) && decide (0 ≤ Y0 ∧ Y0 < (c : Int)))
        || (decide (N - c ≤ X0 ∧ X0 < N) && decide ((c : Int) ≤ Y0 ∧ Y0 < N - c))
        || (decide (N - c ≤ X0 ∧ X0 < N) && decide (N - c ≤ Y0 ∧ Y0 < N))
        || (decide (N - c ≤ X0 ∧ X0 < N) && decide (0 ≤ Y0 ∧ Y0 < (c : Int)))
        || (decide ((c : Int) ≤ X0 ∧ X0 < N - c) && decide (N - c ≤ Y0 ∧ Y0 < N))
        || (decide ((c : Int) ≤ X0 ∧ X0 < N - c) && decide (0 ≤ Y0 ∧ Y0 < (c : Int)))) = true := by
    rcases hR with rfl | rfl | rfl | rfl | rfl | rfl | rfl | rfl <;>
      simp only [intersection, Bool.and_eq_true, iE, iNo, iW, iS, iNE, iNW, iSW, iSE]
        at h0 <;>
      obtain ⟨⟨hMo, a1, a2, a3, a4⟩, hMc⟩ := h0 <;>
      refine ⟨hMo, hMc, ?_⟩ <;>
      (have ex := decide_eq_true (And.intro a1 a2)
       have ey := decide_eq_true (And.intro a3 a4)
       simp only [ex, ey, Bool.and_self, Bool.or_true, Bool.true_or])
  obtain ⟨hMo, hMc, hreg⟩ := geo
  have fE := region_value _ _ _ _ _ _ (iE X0 Y0)
  have fNo := region_value _ _ _ _ _ _ (iNo X0 Y0)
  have fW := region_value _ _ _ _ _ _ (iW X0 Y0)
  have fS := region_value _ _ _ _ _ _ (iS X0 Y0)
  have fNE := region_value _ _ _ _ _ _ (iNE X0 Y0)
  have fNW := region_value _ _ _ _ _ _ (iNW X0 Y0)
  have fSW := region_value _ _ _ _ _ _ (iSW X0 Y0)
  have fSE := region_value _ _ _ _ _ _ (iSE X0 Y0)
  simp only [union_, intersection, difference, fE, fNo, fW, fS, fNE, fNW, fSW, fSE, hMo, hMc,
    Bool.true_and, Bool.and_true]
  have hflag := one_flag_bool _ _ _ _ _ _ hx hy hreg
  exact ⟨hflag.1, trivial, trivial, hflag.2⟩

/-- C28: below `max_level`, at every level gap `j`, for an overleaf that lies in
exactly one of the eight boundary sets (West, NorthWest, SouthWest, East,
NorthEast, SouthEast, North, South; `touching_west` and `touching_east` are the
unions of lines 774 and 925 and the overleaf is not in `overleaves_far_boundary`) and
every moving direction `v` in `1..8`: the number of predictions summed into
`fluxes(v)` by the tables applied there, plus the sum of the integer factors of the
closure statements that add to `fluxes(v)`, is `2^j` for `v <= 4` and `2^(j+1) - 1`
for `v >= 5`; that sum of factors is `0`, `2^j` or `2^(j+1) - 1`; the number of
predictions subtracted for `v` by the table of the exiting fluxes is the same
`2^j` or `2^(j+1) - 1`. And in a mesh of domain `[0, N) x [0, N)` every overleaf cell
of a boundary set does lie in exactly one of the eight sets, with the tables and
the closures of that set. -/
theorem overleaf_term_counts (j : Nat) (w nw sw e ne se n s : Bool)
    (hone : [w, nw, sw, e, ne, se, n, s].count true = 1) (v : Nat) (hv1 : 1 ≤ v)
    (hv8 : v ≤ 8) :
    (((tables_terms j
        (incoming_tables_of (w || nw || sw) w nw sw (e || ne || se) e ne se n s false) v : Nat)
        : Int)
      + closure_multiplicity j (closures_of w nw sw e ne se n s) v
      = if v ≤ 4 then 2 ^ j else 2 ^ (j + 1) - 1)
    ∧ (closure_multiplicity j (closures_of w nw sw e ne se n s) v = 0
      ∨ closure_multiplicity j (closures_of w nw sw e ne se n s) v = 2 ^ j
      ∨ closure_multiplicity j (closures_of w nw sw e ne se n s) v = 2 ^ (j + 1) - 1)
    ∧ (((tables_terms j [exiting_table] v : Nat) : Int)
      = if v ≤ 4 then 2 ^ j else 2 ^ (j + 1) - 1)
    ∧ ∀ (m : Mesh) (N : Int) (level c : Nat) (X0 Y0 : Int),
      m.initial_mesh = square N → level < m.max_level →
      c = 2 ^ (m.max_level - (level + 1)) → 2 * (c : Int) ≤ N → N < 2 ^ 31 →
      ∃ r : OverleafRegions, overleaf_regions m level = some r ∧
        ∀ R ∈ r.boundary, R X0 Y0 = true →
          [r.west X0 Y0, r.northwest X0 Y0, r.southwest X0 Y0, r.east X0 Y0,
            r.northeast X0 Y0, r.southeast X0 Y0, r.north X0 Y0, r.south X0 Y0].count true = 1
          ∧ incoming_tables r X0 Y0
            = incoming_tables_of (r.west X0 Y0 || r.northwest X0 Y0 || r.southwest X0 Y0)
                (r.west X0 Y0) (r.northwest X0 Y0) (r.southwest X0 Y0)
                (r.east X0 Y0 || r.northeast X0 Y0 || r.southeast X0 Y0)
                (r.east X0 Y0) (r.northeast X0 Y0) (r.southeast X0 Y0)
                (r.north X0 Y0) (r.south X0 Y0) false
          ∧ closures_at r X0 Y0
            = closures_of (r.west X0 Y0) (r.northwest X0 Y0) (r.southwest X0 Y0)
                (r.east X0 Y0) (r.northeast X0 Y0) (r.southeast X0 Y0)
                (r.north X0 Y0) (r.south X0 Y0) := by
  have hS2 : (2 : Int) ^ (j + 1) = 2 * 2 ^ j := by ring
  refine ⟨overleaf_terms_core j w nw sw e ne se n s hone v hv1 hv8, ?_, ?_, ?_⟩
  · rw [hS2]
    rcases one_flag_cases w nw sw e ne se n s hone with h | h | h | h | h | h | h | h <;>
      obtain ⟨rfl, rfl, rfl, rfl, rfl, rfl, rfl, rfl⟩ := h <;>
      interval_cases v <;>
      simp only [closures_of, closure_multiplicity, west_closures, northwest_closures,
        southwest_closures, east_closures, northeast_closures, southeast_closures,
        north_closures, south_closures, ClosureWeight.eval, if_true, if_false,
        Bool.false_eq_true, List.append_nil, List.nil_append, List.map_cons, List.map_nil,
        List.sum_cons, List.sum_nil, List.filter_cons, List.filter_nil, Nat.reduceBEq] <;>
      first
      | exact Or.inl trivial
      | (generalize (2 : Int) ^ j = S
         omega)
  · have hP : 1 ≤ 2 ^ j := Nat.one_le_two_pow
    have hS := pow_two_cast j
    obtain ⟨l0, l1, l2, l3, l4, l5, l6, l7, l8, l9, l10, l11, l12, l13, l14, l15, l16, l17,
      l18, l19, l20, l21, l22, l23, l24, l25, l26, l27, l28, l29, l30, l31⟩ :=
      slot_cells_lengths j
    rw [hS2, ← hS]
    interval_cases v <;>
      simp only [tables_terms, table_terms, exiting_table, List.map_cons, List.map_nil,
        List.sum_cons, List.sum_nil, List.zip_cons_cons, List.zip_nil_right,
        List.filter_cons, List.filter_nil, Nat.reduceBEq, if_true, if_false,
        Bool.false_eq_true, l1, l3, l5, l7, l11, l12, l13, l17, l18, l19, l23, l24, l25, l29,
        l30, l31, Nat.reduceLeDiff] <;>
      clear l0 l1 l2 l3 l4 l5 l6 l7 l8 l9 l10 l11 l12 l13 l14 l15 l16 l17 l18 l19 l20 l21 l22
        l23 l24 l25 l26 l27 l28 l29 l30 l31 <;>
      generalize 2 ^ j = P at hP ⊢ <;> omega
  · intro m N level c X0 Y0 hD hlevel hc hN hint
    obtain ⟨r, hr, hflags⟩ := overleaf_point_flags m N level c X0 Y0 hD hlevel hc hN hint
    refine ⟨r, hr, fun R hR h0 => ?_⟩
    obtain ⟨h1, h2, h3, h4⟩ := hflags R hR h0
    refine ⟨h1, ?_, rfl⟩
    simp only [incoming_tables, h2, h3, h4]

/-- Witness of `overleaf_term_counts`: the level gap `j = 2`, a West overleaf and the
direction 5: the slot 10 brings `2^2 - 1 = 3` predictions and the bounce-back
closure has the factor `2^2 = 4`, in all `2^3 - 1 = 7`. -/
theorem overleaf_term_counts_witness :
    [true, false, false, false, false, false, false, false].count true = 1
    ∧ (1 ≤ 5 ∧ 5 ≤ 8)
    ∧ (((tables_terms 2
        (incoming_tables_of (true || false || false) true false false
          (false || false || false) false false false false false false) 5 : Nat) : Int)
      + closure_multiplicity 2
          (closures_of true false false false false false false false) 5
      = if 5 ≤ 4 then 2 ^ 2 else 2 ^ (2 + 1) - 1)
    ∧ (closure_multiplicity 2 (closures_of true false false false false false false false) 5 = 0
      ∨ closure_multiplicity 2 (closures_of true false false false false false false false) 5
        = 2 ^ 2
      ∨ closure_multiplicity 2 (closures_of true false false false false false false false) 5
        = 2 ^ (2 + 1) - 1)
    ∧ (((tables_terms 2 [exiting_table] 5 : Nat) : Int)
      = if 5 ≤ 4 then 2 ^ 2 else 2 ^ (2 + 1) - 1)
    ∧ ∀ (m : Mesh) (N : Int) (level c : Nat) (X0 Y0 : Int),
      m.initial_mesh = square N → level < m.max_level →
      c = 2 ^ (m.max_level - (level + 1)) → 2 * (c : Int) ≤ N → N < 2 ^ 31 →
      ∃ r : OverleafRegions, overleaf_regions m level = some r ∧
        ∀ R ∈ r.boundary, R X0 Y0 = true →
          [r.west X0 Y0, r.northwest X0 Y0, r.southwest X0 Y0, r.east X0 Y0,
            r.northeast X0 Y0, r.southeast X0 Y0, r.north X0 Y0, r.south X0 Y0].count true = 1
          ∧ incoming_tables r X0 Y0
            = incoming_tables_of (r.west X0 Y0 || r.northwest X0 Y0 || r.southwest X0 Y0)
                (r.west X0 Y0) (r.northwest X0 Y0) (r.southwest X0 Y0)
                (r.east X0 Y0 || r.northeast X0 Y0 || r.southeast X0 Y0)
                (r.east X0 Y0) (r.northeast X0 Y0) (r.southeast X0 Y0)
                (r.north X0 Y0) (r.south X0 Y0) false
          ∧ closures_at r X0 Y0
            = closures_of (r.west X0 Y0) (r.northwest X0 Y0) (r.southwest X0 Y0)
                (r.east X0 Y0) (r.northeast X0 Y0) (r.southeast X0 Y0)
                (r.north X0 Y0) (r.south X0 Y0) :=
  ⟨by decide, ⟨by decide, by decide⟩,
    overleaf_term_counts 2 true false false false false false false false (by decide) 5
      (by decide) (by decide)⟩

/-! ## Conservation and the equilibrium -/

theorem lambda_ne_zero : lambda ≠ 0 := by
  simp [lambda]

theorem distributions_of_congr (lam : ℚ) (M N : Nat → ℚ) (h : ∀ v, v ≤ 8 → M v = N v) :
    distributions_of lam M = distributions_of lam N := by
  unfold distributions_of
  rw [h 0 (by norm_num), h 1 (by norm_num), h 2 (by norm_num), h 3 (by norm_num),
    h 4 (by norm_num), h 5 (by norm_num), h 6 (by norm_num), h 7 (by norm_num),
    h 8 (by norm_num)]

theorem collision_values (lam s_1 s_2 : ℚ) (M : Nat → ℚ) :
    collision lam s_1 s_2 M 0 = M 0 ∧ collision lam s_1 s_2 M 1 = M 1
    ∧ collision lam s_1 s_2 M 2 = M 2
    ∧ collision lam s_1 s_2 M 3
      = (1 - s_1) * M 3 + s_1 * ((M 1 * M 1 + M 2 * M 2) / M 0 + 2 * M 0 * ((lam * lam) / 3))
    ∧ collision lam s_1 s_2 M 4
      = (1 - s_1) * M 4 + s_1 * (M 1 * ((lam * lam) / 3 + (M 2 / M 0) * (M 2 / M 0)))
    ∧ collision lam s_1 s_2 M 5
      = (1 - s_1) * M 5 + s_1 * (M 2 * ((lam * lam) / 3 + (M 1 / M 0) * (M 1 / M 0)))
    ∧ collision lam s_1 s_2 M 6
      = (1 - s_1) * M 6 + s_1 * (M 0 * ((lam * lam) / 3 + (M 1 / M 0) * (M 1 / M 0))
          * ((lam * lam) / 3 + (M 2 / M 0) * (M 2 / M 0)))
    ∧ collision lam s_1 s_2 M 7 = (1 - s_2) * M 7 + s_2 * ((M 1 * M 1 - M 2 * M 2) / M 0)
    ∧ collision lam s_1 s_2 M 8 = (1 - s_2) * M 8 + s_2 * (M 1 * M 2 / M 0) :=
  ⟨rfl, rfl, rfl, rfl, rfl, rfl, rfl, rfl, rfl⟩

theorem relaxation_vec_eq (s_1 s_2 : ℚ) (F : Nat → ℚ) :
    relaxation_vec s_1 s_2 F = relaxation_of lambda s_1 s_2 F := rfl

theorem relaxation_of_moments (s_1 s_2 : ℚ) (F : Nat → ℚ) (v : Nat) (hv : v ≤ 2) :
    moments lambda (relaxation_of lambda s_1 s_2 F) v = moments lambda F v := by
  unfold relaxation_of
  rw [moments_distributions lambda lambda_ne_zero _ v (by omega)]
  interval_cases v <;> rfl

/-- C29: for every transported 9-vector `f0..f8` of nonzero sum `m0` and any rates
`s_1`, `s_2`, the output of the relaxation has the same sum of components, the same
`lambda * (f1 - f3 + f5 - f6 - f7 + f8)` and the same
`lambda * (f2 - f4 + f5 + f6 - f7 - f8)` as the input; and `new_f` at a cell, at
`max_level` and below, is the relaxation of the nine transported values of that
cell (`advected` at `max_level`, `coarse_input` below), so that two transported
fields that agree at the cell give the same `new_f` there. -/
theorem relaxation_conserves (s_1 s_2 f0 f1 f2 f3 f4 f5 f6 f7 f8 : ℚ)
    (hm0 : f0 + f1 + f2 + f3 + f4 + f5 + f6 + f7 + f8 ≠ 0) :
    (relaxation s_1 s_2 f0 f1 f2 f3 f4 f5 f6 f7 f8 0
        + relaxation s_1 s_2 f0 f1 f2 f3 f4 f5 f6 f7 f8 1
        + relaxation s_1 s_2 f0 f1 f2 f3 f4 f5 f6 f7 f8 2
        + relaxation s_1 s_2 f0 f1 f2 f3 f4 f5 f6 f7 f8 3
        + relaxation s_1 s_2 f0 f1 f2 f3 f4 f5 f6 f7 f8 4
        + relaxation s_1 s_2 f0 f1 f2 f3 f4 f5 f6 f7 f8 5
        + relaxation s_1 s_2 f0 f1 f2 f3 f4 f5 f6 f7 f8 6
        + relaxation s_1 s_2 f0 f1 f2 f3 f4 f5 f6 f7 f8 7
        + relaxation s_1 s_2 f0 f1 f2 f3 f4 f5 f6 f7 f8 8
      = f0 + f1 + f2 + f3 + f4 + f5 + f6 + f7 + f8)
    ∧ (lambda * (relaxation s_1 s_2 f0 f1 f2 f3 f4 f5 f6 f7 f8 1
        - relaxation s_1 s_2 f0 f1 f2 f3 f4 f5 f6 f7 f8 3
        + relaxation s_1 s_2 f0 f1 f2 f3 f4 f5 f6 f7 f8 5
        - relaxation s_1 s_2 f0 f1 f2 f3 f4 f5 f6 f7 f8 6
        - relaxation s_1 s_2 f0 f1 f2 f3 f4 f5 f6 f7 f8 7
        + relaxation s_1 s_2 f0 f1 f2 f3 f4 f5 f6 f7 f8 8)
      = lambda * (f1 - f3 + f5 - f6 - f7 + f8))
    ∧ (lambda * (relaxation s_1 s_2 f0 f1 f2 f3 f4 f5 f6 f7 f8 2
        - relaxation s_1 s_2 f0 f1 f2 f3 f4 f5 f6 f7 f8 4
        + relaxation s_1 s_2 f0 f1 f2 f3 f4 f5 f6 f7 f8 5
        + relaxation s_1 s_2 f0 f1 f2 f3 f4 f5 f6 f7 f8 6
        - relaxation s_1 s_2 f0 f1 f2 f3 f4 f5 f6 f7 f8 7
        - relaxation s_1 s_2 f0 f1 f2 f3 f4 f5 f6 f7 f8 8)
      = lambda * (f2 - f4 + f5 + f6 - f7 - f8))
    ∧ (∀ (max_level level : Nat) (k h : Int) (advected advected2 : DistField),
        new_f_finest max_level advected level k h
          = (relaxation_rates max_level).map
              (fun s => relaxation_vec s.1 s.2 (fun v => advected v level k h))
        ∧ ((∀ v, v ≤ 8 → advected v level k h = advected2 v level k h) →
          new_f_finest max_level advected level k h
            = new_f_finest max_level advected2 level k h))
    ∧ (∀ (max_level level : Nat) (k h : Int) (f fluxes f2 fluxes2 : DistField),
        new_f_coarse max_level f fluxes level k h
          = (relaxation_rates max_level).map
              (fun s => relaxation_vec s.1 s.2 (coarse_input f fluxes level k h))
        ∧ ((∀ v, v ≤ 8 → coarse_input f fluxes level k h v = coarse_input f2 fluxes2 level k h v) →
          new_f_coarse max_level f fluxes level k h
            = new_f_coarse max_level f2 fluxes2 level k h)) := by
  have _ := hm0
  have h0 := relaxation_of_moments s_1 s_2 (vec9 f0 f1 f2 f3 f4 f5 f6 f7 f8) 0 (by norm_num)
  have h1 := relaxation_of_moments s_1 s_2 (vec9 f0 f1 f2 f3 f4 f5 f6 f7 f8) 1 (by norm_num)
  have h2 := relaxation_of_moments s_1 s_2 (vec9 f0 f1 f2 f3 f4 f5 f6 f7 f8) 2 (by norm_num)
  rw [← relaxation_eq] at h0 h1 h2
  refine ⟨h0, h1, h2, ?_, ?_⟩
  · intro max_level level k h advected advected2
    refine ⟨rfl, fun hag => ?_⟩
    simp only [new_f_finest, hag 0 (by norm_num), hag 1 (by norm_num), hag 2 (by norm_num),
      hag 3 (by norm_num), hag 4 (by norm_num), hag 5 (by norm_num), hag 6 (by norm_num),
      hag 7 (by norm_num), hag 8 (by norm_num)]
  · intro max_level level k h f fluxes f2 fluxes2
    refine ⟨rfl, fun hag => ?_⟩
    have e : ∀ (g fl : DistField), new_f_coarse max_level g fl level k h
        = (relaxation_rates max_level).map
            (fun s => relaxation_vec s.1 s.2 (coarse_input g fl level k h)) := fun _ _ => rfl
    rw [e f fluxes, e f2 fluxes2]
    simp only [relaxation_vec, hag 0 (by norm_num), hag 1 (by norm_num), hag 2 (by norm_num),
      hag 3 (by norm_num), hag 4 (by norm_num), hag 5 (by norm_num), hag 6 (by norm_num),
      hag 7 (by norm_num), hag 8 (by norm_num)]

/-- Witness of `relaxation_conserves`: the transported values `1, 2, ..., 9` (of sum
`45`) and the rates `s_1 = 3/2`, `s_2 = 1/2`. -/
theorem relaxation_conserves_witness :
    ((1 : ℚ) + 2 + 3 + 4 + 5 + 6 + 7 + 8 + 9 ≠ 0)
    ∧ (relaxation (3 / 2) (1 / 2) 1 2 3 4 5 6 7 8 9 0
        + relaxation (3 / 2) (1 / 2) 1 2 3 4 5 6 7 8 9 1
        + relaxation (3 / 2) (1 / 2) 1 2 3 4 5 6 7 8 9 2
        + relaxation (3 / 2) (1 / 2) 1 2 3 4 5 6 7 8 9 3
        + relaxation (3 / 2) (1 / 2) 1 2 3 4 5 6 7 8 9 4
        + relaxation (3 / 2) (1 / 2) 1 2 3 4 5 6 7 8 9 5
        + relaxation (3 / 2) (1 / 2) 1 2 3 4 5 6 7 8 9 6
        + relaxation (3 / 2) (1 / 2) 1 2 3 4 5 6 7 8 9 7
        + relaxation (3 / 2) (1 / 2) 1 2 3 4 5 6 7 8 9 8
      = 1 + 2 + 3 + 4 + 5 + 6 + 7 + 8 + 9)
    ∧ (lambda * (relaxation (3 / 2) (1 / 2) 1 2 3 4 5 6 7 8 9 1
        - relaxation (3 / 2) (1 / 2) 1 2 3 4 5 6 7 8 9 3
        + relaxation (3 / 2) (1 / 2) 1 2 3 4 5 6 7 8 9 5
        - relaxation (3 / 2) (1 / 2) 1 2 3 4 5 6 7 8 9 6
        - relaxation (3 / 2) (1 / 2) 1 2 3 4 5 6 7 8 9 7
        + relaxation (3 / 2) (1 / 2) 1 2 3 4 5 6 7 8 9 8)
      = lambda * (2 - 4 + 6 - 7 - 8 + 9))
    ∧ (lambda * (relaxation (3 / 2) (1 / 2) 1 2 3 4 5 6 7 8 9 2
        - relaxation (3 / 2) (1 / 2) 1 2 3 4 5 6 7 8 9 4
        + relaxation (3 / 2) (1 / 2) 1 2 3 4 5 6 7 8 9 5
        + relaxation (3 / 2) (1 / 2) 1 2 3 4 5 6 7 8 9 6
        - relaxation (3 / 2) (1 / 2) 1 2 3 4 5 6 7 8 9 7
        - relaxation (3 / 2) (1 / 2) 1 2 3 4 5 6 7 8 9 8)
      = lambda * (3 - 5 + 6 + 7 - 8 - 9))
    ∧ (∀ (max_level level : Nat) (k h : Int) (advected advected2 : DistField),
        new_f_finest max_level advected level k h
          = (relaxation_rates max_level).map
              (fun s => relaxation_vec s.1 s.2 (fun v => advected v level k h))
        ∧ ((∀ v, v ≤ 8 → advected v level k h = advected2 v level k h) →
          new_f_finest max_level advected level k h
            = new_f_finest max_level advected2 level k h))
    ∧ (∀ (max_level level : Nat) (k h : Int) (f fluxes f2 fluxes2 : DistField),
        new_f_coarse max_level f fluxes level k h
          = (relaxation_rates max_level).map
              (fun s => relaxation_vec s.1 s.2 (coarse_input f fluxes level k h))
        ∧ ((∀ v, v ≤ 8 → coarse_input f fluxes level k h v = coarse_input f2 fluxes2 level k h v) →
          new_f_coarse max_level f fluxes level k h
            = new_f_coarse max_level f2 fluxes2 level k h)) :=
  ⟨by norm_num, relaxation_conserves (3 / 2) (1 / 2) 1 2 3 4 5 6 7 8 9 (by norm_num)⟩

/-- The moments `m0..m8` from which `init_f` and the North lambda build the
equilibrium of density `rho` and momentum `(qx, qy)`. -/
theorem equilibrium_eq (rho qx qy : ℚ) :
    equilibrium rho qx qy = distributions_of lambda (vec9 rho qx qy
      ((qx * qx + qy * qy) / rho + 2 * rho * ((lambda * lambda) / 3))
      (qx * ((lambda * lambda) / 3 + (qy / rho) * (qy / rho)))
      (qy * ((lambda * lambda) / 3 + (qx / rho) * (qx / rho)))
      (rho * ((lambda * lambda) / 3 + (qx / rho) * (qx / rho))
        * ((lambda * lambda) / 3 + (qy / rho) * (qy / rho)))
      ((qx * qx - qy * qy) / rho) (qx * qy / rho)) := rfl

theorem collision_congr (lam s_1 s_2 : ℚ) (M N : Nat → ℚ) (h : ∀ v, v ≤ 8 → M v = N v)
    (v : Nat) (hv : v ≤ 8) : collision lam s_1 s_2 M v = collision lam s_1 s_2 N v := by
  obtain ⟨a0, a1, a2, a3, a4, a5, a6, a7, a8⟩ := collision_values lam s_1 s_2 M
  obtain ⟨b0, b1, b2, b3, b4, b5, b6, b7, b8⟩ := collision_values lam s_1 s_2 N
  interval_cases v
  · rw [a0, b0, h 0 (by norm_num)]
  · rw [a1, b1, h 1 (by norm_num)]
  · rw [a2, b2, h 2 (by norm_num)]
  · rw [a3, b3, h 0 (by norm_num), h 1 (by norm_num), h 2 (by norm_num), h 3 (by norm_num)]
  · rw [a4, b4, h 0 (by norm_num), h 1 (by norm_num), h 2 (by norm_num), h 4 (by norm_num)]
  · rw [a5, b5, h 0 (by norm_num), h 1 (by norm_num), h 2 (by norm_num), h 5 (by norm_num)]
  · rw [a6, b6, h 0 (by norm_num), h 1 (by norm_num), h 2 (by norm_num), h 6 (by norm_num)]
  · rw [a7, b7, h 0 (by norm_num), h 1 (by norm_num), h 2 (by norm_num), h 7 (by norm_num)]
  · rw [a8, b8, h 0 (by norm_num), h 1 (by norm_num), h 2 (by norm_num), h 8 (by norm_num)]

theorem collision_equilibrium (lam s_1 s_2 rho qx qy : ℚ) (v : Nat) (hv : v ≤ 8) :
    collision lam s_1 s_2 (vec9 rho qx qy
      ((qx * qx + qy * qy) / rho + 2 * rho * ((lam * lam) / 3))
      (qx * ((lam * lam) / 3 + (qy / rho) * (qy / rho)))
      (qy * ((lam * lam) / 3 + (qx / rho) * (qx / rho)))
      (rho * ((lam * lam) / 3 + (qx / rho) * (qx / rho))
        * ((lam * lam) / 3 + (qy / rho) * (qy / rho)))
      ((qx * qx - qy * qy) / rho) (qx * qy / rho)) v
    = vec9 rho qx qy
      ((qx * qx + qy * qy) / rho + 2 * rho * ((lam * lam) / 3))
      (qx * ((lam * lam) / 3 + (qy / rho) * (qy / rho)))
      (qy * ((lam * lam) / 3 + (qx / rho) * (qx / rho)))
      (rho * ((lam * lam) / 3 + (qx / rho) * (qx / rho))
        * ((lam * lam) / 3 + (qy / rho) * (qy / rho)))
      ((qx * qx - qy * qy) / rho) (qx * qy / rho) v := by
  interval_cases v <;> simp only [collision, vec9] <;> ring

theorem relaxation_equilibrium (s_1 s_2 rho qx qy : ℚ) :
    relaxation_vec s_1 s_2 (equilibrium rho qx qy) = equilibrium rho qx qy := by
  rw [relaxation_vec_eq, equilibrium_eq]
  unfold relaxation_of
  apply distributions_of_congr
  intro v hv
  rw [collision_congr lambda s_1 s_2 _ _
    (fun w hw => moments_distributions lambda lambda_ne_zero _ w hw) v hv]
  exact collision_equilibrium lambda s_1 s_2 rho qx qy v hv

/-- C30: for every `rho != 0`, `qx`, `qy` and all rates `s_1`, `s_2`, the relaxation
applied to the nine values of the equilibrium distribution of `init_f` returns these
nine values; the values written by `init_f` itself (`rho = rho0 = 1`, `q = 0`,
`lambda = 1`) are the weights `4/9`, `1/9` (directions 1 to 4) and `1/36`
(directions 5 to 8), and they are left unchanged by the relaxation. -/
theorem equilibrium_fixed_point (rho qx qy s_1 s_2 : ℚ) (hrho : rho ≠ 0) :
    (∀ v : Nat,
      relaxation s_1 s_2 (equilibrium rho qx qy 0) (equilibrium rho qx qy 1)
        (equilibrium rho qx qy 2) (equilibrium rho qx qy 3) (equilibrium rho qx qy 4)
        (equilibrium rho qx qy 5) (equilibrium rho qx qy 6) (equilibrium rho qx qy 7)
        (equilibrium rho qx qy 8) v = equilibrium rho qx qy v)
    ∧ (init_f 0 = 4 / 9 ∧ init_f 1 = 1 / 9 ∧ init_f 2 = 1 / 9 ∧ init_f 3 = 1 / 9
        ∧ init_f 4 = 1 / 9 ∧ init_f 5 = 1 / 36 ∧ init_f 6 = 1 / 36 ∧ init_f 7 = 1 / 36
        ∧ init_f 8 = 1 / 36)
    ∧ (∀ v : Nat,
      relaxation s_1 s_2 (init_f 0) (init_f 1) (init_f 2) (init_f 3) (init_f 4) (init_f 5)
        (init_f 6) (init_f 7) (init_f 8) v = init_f v) := by
  have _ := hrho
  refine ⟨fun v => ?_, init_f_values, fun v => ?_⟩
  · exact congrFun (relaxation_equilibrium s_1 s_2 rho qx qy) v
  · exact congrFun (relaxation_equilibrium s_1 s_2 rho0 0 0) v

/-- Witness of `equilibrium_fixed_point`: `rho = 1`, `q = (1/20, 0)` (the lid),
`s_1 = 3/2`, `s_2 = 1/2`. -/
theorem equilibrium_fixed_point_witness :
    (1 : ℚ) ≠ 0
    ∧ (∀ v : Nat,
      relaxation (3 / 2) (1 / 2) (equilibrium 1 (1 / 20) 0 0) (equilibrium 1 (1 / 20) 0 1)
        (equilibrium 1 (1 / 20) 0 2) (equilibrium 1 (1 / 20) 0 3) (equilibrium 1 (1 / 20) 0 4)
        (equilibrium 1 (1 / 20) 0 5) (equilibrium 1 (1 / 20) 0 6) (equilibrium 1 (1 / 20) 0 7)
        (equilibrium 1 (1 / 20) 0 8) v = equilibrium 1 (1 / 20) 0 v)
    ∧ (init_f 0 = 4 / 9 ∧ init_f 1 = 1 / 9 ∧ init_f 2 = 1 / 9 ∧ init_f 3 = 1 / 9
        ∧ init_f 4 = 1 / 9 ∧ init_f 5 = 1 / 36 ∧ init_f 6 = 1 / 36 ∧ init_f 7 = 1 / 36
        ∧ init_f 8 = 1 / 36)
    ∧ (∀ v : Nat,
      relaxation (3 / 2) (1 / 2) (init_f 0) (init_f 1) (init_f 2) (init_f 3) (init_f 4)
        (init_f 5) (init_f 6) (init_f 7) (init_f 8) v = init_f v) :=
  ⟨one_ne_zero, equilibrium_fixed_point 1 (1 / 20) 0 (3 / 2) (1 / 2) one_ne_zero⟩

/-! ## The transport in the North region -/

theorem advect_finest_north (m : Mesh) (f : DistField) (N : Int)
    (hD : m.initial_mesh = square N) (hN : 2 ≤ N) (hint : N < 2 ^ 31) (x y : Int)
    (hleaf : m.set MeshType.cells m.max_level x y = true)
    (hx : 1 ≤ x ∧ x < N - 1) (hy : N - 1 ≤ y ∧ y < N) :
    advect_finest m f x y
      = some (run_assigns f m.max_level x y north_body fun _ => 0) := by
  rw [advect_finest_eq m f N hD hN hint x y]
  have c1 : (0 ≤ x ∧ x < 1) = False := eq_false (by omega)
  have c2 : (1 ≤ x ∧ x < N - 1) = True := eq_true (by omega)
  have c3 : (N - 1 ≤ x ∧ x < N) = False := eq_false (by omega)
  have c4 : (0 ≤ y ∧ y < 1) = False := eq_false (by omega)
  have c5 : (1 ≤ y ∧ y < N - 1) = False := eq_false (by omega)
  have c6 : (N - 1 ≤ y ∧ y < N) = True := eq_true (by omega)
  simp only [hleaf, c1, c2, c3, c4, c5, c6, decide_True, decide_False, Bool.and_true,
      Bool.and_false, Bool.or_false, Bool.or_true, Bool.not_true, Bool.not_false, advect_cell,
      if_true, Bool.false_eq_true, if_false, Bool.true_and, Bool.false_or, Bool.or_self]

theorem north_body_value (f : DistField) (level : Nat) (k h : Int) (v : Nat) :
    run_assigns f level k h north_body (fun _ => 0) v
      = if v ≤ 8 then equilibrium rho0 (rho0 * u0) 0 v else 0 := by
  simp only [run_assigns, north_body, List.foldl, Rhs.eval, Function.update_apply]
  split_ifs <;> first | rfl | omega | (subst_vars; rfl)

theorem lid_equilibrium_values :
    equilibrium rho0 (rho0 * u0) 0 0 = 797 / 1800
    ∧ equilibrium rho0 (rho0 * u0) 0 1 = 463 / 3600
    ∧ equilibrium rho0 (rho0 * u0) 0 2 = 797 / 7200
    ∧ equilibrium rho0 (rho0 * u0) 0 3 = 343 / 3600
    ∧ equilibrium rho0 (rho0 * u0) 0 4 = 797 / 7200
    ∧ equilibrium rho0 (rho0 * u0) 0 5 = 463 / 14400
    ∧ equilibrium rho0 (rho0 * u0) 0 6 = 343 / 14400
    ∧ equilibrium rho0 (rho0 * u0) 0 7 = 343 / 14400
    ∧ equilibrium rho0 (rho0 * u0) 0 8 = 463 / 14400 := by
  simp only [equilibrium, distributions, lambda, rho0, u0]
  norm_num

/-- C31: at `max_level`, in a domain `[0, N) x [0, N)`, at every cell of the North
region `leaves_north` the transport returns, for any field `f`, the nine components
of the equilibrium distribution of density `rho0` and momentum `(rho0 * u0, 0)`
(`797/1800`, `463/3600`, `797/7200`, `343/3600`, `797/7200`, `463/14400`, `343/14400`,
`343/14400`, `463/14400` with the constants of the file); the transported values of
two fields `f` and `f2` are the same. -/
theorem north_transport_independent (m : Mesh) (N : Int)
    (hD : m.initial_mesh = square N) (hN : 2 ≤ N) (hint : N < 2 ^ 31) (x y : Int) :
    ∃ r : FinestRegions, finest_regions m = some r ∧
      (r.north x y = true →
        (∀ f f2 : DistField, advect_finest m f x y = advect_finest m f2 x y)
        ∧ (∀ f : DistField, ∃ adv, advect_finest m f x y = some adv
            ∧ (∀ v, v ≤ 8 → adv v = equilibrium rho0 (rho0 * u0) 0 v)
            ∧ adv 0 = 797 / 1800 ∧ adv 1 = 463 / 3600 ∧ adv 2 = 797 / 7200
            ∧ adv 3 = 343 / 3600 ∧ adv 4 = 797 / 7200 ∧ adv 5 = 463 / 14400
            ∧ adv 6 = 343 / 14400 ∧ adv 7 = 343 / 14400 ∧ adv 8 = 463 / 14400)) := by
  refine ⟨_, finest_regions_eq m N hD, fun hn => ?_⟩
  have hNo := north_expr_iff 1 (by norm_num) (by norm_num) N
    (m.at_finest MeshType.cells m.max_level) (by omega) x y
  simp only [Nat.cast_one, Mesh.at_finest_max_level] at hNo
  obtain ⟨hleaf, hx1, hx2, hy1, hy2⟩ := hNo.1 hn
  have hadv : ∀ f : DistField, advect_finest m f x y
      = some (run_assigns f m.max_level x y north_body fun _ => 0) :=
    fun f => advect_finest_north m f N hD hN hint x y hleaf ⟨hx1, hx2⟩ ⟨hy1, hy2⟩
  have hval : ∀ (f : DistField) (v : Nat), v ≤ 8 →
      run_assigns f m.max_level x y north_body (fun _ => 0) v
        = equilibrium rho0 (rho0 * u0) 0 v := by
    intro f v hv
    rw [north_body_value, if_pos hv]
  obtain ⟨e0, e1, e2, e3, e4, e5, e6, e7, e8⟩ := lid_equilibrium_values
  constructor
  · intro f f2
    rw [hadv f, hadv f2]
    exact congrArg some (funext fun v => by rw [north_body_value, north_body_value])
  · intro f
    refine ⟨_, hadv f, hval f, ?_, ?_, ?_, ?_, ?_, ?_, ?_, ?_, ?_⟩
    · rw [hval f 0 (by norm_num), e0]
    · rw [hval f 1 (by norm_num), e1]
    · rw [hval f 2 (by norm_num), e2]
    · rw [hval f 3 (by norm_num), e3]
    · rw [hval f 4 (by norm_num), e4]
    · rw [hval f 5 (by norm_num), e5]
    · rw [hval f 6 (by norm_num), e6]
    · rw [hval f 7 (by norm_num), e7]
    · rw [hval f 8 (by norm_num), e8]

/-- Witness of `north_transport_independent`: the cavity of `8 x 8` leaves; the cell
`(3, 7)` is in the North region. -/
theorem north_transport_independent_witness :
    cavity8_fine.initial_mesh = square 8 ∧ (2 : Int) ≤ 8 ∧ (8 : Int) < 2 ^ 31
    ∧ (∃ r : FinestRegions, finest_regions cavity8_fine = some r ∧ r.north 3 7 = true)
    ∧ ∃ r : FinestRegions, finest_regions cavity8_fine = some r ∧
      (r.north 3 7 = true →
        (∀ f f2 : DistField, advect_finest cavity8_fine f 3 7 = advect_finest cavity8_fine f2 3 7)
        ∧ (∀ f : DistField, ∃ adv, advect_finest cavity8_fine f 3 7 = some adv
            ∧ (∀ v, v ≤ 8 → adv v = equilibrium rho0 (rho0 * u0) 0 v)
            ∧ adv 0 = 797 / 1800 ∧ adv 1 = 463 / 3600 ∧ adv 2 = 797 / 7200
            ∧ adv 3 = 343 / 3600 ∧ adv 4 = 797 / 7200 ∧ adv 5 = 463 / 14400
            ∧ adv 6 = 343 / 14400 ∧ adv 7 = 343 / 14400 ∧ adv 8 = 463 / 14400)) :=
  ⟨rfl, by decide, by norm_num,
    ⟨_, finest_regions_eq cavity8_fine 8 rfl,
      (north_expr_iff 1 (by norm_num) (by norm_num) 8 _ (by norm_num) 3 7).2
        ⟨by decide, by decide, by decide, by decide, by decide⟩⟩,
    north_transport_independent cavity8_fine 8 rfl (by decide) (by norm_num) 3 7⟩

/-! ## The component indices -/

theorem coarse_f9_eq (f fluxes : DistField) (level : Nat) (k h : Int) :
    coarse_f9 f fluxes level k h
      = f 9 level k h + 0.25 * (fluxes 9 (level + 1) (2 * k) (2 * h)
        + fluxes 9 (level + 1) (2 * k + 1) (2 * h)
        + fluxes 9 (level + 1) (2 * k) (2 * h + 1)
        + fluxes 9 (level + 1) (2 * k + 1) (2 * h + 1)) := rfl

set_option maxRecDepth 100000 in
theorem all_accesses_components :
    (⟨FieldName.f, 9⟩ : Access) ∈ all_accesses
    ∧ (⟨FieldName.fluxes, 9⟩ : Access) ∈ all_accesses
    ∧ (∀ a ∈ all_accesses,
        a.component < nvel ∨ a = ⟨FieldName.f, 9⟩ ∨ a = ⟨FieldName.fluxes, 9⟩)
    ∧ (∀ a ∈ finest_accesses, a.component < nvel) := by
  decide

/-- C32, evaluated on the code: the fields have `nvel = 9` components, and the
statements of `one_time_step_overleaves_corrected` access `f` and `fluxes` at the
component 9: the value `f9` of lines 1242-1245 is
`f(9, level, k, h) + 0.25 * (fluxes(9, level + 1, ...) + ...)`. Every other access,
and every access of the branch `level == max_level`, has a component in `0..8`. The
value `f9` does depend on the component 9 (two fields that agree on the components
`0..8` give `18` and `10` at the leaf `(0, 0)` of level 1), and no later statement
uses it: `new_f` below `max_level` is the same for fields that agree on the
components `0..8`. -/
theorem component_nine_read :
    nvel = 9
    ∧ (⟨FieldName.f, 9⟩ : Access) ∈ all_accesses
    ∧ (⟨FieldName.fluxes, 9⟩ : Access) ∈ all_accesses
    ∧ ¬ (∀ a ∈ all_accesses, a.component < nvel)
    ∧ (∀ a ∈ all_accesses,
        a.component < nvel ∨ a = ⟨FieldName.f, 9⟩ ∨ a = ⟨FieldName.fluxes, 9⟩)
    ∧ (∀ a ∈ finest_accesses, a.component < nvel)
    ∧ (∀ (f fluxes : DistField) (level : Nat) (k h : Int),
        coarse_f9 f fluxes level k h
          = f 9 level k h + 0.25 * (fluxes 9 (level + 1) (2 * k) (2 * h)
            + fluxes 9 (level + 1) (2 * k + 1) (2 * h)
            + fluxes 9 (level + 1) (2 * k) (2 * h + 1)
            + fluxes 9 (level + 1) (2 * k + 1) (2 * h + 1)))
    ∧ ((∀ (v l : Nat) (x y : Int), v < nvel → ramp9 v l x y = ramp v l x y)
        ∧ coarse_f9 ramp ramp 1 0 0 = 18 ∧ coarse_f9 ramp9 ramp 1 0 0 = 10)
    ∧ (∀ (max_level level : Nat) (k h : Int) (f fluxes f2 fluxes2 : DistField),
        (∀ (v l : Nat) (x y : Int), v < nvel →
          f v l x y = f2 v l x y ∧ fluxes v l x y = fluxes2 v l x y) →
        new_f_coarse max_level f fluxes level k h
          = new_f_coarse max_level f2 fluxes2 level k h) := by
  obtain ⟨h9, hfl9, hall9, hfin⟩ := all_accesses_components
  refine ⟨rfl, h9, hfl9, fun hall => absurd (hall _ h9) (by decide), hall9, hfin,
    coarse_f9_eq, ⟨?_, ?_, ?_⟩, ?_⟩
  · intro v l x y hv
    have : v ≠ 9 := by
      unfold nvel at hv
      omega
    simp only [ramp9, this, if_false]
  · simp only [coarse_f9, ramp]
    norm_num
  · simp only [coarse_f9, ramp9, ramp]
    norm_num
  · intro max_level level k h f fluxes f2 fluxes2 hag
    have hf : ∀ (v l : Nat) (x y : Int), v < nvel → f v l x y = f2 v l x y :=
      fun v l x y hv => (hag v l x y hv).1
    have hfl : ∀ (v l : Nat) (x y : Int), v < nvel → fluxes v l x y = fluxes2 v l x y :=
      fun v l x y hv => (hag v l x y hv).2
    simp only [new_f_coarse, coarse_f0, coarse_f1, coarse_f2, coarse_f3, coarse_f4,
      coarse_f5, coarse_f6, coarse_f7, coarse_f8,
      hf 0 _ _ _ (by decide), hf 1 _ _ _ (by decide), hf 2 _ _ _ (by decide),
      hf 3 _ _ _ (by decide), hf 4 _ _ _ (by decide), hf 5 _ _ _ (by decide),
      hf 6 _ _ _ (by decide), hf 7 _ _ _ (by decide), hf 8 _ _ _ (by decide),
      hfl 1 _ _ _ (by decide), hfl 2 _ _ _ (by decide), hfl 3 _ _ _ (by decide),
      hfl 4 _ _ _ (by decide), hfl 5 _ _ _ (by decide), hfl 6 _ _ _ (by decide),
      hfl 7 _ _ _ (by decide), hfl 8 _ _ _ (by decide)]

/-! ## The strided assignments of `prediction_all` -/

theorem count_even_cells (s : Int) (n : Nat) :
    (((List.range n).map fun (i : Nat) => s + (i : Int)).filter
        fun x => decide (x % 2 = 0)).length
      = (n + (if s % 2 = 0 then 1 else 0)) / 2 := by
  induction n with
  | zero => split_ifs <;> simp
  | succ n ih =>
    rw [List.range_succ, List.map_append, List.filter_append, List.length_append, ih]
    simp only [List.map_cons, List.map_nil, List.filter_cons, List.filter_nil,
      decide_eq_true_eq]
    split_ifs <;> simp only [List.length_cons, List.length_nil] <;> omega

theorem count_odd_cells (s : Int) (n : Nat) :
    (((List.range n).map fun (i : Nat) => s + (i : Int)).filter
        fun x => decide (x % 2 ≠ 0)).length
      = (n + (if s % 2 = 0 then 0 else 1)) / 2 := by
  induction n with
  | zero => split_ifs <;> simp
  | succ n ih =>
    rw [List.range_succ, List.map_append, List.filter_append, List.length_append, ih]
    simp only [List.map_cons, List.map_nil, List.filter_cons, List.filter_nil,
      decide_eq_true_eq, ne_eq]
    split_ifs <;> simp only [List.length_cons, List.length_nil] <;> omega

/-- Closed form of the two strided assignments of lines 184-194 on tensors `E` (the
even expression) and `O` (the odd expression) of `kg.size()` rows. -/
theorem strided_assignments (k : Interval) (hk : k.start < k.stop) (E O : List Val)
    (hE : E.length = k.shr1.size) (hO : O.length = k.shr1.size) :
    ∃ val1 val2 : List (Option Val),
      assign_step2 (List.replicate k.size none) (start_even k) (E.drop (start_even k))
        = some val1
      ∧ assign_step2 val1 (start_odd k) (O.take (end_odd k k.shr1)) = some val2
      ∧ val2 = (List.range k.size).map fun (i : Nat) =>
          some (if (k.start + (i : Int)) % 2 = 0 then E.getD (parent_index k i) 0
            else O.getD (parent_index k i) 0) := by
  have hsz : k.size = (k.stop - k.start).toNat := rfl
  have hgsz : k.shr1.size = ((k.stop - 1) / 2 + 1 - k.start / 2).toNat := rfl
  have hc1 : (k.size + 1 - start_even k) / 2 = k.shr1.size - start_even k := by
    unfold start_even
    split_ifs <;> omega
  have hc2 : (k.size + 1 - start_odd k) / 2 = min (end_odd k k.shr1) k.shr1.size := by
    unfold start_odd end_odd
    split_ifs <;> omega
  simp only [assign_step2, List.length_replicate, List.length_drop, List.length_take, hE, hO,
    hc1, hc2, if_true, List.length_map, List.length_range, Option.some.injEq,
    exists_and_left, exists_eq_left']
  apply List.map_congr_left
  intro i hi
  rw [List.mem_range] at hi
  rw [getD_map_range _ _ _ hi]
  have hjlt : parent_index k i < k.shr1.size := parent_index_lt k i hi
  by_cases hpar : (k.start + (i : Int)) % 2 = 0
  · have hodd : ¬ (start_odd k ≤ i ∧ (i - start_odd k) % 2 = 0) := by
      unfold start_odd
      split_ifs <;> omega
    have heven : start_even k ≤ i ∧ (i - start_even k) % 2 = 0 := by
      unfold start_even
      split_ifs <;> omega
    have hj : start_even k + (i - start_even k) / 2 = parent_index k i := by
      unfold start_even parent_index
      split_ifs <;> omega
    simp only [hodd, if_false, hpar, if_true, heven, and_self, List.getElem?_drop, hj]
    exact getElem?_eq_some_getD E _ (by omega)
  · have hodd : start_odd k ≤ i ∧ (i - start_odd k) % 2 = 0 := by
      unfold start_odd
      split_ifs <;> omega
    have hj : (i - start_odd k) / 2 = parent_index k i := by
      unfold start_odd parent_index
      split_ifs <;> omega
    have hjend : parent_index k i < end_odd k k.shr1 := by
      unfold end_odd parent_index
      rw [hgsz]
      split_ifs <;> omega
    simp only [hodd, and_self, if_true, hpar, if_false, hj]
    rw [List.getElem?_take_of_lt hjend]
    exact getElem?_eq_some_getD O _ (by omega)

/-- C33: for every non-empty interval `k = [start, end)` and its parent interval
`kg = [start >> 1, ((end - 1) >> 1) + 1)`: the number of even cells of `k` is
`kg.size() - start_even` and the number of odd cells is `end_odd`; both views of the
right-hand sides are inside the `kg.size()` rows; for tensors `E` and `O` of
`kg.size()` rows the two strided assignments have sides of equal lengths, both are
performed, and afterwards the row of every cell `x` of `k` is written: it holds the
row of `E` for an even `x` and the row of `O` for an odd `x`, at the index of the
parent cell `x >> 1` in `kg`, where `x >> 1` is the floor of `x / 2`
(`2 (x >> 1) <= x <= 2 (x >> 1) + 1`, also for negative `x`); `E` is the expression
with `+ (1/8) (W - E)` and `O` the one with `- (1/8) (W - E)`. -/
theorem prediction_all_strides (k : Interval) (hk : k.start < k.stop) :
    (k.cells.filter fun x => decide (x % 2 = 0)).length = k.shr1.size - start_even k
    ∧ (k.cells.filter fun x => decide (x % 2 ≠ 0)).length = end_odd k k.shr1
    ∧ (start_even k ≤ k.shr1.size ∧ end_odd k k.shr1 ≤ k.shr1.size)
    ∧ (∀ E O : List Val, E.length = k.shr1.size → O.length = k.shr1.size →
        (k.size + 1 - start_even k) / 2 = (E.drop (start_even k)).length
        ∧ (k.size + 1 - start_odd k) / 2 = (O.take (end_odd k k.shr1)).length
        ∧ ∃ val1 val2 : List (Option Val),
          assign_step2 (List.replicate k.size none) (start_even k) (E.drop (start_even k))
            = some val1
          ∧ assign_step2 val1 (start_odd k) (O.take (end_odd k k.shr1)) = some val2
          ∧ ∀ i : Nat, i < k.size →
            val2[i]? = some (some (if (k.start + (i : Int)) % 2 = 0
              then E.getD (parent_index k i) 0 else O.getD (parent_index k i) 0)))
    ∧ (∀ i : Nat, i < k.size →
        parent_index k i < k.shr1.size
        ∧ k.shr1.start + ((parent_index k i : Nat) : Int) = (k.start + (i : Int)) / 2
        ∧ 2 * ((k.start + (i : Int)) / 2) ≤ k.start + (i : Int)
        ∧ k.start + (i : Int) ≤ 2 * ((k.start + (i : Int)) / 2) + 1)
    ∧ (∀ (m : ℚ) (P W E S N NE NW SE SW : Val),
        val_even m P W E S N NE NW SE SW
          = P + (1 / 8 : ℚ) • (W - E) + ((1 / 8 : ℚ) * m) • (S - N)
            - ((1 / 64 : ℚ) * m) • (NE - NW - SE + SW)
        ∧ val_odd m P W E S N NE NW SE SW
          = P - (1 / 8 : ℚ) • (W - E) + ((1 / 8 : ℚ) * m) • (S - N)
            + ((1 / 64 : ℚ) * m) • (NE - NW - SE + SW)) := by
  have hsz : k.size = (k.stop - k.start).toNat := rfl
  have hgsz : k.shr1.size = ((k.stop - 1) / 2 + 1 - k.start / 2).toNat := rfl
  have hgst : k.shr1.start = k.start / 2 := rfl
  refine ⟨?_, ?_, ⟨?_, ?_⟩, ?_, ?_, fun m P W E S N NE NW SE SW => ⟨rfl, rfl⟩⟩
  · unfold Interval.cells
    rw [count_even_cells, hsz, hgsz]
    unfold start_even
    split_ifs <;> omega
  · unfold Interval.cells
    rw [count_odd_cells, hsz]
    unfold end_odd
    rw [hgsz]
    split_ifs <;> omega
  · rw [hgsz]
    unfold start_even
    split_ifs <;> omega
  · unfold end_odd
    split_ifs <;> omega
  · intro E O hE hO
    obtain ⟨val1, val2, h1, h2, h3⟩ := strided_assignments k hk E O hE hO
    have l1 : (k.size + 1 - start_even k) / 2 = (E.drop (start_even k)).length := by
      rw [List.length_drop, hE, hsz, hgsz]
      unfold start_even
      split_ifs <;> omega
    have l2 : (k.size + 1 - start_odd k) / 2 = (O.take (end_odd k k.shr1)).length := by
      rw [List.length_take, hO]
      unfold start_odd end_odd
      rw [hsz, hgsz]
      split_ifs <;> omega
    refine ⟨l1, l2, val1, val2, h1, h2, fun i hi => ?_⟩
    rw [h3]
    simp only [List.getElem?_map, List.getElem?_range hi, Option.map_some']
  · intro i hi
    refine ⟨parent_index_lt k i hi, ?_, ?_, ?_⟩
    · unfold parent_index
      rw [hgst]
      omega
    · omega
    · omega

/-- Witness of `prediction_all_strides`: the interval `[-3, 2)`, whose parent
interval is `[-2, 1)`. -/
theorem prediction_all_strides_witness :
    (⟨-3, 2⟩ : Interval).start < (⟨-3, 2⟩ : Interval).stop
    ∧ (⟨-3, 2⟩ : Interval).shr1 = ⟨-2, 1⟩
    ∧ ((⟨-3, 2⟩ : Interval).cells.filter fun x => decide (x % 2 = 0)).length
        = (⟨-3, 2⟩ : Interval).shr1.size - start_even ⟨-3, 2⟩
    ∧ ((⟨-3, 2⟩ : Interval).cells.filter fun x => decide (x % 2 ≠ 0)).length
        = end_odd ⟨-3, 2⟩ (⟨-3, 2⟩ : Interval).shr1
    ∧ (start_even ⟨-3, 2⟩ ≤ (⟨-3, 2⟩ : Interval).shr1.size
        ∧ end_odd ⟨-3, 2⟩ (⟨-3, 2⟩ : Interval).shr1 ≤ (⟨-3, 2⟩ : Interval).shr1.size)
    ∧ (∀ E O : List Val, E.length = (⟨-3, 2⟩ : Interval).shr1.size →
        O.length = (⟨-3, 2⟩ : Interval).shr1.size →
        ((⟨-3, 2⟩ : Interval).size + 1 - start_even ⟨-3, 2⟩) / 2
          = (E.drop (start_even ⟨-3, 2⟩)).length
        ∧ ((⟨-3, 2⟩ : Interval).size + 1 - start_odd ⟨-3, 2⟩) / 2
          = (O.take (end_odd ⟨-3, 2⟩ (⟨-3, 2⟩ : Interval).shr1)).length
        ∧ ∃ val1 val2 : List (Option Val),
          assign_step2 (List.replicate (⟨-3, 2⟩ : Interval).size none) (start_even ⟨-3, 2⟩)
            (E.drop (start_even ⟨-3, 2⟩)) = some val1
          ∧ assign_step2 val1 (start_odd ⟨-3, 2⟩)
            (O.take (end_odd ⟨-3, 2⟩ (⟨-3, 2⟩ : Interval).shr1)) = some val2
          ∧ ∀ i : Nat, i < (⟨-3, 2⟩ : Interval).size →
            val2[i]? = some (some (if ((⟨-3, 2⟩ : Interval).start + (i : Int)) % 2 = 0
              then E.getD (parent_index ⟨-3, 2⟩ i) 0 else O.getD (parent_index ⟨-3, 2⟩ i) 0)))
    ∧ (∀ i : Nat, i < (⟨-3, 2⟩ : Interval).size →
        parent_index ⟨-3, 2⟩ i < (⟨-3, 2⟩ : Interval).shr1.size
        ∧ (⟨-3, 2⟩ : Interval).shr1.start + ((parent_index ⟨-3, 2⟩ i : Nat) : Int)
          = ((⟨-3, 2⟩ : Interval).start + (i : Int)) / 2
        ∧ 2 * (((⟨-3, 2⟩ : Interval).start + (i : Int)) / 2)
          ≤ (⟨-3, 2⟩ : Interval).start + (i : Int)
        ∧ (⟨-3, 2⟩ : Interval).start + (i : Int)
          ≤ 2 * (((⟨-3, 2⟩ : Interval).start + (i : Int)) / 2) + 1)
    ∧ (∀ (m : ℚ) (P W E S N NE NW SE SW : Val),
        val_even m P W E S N NE NW SE SW
          = P + (1 / 8 : ℚ) • (W - E) + ((1 / 8 : ℚ) * m) • (S - N)
            - ((1 / 64 : ℚ) * m) • (NE - NW - SE + SW)
        ∧ val_odd m P W E S N NE NW SE SW
          = P - (1 / 8 : ℚ) • (W - E) + ((1 / 8 : ℚ) * m) • (S - N)
            + ((1 / 64 : ℚ) * m) • (NE - NW - SE + SW)) :=
  ⟨by decide, by decide, prediction_all_strides ⟨-3, 2⟩ (by decide)⟩

end Samurai
